import Mathlib

/-!
# Grid model and worksheet compiler of the spreadsheet sheet (`sheet.go`)

A shallow embedding of the `Sheet` aggregate, of its row, column and cell
accessors, of the merge densification `handleMerged`, of the compile
`makeXLSXSheet` into the worksheet document of `xmlWorksheet.go`, and of
`getExtent` on the merge list of that document.

Conventions of the embedding:

* Go `int` is `Int`, and an argument of type `int` is any value of
  `[-2^63, 2^63)`.  The sums taken on such an argument (`idx + 1` in `Row` and
  `Col`, `endcol + 1` in `SetColWidth`) wrap around in 64 bits: they are
  `wrapInt` of the exact sum.  The other sums are taken on slice lengths, loop
  counters and the bounds held by the sheet, and are kept exact.
* Go `float64` fields are only stored, copied and compared with zero by the
  code under study; they are carried as rationals.
* A slice `[]*T` owned by the sheet is a `List T`; the back pointers
  `Row.Sheet` and `Cell.Row` are dropped, the ownership tree
  `Sheet → Row → Cell` plays their part.  A function that returns a `*Row`,
  `*Col` or `*Cell` returns the value stored at the returned position
  together with the new sheet.
* A pointer to a validation rule (`*xlsxCellDataValidation`, held by a cell,
  by a column and by the validation list of the worksheet) is carried as the
  rule it points to together with the address of that object, the field
  `addr`: two occurrences with the same address are one object.  A store
  through such a pointer (`dd.Sqref = ...`) reaches every pointer to the
  object: it is applied to the occurrences in the list of the worksheet at
  once (`writeSqref`), and the sheet is returned with each of its rules as the
  object stands when the compile ends (`finalRule`).
* A run-time panic (slice index out of range) is `none`; an `error` value
  returned to the caller is `Except.error`.
* The compile has no error result: its two panics are the values of `Panic`,
  and `makeXLSXSheet` returns `Except Panic`.  The tables it updates in place
  (shared strings, style table) and the sheet it rewrites are returned with
  the worksheet.
* The order of a `range` over a Go map and the rendering `%g` of a float come
  from outside the repository and are the fields of `Env`.
-/

namespace Xlsx

/-! ## Go slice primitives -/

/-- Go `xs[i]`: the element at `i`, a panic (`none`) when `i` is out of range. -/
def sliceIndex {α : Type} (xs : List α) (i : Int) : Option α :=
  if 0 ≤ i ∧ i < xs.length then xs[i.toNat]? else none

/-- Go `xs[i] = v`: a panic (`none`) when `i` is out of range. -/
def sliceSet {α : Type} (xs : List α) (i : Int) (v : α) : Option (List α) :=
  if 0 ≤ i ∧ i < xs.length then some (xs.set i.toNat v) else none

/-- Go `xs[i:]`, with the bound taken at the length. -/
def sliceFrom {α : Type} (xs : List α) (i : Int) : Option (List α) :=
  if 0 ≤ i ∧ i ≤ xs.length then some (xs.drop i.toNat) else none

/-- Go `xs[:i]`, with the bound taken at the length (the capacity is not
modelled, so the model panics at least as often as the code). -/
def sliceTo {α : Type} (xs : List α) (i : Int) : Option (List α) :=
  if 0 ≤ i ∧ i ≤ xs.length then some (xs.take i.toNat) else none

/-- Go `copy(dst, src)`: the first `min (len dst) (len src)` elements of `dst`
are overwritten with those of `src` (read before any write, as `memmove`). -/
def sliceCopy {α : Type} (dst src : List α) : List α :=
  src.take dst.length ++ dst.drop src.length

/-! ## Go integers -/

/-- The value a Go `int` (64 bits, two's complement) holds after an addition
whose exact result is `i`: `i` reduced modulo `2^64` into `[-2^63, 2^63)`. -/
def wrapInt (i : Int) : Int := (i + 2 ^ 63) % 2 ^ 64 - 2 ^ 63

/-- The largest Go `int`, `math.MaxInt64`. -/
def MaxInt64 : Int := 2 ^ 63 - 1

/-! ## Data model -/

/-- Go `float64`, stored and copied only. -/
abbrev Float64 := ℚ

/-- The `xlsxCellDataValidation` record of `xmlWorksheet.go`, as seen through a
pointer to it: `addr` is the address of the object, the other fields are its
content. -/
structure xlsxCellDataValidation where
  addr : Nat
  AllowBlank : Bool := false
  ShowInputMessage : Bool := false
  ShowErrorMessage : Bool := false
  ErrorStyle : Option String := none
  ErrorTitle : Option String := none
  Operator : String := ""
  Error : Option String := none
  PromptTitle : Option String := none
  Prompt : Option String := none
  Typ : String := ""
  Sqref : String := ""
  Formula1 : String := ""
  Formula2 : String := ""
  minRow : Int := 0
  maxRow : Int := 0
deriving DecidableEq, Repr, Inhabited

/-- Modelled from the spec: the alignment part of a compiled style (the `Style`
type is declared outside the given sources); the six fields are the ones
`handleStyleForXLSX` reads. -/
structure Alignment where
  Horizontal : String := ""
  Indent : Int := 0
  ShrinkToFit : Bool := false
  TextRotation : Int := 0
  Vertical : String := ""
  WrapText : Bool := false
deriving DecidableEq, Repr, Inhabited

/-- Modelled from the spec: the compiled style, "an opaque,
value-equality-comparable description of font/fill/border/alignment"; its type
is declared outside the given sources.  Font, fill and border are kept as
opaque descriptions. -/
structure Style where
  Font : String := ""
  Fill : String := ""
  Border : String := ""
  Alignment : Alignment := {}
deriving DecidableEq, Repr, Inhabited

/-- Modelled from the spec: `NewStyle()`, the "fresh default style" given to a
synthesized column; the function is declared outside the given sources. -/
def NewStyle : Style := {}

/-- Modelled from the spec: the `Cell` record (§3 of the specification), whose
Go declaration is outside the given sources; the fields are the ones `sheet.go`
reads.  `cellType` is the Go `CellType` integer; `DataValidation` is a pointer
to a rule, nil being `none`. -/
structure Cell where
  Value : String := ""
  formula : String := ""
  style : Option Style := none
  NumFmt : String := ""
  Hidden : Bool := false
  HMerge : Int := 0
  VMerge : Int := 0
  cellType : Int := 0
  DataValidation : Option xlsxCellDataValidation := none
deriving DecidableEq, Repr, Inhabited

/-- Modelled from the spec: the `Row` record, whose Go declaration is outside
the given sources; `&Row{Sheet: s}` is the record with every field zero. -/
structure Row where
  Cells : List Cell := []
  Hidden : Bool := false
  Height : Float64 := 0
  OutlineLevel : Nat := 0
  isCustom : Bool := false
deriving DecidableEq, Repr, Inhabited

/-- Modelled from the spec: the `Col` record, whose Go declaration is outside
the given sources; the fields are the ones `sheet.go` reads and writes.
`DataValidation` is a slice of pointers to rules, the nil slice being `none`. -/
structure Col where
  Min : Int := 0
  Max : Int := 0
  Hidden : Bool := false
  Width : Float64 := 0
  Collapsed : Bool := false
  OutlineLevel : Nat := 0
  numFmt : String := ""
  style : Option Style := none
  DataValidation : Option (List xlsxCellDataValidation) := none
deriving DecidableEq, Repr, Inhabited

/-- The `Pane` record of `sheet.go`. -/
structure Pane where
  XSplit : Float64 := 0
  YSplit : Float64 := 0
  TopLeftCell : String := ""
  ActivePane : String := ""
  State : String := ""
deriving DecidableEq, Repr, Inhabited

/-- The `SheetView` record of `sheet.go`. -/
structure SheetView where
  Pane : Option Pane := none
deriving DecidableEq, Repr, Inhabited

/-- The `SheetFormat` record of `sheet.go`. -/
structure SheetFormat where
  DefaultColWidth : Float64 := 0
  DefaultRowHeight : Float64 := 0
  OutlineLevelCol : Nat := 0
  OutlineLevelRow : Nat := 0
deriving DecidableEq, Repr, Inhabited

/-- The `AutoFilter` record of `sheet.go`. -/
structure AutoFilter where
  TopLeftCell : String := ""
  BottomRightCell : String := ""
deriving DecidableEq, Repr, Inhabited

/-- The `Sheet` record of `sheet.go` (the `File` back pointer is dropped). -/
structure Sheet where
  Name : String := ""
  Rows : List Row := []
  Cols : List Col := []
  MaxRow : Int := 0
  MaxCol : Int := 0
  Hidden : Bool := false
  Selected : Bool := false
  SheetViews : List SheetView := []
  SheetFormat : SheetFormat := {}
  AutoFilter : Option AutoFilter := none
deriving DecidableEq, Repr, Inhabited

/-- The sheet with no rows and no columns (the Go zero value). -/
def emptySheet : Sheet := {}

/-! ## Row operations -/

/-- `Sheet.AddRow`: append a fresh row, raise `MaxRow` to the new length when
that is larger; returns the row and the sheet. -/
def Sheet.AddRow (s : Sheet) : Xlsx.Row × Sheet :=
  let row : Xlsx.Row := {}
  let rows := s.Rows ++ [row]
  let maxRow := if (rows.length : Int) > s.MaxRow then (rows.length : Int) else s.MaxRow
  (row, { s with Rows := rows, MaxRow := maxRow })

/-- `Sheet.AddRowAtIndex`: the guard, then `append(s.Rows, nil)`, the
overlapping `copy` that shifts the tail, the store at `index` and the `MaxRow`
update.  The transient nil slot is held by a placeholder row that the store at
`index` or the copy overwrites. -/
def Sheet.AddRowAtIndex (s : Sheet) (index : Int) : Option (Except String Xlsx.Row × Sheet) :=
  if index < 0 ∨ index > s.Rows.length then
    some (Except.error "AddRowAtIndex: index out of bounds", s)
  else
    let row : Xlsx.Row := {}
    let rows0 := s.Rows ++ [default]
    let shifted : Option (List Xlsx.Row) :=
      if index < rows0.length then
        (sliceFrom rows0 (index + 1)).bind fun dst =>
        (sliceFrom rows0 index).bind fun src =>
        (sliceTo rows0 (index + 1)).map fun pre => pre ++ sliceCopy dst src
      else some rows0
    shifted.bind fun rows1 =>
    (sliceSet rows1 index row).map fun rows2 =>
      let maxRow := if (rows2.length : Int) > s.MaxRow then (rows2.length : Int) else s.MaxRow
      (Except.ok row, { s with Rows := rows2, MaxRow := maxRow })

/-- `Sheet.RemoveRowAtIndex`: the guard, then
`append(s.Rows[:index], s.Rows[index+1:]...)`; `MaxRow` is not written. -/
def Sheet.RemoveRowAtIndex (s : Sheet) (index : Int) : Option (Except String Unit × Sheet) :=
  if index < 0 ∨ index ≥ s.Rows.length then
    some (Except.error "RemoveRowAtIndex: index out of bounds", s)
  else
    (sliceTo s.Rows index).bind fun pre =>
    (sliceFrom s.Rows (index + 1)).map fun post =>
      (Except.ok (), { s with Rows := pre ++ post })

/-- The body of the counted loop of `maybeAddRow`: `n` appends of a fresh row. -/
def maybeAddRowLoop : Nat → List Xlsx.Row → List Xlsx.Row
  | 0, rows => rows
  | n + 1, rows => maybeAddRowLoop n (rows ++ [{}])

/-- `Sheet.maybeAddRow`: when `rowCount > MaxRow`, append `rowCount - MaxRow`
fresh rows and set `MaxRow` to `rowCount`. -/
def Sheet.maybeAddRow (s : Sheet) (rowCount : Int) : Sheet :=
  if rowCount > s.MaxRow then
    let loopCnt := rowCount - s.MaxRow
    { s with Rows := maybeAddRowLoop loopCnt.toNat s.Rows, MaxRow := rowCount }
  else s

/-- `Sheet.Row`: `maybeAddRow(idx + 1)` and then the slice index `s.Rows[idx]`;
the sum wraps around at `MaxInt64`. -/
def Sheet.Row (s : Sheet) (idx : Int) : Option (Xlsx.Row × Sheet) :=
  let s1 := s.maybeAddRow (wrapInt (idx + 1))
  (sliceIndex s1.Rows idx).map fun row => (row, s1)

/-! ## Column operations -/

/-- The body of the counted loop of `maybeAddCol`: `n` appends of a unit
column numbered `currIndex`, `currIndex + 1`, ... -/
def maybeAddColLoop : Nat → Int → List Col → List Col
  | 0, _, cols => cols
  | n + 1, currIndex, cols =>
    maybeAddColLoop n (currIndex + 1)
      (cols ++ [{ style := some NewStyle, Min := currIndex, Max := currIndex,
                  Hidden := false, Collapsed := false }])

/-- `Sheet.maybeAddCol`: when `cellCount > MaxCol`, append `cellCount - MaxCol`
unit columns numbered from `MaxCol + 1` and set `MaxCol` to `cellCount`. -/
def Sheet.maybeAddCol (s : Sheet) (cellCount : Int) : Sheet :=
  if cellCount > s.MaxCol then
    let loopCnt := cellCount - s.MaxCol
    let currIndex := s.MaxCol + 1
    { s with Cols := maybeAddColLoop loopCnt.toNat currIndex s.Cols, MaxCol := cellCount }
  else s

/-- `Sheet.Col`: `maybeAddCol(idx + 1)` and then the slice index `s.Cols[idx]`;
the sum wraps around at `MaxInt64`. -/
def Sheet.Col (s : Sheet) (idx : Int) : Option (Xlsx.Col × Sheet) :=
  let s1 := s.maybeAddCol (wrapInt (idx + 1))
  (sliceIndex s1.Cols idx).map fun col => (col, s1)

/-- The loop `for ; startcol < end; startcol++ { s.Cols[startcol].Width = width }`
of `SetColWidth`, run for at most the given number of iterations; `none` is a
panic of the slice index (or the loop still running when the count is used up). -/
def setColWidthLoop (width : Float64) (stop : Int) : Nat → Int → List Col → Option (List Col)
  | 0, startcol, cols => if startcol < stop then none else some cols
  | n + 1, startcol, cols =>
    if startcol < stop then
      (sliceIndex cols startcol).bind fun c =>
      (sliceSet cols startcol { c with Width := width }).bind fun cols1 =>
      setColWidthLoop width stop n (startcol + 1) cols1
    else some cols

/-- `Sheet.SetColWidth`: the guard `startcol > endcol` returns an error; else
`end := endcol + 1` (a sum that wraps around at `MaxInt64`), `maybeAddCol(end)`
and the loop that stores the width in each column below `end`; the counter of
the loop stays below `end`, so `startcol++` is exact.  The result is the
returned `error` (`none` is nil) and the sheet. -/
def Sheet.SetColWidth (s : Sheet) (startcol endcol : Int) (width : Float64) :
    Option (Option String × Sheet) :=
  if startcol > endcol then
    some (some s!"Could not set width for range {startcol}-{endcol}: startcol must be less than endcol.", s)
  else
    let stop := wrapInt (endcol + 1)
    let s1 := s.maybeAddCol stop
    (setColWidthLoop width stop (stop - startcol).toNat startcol s1.Cols).map fun cols =>
      (none, { s1 with Cols := cols })

/-! ## Cell access -/

/-- Modelled from the spec: `Row.AddCell`, declared outside the given sources.
It appends a default-constructed cell to the row (here the row at position `ri`
of the sheet that owns it) and extends the column bound of the sheet with
`maybeAddCol(len(r.Cells))`, which is how lazy cell access "extends the grid
bounds as needed". -/
def Row.AddCell (sh : Sheet) (ri : Int) : Option (Cell × Sheet) :=
  (sliceIndex sh.Rows ri).bind fun r =>
  let cell : Cell := {}
  let r1 : Xlsx.Row := { r with Cells := r.Cells ++ [cell] }
  (sliceSet sh.Rows ri r1).map fun rows =>
    (cell, Sheet.maybeAddCol { sh with Rows := rows } r1.Cells.length)

/-- The loop `for len(sh.Rows) <= row { sh.AddRow() }` of `Sheet.Cell`, run for
at most the given number of iterations (`none` when the condition still holds
after them). -/
def cellRowLoop (row : Int) : Nat → Sheet → Option Sheet
  | 0, sh => if (sh.Rows.length : Int) ≤ row then none else some sh
  | n + 1, sh =>
    if (sh.Rows.length : Int) ≤ row then cellRowLoop row n sh.AddRow.2 else some sh

/-- The loop `for len(r.Cells) <= col { r.AddCell() }` of `Sheet.Cell`, where
`r` is the row at position `row`, run for at most the given number of
iterations. -/
def cellColLoop (row col : Int) : Nat → Sheet → Option Sheet
  | 0, sh =>
    (sliceIndex sh.Rows row).bind fun r =>
    if (r.Cells.length : Int) ≤ col then none else some sh
  | n + 1, sh =>
    (sliceIndex sh.Rows row).bind fun r =>
    if (r.Cells.length : Int) ≤ col then
      (Row.AddCell sh row).bind fun p => cellColLoop row col n p.2
    else some sh

/-- `Sheet.Cell`: extend the rows until `row` is in range, take `sh.Rows[row]`,
extend its cells until `col` is in range, return `r.Cells[col]`.  Each loop is
given the number of iterations after which its condition is false. -/
def Sheet.Cell (sh : Sheet) (row col : Int) : Option (Xlsx.Cell × Sheet) :=
  (cellRowLoop row (row + 1 - sh.Rows.length).toNat sh).bind fun sh1 =>
  (sliceIndex sh1.Rows row).bind fun r =>
  (cellColLoop row col (col + 1 - r.Cells.length).toNat sh1).bind fun sh2 =>
  (sliceIndex sh2.Rows row).bind fun r2 =>
  (sliceIndex r2.Cells col).map fun cell => (cell, sh2)

/-- The column literal that `maybeAddCol` appends for the column number `i`:
a unit range `[i, i]` with a fresh style, not hidden, not collapsed, every
other field zero. -/
def unitCol (i : Int) : Col :=
  { style := some NewStyle, Min := i, Max := i, Hidden := false, Collapsed := false }

/-! ## Example sheets -/

/-- A sheet with two rows that can be told apart, `MaxRow` in sync. -/
def twoRowSheet : Sheet :=
  { Rows := [{ Hidden := true }, { isCustom := true }], MaxRow := 2 }

/-! ## Panics of the compile -/

/-- The two ways `makeXLSXSheet` can abort: a run-time index out of range, or
the explicit `panic(errors.New(msg))` of the cell-type switch. -/
inductive Panic where
  | indexOutOfRange
  | error (msg : String)
deriving DecidableEq, Repr, Inhabited

/-- A slice operation inside the compile: `none` becomes the index panic. -/
def liftIndex {α : Type} (o : Option α) : Except Panic α :=
  match o with
  | some a => Except.ok a
  | none => Except.error Panic.indexOutOfRange

/-! ## Coordinate codec -/

/-- The letters of a column index, most significant first: base 26 with no
zero digit (`0 ↦ A`, `25 ↦ Z`, `26 ↦ AA`).  The first argument bounds the number
of letters. -/
def colLettersAux : Nat → Nat → List Char
  | 0, _ => []
  | fuel + 1, n =>
    if n < 26 then [Char.ofNat (65 + n)]
    else colLettersAux fuel (n / 26 - 1) ++ [Char.ofNat (65 + n % 26)]

/-- Modelled from the spec: `ColIndexToLetters`, declared outside the given
sources; "column letters follow base-26 with no zero digit (A=0→"A", Z=25→"Z",
26→"AA")".  The spec speaks of non-negative indices only; a negative one is
read as 0 here. -/
def ColIndexToLetters (colRef : Int) : String :=
  String.mk (colLettersAux (colRef.toNat + 1) colRef.toNat)

/-- The decimal digits of a natural number, most significant first.  The first
argument bounds the number of digits. -/
def decDigitsAux : Nat → Nat → List Char
  | 0, _ => []
  | fuel + 1, n =>
    if n < 10 then [Char.ofNat (48 + n)]
    else decDigitsAux fuel (n / 10) ++ [Char.ofNat (48 + n % 10)]

/-- Go `strconv.Itoa`: the decimal rendering of an integer. -/
def Itoa (i : Int) : String :=
  if i < 0 then String.mk ('-' :: decDigitsAux (i.natAbs + 1) i.natAbs)
  else String.mk (decDigitsAux (i.toNat + 1) i.toNat)

/-- Modelled from the spec: `RowIndexToString`, declared outside the given
sources; "row number is `row+1` in decimal". -/
def RowIndexToString (row : Int) : String := Itoa (row + 1)

/-- Modelled from the spec: `GetCellIDStringFromCoords` (the spec's `cellRef`),
declared outside the given sources: the column letters immediately followed by
the 1-based decimal row number. -/
def GetCellIDStringFromCoords (x y : Int) : String :=
  ColIndexToLetters x ++ RowIndexToString y

/-- Modelled from the spec: the constant `cellRangeChar`, declared outside the
given sources, the separator of `originRef:endRef`. -/
def cellRangeChar : String := ":"

/-- An upper-case letter `A` .. `Z`. -/
def isUpperAZ (c : Char) : Bool := decide (65 ≤ c.toNat) && decide (c.toNat ≤ 90)

/-- A decimal digit `0` .. `9`. -/
def isDigit09 (c : Char) : Bool := decide (48 ≤ c.toNat) && decide (c.toNat ≤ 57)

/-- The 1-based value of a run of column letters. -/
def lettersValue (l : List Char) : Nat :=
  l.foldl (fun acc c => acc * 26 + (c.toNat - 64)) 0

/-- The value of a run of decimal digits. -/
def digitsValue (l : List Char) : Nat :=
  l.foldl (fun acc c => acc * 10 + (c.toNat - 48)) 0

/-- Modelled from the spec: `GetCoordsFromCellIDString` (the spec's
`parseCellRef`), declared outside the given sources: the zero-based column and
row of a reference, and an error "if `s` is not `[A-Z]+[0-9]+`". -/
def GetCoordsFromCellIDString (cellIDString : String) : Int × Int × Option String :=
  let letters := cellIDString.data.takeWhile isUpperAZ
  let rest := cellIDString.data.dropWhile isUpperAZ
  if letters ≠ [] ∧ rest ≠ [] ∧ rest.all isDigit09 = true then
    ((lettersValue letters : Int) - 1, (digitsValue rest : Int) - 1, none)
  else (0, 0, some "malformed cell reference")

/-! ## Cell types -/

/-- Modelled from the spec: the `CellType` constants, declared outside the
given sources, in the order of the spec's enum
`{Numeric, String, InlineString, Bool, Error, Date, StringFormula}`, with
Numeric the value of an unset cell type. -/
def CellTypeNumeric : Int := 0

/-- Modelled from the spec: see `CellTypeNumeric`. -/
def CellTypeString : Int := 1

/-- Modelled from the spec: see `CellTypeNumeric`. -/
def CellTypeInline : Int := 2

/-- Modelled from the spec: see `CellTypeNumeric`. -/
def CellTypeBool : Int := 3

/-- Modelled from the spec: see `CellTypeNumeric`. -/
def CellTypeError : Int := 4

/-- Modelled from the spec: see `CellTypeNumeric`. -/
def CellTypeDate : Int := 5

/-- Modelled from the spec: see `CellTypeNumeric`. -/
def CellTypeStringFormula : Int := 6

/-- One of the seven cell types of the enum. -/
def knownCellType (t : Int) : Prop :=
  t = CellTypeInline ∨ t = CellTypeString ∨ t = CellTypeNumeric ∨ t = CellTypeBool ∨
    t = CellTypeError ∨ t = CellTypeDate ∨ t = CellTypeStringFormula

instance (t : Int) : Decidable (knownCellType t) := by
  unfold knownCellType
  exact inferInstance

/-! ## Shared strings -/

/-- Modelled from the spec: the shared-string table `RefTable`, declared
outside the given sources: "`addString(text) -> index`, deduplicating,
append-only, index stable once assigned". -/
structure RefTable where
  indexedStrings : List String := []
deriving DecidableEq, Repr, Inhabited

/-- Modelled from the spec: `RefTable.AddString`: the index of the string when
it is in the table, else the index at which it is appended. -/
def RefTable.AddString (rt : RefTable) (str : String) : Int × RefTable :=
  if rt.indexedStrings.indexOf str < rt.indexedStrings.length then
    ((rt.indexedStrings.indexOf str : Nat), rt)
  else
    ((rt.indexedStrings.length : Nat), { indexedStrings := rt.indexedStrings ++ [str] })

/-! ## Style table -/

/-- Modelled from the spec: the font component of the style table, declared
outside the given sources and opaque to the compiler. -/
structure xlsxFont where
  Name : String := ""
deriving DecidableEq, Repr, Inhabited

/-- Modelled from the spec: the pattern of a fill; `handleStyleForXLSX` writes
its `PatternType`. -/
structure xlsxPatternFill where
  PatternType : String := ""
  FgColor : String := ""
  BgColor : String := ""
deriving DecidableEq, Repr, Inhabited

/-- Modelled from the spec: the fill component of the style table, declared
outside the given sources. -/
structure xlsxFill where
  PatternFill : xlsxPatternFill := {}
deriving DecidableEq, Repr, Inhabited

/-- Modelled from the spec: the border component of the style table, declared
outside the given sources and opaque to the compiler. -/
structure xlsxBorder where
  Style : String := ""
deriving DecidableEq, Repr, Inhabited

/-- Modelled from the spec: the alignment fields of a cell-format record, the
six that `handleStyleForXLSX` writes. -/
structure xlsxAlignment where
  Horizontal : String := ""
  Indent : Int := 0
  ShrinkToFit : Bool := false
  TextRotation : Int := 0
  Vertical : String := ""
  WrapText : Bool := false
deriving DecidableEq, Repr, Inhabited

/-- Modelled from the spec: the composite cell-format record, "carrying the
three component ids plus alignment fields and the supplied number-format id"
and the "apply number format" flag; declared outside the given sources. -/
structure xlsxXf where
  ApplyNumberFormat : Bool := false
  BorderId : Int := 0
  FillId : Int := 0
  FontId : Int := 0
  NumFmtId : Int := 0
  Alignment : xlsxAlignment := {}
deriving DecidableEq, Repr, Inhabited

/-- Modelled from the spec: an entry of the number-format registry. -/
structure xlsxNumFmt where
  NumFmtId : Int := 0
  FormatCode : String := ""
deriving DecidableEq, Repr, Inhabited

/-- Modelled from the spec: the style table, "independent append-only
interning tables" for fonts, fills, borders and cell-formats, and the
number-format registry; declared outside the given sources. -/
structure xlsxStyleSheet where
  Fonts : List xlsxFont := []
  Fills : List xlsxFill := []
  Borders : List xlsxBorder := []
  CellXfs : List xlsxXf := []
  NumFmts : List xlsxNumFmt := []
deriving DecidableEq, Repr, Inhabited

/-- Interning: "the index of an existing structurally-equal entry if one
exists, else appends and returns the new index". -/
def internIndex {α : Type} [DecidableEq α] (xs : List α) (x : α) : Int × List α :=
  if xs.indexOf x < xs.length then ((xs.indexOf x : Nat), xs)
  else ((xs.length : Nat), xs ++ [x])

/-- Modelled from the spec: `addFont`, interning in the font table. -/
def xlsxStyleSheet.addFont (styles : xlsxStyleSheet) (xFont : xlsxFont) : Int × xlsxStyleSheet :=
  ((internIndex styles.Fonts xFont).1, { styles with Fonts := (internIndex styles.Fonts xFont).2 })

/-- Modelled from the spec: `addFill`, interning in the fill table. -/
def xlsxStyleSheet.addFill (styles : xlsxStyleSheet) (xFill : xlsxFill) : Int × xlsxStyleSheet :=
  ((internIndex styles.Fills xFill).1, { styles with Fills := (internIndex styles.Fills xFill).2 })

/-- Modelled from the spec: `addBorder`, interning in the border table. -/
def xlsxStyleSheet.addBorder (styles : xlsxStyleSheet) (xBorder : xlsxBorder) :
    Int × xlsxStyleSheet :=
  ((internIndex styles.Borders xBorder).1,
    { styles with Borders := (internIndex styles.Borders xBorder).2 })

/-- Modelled from the spec: `addCellXf`, interning in the cell-format table. -/
def xlsxStyleSheet.addCellXf (styles : xlsxStyleSheet) (xCellXf : xlsxXf) : Int × xlsxStyleSheet :=
  ((internIndex styles.CellXfs xCellXf).1,
    { styles with CellXfs := (internIndex styles.CellXfs xCellXf).2 })

/-- Modelled from the spec: `newNumFmt`, the number-format registry
"deduplicating by format code string": the entry registered for the code,
else a new entry with the next id.  The empty code (no number format)
registers nothing and has the id 0, the id for which `handleStyleForXLSX`
leaves the "apply number format" flag off. -/
def xlsxStyleSheet.newNumFmt (styles : xlsxStyleSheet) (formatCode : String) :
    xlsxNumFmt × xlsxStyleSheet :=
  if formatCode = "" then ({ NumFmtId := 0, FormatCode := "" }, styles)
  else
    match styles.NumFmts.find? (fun nf => nf.FormatCode == formatCode) with
    | some nf => (nf, styles)
    | none =>
      ({ NumFmtId := (styles.NumFmts.length : Int) + 1, FormatCode := formatCode },
        { styles with NumFmts := styles.NumFmts ++
            [{ NumFmtId := (styles.NumFmts.length : Int) + 1, FormatCode := formatCode }] })

/-- Modelled from the spec: `Style.makeXLSXStyleElements`, the decomposition
of a compiled style "into font/fill/border components" and a blank cell-format
record; declared outside the given sources. -/
def Style.makeXLSXStyleElements (style : Style) : xlsxFont × xlsxFill × xlsxBorder × xlsxXf :=
  ({ Name := style.Font }, { PatternFill := { PatternType := style.Fill } },
    { Style := style.Border }, {})

/-- Modelled from the spec: `makeXLSXCellElement`, "a blank cell-format";
declared outside the given sources. -/
def makeXLSXCellElement : xlsxXf := {}

/-- Modelled from the spec: `Col.GetStyle`, the default style of the column;
declared outside the given sources. -/
def Col.GetStyle (col : Col) : Option Style := col.style

/-- Modelled from the spec: `compareFormatString`, declared outside the given
sources; the compiler asks whether the cell "carries a number-format code
different from its column's". -/
def compareFormatString (fmt1 fmt2 : String) : Bool := fmt1 == fmt2

/-- Modelled from the spec: the constant `ColWidth`, "a neutral default width
constant" declared outside the given sources; 9.5 stands for it, and only
`ColWidth ≠ 0` is used. -/
def ColWidth : Float64 := ⟨19, 2, by decide, by decide⟩

/-- `handleStyleForXLSX` of `sheet.go`: intern the font, the fill, the light
gray fill and the border of the style, fill in the cell-format record (the
three ids, the number-format id, the apply flag when that id is positive, the
six alignment fields) and intern it. -/
def handleStyleForXLSX (style : Style) (NumFmtId : Int) (styles : xlsxStyleSheet) :
    Int × xlsxStyleSheet :=
  let xFont := style.makeXLSXStyleElements.1
  let xFill := style.makeXLSXStyleElements.2.1
  let xBorder := style.makeXLSXStyleElements.2.2.1
  let xCellXf := style.makeXLSXStyleElements.2.2.2
  let fontId := (styles.addFont xFont).1
  let styles1 := (styles.addFont xFont).2
  let fillId := (styles1.addFill xFill).1
  let styles2 := (styles1.addFill xFill).2
  let greyfill : xlsxFill := { PatternFill := { PatternType := "lightGray" } }
  let styles3 := (styles2.addFill greyfill).2
  let borderId := (styles3.addBorder xBorder).1
  let styles4 := (styles3.addBorder xBorder).2
  let xCellXf1 : xlsxXf :=
    { xCellXf with FontId := fontId, FillId := fillId, BorderId := borderId,
                   NumFmtId := NumFmtId }
  let xCellXf2 : xlsxXf :=
    if xCellXf1.NumFmtId > 0 then { xCellXf1 with ApplyNumberFormat := true } else xCellXf1
  let xCellXf3 : xlsxXf :=
    { xCellXf2 with Alignment :=
        { Horizontal := style.Alignment.Horizontal,
          Indent := style.Alignment.Indent,
          ShrinkToFit := style.Alignment.ShrinkToFit,
          TextRotation := style.Alignment.TextRotation,
          Vertical := style.Alignment.Vertical,
          WrapText := style.Alignment.WrapText } }
  styles4.addCellXf xCellXf3

/-- `handleNumFmtIdForXLSX` of `sheet.go`: a blank cell-format record with only
the number-format id set (and the apply flag when the id is positive),
interned. -/
def handleNumFmtIdForXLSX (NumFmtId : Int) (styles : xlsxStyleSheet) : Int × xlsxStyleSheet :=
  let xCellXf := makeXLSXCellElement
  let xCellXf1 : xlsxXf := { xCellXf with NumFmtId := NumFmtId }
  let xCellXf2 : xlsxXf :=
    if xCellXf1.NumFmtId > 0 then { xCellXf1 with ApplyNumberFormat := true } else xCellXf1
  styles.addCellXf xCellXf2

/-! ## The worksheet document (`xmlWorksheet.go`) -/

/-- The `xlsxOddHeader` record. -/
structure xlsxOddHeader where
  Content : String := ""
deriving DecidableEq, Repr, Inhabited

/-- The `xlsxOddFooter` record. -/
structure xlsxOddFooter where
  Content : String := ""
deriving DecidableEq, Repr, Inhabited

/-- The `xlsxHeaderFooter` record. -/
structure xlsxHeaderFooter where
  DifferentFirst : Bool := false
  DifferentOddEven : Bool := false
  OddHeader : List xlsxOddHeader := []
  OddFooter : List xlsxOddFooter := []
deriving DecidableEq, Repr, Inhabited

/-- The `xlsxPageSetUp` record. -/
structure xlsxPageSetUp where
  PaperSize : String := ""
  Scale : Int := 0
  FirstPageNumber : Int := 0
  FitToWidth : Int := 0
  FitToHeight : Int := 0
  PageOrder : String := ""
  Orientation : String := ""
  UsePrinterDefaults : Bool := false
  BlackAndWhite : Bool := false
  Draft : Bool := false
  CellComments : String := ""
  UseFirstPageNumber : Bool := false
  HorizontalDPI : Float64 := 0
  VerticalDPI : Float64 := 0
  Copies : Int := 0
deriving DecidableEq, Repr, Inhabited

/-- The `xlsxPrintOptions` record. -/
structure xlsxPrintOptions where
  Headings : Bool := false
  GridLines : Bool := false
  GridLinesSet : Bool := false
  HorizontalCentered : Bool := false
  VerticalCentered : Bool := false
deriving DecidableEq, Repr, Inhabited

/-- The `xlsxPageMargins` record. -/
structure xlsxPageMargins where
  Left : Float64 := 0
  Right : Float64 := 0
  Top : Float64 := 0
  Bottom : Float64 := 0
  Header : Float64 := 0
  Footer : Float64 := 0
deriving DecidableEq, Repr, Inhabited

/-- The `xlsxSheetFormatPr` record. -/
structure xlsxSheetFormatPr where
  DefaultColWidth : Float64 := 0
  DefaultRowHeight : Float64 := 0
  OutlineLevelCol : Nat := 0
  OutlineLevelRow : Nat := 0
deriving DecidableEq, Repr, Inhabited

/-- The `xlsxSelection` record. -/
structure xlsxSelection where
  Pane : String := ""
  ActiveCell : String := ""
  ActiveCellId : Int := 0
  SQRef : String := ""
deriving DecidableEq, Repr, Inhabited

/-- The `xlsxPane` record. -/
structure xlsxPane where
  XSplit : Float64 := 0
  YSplit : Float64 := 0
  TopLeftCell : String := ""
  ActivePane : String := ""
  State : String := ""
deriving DecidableEq, Repr, Inhabited

/-- The `xlsxSheetView` record. -/
structure xlsxSheetView where
  WindowProtection : Bool := false
  ShowFormulas : Bool := false
  ShowGridLines : Bool := false
  ShowRowColHeaders : Bool := false
  ShowZeros : Bool := false
  RightToLeft : Bool := false
  TabSelected : Bool := false
  ShowOutlineSymbols : Bool := false
  DefaultGridColor : Bool := false
  View : String := ""
  TopLeftCell : String := ""
  ColorId : Int := 0
  ZoomScale : Float64 := 0
  ZoomScaleNormal : Float64 := 0
  ZoomScalePageLayoutView : Float64 := 0
  WorkbookViewId : Int := 0
  Pane : Option xlsxPane := none
  Selection : List xlsxSelection := []
deriving DecidableEq, Repr, Inhabited

/-- The `xlsxSheetViews` record. -/
structure xlsxSheetViews where
  SheetView : List xlsxSheetView := []
deriving DecidableEq, Repr, Inhabited

/-- The `xlsxPageSetUpPr` record. -/
structure xlsxPageSetUpPr where
  FitToPage : Bool := false
deriving DecidableEq, Repr, Inhabited

/-- The `xlsxSheetPr` record. -/
structure xlsxSheetPr where
  FilterMode : Bool := false
  PageSetUpPr : List xlsxPageSetUpPr := []
deriving DecidableEq, Repr, Inhabited

/-- The `xlsxCol` record. -/
structure xlsxCol where
  Collapsed : Bool := false
  Hidden : Bool := false
  Max : Int := 0
  Min : Int := 0
  Style : Int := 0
  Width : Float64 := 0
  CustomWidth : Bool := false
  OutlineLevel : Nat := 0
deriving DecidableEq, Repr, Inhabited

/-- The `xlsxCols` record. -/
structure xlsxCols where
  Col : List xlsxCol := []
deriving DecidableEq, Repr, Inhabited

/-- The `xlsxDimension` record. -/
structure xlsxDimension where
  Ref : String := ""
deriving DecidableEq, Repr, Inhabited

/-- The `xlsxF` record, the formula of a cell. -/
structure xlsxF where
  Content : String := ""
  T : String := ""
  Ref : String := ""
  Si : Int := 0
deriving DecidableEq, Repr, Inhabited

/-- The `xlsxC` record, one emitted cell; `Is` (never written by the compiler)
is kept as an optional text. -/
structure xlsxC where
  R : String := ""
  S : Int := 0
  T : String := ""
  F : Option xlsxF := none
  V : String := ""
  Is : Option String := none
deriving DecidableEq, Repr, Inhabited

/-- The `xlsxRow` record, one emitted row. -/
structure xlsxRow where
  R : Int := 0
  Spans : String := ""
  Hidden : Bool := false
  C : List xlsxC := []
  Ht : String := ""
  CustomHeight : Bool := false
  OutlineLevel : Nat := 0
deriving DecidableEq, Repr, Inhabited

/-- The `xlsxSheetData` record. -/
structure xlsxSheetData where
  Row : List xlsxRow := []
deriving DecidableEq, Repr, Inhabited

/-- The `xlsxCellDataValidations` record; `DataValidattion` is a slice of
pointers to rules. -/
structure xlsxCellDataValidations where
  DataValidattion : List xlsxCellDataValidation := []
  Count : Int := 0
deriving DecidableEq, Repr, Inhabited

/-- The `xlsxAutoFilter` record. -/
structure xlsxAutoFilter where
  Ref : String := ""
deriving DecidableEq, Repr, Inhabited

/-- The `xlsxMergeCell` record. -/
structure xlsxMergeCell where
  Ref : String := ""
deriving DecidableEq, Repr, Inhabited

/-- The `xlsxMergeCells` record. -/
structure xlsxMergeCells where
  Count : Int := 0
  Cells : List xlsxMergeCell := []
deriving DecidableEq, Repr, Inhabited

/-- The `xlsxWorksheet` record, the compiled worksheet document. -/
structure xlsxWorksheet where
  SheetPr : xlsxSheetPr := {}
  Dimension : xlsxDimension := {}
  SheetViews : xlsxSheetViews := {}
  SheetFormatPr : xlsxSheetFormatPr := {}
  Cols : Option xlsxCols := none
  SheetData : xlsxSheetData := {}
  DataValidations : Option xlsxCellDataValidations := none
  AutoFilter : Option xlsxAutoFilter := none
  MergeCells : Option xlsxMergeCells := none
  PrintOptions : xlsxPrintOptions := {}
  PageMargins : xlsxPageMargins := {}
  PageSetUp : xlsxPageSetUp := {}
  HeaderFooter : xlsxHeaderFooter := {}
deriving DecidableEq, Repr, Inhabited

/-- `newXlsxWorksheet`: the worksheet with its default values, among them one
sheet view with one selection. -/
def newXlsxWorksheet : xlsxWorksheet :=
  { SheetPr := { FilterMode := false, PageSetUpPr := [{ FitToPage := false }] },
    SheetViews := { SheetView := [
      { ColorId := 64,
        DefaultGridColor := true,
        RightToLeft := false,
        Selection := [{ Pane := "topLeft", ActiveCell := "A1", ActiveCellId := 0, SQRef := "A1" }],
        ShowFormulas := false,
        ShowGridLines := true,
        ShowOutlineSymbols := true,
        ShowRowColHeaders := true,
        ShowZeros := true,
        TabSelected := false,
        TopLeftCell := "A1",
        View := "normal",
        WindowProtection := false,
        WorkbookViewId := 0,
        ZoomScale := 100,
        ZoomScaleNormal := 100,
        ZoomScalePageLayoutView := 100 }] },
    SheetFormatPr := { DefaultRowHeight := 12.85 },
    PrintOptions := { Headings := false, GridLines := false, GridLinesSet := true,
                      HorizontalCentered := false, VerticalCentered := false },
    PageMargins := { Left := 0.7875, Right := 0.7875, Top := 1.05277777777778,
                     Bottom := 1.05277777777778, Header := 0.7875, Footer := 0.7875 },
    PageSetUp := { PaperSize := "9", Scale := 100, FirstPageNumber := 1, FitToWidth := 1,
                   FitToHeight := 1, PageOrder := "downThenOver", Orientation := "portrait",
                   UsePrinterDefaults := false, BlackAndWhite := false, Draft := false,
                   CellComments := "none", UseFirstPageNumber := true, HorizontalDPI := 300,
                   VerticalDPI := 300, Copies := 1 },
    HeaderFooter := {
      OddHeader := [{ Content := "&C&\"Times New Roman,Regular\"&12&A" }],
      OddFooter := [{ Content := "&C&\"Times New Roman,Regular\"&12Page &P" }] } }

/-! ## Merged cells (`handleMerged`) -/

/-- What the compile takes from outside the repository: the rendering
`fmt.Sprintf("%g", ·)` of a row height, and the order in which a `range` over
the `merged` map visits its entries (any permutation of them). -/
structure Env where
  fmtG : Float64 → String
  mapOrder : List (String × Cell) → List (String × Cell)

/-- Go `merged[k] = v` on the map `map[string]*Cell`, kept as a list of entries
with distinct keys: the value under an existing key is replaced, a new key is
added. -/
def mapInsert (m : List (String × Cell)) (k : String) (v : Cell) : List (String × Cell) :=
  if m.any (fun p => p.1 == k) then m.map (fun p => if p.1 == k then (k, v) else p)
  else m ++ [(k, v)]

/-- The inner collecting loop of `handleMerged` over the cells of row `r`,
from column `c` on. -/
def collectMergedCells (r : Int) : Int → List Cell → List (String × Cell) → List (String × Cell)
  | _, [], merged => merged
  | c, cell :: rest, merged =>
    collectMergedCells r (c + 1) rest
      (if cell.HMerge > 0 ∨ cell.VMerge > 0 then
        mapInsert merged (GetCellIDStringFromCoords c r) cell
      else merged)

/-- The outer collecting loop of `handleMerged` over the rows, from row `r` on. -/
def collectMergedRows : Int → List Xlsx.Row → List (String × Cell) → List (String × Cell)
  | _, [], merged => merged
  | r, row :: rest, merged =>
    collectMergedRows (r + 1) rest (collectMergedCells r 0 row.Cells merged)

/-- The loop `for colnum := 0; colnum <= cell.HMerge; colnum++` of
`handleMerged`, calling `s.Cell(row, maincol+colnum)`; run for at most the
given number of iterations. -/
def mergeColLoop (row maincol hmerge : Int) : Nat → Int → Sheet → Option Sheet
  | 0, colnum, s => if colnum ≤ hmerge then none else some s
  | n + 1, colnum, s =>
    if colnum ≤ hmerge then
      (s.Cell row (maincol + colnum)).bind fun p =>
        mergeColLoop row maincol hmerge n (colnum + 1) p.2
    else some s

/-- The loop `for rownum := 0; rownum <= cell.VMerge; rownum++` of
`handleMerged`; run for at most the given number of iterations. -/
def mergeRowLoop (mainrow maincol : Int) (cell : Cell) : Nat → Int → Sheet → Option Sheet
  | 0, rownum, s => if rownum ≤ cell.VMerge then none else some s
  | n + 1, rownum, s =>
    if rownum ≤ cell.VMerge then
      (mergeColLoop (mainrow + rownum) maincol cell.HMerge (cell.HMerge + 1).toNat 0 s).bind
        fun s1 => mergeRowLoop mainrow maincol cell n (rownum + 1) s1
    else some s

/-- The second loop of `handleMerged`, over the entries of the map in the
order given: the key is parsed back into coordinates (the error is dropped, as
in the source) and the rectangle of the entry is materialized. -/
def mergeEntries : List (String × Cell) → Sheet → Option Sheet
  | [], s => some s
  | entry :: rest, s =>
    let coords := GetCoordsFromCellIDString entry.1
    (mergeRowLoop coords.2.1 coords.1 entry.2 (entry.2.VMerge + 1).toNat 0 s).bind
      (mergeEntries rest)

/-- `Sheet.handleMerged`: collect the merge origins into the map, then
materialize the rectangle of each.  `none` is a panic. -/
def Sheet.handleMerged (env : Env) (s : Sheet) : Option Sheet :=
  mergeEntries (env.mapOrder (collectMergedRows 0 s.Rows [])) s

/-! ## The worksheet compiler (`makeXLSXSheet`) -/

/-- The local variables of `makeXLSXSheet` and the tables it is handed. -/
structure CompileState where
  worksheet : xlsxWorksheet := {}
  styles : xlsxStyleSheet := {}
  refTable : RefTable := {}
  maxRow : Int := 0
  maxCell : Int := 0
  maxLevelCol : Nat := 0
  maxLevelRow : Nat := 0
  colsXfIdList : List Int := []
  xSheet : xlsxSheetData := {}
deriving DecidableEq, Repr, Inhabited

/-- The loop over `s.SheetViews`: a view with a pane stores a copy of the pane
in `worksheet.SheetViews.SheetView[index]`. -/
def sheetViewsLoop : Int → List SheetView → xlsxWorksheet → Option xlsxWorksheet
  | _, [], ws => some ws
  | index, sheetView :: rest, ws =>
    match sheetView.Pane with
    | some pane =>
      (sliceIndex ws.SheetViews.SheetView index).bind fun v =>
      (sliceSet ws.SheetViews.SheetView index
        { v with Pane := some { XSplit := pane.XSplit, YSplit := pane.YSplit,
                                TopLeftCell := pane.TopLeftCell,
                                ActivePane := pane.ActivePane, State := pane.State } }).bind
        fun vs => sheetViewsLoop (index + 1) rest { ws with SheetViews := { SheetView := vs } }
    | none => sheetViewsLoop (index + 1) rest ws

/-- The range string written into a validation rule of a column. -/
def colSqref (colName : String) (dd : xlsxCellDataValidation) : xlsxCellDataValidation :=
  if dd.minRow = dd.maxRow then
    { dd with Sqref := colName ++ RowIndexToString dd.minRow }
  else
    { dd with Sqref := colName ++ RowIndexToString dd.minRow ++ cellRangeChar ++ colName ++
        RowIndexToString dd.maxRow }

/-- The store `dd.Sqref = ref` through a pointer to the rule at the address
`a`, as the pointers of the list `l` see it: every entry that points to this
object shows the new range. -/
def writeSqref (a : Nat) (ref : String) (l : List xlsxCellDataValidation) :
    List xlsxCellDataValidation :=
  l.map fun e => if e.addr = a then { e with Sqref := ref } else e

/-- The loop over the validation rules of a column: the range is stored in
each rule through its pointer, and the pointer is appended to the list of the
worksheet; returns the rules as rewritten and the list. -/
def colValidationsLoop (colName : String) :
    List xlsxCellDataValidation → List xlsxCellDataValidation →
      List xlsxCellDataValidation × List xlsxCellDataValidation
  | [], acc => ([], acc)
  | dd :: rest, acc =>
    (colSqref colName dd ::
      (colValidationsLoop colName rest
        (writeSqref dd.addr (colSqref colName dd).Sqref acc ++ [colSqref colName dd])).1,
      (colValidationsLoop colName rest
        (writeSqref dd.addr (colSqref colName dd).Sqref acc ++ [colSqref colName dd])).2)

/-- Lines 241 to 246 of `sheet.go`: a `Min` or a `Max` of 0 becomes 1. -/
def colMinMax (col : Col) : Col :=
  let col1 : Col := if col.Min = 0 then { col with Min := 1 } else col
  if col1.Max = 0 then { col1 with Max := 1 } else col1

/-- Lines 247 to 252 of `sheet.go`: the format id of the column, 0 when it has
no style, else the id of its style with the id of its number format; and the
style table afterwards. -/
def colResolve (col : Col) (styles : xlsxStyleSheet) : Int × xlsxStyleSheet :=
  match col.GetStyle with
  | some style =>
    handleStyleForXLSX style (styles.newNumFmt col.numFmt).1.NumFmtId
      (styles.newNumFmt col.numFmt).2
  | none => (0, styles)

/-- Lines 256 to 258 of `sheet.go`: a column of width 0 gets the width
`ColWidth`. -/
def colWidthFix (col : Col) : Col :=
  if col.Width = 0 then { col with Width := ColWidth } else col

/-- The column record appended for a column (after `colMinMax`) with the
format id `XfId`; `CustomWidth` tells whether the width was non-zero. -/
def colRecord (col : Col) (XfId : Int) : xlsxCol :=
  { Min := (colWidthFix col).Min, Max := (colWidthFix col).Max,
    Hidden := (colWidthFix col).Hidden, Width := (colWidthFix col).Width,
    CustomWidth := if col.Width = 0 then false else true,
    Collapsed := (colWidthFix col).Collapsed,
    OutlineLevel := (colWidthFix col).OutlineLevel, Style := XfId }

/-- The column records of the worksheet, none while `worksheet.Cols` is nil. -/
def colRecords (w : xlsxWorksheet) : List xlsxCol :=
  match w.Cols with
  | none => []
  | some cs => cs.Col

/-- The validation rules of the worksheet, none while
`worksheet.DataValidations` is nil. -/
def validationRecords (w : xlsxWorksheet) : List xlsxCellDataValidation :=
  match w.DataValidations with
  | none => []
  | some d => d.DataValidattion

/-- The body of the column walk for the column `col` at index `c`; returns the
column as rewritten (`Min`, `Max`, `Width`, the ranges of its rules) and the
state: the format id is stored in `colsXfIdList[c]`, the column record is
appended, the running outline level is raised, and when the column has a
(non-nil) list of validation rules these are given their ranges through their
pointers and the pointers are appended, and the count is set. -/
def colStep (c : Int) (col : Col) (st : CompileState) : Option (Col × CompileState) :=
  let col2 := colMinMax col
  let resolved := colResolve col2 st.styles
  (sliceSet st.colsXfIdList c resolved.1).map fun xfList =>
    let col3 := colWidthFix col2
    let maxLevelCol := if col3.OutlineLevel > st.maxLevelCol then col3.OutlineLevel
      else st.maxLevelCol
    let looped :=
      colValidationsLoop (ColIndexToLetters c) (col3.DataValidation.getD [])
        (validationRecords st.worksheet)
    ({ col3 with DataValidation := col3.DataValidation.map fun _ => looped.1 },
      { st with
        worksheet := { st.worksheet with
          Cols := some { Col := colRecords st.worksheet ++ [colRecord col2 resolved.1] },
          DataValidations :=
            match col3.DataValidation with
            | some _ => some { DataValidattion := looped.2, Count := (looped.2.length : Nat) }
            | none => st.worksheet.DataValidations },
        styles := resolved.2, colsXfIdList := xfList, maxLevelCol := maxLevelCol })

/-- The column walk `for c, col := range s.Cols`, from index `c` on. -/
def colsLoop : Int → List Col → CompileState → Option (List Col × CompileState)
  | _, [], st => some ([], st)
  | c, col :: rest, st =>
    (colStep c col st).bind fun p =>
    (colsLoop (c + 1) rest p.2).map fun q => (p.1 :: q.1, q.2)

/-- The format id of a cell (lines 314 to 324 of `sheet.go`): the id resolved
for its column, replaced by the id of its own style when it has one, else by
the id of a blank record with its number format when it carries a code that
`compareFormatString` tells from the column's. -/
def cellFormatId (cols : List Col) (colsXfIdList : List Int) (c : Int) (cell : Cell)
    (styles : xlsxStyleSheet) : Except Panic (Int × xlsxStyleSheet) :=
  match sliceIndex colsXfIdList c with
  | none => Except.error Panic.indexOutOfRange
  | some XfId =>
    let xNumFmt := (styles.newNumFmt cell.NumFmt).1
    let styles1 := (styles.newNumFmt cell.NumFmt).2
    match cell.style with
    | some style => Except.ok (handleStyleForXLSX style xNumFmt.NumFmtId styles1)
    | none =>
      if cell.NumFmt ≠ "" then
        match sliceIndex cols c with
        | none => Except.error Panic.indexOutOfRange
        | some col =>
          if compareFormatString col.numFmt cell.NumFmt = false then
            Except.ok (handleNumFmtIdForXLSX xNumFmt.NumFmtId styles1)
          else Except.ok (XfId, styles1)
      else Except.ok (XfId, styles1)

/-- The `switch cell.cellType` of `makeXLSXSheet`: the value and the type tag
of the cell record, and the panic of the default branch. -/
def cellTyped (cell : Cell) (xC : xlsxC) (refTable : RefTable) : Except Panic (xlsxC × RefTable) :=
  if cell.cellType = CellTypeInline ∨ cell.cellType = CellTypeString then
    if cell.Value ≠ "" then
      Except.ok ({ xC with V := Itoa (refTable.AddString cell.Value).1, T := "s" },
        (refTable.AddString cell.Value).2)
    else Except.ok ({ xC with T := "s" }, refTable)
  else if cell.cellType = CellTypeNumeric then
    Except.ok ({ xC with V := cell.Value }, refTable)
  else if cell.cellType = CellTypeBool then
    Except.ok ({ xC with V := cell.Value, T := "b" }, refTable)
  else if cell.cellType = CellTypeError then
    Except.ok ({ xC with V := cell.Value, T := "e" }, refTable)
  else if cell.cellType = CellTypeDate then
    Except.ok ({ xC with V := cell.Value, T := "d" }, refTable)
  else if cell.cellType = CellTypeStringFormula then
    Except.ok ({ xC with V := cell.Value, T := "str" }, refTable)
  else Except.error (Panic.error "unknown cell type cannot be marshaled")

/-- The merge reference emitted for an origin at row `r`, column `c`. -/
def mergeRef (r c : Int) (cell : Cell) : xlsxMergeCell :=
  { Ref := GetCellIDStringFromCoords c r ++ cellRangeChar ++
      GetCellIDStringFromCoords (c + cell.HMerge) (r + cell.VMerge) }

/-- The cell record before the type switch (lines 329 to 335 of `sheet.go`):
the format id, the reference, and the formula when the cell has one. -/
def cellBase (r c : Int) (cell : Cell) (XfId : Int) : xlsxC :=
  if cell.formula ≠ "" then
    { S := XfId, R := GetCellIDStringFromCoords c r, F := some { Content := cell.formula } }
  else { S := XfId, R := GetCellIDStringFromCoords c r }

/-- The cell record `xC` of the cell at row `r`, column `c` (lines 314 to 363
of `sheet.go`): the format id, the reference, the formula when there is one,
the typed value; with it the style table and the shared strings as they stand
afterwards. -/
def cellXC (cols : List Col) (r c : Int) (cell : Cell) (st : CompileState) :
    Except Panic (xlsxC × xlsxStyleSheet × RefTable) :=
  match cellFormatId cols st.colsXfIdList c cell st.styles with
  | Except.error e => Except.error e
  | Except.ok fmt =>
    match cellTyped cell (cellBase r c cell fmt.1) st.refTable with
    | Except.error e => Except.error e
    | Except.ok typed => Except.ok (typed.1, fmt.2, typed.2)

/-- The body of the cell walk for the cell at row `r`, column `c`: the cell
record is built and appended to the row record, `maxCell` is raised, the
reference of the cell is stored as the range of the validation rule of the
cell through its pointer (`cell.DataValidation.Sqref = xC.R`, which the
entries of the list that point to the same rule show as well) and the pointer
is appended, a merge origin appends its merge reference.  Returns the cell as
rewritten (the range of its rule), the row record and the state. -/
def cellStep (cols : List Col) (r c : Int) (cell : Cell) (xRow : xlsxRow) (st : CompileState) :
    Except Panic (Cell × xlsxRow × CompileState) :=
  match cellXC cols r c cell st with
  | Except.error e => Except.error e
  | Except.ok x =>
    let maxCell := if c > st.maxCell then c else st.maxCell
    let xRow1 : xlsxRow := { xRow with C := xRow.C ++ [x.1] }
    let cell1 : Cell :=
      match cell.DataValidation with
      | some dv => { cell with DataValidation := some { dv with Sqref := x.1.R } }
      | none => cell
    let dvs : Option xlsxCellDataValidations :=
      match cell.DataValidation with
      | some dv =>
        let old : xlsxCellDataValidations :=
          match st.worksheet.DataValidations with
          | none => {}
          | some d => d
        some { DataValidattion :=
                 writeSqref dv.addr x.1.R old.DataValidattion ++ [{ dv with Sqref := x.1.R }],
               Count := ((writeSqref dv.addr x.1.R old.DataValidattion ++
                 [{ dv with Sqref := x.1.R }]).length : Nat) }
      | none => st.worksheet.DataValidations
    let mcs : Option xlsxMergeCells :=
      if cell.HMerge > 0 ∨ cell.VMerge > 0 then
        let old : xlsxMergeCells :=
          match st.worksheet.MergeCells with
          | none => {}
          | some m => m
        some { old with Cells := old.Cells ++ [mergeRef r c cell] }
      else st.worksheet.MergeCells
    Except.ok (cell1, xRow1,
      { st with
        worksheet := { st.worksheet with DataValidations := dvs, MergeCells := mcs },
        styles := x.2.1, refTable := x.2.2, maxCell := maxCell })

/-- The cell walk `for c, cell := range row.Cells` of row `r`, from column `c`
on. -/
def cellsLoop (cols : List Col) (r : Int) :
    Int → List Cell → xlsxRow → CompileState → Except Panic (List Cell × xlsxRow × CompileState)
  | _, [], xRow, st => Except.ok ([], xRow, st)
  | c, cell :: rest, xRow, st =>
    match cellStep cols r c cell xRow st with
    | Except.error e => Except.error e
    | Except.ok p =>
      match cellsLoop cols r (c + 1) rest p.2.1 p.2.2 with
      | Except.error e => Except.error e
      | Except.ok q => Except.ok (p.1 :: q.1, q.2.1, q.2.2)

/-- The row record of the row at index `r` before its cells are walked: the
1-based row number, the custom height when the row has one, the outline level. -/
def rowRecord (env : Env) (r : Int) (row : Xlsx.Row) : xlsxRow :=
  let xRow0 : xlsxRow := { R := r + 1 }
  let xRow1 : xlsxRow :=
    if row.isCustom then { xRow0 with CustomHeight := true, Ht := env.fmtG row.Height }
    else xRow0
  { xRow1 with OutlineLevel := row.OutlineLevel }

/-- The running maxima as the walk enters the row at index `r`. -/
def rowEnter (r : Int) (row : Xlsx.Row) (st : CompileState) : CompileState :=
  { st with
    maxRow := if r > st.maxRow then r else st.maxRow,
    maxLevelRow := if row.OutlineLevel > st.maxLevelRow then row.OutlineLevel
      else st.maxLevelRow }

/-- The body of the row walk for the row `row` at index `r`. -/
def rowStep (env : Env) (cols : List Col) (r : Int) (row : Xlsx.Row) (st : CompileState) :
    Except Panic (Xlsx.Row × CompileState) :=
  match cellsLoop cols r 0 row.Cells (rowRecord env r row) (rowEnter r row st) with
  | Except.error e => Except.error e
  | Except.ok p =>
    Except.ok ({ row with Cells := p.1 },
      { p.2.2 with xSheet := { Row := p.2.2.xSheet.Row ++ [p.2.1] } })

/-- The row walk `for r, row := range s.Rows`, from index `r` on. -/
def rowsLoop (env : Env) (cols : List Col) :
    Int → List Xlsx.Row → CompileState → Except Panic (List Xlsx.Row × CompileState)
  | _, [], st => Except.ok ([], st)
  | r, row :: rest, st =>
    match rowStep env cols r row st with
    | Except.error e => Except.error e
    | Except.ok p =>
      match rowsLoop env cols (r + 1) rest p.2 with
      | Except.error e => Except.error e
      | Except.ok q => Except.ok (p.1 :: q.1, q.2)

/-- The dimension reference computed at the end of `makeXLSXSheet`. -/
def dimensionRef (maxCell maxRow : Int) : String :=
  if "A1:" ++ GetCellIDStringFromCoords maxCell maxRow = "A1:A1" then "A1"
  else "A1:" ++ GetCellIDStringFromCoords maxCell maxRow

/-- A rule held by the sheet, as its object stands when the compile ends: the
range of the object is the one that the list of the worksheet shows for its
address (every rule of the sheet is in that list by then). -/
def finalRule (final : List xlsxCellDataValidation) (dv : xlsxCellDataValidation) :
    xlsxCellDataValidation :=
  match final.find? fun e => e.addr = dv.addr with
  | some e => { dv with Sqref := e.Sqref }
  | none => dv

/-- The columns of the sheet with their rules as they stand when the compile
ends. -/
def finalCols (final : List xlsxCellDataValidation) (cols : List Col) : List Col :=
  cols.map fun col =>
    { col with DataValidation := col.DataValidation.map fun dds => dds.map (finalRule final) }

/-- The rows of the sheet with the rules of their cells as they stand when the
compile ends. -/
def finalRows (final : List xlsxCellDataValidation) (rows : List Xlsx.Row) : List Xlsx.Row :=
  rows.map fun row =>
    { row with Cells := row.Cells.map fun cell =>
        { cell with DataValidation := cell.DataValidation.map (finalRule final) } }

/-- The statements of `makeXLSXSheet` after the row walk; the sheet is returned
as the stores of the walks through its pointers have left it. -/
def finishSheet (s : Sheet) (cols : List Col) (rows : List Xlsx.Row) (st : CompileState) :
    xlsxWorksheet × Sheet × RefTable × xlsxStyleSheet :=
  let sheetFormat : SheetFormat :=
    { s.SheetFormat with OutlineLevelCol := st.maxLevelCol, OutlineLevelRow := st.maxLevelRow }
  let ws1 : xlsxWorksheet :=
    { st.worksheet with SheetFormatPr := { st.worksheet.SheetFormatPr with
        OutlineLevelCol := sheetFormat.OutlineLevelCol,
        OutlineLevelRow := sheetFormat.OutlineLevelRow } }
  let ws2 : xlsxWorksheet :=
    match ws1.MergeCells with
    | some m => { ws1 with MergeCells := some { m with Count := (m.Cells.length : Nat) } }
    | none => ws1
  let ws3 : xlsxWorksheet :=
    match s.AutoFilter with
    | some af =>
      { ws2 with AutoFilter := some { Ref := af.TopLeftCell ++ ":" ++ af.BottomRightCell } }
    | none => ws2
  let ws4 : xlsxWorksheet := { ws3 with SheetData := st.xSheet }
  ({ ws4 with Dimension := { Ref := dimensionRef st.maxCell st.maxRow } },
    { s with Cols := finalCols (validationRecords st.worksheet) cols,
             Rows := finalRows (validationRecords st.worksheet) rows,
             SheetFormat := sheetFormat }, st.refTable, st.styles)

/-- Lines 229 to 231 of `sheet.go`: a selected sheet sets `TabSelected` on the
sheet view at index 0. -/
def setTabSelected (s : Sheet) (ws : xlsxWorksheet) : Option xlsxWorksheet :=
  if s.Selected then
    (sliceIndex ws.SheetViews.SheetView 0).bind fun v =>
    (sliceSet ws.SheetViews.SheetView 0 { v with TabSelected := true }).map fun vs =>
      { ws with SheetViews := { SheetView := vs } }
  else some ws

/-- Lines 233 to 236 of `sheet.go`: the default row height when it is not 0,
the default column width always. -/
def setSheetFormat (s : Sheet) (ws : xlsxWorksheet) : xlsxWorksheet :=
  let ws1 : xlsxWorksheet :=
    if s.SheetFormat.DefaultRowHeight ≠ 0 then
      { ws with SheetFormatPr := { ws.SheetFormatPr with
          DefaultRowHeight := s.SheetFormat.DefaultRowHeight } }
    else ws
  { ws1 with SheetFormatPr := { ws1.SheetFormatPr with
      DefaultColWidth := s.SheetFormat.DefaultColWidth } }

/-- The statements of `makeXLSXSheet` between `handleMerged` and the column
walk: the sheet views, the selected flag, the default row height and column
width. -/
def startSheet (s : Sheet) : Option xlsxWorksheet :=
  (sheetViewsLoop 0 s.SheetViews newXlsxWorksheet).bind fun ws1 =>
  (setTabSelected s ws1).map (setSheetFormat s)

/-- `Sheet.makeXLSXSheet`: densify the merges, set up the worksheet, walk the
columns, walk the rows and their cells, finish.  Returns the worksheet and
what the call leaves behind: the sheet (extended by the merges, its columns,
validation rules and outline levels rewritten), the shared strings and the
style table. -/
def Sheet.makeXLSXSheet (env : Env) (s : Sheet) (refTable : RefTable) (styles : xlsxStyleSheet) :
    Except Panic (xlsxWorksheet × Sheet × RefTable × xlsxStyleSheet) :=
  match s.handleMerged env with
  | none => Except.error Panic.indexOutOfRange
  | some s1 =>
    match startSheet s1 with
    | none => Except.error Panic.indexOutOfRange
    | some ws =>
      match colsLoop 0 s1.Cols
          { worksheet := ws, styles := styles, refTable := refTable,
            colsXfIdList := List.replicate s1.Cols.length 0 } with
      | none => Except.error Panic.indexOutOfRange
      | some colsDone =>
        match rowsLoop env colsDone.1 0 s1.Rows colsDone.2 with
        | Except.error e => Except.error e
        | Except.ok rowsDone => Except.ok (finishSheet s1 colsDone.1 rowsDone.1 rowsDone.2)

/-- An environment for concrete evaluations: the map is visited in insertion
order; the height rendering shows the integer part only (no example below has
a custom height). -/
def exampleEnv : Env :=
  { fmtG := fun h => Itoa h.num, mapOrder := fun l => l }

/-- The scenario of the spec: a String cell "Hi" at (0,0) and a merge origin
with `HMerge = VMerge = 1` at row 1, column 2, built through the grid model's
shape (three columns, `MaxRow`, `MaxCol` in sync). -/
def scenarioSheet : Sheet :=
  { Rows := [{ Cells := [{ Value := "Hi", cellType := CellTypeString }] },
             { Cells := [{}, {}, { HMerge := 1, VMerge := 1 }] }],
    Cols := [unitCol 1, unitCol 2, unitCol 3],
    MaxRow := 2, MaxCol := 3 }

/-! ## Vocabulary of the statements -/

/-- The cell at row `i`, column `j` of a grid, when there is one. -/
def cellAt (rows : List Xlsx.Row) (i j : Nat) : Option Cell :=
  (rows[i]?).bind fun row => row.Cells[j]?

/-- The merge origins of the cells of row `r`, from column `c` on: the cells
with `HMerge > 0` or `VMerge > 0`, with their coordinates, left to right. -/
def originsCells (r : Int) : Int → List Cell → List (Int × Int × Cell)
  | _, [] => []
  | c, cell :: rest =>
    if cell.HMerge > 0 ∨ cell.VMerge > 0 then (r, c, cell) :: originsCells r (c + 1) rest
    else originsCells r (c + 1) rest

/-- The merge origins of a grid in row-major order, as (row, column, cell),
the first row being numbered `r`. -/
def originsRows : Int → List Xlsx.Row → List (Int × Int × Cell)
  | _, [] => []
  | r, row :: rest => originsCells r 0 row.Cells ++ originsRows (r + 1) rest

/-- The map entry of an origin: its reference string and the cell. -/
def originEntry (t : Int × Int × Cell) : String × Cell :=
  (GetCellIDStringFromCoords t.2.1 t.1, t.2.2)

/-- A grid extended by lazy cell access: each old row keeps its fields and its
cells and gains default cells at its end; new rows, holding default cells
only, follow the old ones. -/
inductive RowsExt : List Xlsx.Row → List Xlsx.Row → Prop where
  | nil : RowsExt [] []
  | cons (r r1 : Xlsx.Row) (t t1 : List Xlsx.Row) (k : Nat) :
      r1 = { r with Cells := r.Cells ++ List.replicate k ({} : Cell) } →
      RowsExt t t1 → RowsExt (r :: t) (r1 :: t1)
  | pad (r1 : Xlsx.Row) (t1 : List Xlsx.Row) (k : Nat) :
      r1 = { Cells := List.replicate k ({} : Cell) } →
      RowsExt [] t1 → RowsExt [] (r1 :: t1)

/-- The rectangle of a merge origin at row `r`, column `c` exists in a grid:
every cell from (`r`, `c`) to (`r + VMerge`, `c + HMerge`) is there. -/
def rectExists (rows : List Xlsx.Row) (r c : Nat) (cell : Cell) : Prop :=
  ∀ i j : Nat, (i : Int) ≤ cell.VMerge → (j : Int) ≤ cell.HMerge →
    (cellAt rows (r + i) (c + j)).isSome = true

/-- A sheet with one merge origin at (0,0), `HMerge = VMerge = 1`. -/
def mergeOriginSheet : Sheet :=
  { Rows := [{ Cells := [{ HMerge := 1, VMerge := 1 }] }],
    Cols := [unitCol 1], MaxRow := 1, MaxCol := 1 }

/-- The merge list after the merge references `l` have been appended to it one
by one (the list is created by the first of them). -/
def mergeAppend (old : Option xlsxMergeCells) (l : List xlsxMergeCell) : Option xlsxMergeCells :=
  match l with
  | [] => old
  | _ :: _ =>
    match old with
    | none => some { Cells := l }
    | some m => some { m with Cells := m.Cells ++ l }

/-- The merge reference of a listed origin. -/
def originRef (t : Int × Int × Cell) : xlsxMergeCell := mergeRef t.1 t.2.1 t.2.2

/-- The greatest column index of a cell of the grid, 0 when it has no cell. -/
def maxCellIdx (rows : List Xlsx.Row) : Int :=
  rows.foldl (fun m row => max m ((row.Cells.length : Int) - 1)) 0

/-- The index of the last row of the grid, 0 when it has no row. -/
def maxRowIdx (rows : List Xlsx.Row) : Int := max 0 ((rows.length : Int) - 1)

/-- The message of the panic of the cell-type switch. -/
def unknownCellTypeMsg : String := "unknown cell type cannot be marshaled"

/-- The worksheet without the two lists that the cell walk appends to. -/
def wsFrame (w : xlsxWorksheet) : xlsxWorksheet :=
  { w with DataValidations := none, MergeCells := none }

/-- A sheet holding only the default cell at (0,0), with its column. -/
def oneCellSheet : Sheet :=
  { Rows := [{ Cells := [{}] }], Cols := [unitCol 1], MaxRow := 1, MaxCol := 1 }

/-- A sheet with one row holding a cell of each of the seven types, the
Numeric one with a formula, and a column for each. -/
def typedSheet : Sheet :=
  { Rows := [{ Cells := [{ Value := "42", cellType := CellTypeNumeric, formula := "B1+1" },
                         { Value := "Hi", cellType := CellTypeString },
                         { Value := "Hi", cellType := CellTypeInline },
                         { Value := "1", cellType := CellTypeBool },
                         { Value := "#N/A", cellType := CellTypeError },
                         { Value := "2020-01-01", cellType := CellTypeDate },
                         { Value := "x", cellType := CellTypeStringFormula }] }],
    Cols := [unitCol 1, unitCol 2, unitCol 3, unitCol 4, unitCol 5, unitCol 6, unitCol 7],
    MaxRow := 1, MaxCol := 7 }

/-- A sheet holding one String cell with the empty `Value`. -/
def emptyStringSheet : Sheet :=
  { Rows := [{ Cells := [{ Value := "", cellType := CellTypeString }] }],
    Cols := [unitCol 1], MaxRow := 1, MaxCol := 1 }

/-- A sheet with one row of four cells over four columns without a number
format: a styled cell with the number format `0.00`, a styled cell without
number format, an unstyled cell with the number format `0.00`, and an unstyled
cell without number format. -/
def formatSheet : Sheet :=
  { Rows := [{ Cells := [{ style := some NewStyle, NumFmt := "0.00" },
                         { style := some NewStyle },
                         { NumFmt := "0.00" },
                         {}] }],
    Cols := [unitCol 1, unitCol 2, unitCol 3, unitCol 4], MaxRow := 1, MaxCol := 4 }

/-- A sheet holding one cell with a style and the number format `0.00`, in a
column without number format. -/
def styledFormatSheet : Sheet :=
  { Rows := [{ Cells := [{ style := some NewStyle, NumFmt := "0.00" }] }],
    Cols := [unitCol 1], MaxRow := 1, MaxCol := 1 }

/-- The sheet `styledFormatSheet` with the number format of its cell taken
away: the same style, no number-format code. -/
def styledPlainSheet : Sheet :=
  { Rows := [{ Cells := [{ style := some NewStyle }] }],
    Cols := [unitCol 1], MaxRow := 1, MaxCol := 1 }

/-- A sheet whose only cell has the type 7, outside the enum, in a grid in
sync with its column. -/
def unknownTypeSheet : Sheet :=
  { Rows := [{ Cells := [{ cellType := 7 }] }], Cols := [unitCol 1], MaxRow := 1, MaxCol := 1 }

/-- The sheet `unknownTypeSheet` with two sheet views, the second one with a
pane. -/
def unknownTypeTwoViewsSheet : Sheet :=
  { unknownTypeSheet with SheetViews := [{}, { Pane := some {} }] }

/-- The sheet `unknownTypeSheet` without its column. -/
def unknownTypeNoColsSheet : Sheet :=
  { unknownTypeSheet with Cols := [] }

/-- The columns as rewritten and the state after the set-up of the worksheet
and the column walk of the densified sheet `s1`. -/
def colWalkDone (s1 : Sheet) (refTable : RefTable) (styles : xlsxStyleSheet) :
    Option (List Col × CompileState) :=
  (startSheet s1).bind fun ws =>
    colsLoop 0 s1.Cols
      { worksheet := ws, styles := styles, refTable := refTable,
        colsXfIdList := List.replicate s1.Cols.length 0 }

/-- The state with which the row walk reaches the row at index `r`: the state
after the walk of the rows before it. -/
def rowWalkState (env : Env) (cols : List Col) (rows : List Xlsx.Row) (r : Nat)
    (st : CompileState) : Option CompileState :=
  (rowsLoop env cols 0 (rows.take r) st).toOption.map fun q => q.2

/-- The state with which the cell walk of the row at index `r` reaches the
column `c`: the state after the walk of the cells before it. -/
def cellWalkState (env : Env) (cols : List Col) (r : Nat) (row : Xlsx.Row) (c : Nat)
    (st : CompileState) : Option CompileState :=
  (cellsLoop cols (r : Int) 0 (row.Cells.take c) (rowRecord env (r : Int) row)
    (rowEnter (r : Int) row st)).toOption.map fun q => q.2.2

/-- The columns and the state with which the compile of the densified sheet
`s1` reaches the cell at row `r`, column `c`: after the set-up, the column
walk, the rows before `r` and the cells of row `r` before `c`. -/
def reachState (env : Env) (s1 : Sheet) (refTable : RefTable) (styles : xlsxStyleSheet)
    (r c : Nat) : Option (List Col × CompileState) :=
  (colWalkDone s1 refTable styles).bind fun cd =>
  (s1.Rows[r]?).bind fun row =>
  (rowWalkState env cd.1 s1.Rows r cd.2).bind fun str =>
  (cellWalkState env cd.1 r row c str).map fun stc => (cd.1, stc)

/-- The shared strings after the type switch of a cell: a String or
InlineString cell with a non-empty `Value` has its value added. -/
def addCellString (rt : RefTable) (cell : Cell) : RefTable :=
  if (cell.cellType = CellTypeInline ∨ cell.cellType = CellTypeString) ∧ cell.Value ≠ "" then
    (rt.AddString cell.Value).2
  else rt

/-- The shared strings with which the compile reaches the cell at row `r`,
column `c`: the table `rt` it was given, after the cells of the rows before `r`
and the cells of row `r` before column `c`, in row-major order. -/
def stringsBefore (rt : RefTable) (rows : List Xlsx.Row) (r c : Nat) : RefTable :=
  (((rows[r]?).map fun row => row.Cells.take c).getD []).foldl addCellString
    ((rows.take r).foldl (fun t row => row.Cells.foldl addCellString t) rt)

/-- The constant light-gray pattern fill that `handleStyleForXLSX` interns. -/
def lightGrayFill : xlsxFill := { PatternFill := { PatternType := "lightGray" } }

/-- The validation block holding the list `l`, with its count; no block for
`none`. -/
def validationBlock (o : Option (List xlsxCellDataValidation)) :
    Option xlsxCellDataValidations :=
  o.map fun l => { DataValidattion := l, Count := (l.length : Nat) }

/-- The list of a block after the rules `rules` have been appended to it; the
block is created when there are rules to append (also an empty list of them)
and there was none. -/
def addRules (o rules : Option (List xlsxCellDataValidation)) :
    Option (List xlsxCellDataValidation) :=
  match rules with
  | none => o
  | some l => some (o.getD [] ++ l)

/-- The validation rules of the column at index `c`, each with its range. -/
def colRules (c : Int) (col : Col) : Option (List xlsxCellDataValidation) :=
  col.DataValidation.map fun dds => dds.map (colSqref (ColIndexToLetters c))

/-- The validation rules of the columns in column order, the first column
being at index `c`. -/
def colsRules : Int → List Col → List xlsxCellDataValidation
  | _, [] => []
  | c, col :: rest => (colRules c col).getD [] ++ colsRules (c + 1) rest

/-- The own validation rule of the cell at row `r`, column `c`, with the
reference of the cell as its range. -/
def cellRule (r c : Int) (cell : Cell) : Option (List xlsxCellDataValidation) :=
  cell.DataValidation.map fun dv => [{ dv with Sqref := GetCellIDStringFromCoords c r }]

/-- The own validation rules of the cells of row `r`, left to right, the first
cell being at column `c`. -/
def cellsRules (r : Int) : Int → List Cell → List xlsxCellDataValidation
  | _, [] => []
  | c, cell :: rest => (cellRule r c cell).getD [] ++ cellsRules r (c + 1) rest

/-- The own validation rules of the cells of a grid in row-major order, the
first row being at index `r`. -/
def rowsRules : Int → List Xlsx.Row → List xlsxCellDataValidation
  | _, [] => []
  | r, row :: rest => cellsRules r 0 row.Cells ++ rowsRules (r + 1) rest

/-- A sheet with two columns and one row of two cells: the first column has
two validation rules (rows 0 to 0, rows 1 to 5), the second column none, and
the cell at column 1 has a rule of its own; the three rules are three objects. -/
def validationSheet : Sheet :=
  { Rows := [{ Cells := [{}, { DataValidation := some { addr := 3, Typ := "whole" } }] }],
    Cols := [{ unitCol 1 with
                DataValidation := some [{ addr := 1, Typ := "list", minRow := 0, maxRow := 0 },
                                        { addr := 2, Typ := "list", minRow := 1, maxRow := 5 }] },
             unitCol 2],
    MaxRow := 1, MaxCol := 2 }

/-- A sheet with one row of two cells that hold the same validation rule: one
rule object, set on the cell at column 0 and on the cell at column 1. -/
def sharedRuleSheet : Sheet :=
  { Rows := [{ Cells := [{ DataValidation := some { addr := 1, Typ := "whole" } },
                         { DataValidation := some { addr := 1, Typ := "whole" } }] }],
    Cols := [unitCol 1, unitCol 2],
    MaxRow := 1, MaxCol := 2 }

/-- The validation list of the worksheet after the pointers to the rules of
`new` have been appended to `acc` one by one, each after the store of its range
through it. -/
def aliasAppend (acc new : List xlsxCellDataValidation) : List xlsxCellDataValidation :=
  new.foldl (fun a e => writeSqref e.addr e.Sqref a ++ [e]) acc

/-- The range that the rule at the address `a` holds after the stores of the
ranges of the rules of `l` through their pointers, in the order of `l`, when it
held `ref` before: the range of the last rule of `l` at this address. -/
def lastSqref (a : Nat) (l : List xlsxCellDataValidation) (ref : String) : String :=
  l.foldl (fun acc e => if e.addr = a then e.Sqref else acc) ref

/-- The rules of `l`, each with the range that its object holds after the
stores of the ranges of `l` in order: an entry carries the range of the last
entry of `l` at its address. -/
def aliasList : List xlsxCellDataValidation → List xlsxCellDataValidation
  | [] => []
  | e :: rest => { e with Sqref := lastSqref e.addr rest e.Sqref } :: aliasList rest

/-- The validation block that holds the rules of `o` after the stores of their
ranges. -/
def aliasBlock (o : Option (List xlsxCellDataValidation)) : Option xlsxCellDataValidations :=
  validationBlock (o.map (aliasAppend []))

/-- A sheet with two columns and no rows: a hidden column with `Min`, `Max`
and `Width` never set, and a collapsed column over the range 2 to 3 with the
width 15 and the outline level 2. -/
def columnsSheet : Sheet :=
  { Cols := [{ Hidden := true, style := some NewStyle },
             { Min := 2, Max := 3, Width := 15, Collapsed := true, OutlineLevel := 2,
               style := some NewStyle }],
    MaxCol := 2 }

/-! ## Merge extents (`xlsxMergeCells.getExtent`) -/

/-- Go `strings.HasPrefix`. -/
def stringsHasPrefix (s pre : String) : Bool := pre.data.isPrefixOf s.data

/-- The scan of Go `strings.Split` for a non-empty separator: `acc` holds the
characters of the current piece in reverse; at an occurrence of the separator
the piece is closed and the scan goes on behind the separator.  The first
argument bounds the number of steps. -/
def splitAux (sep : List Char) : Nat → List Char → List Char → List String
  | 0, acc, _ => [String.mk acc.reverse]
  | _ + 1, acc, [] => [String.mk acc.reverse]
  | fuel + 1, acc, c :: rest =>
    if sep.isPrefixOf (c :: rest) = true then
      String.mk acc.reverse :: splitAux sep fuel [] ((c :: rest).drop sep.length)
    else splitAux sep fuel (c :: acc) rest

/-- Go `strings.Split`: the pieces of `s` between the occurrences of `sep`; with
the empty separator, the characters of `s`. -/
def stringsSplit (s sep : String) : List String :=
  if sep.data = [] then s.data.map fun c => String.mk [c]
  else splitAux sep.data (s.data.length + 1) [] s.data

/-- The loop of `getExtent` over the entries of the merge list: the first
entry whose reference starts with `cellRef` and the range separator decides;
`none` is the panic of an index out of range. -/
def getExtentLoop (cellRef : String) : List xlsxMergeCell → Option (Int × Int × Option String)
  | [] => some (0, 0, none)
  | cell :: rest =>
    if stringsHasPrefix cell.Ref (cellRef ++ cellRangeChar) = true then
      (sliceIndex (stringsSplit cell.Ref cellRangeChar) 0).bind fun part0 =>
        match (GetCoordsFromCellIDString part0).2.2 with
        | some err => some (-1, -1, some err)
        | none =>
          (sliceIndex (stringsSplit cell.Ref cellRangeChar) 1).bind fun part1 =>
            match (GetCoordsFromCellIDString part1).2.2 with
            | some err => some (-2, -2, some err)
            | none =>
              some ((GetCoordsFromCellIDString part1).1 - (GetCoordsFromCellIDString part0).1,
                (GetCoordsFromCellIDString part1).2.1 - (GetCoordsFromCellIDString part0).2.1,
                none)
    else getExtentLoop cellRef rest

/-- `xlsxMergeCells.getExtent` of `xmlWorksheet.go`, on a receiver that may be
nil: the extent (columns, rows) of the merged range that starts at `cellRef`,
(0, 0) when there is none, with the error of the reference parser. -/
def xlsxMergeCells.getExtent (mc : Option xlsxMergeCells) (cellRef : String) :
    Option (Int × Int × Option String) :=
  match mc with
  | none => some (0, 0, none)
  | some m => getExtentLoop cellRef m.Cells

/-- A frozen pane below the first row. -/
def frozenPane : Pane :=
  { XSplit := 0, YSplit := 1, TopLeftCell := "A2", ActivePane := "bottomLeft", State := "frozen" }

/-- The one-cell sheet with one sheet view, which has a pane. -/
def paneSheet : Sheet :=
  { oneCellSheet with SheetViews := [{ Pane := some frozenPane }] }

/-- The one-cell sheet with two sheet views, the second of which has a pane. -/
def twoViewsSheet : Sheet :=
  { oneCellSheet with SheetViews := [{}, { Pane := some frozenPane }] }

/-- The one-cell sheet with two sheet views without pane. -/
def twoPlainViewsSheet : Sheet :=
  { oneCellSheet with SheetViews := [{}, {}] }

/-- A column list extended by `maybeAddCol`: the old columns stay in place and
unit columns follow them. -/
def ColsExt (a b : List Col) : Prop := ∃ l : List Int, b = a ++ l.map unitCol

/-- A sheet with no column and one cell, a merge origin with `HMerge = 1`. -/
def mergeNoColsSheet : Sheet :=
  { Rows := [{ Cells := [{ HMerge := 1 }] }], MaxRow := 1 }

/-! ## Lemmas on the slice primitives -/

theorem sliceIndex_natCast {α : Type} (xs : List α) (n : Nat) :
    sliceIndex xs (n : Int) = xs[n]? := by
  unfold sliceIndex
  by_cases h : n < xs.length
  · simp [h]
  · simp [h]
    omega

theorem sliceIndex_neg {α : Type} (xs : List α) (i : Int) (h : i < 0) :
    sliceIndex xs i = none := by
  unfold sliceIndex
  rw [if_neg]
  omega

theorem sliceSet_natCast {α : Type} (xs : List α) (n : Nat) (v : α) (h : n < xs.length) :
    sliceSet xs (n : Int) v = some (xs.set n v) := by
  unfold sliceSet
  simp [h]

theorem sliceFrom_natCast {α : Type} (xs : List α) (n : Nat) (h : n ≤ xs.length) :
    sliceFrom xs (n : Int) = some (xs.drop n) := by
  unfold sliceFrom
  simp [h]

theorem sliceTo_natCast {α : Type} (xs : List α) (n : Nat) (h : n ≤ xs.length) :
    sliceTo xs (n : Int) = some (xs.take n) := by
  unfold sliceTo
  simp [h]

theorem sliceCopy_shift {α : Type} (b : List α) (d : α) :
    sliceCopy ((b ++ [d]).drop 1) (b ++ [d]) = b := by
  unfold sliceCopy
  simp

/-- The append, overlapping copy and store of `AddRowAtIndex`, on a list split
at the insertion point. -/
theorem insert_shift_split {α : Type} (a b : List α) (d row : α) :
    ((a ++ b ++ [d]).take (a.length + 1) ++
      sliceCopy ((a ++ b ++ [d]).drop (a.length + 1)) ((a ++ b ++ [d]).drop a.length)).set
        a.length row = a ++ [row] ++ b := by
  induction a with
  | nil =>
    cases b with
    | nil => simp [sliceCopy]
    | cons y b =>
      have hs := sliceCopy_shift (y :: b) d
      simp at hs
      simp [hs]
  | cons x a ih =>
    simpa using ih

/-- The append, overlapping copy and store of `AddRowAtIndex` at a position
`n` within the list. -/
theorem insert_shift {α : Type} (xs : List α) (n : Nat) (h : n ≤ xs.length) (d row : α) :
    ((xs ++ [d]).take (n + 1) ++
      sliceCopy ((xs ++ [d]).drop (n + 1)) ((xs ++ [d]).drop n)).set n row
      = xs.take n ++ [row] ++ xs.drop n := by
  have hsplit := insert_shift_split (xs.take n) (xs.drop n) d row
  have hlen : (xs.take n).length = n := by simp [h]
  rw [List.take_append_drop, hlen] at hsplit
  exact hsplit

/-! ## Row insertion and removal -/

/-- What `AddRowAtIndex` computes when the index passes the guard. -/
theorem AddRowAtIndex_ok (s : Sheet) (n : Nat) (h : n ≤ s.Rows.length) :
    s.AddRowAtIndex (n : Int) =
      some (Except.ok {}, { s with
        Rows := s.Rows.take n ++ [{}] ++ s.Rows.drop n,
        MaxRow := if ((s.Rows.length + 1 : Nat) : Int) > s.MaxRow
                  then ((s.Rows.length + 1 : Nat) : Int) else s.MaxRow }) := by
  have hguard : ¬ ((n : Int) < 0 ∨ (n : Int) > s.Rows.length) := by omega
  have hlt : (n : Int) < ((s.Rows ++ [default]).length : Nat) := by simp; omega
  have h1 : ((n : Int) + 1) = ((n + 1 : Nat) : Int) := by push_cast; rfl
  have hins := insert_shift s.Rows n h (default : Xlsx.Row) ({} : Xlsx.Row)
  have hlen : (s.Rows.take n ++ [({} : Xlsx.Row)] ++ s.Rows.drop n).length
      = s.Rows.length + 1 := by
    simp; omega
  unfold Sheet.AddRowAtIndex
  rw [if_neg hguard]
  simp only [hlt, if_true]
  rw [h1, sliceFrom_natCast _ (n + 1) (by simp; omega), sliceFrom_natCast _ n (by simp; omega),
    sliceTo_natCast _ (n + 1) (by simp; omega)]
  simp only [Option.some_bind, Option.map_some']
  rw [sliceSet_natCast _ n _ (by simp; omega)]
  simp only [Option.map_some']
  rw [hins, hlen]

/-- What `RemoveRowAtIndex` computes when the index passes the guard. -/
theorem RemoveRowAtIndex_ok (s : Sheet) (n : Nat) (h : n < s.Rows.length) :
    s.RemoveRowAtIndex (n : Int) =
      some (Except.ok (), { s with Rows := s.Rows.take n ++ s.Rows.drop (n + 1) }) := by
  have hguard : ¬ ((n : Int) < 0 ∨ (n : Int) ≥ s.Rows.length) := by omega
  have h1 : ((n : Int) + 1) = ((n + 1 : Nat) : Int) := by push_cast; rfl
  unfold Sheet.RemoveRowAtIndex
  rw [if_neg hguard, h1, sliceTo_natCast _ n (by omega), sliceFrom_natCast _ (n + 1) (by omega)]
  simp

/-- C1: for every sheet and every integer index, `AddRowAtIndex` returns (it
does not panic) and the returned value is an error exactly when `index < 0` or
`index > len(Rows)`; when it is an error the sheet is returned unchanged; the
indices `-1` and `len(Rows) + 1` both give the error. -/
theorem AddRowAtIndex_error_iff (s : Sheet) (index : Int) :
    (∃ r s1, s.AddRowAtIndex index = some (r, s1) ∧
      ((∃ msg, r = Except.error msg) ↔ (index < 0 ∨ index > s.Rows.length)) ∧
      ((∃ msg, r = Except.error msg) → s1 = s)) ∧
    (∃ msg, s.AddRowAtIndex (-1) = some (Except.error msg, s)) ∧
    (∃ msg, s.AddRowAtIndex ((s.Rows.length : Int) + 1) = some (Except.error msg, s)) := by
  refine ⟨?_, ?_, ?_⟩
  · by_cases hg : index < 0 ∨ index > s.Rows.length
    · refine ⟨Except.error "AddRowAtIndex: index out of bounds", s, ?_, ?_, fun _ => rfl⟩
      · unfold Sheet.AddRowAtIndex
        rw [if_pos hg]
      · exact ⟨fun _ => hg, fun _ => ⟨_, rfl⟩⟩
    · have h0 : 0 ≤ index := by omega
      obtain ⟨n, rfl⟩ := Int.eq_ofNat_of_zero_le h0
      have hn : n ≤ s.Rows.length := by omega
      refine ⟨_, _, AddRowAtIndex_ok s n hn, ?_, ?_⟩
      · constructor
        · rintro ⟨msg, hmsg⟩
          cases hmsg
        · intro h
          exact absurd h hg
      · rintro ⟨msg, hmsg⟩
        cases hmsg
  · refine ⟨"AddRowAtIndex: index out of bounds", ?_⟩
    unfold Sheet.AddRowAtIndex
    rw [if_pos (Or.inl (by decide))]
  · refine ⟨"AddRowAtIndex: index out of bounds", ?_⟩
    unfold Sheet.AddRowAtIndex
    rw [if_pos (Or.inr (by omega))]

/-- C2: for `0 ≤ index ≤ len(Rows)`, `AddRowAtIndex` succeeds with a fresh
empty row; the new row list is the old rows before `index`, the new row, the
old rows from `index` on; the length grows by exactly one; the returned row is
the one at position `index`; and for `index = len(Rows)` the returned row and
the sheet are the ones `AddRow` produces. -/
theorem AddRowAtIndex_inserts (s : Sheet) (index : Int)
    (h0 : 0 ≤ index) (h1 : index ≤ s.Rows.length) :
    ∃ row s1, s.AddRowAtIndex index = some (Except.ok row, s1) ∧
      row = {} ∧
      s1.Rows = s.Rows.take index.toNat ++ [row] ++ s.Rows.drop index.toNat ∧
      s1.Rows.length = s.Rows.length + 1 ∧
      sliceIndex s1.Rows index = some row ∧
      (index = s.Rows.length → (row, s1) = s.AddRow) := by
  obtain ⟨n, rfl⟩ := Int.eq_ofNat_of_zero_le h0
  have hn : n ≤ s.Rows.length := by omega
  refine ⟨_, _, AddRowAtIndex_ok s n hn, rfl, ?_, ?_, ?_, ?_⟩
  · simp
  · simp; omega
  · rw [sliceIndex_natCast]
    have hl : (List.take n s.Rows).length = n := by simp [hn]
    simp only [List.append_assoc]
    rw [List.getElem?_append_right (by omega)]
    simp [hl]
  · intro hlen
    have hnl : n = s.Rows.length := by omega
    subst hnl
    simp [Sheet.AddRow]

/-- C2 at a concrete input: inserting at index 1 of the two-row sheet. -/
theorem AddRowAtIndex_inserts_witness :
    ∃ row s1, twoRowSheet.AddRowAtIndex 1 = some (Except.ok row, s1) ∧
      row = {} ∧
      s1.Rows = twoRowSheet.Rows.take (1 : Int).toNat ++ [row]
        ++ twoRowSheet.Rows.drop (1 : Int).toNat ∧
      s1.Rows.length = twoRowSheet.Rows.length + 1 ∧
      sliceIndex s1.Rows 1 = some row ∧
      ((1 : Int) = twoRowSheet.Rows.length → (row, s1) = twoRowSheet.AddRow) :=
  AddRowAtIndex_inserts twoRowSheet 1 (by decide) (by decide)

/-- C3: for every sheet and every integer index, `RemoveRowAtIndex` returns (it
does not panic) and the returned value is an error exactly when `index < 0` or
`index ≥ len(Rows)`; when it is an error the sheet is returned unchanged; on a
sheet with no rows it is always an error. -/
theorem RemoveRowAtIndex_error_iff (s : Sheet) (index : Int) :
    ∃ r s1, s.RemoveRowAtIndex index = some (r, s1) ∧
      ((∃ msg, r = Except.error msg) ↔ (index < 0 ∨ index ≥ s.Rows.length)) ∧
      ((∃ msg, r = Except.error msg) → s1 = s) ∧
      (s.Rows = [] → ∃ msg, r = Except.error msg) := by
  by_cases hg : index < 0 ∨ index ≥ s.Rows.length
  · refine ⟨Except.error "RemoveRowAtIndex: index out of bounds", s, ?_, ?_, fun _ => rfl,
      fun _ => ⟨_, rfl⟩⟩
    · unfold Sheet.RemoveRowAtIndex
      rw [if_pos hg]
    · exact ⟨fun _ => hg, fun _ => ⟨_, rfl⟩⟩
  · have h0 : 0 ≤ index := by omega
    obtain ⟨n, rfl⟩ := Int.eq_ofNat_of_zero_le h0
    have hn : n < s.Rows.length := by omega
    refine ⟨_, _, RemoveRowAtIndex_ok s n hn, ?_, ?_, ?_⟩
    · constructor
      · rintro ⟨msg, hmsg⟩
        cases hmsg
      · intro h
        exact absurd h hg
    · rintro ⟨msg, hmsg⟩
      cases hmsg
    · intro hnil
      rw [hnil] at hn
      exact absurd hn (by simp)

/-- C4: for `0 ≤ index < len(Rows)`, `RemoveRowAtIndex` succeeds; the new row
list is the old rows before `index` followed by the old rows after `index`, so
the length shrinks by one, the rows before `index` stay in place and the rows
after it move up by one position; no other field of the sheet is written. -/
theorem RemoveRowAtIndex_removes (s : Sheet) (index : Int)
    (h0 : 0 ≤ index) (h1 : index < s.Rows.length) :
    ∃ s1, s.RemoveRowAtIndex index = some (Except.ok (), s1) ∧
      s1 = { s with Rows := s.Rows.take index.toNat ++ s.Rows.drop (index.toNat + 1) } ∧
      s1.Rows.length + 1 = s.Rows.length ∧
      (∀ i : Nat, i < index.toNat → s1.Rows[i]? = s.Rows[i]?) ∧
      (∀ i : Nat, index.toNat ≤ i → s1.Rows[i]? = s.Rows[i + 1]?) := by
  obtain ⟨n, rfl⟩ := Int.eq_ofNat_of_zero_le h0
  have hn : n < s.Rows.length := by omega
  have hl : (List.take n s.Rows).length = n := by simp; omega
  refine ⟨_, RemoveRowAtIndex_ok s n hn, rfl, ?_, ?_, ?_⟩
  · simp; omega
  · intro i hi
    simp only [Int.toNat_ofNat] at hi
    rw [List.getElem?_append_left (by omega), List.getElem?_take_of_lt hi]
  · intro i hi
    simp only [Int.toNat_ofNat] at hi
    rw [List.getElem?_append_right (by omega), hl, List.getElem?_drop]
    congr 1
    omega

/-- C4 at a concrete input: removing index 0 of the two-row sheet. -/
theorem RemoveRowAtIndex_removes_witness :
    ∃ s1, twoRowSheet.RemoveRowAtIndex 0 = some (Except.ok (), s1) ∧
      s1 = { twoRowSheet with
        Rows := twoRowSheet.Rows.take (0 : Int).toNat
          ++ twoRowSheet.Rows.drop ((0 : Int).toNat + 1) } ∧
      s1.Rows.length + 1 = twoRowSheet.Rows.length ∧
      (∀ i : Nat, i < (0 : Int).toNat → s1.Rows[i]? = twoRowSheet.Rows[i]?) ∧
      (∀ i : Nat, (0 : Int).toNat ≤ i → s1.Rows[i]? = twoRowSheet.Rows[i + 1]?) :=
  RemoveRowAtIndex_removes twoRowSheet 0 (by decide) (by decide)

/-! ## Go integers -/

theorem wrapInt_eq (i : Int) (h0 : -2 ^ 63 ≤ i) (h1 : i < 2 ^ 63) : wrapInt i = i := by
  unfold wrapInt
  omega

theorem wrapInt_range (i : Int) : -2 ^ 63 ≤ wrapInt i ∧ wrapInt i < 2 ^ 63 := by
  unfold wrapInt
  omega

/-- Below `MaxInt64` the successor of a non-negative `int` is exact. -/
theorem wrapInt_succ (i : Int) (h0 : 0 ≤ i) (h1 : i < MaxInt64) : wrapInt (i + 1) = i + 1 := by
  unfold MaxInt64 at h1
  exact wrapInt_eq _ (by omega) (by omega)

/-- The successor of `MaxInt64` is the smallest `int`. -/
theorem wrapInt_MaxInt64 : wrapInt (MaxInt64 + 1) = -2 ^ 63 := by
  unfold wrapInt MaxInt64
  omega

/-! ## Column extension -/

theorem maybeAddColLoop_eq (n : Nat) (c : Int) (cols : List Col) :
    maybeAddColLoop n c cols = cols ++ (List.range n).map fun (k : Nat) => unitCol (c + (k : Int)) := by
  induction n generalizing c cols with
  | zero => simp [maybeAddColLoop]
  | succ n ih =>
    rw [maybeAddColLoop, ih, List.range_succ_eq_map]
    simp only [List.map_cons, List.map_map, List.append_assoc, List.singleton_append]
    congr 2
    · simp [unitCol]
    · apply List.map_congr_left
      intro k _
      simp only [Function.comp, Nat.cast_succ]
      congr 1
      ring

theorem maybeAddColLoop_length (n : Nat) (c : Int) (cols : List Col) :
    (maybeAddColLoop n c cols).length = cols.length + n := by
  simp [maybeAddColLoop_eq]

/-- The sheet after `maybeAddCol`, when the column list is in sync with `MaxCol`:
its columns are the old ones followed by unit columns numbered by their 1-based
position, and the list is in sync again. -/
theorem maybeAddCol_sync (s : Sheet) (cellCount : Int) (h : (s.Cols.length : Int) = s.MaxCol) :
    (s.maybeAddCol cellCount) =
      { s with
        Cols := s.Cols ++ (List.range (cellCount - s.MaxCol).toNat).map
                  fun (k : Nat) => unitCol ((s.Cols.length : Int) + 1 + (k : Int)),
        MaxCol := max s.MaxCol cellCount } ∧
    ((s.maybeAddCol cellCount).Cols.length : Int) = max s.MaxCol cellCount := by
  unfold Sheet.maybeAddCol
  by_cases hc : cellCount > s.MaxCol
  · simp only [hc, if_true, maybeAddColLoop_eq, h]
    refine ⟨?_, ?_⟩
    · rw [max_eq_right (le_of_lt hc)]
    · simp only [List.length_append, List.length_map, List.length_range]
      rw [max_eq_right (le_of_lt hc)]
      push_cast
      rw [Int.toNat_of_nonneg (by omega)]
      omega
  · have hz : (cellCount - s.MaxCol).toNat = 0 := by
      apply Int.toNat_eq_zero.mpr
      omega
    simp only [hc, if_false, hz, List.range_zero, List.map_nil, List.append_nil]
    rw [max_eq_left (by omega)]
    exact ⟨rfl, h⟩

/-- On a sheet with `len(Cols) == MaxCol` (a length that an `int` holds),
`Col(MaxInt64)` panics: `idx + 1` wraps around to the smallest `int`,
`maybeAddCol` adds nothing, and the index `s.Cols[MaxInt64]` is out of range. -/
theorem Col_MaxInt64 (s : Sheet) (hsync : (s.Cols.length : Int) = s.MaxCol)
    (hlen : (s.Cols.length : Int) ≤ MaxInt64) : s.Col MaxInt64 = none := by
  unfold Sheet.Col
  rw [wrapInt_MaxInt64]
  have hno : ¬ (-2 ^ 63 > s.MaxCol) := by omega
  simp only [Sheet.maybeAddCol, if_neg hno, sliceIndex]
  rw [if_neg (by omega)]
  rfl

/-- C8, as stated, fails at `idx == MaxInt64`: on the empty sheet (columns in
sync with `MaxCol`) the index is not negative, yet `Col(MaxInt64)` panics. -/
theorem Col_MaxInt64_counterexample :
    (emptySheet.Cols.length : Int) = emptySheet.MaxCol ∧ (0 : Int) ≤ MaxInt64 ∧
      emptySheet.Col MaxInt64 = none ∧
      ¬ ∃ col s1, emptySheet.Col MaxInt64 = some (col, s1) := by
  have hp : emptySheet.Col MaxInt64 = none := Col_MaxInt64 emptySheet (by decide) (by decide)
  refine ⟨by decide, by decide, hp, ?_⟩
  rintro ⟨col, s1, hs1⟩
  rw [hp] at hs1
  cases hs1

/-- C8, amended: on a sheet with `len(Cols) == MaxCol`, for every
`0 ≤ idx < MaxInt64` (so that `idx + 1` is an `int`), `Col(idx)`
returns (it does not panic) the column at position `idx`; afterwards
`len(Cols) == MaxCol == max(old MaxCol, idx + 1)`, every previously existing
column is unchanged at its position, each newly synthesized column at slice
position `i` is the unit column with `Min == Max == i + 1`, a fresh style, not
hidden and not collapsed, and no field other than `Cols` and `MaxCol` is
written. -/
theorem Col_spec (s : Sheet) (idx : Int) (hsync : (s.Cols.length : Int) = s.MaxCol)
    (hidx : 0 ≤ idx) (hmax : idx < MaxInt64) :
    ∃ col s1, s.Col idx = some (col, s1) ∧
      s1.Cols[idx.toNat]? = some col ∧
      (s1.Cols.length : Int) = s1.MaxCol ∧
      s1.MaxCol = max s.MaxCol (idx + 1) ∧
      (∀ i : Nat, i < s.Cols.length → s1.Cols[i]? = s.Cols[i]?) ∧
      (∀ i : Nat, s.Cols.length ≤ i → i < s1.Cols.length →
        s1.Cols[i]? = some (unitCol ((i : Int) + 1)) ∧
        (unitCol ((i : Int) + 1)).Min = (i : Int) + 1 ∧
        (unitCol ((i : Int) + 1)).Max = (i : Int) + 1 ∧
        (unitCol ((i : Int) + 1)).Hidden = false ∧
        (unitCol ((i : Int) + 1)).Collapsed = false) ∧
      s1 = { s with Cols := s1.Cols, MaxCol := s1.MaxCol } := by
  obtain ⟨n, rfl⟩ := Int.eq_ofNat_of_zero_le hidx
  have hw : wrapInt ((n : Int) + 1) = (n : Int) + 1 := wrapInt_succ _ hidx hmax
  obtain ⟨heq, hlen⟩ := maybeAddCol_sync s ((n : Int) + 1) hsync
  have hmax : (s.maybeAddCol ((n : Int) + 1)).MaxCol = max s.MaxCol ((n : Int) + 1) := by
    rw [heq]
  have hn : n < (s.maybeAddCol ((n : Int) + 1)).Cols.length := by
    have : (n : Int) + 1 ≤ max s.MaxCol ((n : Int) + 1) := le_max_right _ _
    omega
  have hget : (s.maybeAddCol ((n : Int) + 1)).Cols[n]?
      = some ((s.maybeAddCol ((n : Int) + 1)).Cols.get ⟨n, hn⟩) := by
    rw [List.getElem?_eq_getElem hn]
    rfl
  refine ⟨(s.maybeAddCol ((n : Int) + 1)).Cols.get ⟨n, hn⟩, s.maybeAddCol ((n : Int) + 1),
    ?_, ?_, ?_, hmax, ?_, ?_, ?_⟩
  · unfold Sheet.Col
    rw [hw]
    simp only [sliceIndex_natCast, hget, Option.map_some']
  · simp only [Int.toNat_ofNat]
    exact hget
  · rw [hlen, hmax]
  · intro i hi
    rw [heq]
    rw [List.getElem?_append_left hi]
  · intro i hlo hhi
    refine ⟨?_, rfl, rfl, rfl, rfl⟩
    have hcols : (s.maybeAddCol ((n : Int) + 1)).Cols = s.Cols ++
        (List.range ((n : Int) + 1 - s.MaxCol).toNat).map
          fun (k : Nat) => unitCol ((s.Cols.length : Int) + 1 + (k : Int)) := by
      rw [heq]
    rw [hcols] at hhi ⊢
    simp only [List.length_append, List.length_map, List.length_range] at hhi
    rw [List.getElem?_append_right hlo, List.getElem?_map, List.getElem?_range (by omega)]
    simp only [Option.map_some']
    have hpos : (s.Cols.length : Int) + 1 + ((i - s.Cols.length : Nat) : Int) = (i : Int) + 1 := by
      omega
    rw [hpos]
  · rw [heq]

/-- C8 (amended) at a concrete input: `Col(2)` on the empty sheet. -/
theorem Col_spec_witness :
    ∃ col s1, emptySheet.Col 2 = some (col, s1) ∧
      s1.Cols[(2 : Int).toNat]? = some col ∧
      (s1.Cols.length : Int) = s1.MaxCol ∧
      s1.MaxCol = max emptySheet.MaxCol (2 + 1) ∧
      (∀ i : Nat, i < emptySheet.Cols.length → s1.Cols[i]? = emptySheet.Cols[i]?) ∧
      (∀ i : Nat, emptySheet.Cols.length ≤ i → i < s1.Cols.length →
        s1.Cols[i]? = some (unitCol ((i : Int) + 1)) ∧
        (unitCol ((i : Int) + 1)).Min = (i : Int) + 1 ∧
        (unitCol ((i : Int) + 1)).Max = (i : Int) + 1 ∧
        (unitCol ((i : Int) + 1)).Hidden = false ∧
        (unitCol ((i : Int) + 1)).Collapsed = false) ∧
      s1 = { emptySheet with Cols := s1.Cols, MaxCol := s1.MaxCol } :=
  Col_spec emptySheet 2 (by decide) (by decide) (by decide)

/-! ## Column widths -/

/-- The width loop of `SetColWidth` from position `a`, given exactly the
iterations it needs and a stop bound within the column list: it returns, keeps
the length, and rewrites the width of exactly the columns in `[a, stop)`. -/
theorem setColWidthLoop_spec (w : Float64) (stop : Int) (n : Nat) :
    ∀ (a : Nat) (cols : List Col), stop ≤ cols.length → n = (stop - a).toNat →
    ∃ cols1, setColWidthLoop w stop n (a : Int) cols = some cols1 ∧
      cols1.length = cols.length ∧
      ∀ i : Nat, cols1[i]? = (cols[i]?).map fun c =>
        if (a : Int) ≤ i ∧ (i : Int) < stop then { c with Width := w } else c := by
  induction n with
  | zero =>
    intro a cols _ hn
    have hge : ¬ ((a : Int) < stop) := by omega
    refine ⟨cols, by simp [setColWidthLoop, hge], rfl, ?_⟩
    intro i
    have hf : ¬ ((a : Int) ≤ i ∧ (i : Int) < stop) := by omega
    simp only [hf, if_false]
    cases cols[i]? <;> rfl
  | succ n ih =>
    intro a cols hstop hn
    have hlt : (a : Int) < stop := by omega
    have ha : a < cols.length := by omega
    obtain ⟨cols1, hrun, hlen, hpt⟩ :=
      ih (a + 1) (cols.set a { cols[a] with Width := w }) (by simpa using hstop)
        (by push_cast; omega)
    refine ⟨cols1, ?_, by simpa using hlen, ?_⟩
    · rw [setColWidthLoop, if_pos hlt, sliceIndex_natCast, List.getElem?_eq_getElem ha]
      simp only [Option.some_bind]
      rw [sliceSet_natCast _ _ _ ha]
      simp only [Option.some_bind]
      have hcast : ((a : Int) + 1) = ((a + 1 : Nat) : Int) := by push_cast; rfl
      rw [hcast]
      exact hrun
    · intro i
      rw [hpt i]
      by_cases hia : i = a
      · subst hia
        have hf : ¬ (((i + 1 : Nat) : Int) ≤ i ∧ (i : Int) < stop) := by omega
        have ht : ((i : Int) ≤ i ∧ (i : Int) < stop) := by omega
        simp only [List.getElem?_set_self ha, List.getElem?_eq_getElem ha, Option.map_some']
        rw [if_neg hf, if_pos ht]
      · rw [List.getElem?_set_ne (fun h => hia h.symm)]
        have hiff : (((a + 1 : Nat) : Int) ≤ i ∧ (i : Int) < stop) ↔
            ((a : Int) ≤ i ∧ (i : Int) < stop) := by omega
        simp only [hiff]

/-- What `SetColWidth` computes on a sheet in sync, for `0 ≤ startcol ≤ endcol`:
with `end` the wrapped sum `endcol + 1`, it returns nil after `maybeAddCol(end)`
and the store of the width in the columns of `[startcol, end)`. -/
theorem SetColWidth_ok (s : Sheet) (a : Nat) (endcol : Int) (w : Float64)
    (hsync : (s.Cols.length : Int) = s.MaxCol) (hle : (a : Int) ≤ endcol) :
    ∃ cols1, s.SetColWidth (a : Int) endcol w =
        some (none, { s.maybeAddCol (wrapInt (endcol + 1)) with Cols := cols1 }) ∧
      cols1.length = (s.maybeAddCol (wrapInt (endcol + 1))).Cols.length ∧
      ∀ i : Nat, cols1[i]? = ((s.maybeAddCol (wrapInt (endcol + 1))).Cols[i]?).map fun c =>
        if (a : Int) ≤ i ∧ (i : Int) < wrapInt (endcol + 1) then { c with Width := w }
        else c := by
  obtain ⟨_, hlen⟩ := maybeAddCol_sync s (wrapInt (endcol + 1)) hsync
  have hstop : wrapInt (endcol + 1) ≤
      ((s.maybeAddCol (wrapInt (endcol + 1))).Cols.length : Int) := by
    rw [hlen]
    exact le_max_right _ _
  obtain ⟨cols1, hrun, hl, hpt⟩ :=
    setColWidthLoop_spec w (wrapInt (endcol + 1)) (wrapInt (endcol + 1) - (a : Int)).toNat a
      (s.maybeAddCol (wrapInt (endcol + 1))).Cols hstop rfl
  refine ⟨cols1, ?_, hl, hpt⟩
  unfold Sheet.SetColWidth
  rw [if_neg (by omega)]
  simp only [hrun, Option.map_some']

/-- On a sheet with `len(Cols) == MaxCol`, `SetColWidth(startcol, MaxInt64, w)`
returns nil and leaves the sheet as it was: `end` wraps around to the smallest
`int`, so no column is added and the loop body never runs. -/
theorem SetColWidth_MaxInt64 (s : Sheet) (startcol : Int) (w : Float64)
    (hsync : (s.Cols.length : Int) = s.MaxCol) (hmin : -2 ^ 63 ≤ startcol)
    (hle : startcol ≤ MaxInt64) :
    s.SetColWidth startcol MaxInt64 w = some (none, s) := by
  unfold Sheet.SetColWidth
  rw [if_neg (by omega), wrapInt_MaxInt64]
  have hno : ¬ (-2 ^ 63 > s.MaxCol) := by omega
  have hz : (-2 ^ 63 - startcol).toNat = 0 := Int.toNat_eq_zero.mpr (by omega)
  simp only [Sheet.maybeAddCol, if_neg hno, hz, setColWidthLoop]
  rw [if_neg (by omega)]
  rfl

/-- With a negative start of a non-inverted range that ends below `MaxInt64`
the first store of the width loop is out of range, whatever the sheet. -/
theorem SetColWidth_negative (s : Sheet) (startcol endcol : Int) (w : Float64)
    (hmin : -2 ^ 63 ≤ startcol) (hneg : startcol < 0) (hle : startcol ≤ endcol)
    (hmax : endcol < MaxInt64) :
    s.SetColWidth startcol endcol w = none := by
  have hw : wrapInt (endcol + 1) = endcol + 1 := by
    unfold MaxInt64 at hmax
    exact wrapInt_eq _ (by omega) (by omega)
  unfold Sheet.SetColWidth
  rw [if_neg (by omega), hw]
  obtain ⟨m, hm⟩ : ∃ m, (endcol + 1 - startcol).toNat = m + 1 :=
    ⟨(endcol + 1 - startcol).toNat - 1, by omega⟩
  simp only [hm]
  rw [setColWidthLoop, if_pos (by omega), sliceIndex_neg _ _ hneg]
  rfl

/-- C9, as stated, fails: on the empty sheet (columns in sync with `MaxCol`)
the range `-1 .. -1` is not inverted, yet `SetColWidth` does not complete
normally, the store `s.Cols[-1]` being out of range. -/
theorem SetColWidth_negative_counterexample :
    (emptySheet.Cols.length : Int) = emptySheet.MaxCol ∧ ¬ ((-1 : Int) > -1) ∧
      emptySheet.SetColWidth (-1) (-1) 15 = none ∧
      ¬ ∃ s1, emptySheet.SetColWidth (-1) (-1) 15 = some (none, s1) := by
  have hp : emptySheet.SetColWidth (-1) (-1) 15 = none := by decide
  refine ⟨by decide, by decide, hp, ?_⟩
  rintro ⟨s1, hs1⟩
  rw [hp] at hs1
  cases hs1

/-- C9, amended: on a sheet with `len(Cols) == MaxCol`, for all integers
`startcol > endcol` (negative ones included) `SetColWidth` returns an error and
leaves the sheet unchanged; for every `startcol ≥ 0` it returns, the returned
value is an error exactly when `startcol > endcol`, and for
`0 ≤ startcol ≤ endcol` it completes normally with no error. -/
theorem SetColWidth_error_iff (s : Sheet) (startcol endcol : Int) (w : Float64)
    (hsync : (s.Cols.length : Int) = s.MaxCol) :
    (startcol > endcol → ∃ msg, s.SetColWidth startcol endcol w = some (some msg, s)) ∧
    (0 ≤ startcol → ∃ e s1, s.SetColWidth startcol endcol w = some (e, s1) ∧
      ((∃ msg, e = some msg) ↔ startcol > endcol) ∧
      ((∃ msg, e = some msg) → s1 = s) ∧
      (startcol ≤ endcol → e = none)) := by
  have herr : startcol > endcol →
      ∃ msg, s.SetColWidth startcol endcol w = some (some msg, s) := by
    intro hgt
    unfold Sheet.SetColWidth
    rw [if_pos hgt]
    exact ⟨_, rfl⟩
  refine ⟨herr, ?_⟩
  intro h0
  by_cases hgt : startcol > endcol
  · obtain ⟨msg, hmsg⟩ := herr hgt
    refine ⟨some msg, s, hmsg, ⟨fun _ => hgt, fun _ => ⟨msg, rfl⟩⟩, fun _ => rfl, ?_⟩
    intro hle
    omega
  · obtain ⟨a, rfl⟩ := Int.eq_ofNat_of_zero_le h0
    obtain ⟨cols1, hrun, _, _⟩ := SetColWidth_ok s a endcol w hsync (by omega)
    refine ⟨none, _, hrun, ⟨?_, fun h => absurd h hgt⟩, ?_, fun _ => rfl⟩
    · rintro ⟨msg, hmsg⟩
      cases hmsg
    · rintro ⟨msg, hmsg⟩
      cases hmsg

/-- C9 (amended) at a concrete input: the empty sheet, columns 2 to 4. -/
theorem SetColWidth_error_iff_witness :
    ((2 : Int) > 4 → ∃ msg, emptySheet.SetColWidth 2 4 15 = some (some msg, emptySheet)) ∧
    ((0 : Int) ≤ 2 → ∃ e s1, emptySheet.SetColWidth 2 4 15 = some (e, s1) ∧
      ((∃ msg, e = some msg) ↔ (2 : Int) > 4) ∧
      ((∃ msg, e = some msg) → s1 = emptySheet) ∧
      ((2 : Int) ≤ 4 → e = none)) :=
  SetColWidth_error_iff emptySheet 2 4 15 (by decide)

/-- C10, as stated, fails at `endcol == MaxInt64`: on the empty sheet (columns
in sync with `MaxCol`), `SetColWidth(0, MaxInt64, 15)` returns nil and leaves
the sheet empty, so `MaxCol` is not `max(old MaxCol, endcol + 1)` and the
column at index 0 of the span does not exist, let alone have the width. -/
theorem SetColWidth_MaxInt64_counterexample :
    (emptySheet.Cols.length : Int) = emptySheet.MaxCol ∧ (0 : Int) ≤ 0 ∧ (0 : Int) ≤ MaxInt64 ∧
      emptySheet.SetColWidth 0 MaxInt64 15 = some (none, emptySheet) ∧
      emptySheet.MaxCol ≠ max emptySheet.MaxCol (MaxInt64 + 1) ∧
      emptySheet.Cols[0]? = none :=
  ⟨by decide, by decide, by decide,
    SetColWidth_MaxInt64 emptySheet 0 15 (by decide) (by decide) (by decide),
    by decide, rfl⟩

/-- C10, amended: on a sheet with `len(Cols) == MaxCol`, for
`0 ≤ startcol ≤ endcol < MaxInt64` (so that `endcol + 1` is an `int`),
`SetColWidth(startcol, endcol, w)` completes with
`MaxCol == len(Cols) == max(old MaxCol, endcol + 1)`; every column at an index
in `[startcol, endcol]` has `Width == w`; every pre-existing column outside the
span is unchanged, every new column outside the span is the fresh unit column
(width zero); a pre-existing column differs from its old value in `Width` at
most; the rows and every other field of the sheet are untouched.  On the empty
sheet, `SetColWidth(2, 4, 15)` gives `MaxCol = 5` and the widths
`0, 0, 15, 15, 15`. -/
theorem SetColWidth_frame (s : Sheet) (startcol endcol : Int) (w : Float64)
    (hsync : (s.Cols.length : Int) = s.MaxCol) (h0 : 0 ≤ startcol) (hle : startcol ≤ endcol)
    (hmax : endcol < MaxInt64) :
    (∃ s1, s.SetColWidth startcol endcol w = some (none, s1) ∧
      s1.MaxCol = (s1.Cols.length : Int) ∧
      s1.MaxCol = max s.MaxCol (endcol + 1) ∧
      (∀ i : Nat, startcol ≤ i → (i : Int) ≤ endcol →
        ∃ c, s1.Cols[i]? = some c ∧ c.Width = w) ∧
      (∀ i : Nat, i < s.Cols.length → ¬ (startcol ≤ i ∧ (i : Int) ≤ endcol) →
        s1.Cols[i]? = s.Cols[i]?) ∧
      (∀ i : Nat, s.Cols.length ≤ i → i < s1.Cols.length →
        ¬ (startcol ≤ i ∧ (i : Int) ≤ endcol) →
        s1.Cols[i]? = some (unitCol ((i : Int) + 1))) ∧
      (∀ (i : Nat) (c : Col), s.Cols[i]? = some c →
        ∃ c1, s1.Cols[i]? = some c1 ∧ { c1 with Width := c.Width } = c) ∧
      s1.Rows = s.Rows ∧
      s1 = { s with Cols := s1.Cols, MaxCol := s1.MaxCol }) ∧
    (emptySheet.SetColWidth 2 4 15).map (fun p => (p.1, p.2.MaxCol, p.2.Cols.map (·.Width)))
      = some (none, 5, [0, 0, 15, 15, 15]) := by
  refine ⟨?_, by decide⟩
  obtain ⟨a, rfl⟩ := Int.eq_ofNat_of_zero_le h0
  have hw : wrapInt (endcol + 1) = endcol + 1 := wrapInt_succ _ (by omega) hmax
  obtain ⟨cols1, hrun, hl, hpt0⟩ := SetColWidth_ok s a endcol w hsync hle
  rw [hw] at hrun hl hpt0
  have hpt : ∀ i : Nat, cols1[i]? = ((s.maybeAddCol (endcol + 1)).Cols[i]?).map fun c =>
      if (a : Int) ≤ i ∧ (i : Int) ≤ endcol then { c with Width := w } else c := by
    intro i
    rw [hpt0 i]
    have hiff : ((a : Int) ≤ i ∧ (i : Int) < endcol + 1) ↔ ((a : Int) ≤ i ∧ (i : Int) ≤ endcol) := by
      omega
    simp only [hiff]
  obtain ⟨heq, hlen⟩ := maybeAddCol_sync s (endcol + 1) hsync
  have hmax : (s.maybeAddCol (endcol + 1)).MaxCol = max s.MaxCol (endcol + 1) := by
    rw [heq]
  have hcols : (s.maybeAddCol (endcol + 1)).Cols = s.Cols ++
      (List.range (endcol + 1 - s.MaxCol).toNat).map
        fun (k : Nat) => unitCol ((s.Cols.length : Int) + 1 + (k : Int)) := by
    rw [heq]
  have hold : ∀ i : Nat, i < s.Cols.length →
      (s.maybeAddCol (endcol + 1)).Cols[i]? = s.Cols[i]? := by
    intro i hi
    rw [hcols, List.getElem?_append_left hi]
  have hnew : ∀ i : Nat, s.Cols.length ≤ i → i < (s.maybeAddCol (endcol + 1)).Cols.length →
      (s.maybeAddCol (endcol + 1)).Cols[i]? = some (unitCol ((i : Int) + 1)) := by
    intro i hlo hhi
    rw [hcols] at hhi ⊢
    simp only [List.length_append, List.length_map, List.length_range] at hhi
    rw [List.getElem?_append_right hlo, List.getElem?_map, List.getElem?_range (by omega)]
    simp only [Option.map_some']
    have hpos : (s.Cols.length : Int) + 1 + ((i - s.Cols.length : Nat) : Int) = (i : Int) + 1 := by
      omega
    rw [hpos]
  refine ⟨_, hrun, ?_, hmax, ?_, ?_, ?_, ?_, ?_, ?_⟩
  · show (s.maybeAddCol (endcol + 1)).MaxCol = (cols1.length : Int)
    rw [hl, hlen, hmax]
  · intro i hlo hhi
    have hi : i < (s.maybeAddCol (endcol + 1)).Cols.length := by
      have : endcol + 1 ≤ max s.MaxCol (endcol + 1) := le_max_right _ _
      omega
    refine ⟨{ (s.maybeAddCol (endcol + 1)).Cols[i] with Width := w }, ?_, rfl⟩
    show cols1[i]? = _
    rw [hpt i, List.getElem?_eq_getElem hi]
    simp only [Option.map_some']
    rw [if_pos ⟨hlo, hhi⟩]
  · intro i hi hout
    show cols1[i]? = _
    rw [hpt i, hold i hi]
    simp only [hout, if_false]
    cases s.Cols[i]? <;> rfl
  · intro i hlo hhi hout
    have hhi1 : i < (s.maybeAddCol (endcol + 1)).Cols.length := by
      have : i < cols1.length := hhi
      omega
    show cols1[i]? = _
    rw [hpt i, hnew i hlo hhi1]
    simp only [hout, if_false, Option.map_some']
  · intro i c hc
    have hi : i < s.Cols.length := by
      rcases Nat.lt_or_ge i s.Cols.length with h | h
      · exact h
      · rw [List.getElem?_eq_none h] at hc
        cases hc
    show ∃ c1, cols1[i]? = some c1 ∧ _
    rw [hpt i, hold i hi, hc]
    simp only [Option.map_some']
    by_cases hin : (a : Int) ≤ i ∧ (i : Int) ≤ endcol
    · rw [if_pos hin]
      exact ⟨_, rfl, rfl⟩
    · rw [if_neg hin]
      exact ⟨_, rfl, rfl⟩
  · show (s.maybeAddCol (endcol + 1)).Rows = s.Rows
    rw [heq]
  · rw [heq]

/-- C10 (amended) at a concrete input: the empty sheet, columns 2 to 4, width 15. -/
theorem SetColWidth_frame_witness :
    (∃ s1, emptySheet.SetColWidth 2 4 15 = some (none, s1) ∧
      s1.MaxCol = (s1.Cols.length : Int) ∧
      s1.MaxCol = max emptySheet.MaxCol (4 + 1) ∧
      (∀ i : Nat, (2 : Int) ≤ i → (i : Int) ≤ 4 →
        ∃ c, s1.Cols[i]? = some c ∧ c.Width = 15) ∧
      (∀ i : Nat, i < emptySheet.Cols.length → ¬ ((2 : Int) ≤ i ∧ (i : Int) ≤ 4) →
        s1.Cols[i]? = emptySheet.Cols[i]?) ∧
      (∀ i : Nat, emptySheet.Cols.length ≤ i → i < s1.Cols.length →
        ¬ ((2 : Int) ≤ i ∧ (i : Int) ≤ 4) →
        s1.Cols[i]? = some (unitCol ((i : Int) + 1))) ∧
      (∀ (i : Nat) (c : Col), emptySheet.Cols[i]? = some c →
        ∃ c1, s1.Cols[i]? = some c1 ∧ { c1 with Width := c.Width } = c) ∧
      s1.Rows = emptySheet.Rows ∧
      s1 = { emptySheet with Cols := s1.Cols, MaxCol := s1.MaxCol }) ∧
    (emptySheet.SetColWidth 2 4 15).map (fun p => (p.1, p.2.MaxCol, p.2.Cols.map (·.Width)))
      = some (none, 5, [0, 0, 15, 15, 15]) :=
  SetColWidth_frame emptySheet 2 4 15 (by decide) (by decide) (by decide) (by decide)

/-! ## Lazy cell access -/

theorem set_of_getElem? {α : Type} (l : List α) (i : Nat) (a : α) (h : l[i]? = some a) :
    l.set i a = l := by
  apply List.ext_getElem?
  intro j
  by_cases hij : i = j
  · subst hij
    rw [List.getElem?_set_self' , h]
    rfl
  · rw [List.getElem?_set_ne hij]

theorem maybeAddCol_Rows (s : Sheet) (k : Int) : (s.maybeAddCol k).Rows = s.Rows := by
  unfold Sheet.maybeAddCol
  split <;> rfl

theorem maybeAddCol_MaxRow (s : Sheet) (k : Int) : (s.maybeAddCol k).MaxRow = s.MaxRow := by
  unfold Sheet.maybeAddCol
  split <;> rfl

theorem maybeAddCol_MaxCol (s : Sheet) (k : Int) : (s.maybeAddCol k).MaxCol = max s.MaxCol k := by
  unfold Sheet.maybeAddCol
  split
  · rename_i h
    exact (max_eq_right (le_of_lt h)).symm
  · rename_i h
    exact (max_eq_left (by omega)).symm

/-- The row loop of `Sheet.Cell`, given exactly the iterations it needs. -/
theorem cellRowLoop_spec (row : Int) (n : Nat) :
    ∀ sh : Sheet, n = (row + 1 - sh.Rows.length).toNat →
    cellRowLoop row n sh = some { sh with
      Rows := sh.Rows ++ List.replicate n {},
      MaxRow := if n = 0 then sh.MaxRow else max sh.MaxRow ((sh.Rows.length : Int) + n) } := by
  induction n with
  | zero =>
    intro sh hn
    have hc : ¬ ((sh.Rows.length : Int) ≤ row) := by omega
    simp [cellRowLoop, hc]
  | succ n ih =>
    intro sh hn
    have hc : (sh.Rows.length : Int) ≤ row := by omega
    rw [cellRowLoop, if_pos hc, ih sh.AddRow.2 (by simp [Sheet.AddRow]; omega)]
    simp only [Sheet.AddRow, List.length_append, List.length_singleton, List.append_assoc,
      List.singleton_append, Nat.succ_ne_zero, if_false, List.replicate_succ]
    congr 2
    by_cases hn0 : n = 0
    · subst hn0
      simp only [if_true]
      split
      · rename_i h
        rw [max_eq_right (by push_cast at h ⊢; omega)]
        push_cast
        ring
      · rename_i h
        rw [max_eq_left (by push_cast at h ⊢; omega)]
    · simp only [hn0, if_false]
      split
      · rename_i h
        push_cast at h ⊢
        rw [max_eq_right (by omega), max_eq_right (by omega)]
        ring
      · rename_i h
        push_cast at h ⊢
        congr 1
        ring

/-- What the modelled `Row.AddCell` computes on an existing row. -/
theorem Row_AddCell_ok (sh : Sheet) (ri : Nat) (r : Xlsx.Row) (h : sh.Rows[ri]? = some r) :
    Row.AddCell sh (ri : Int) = some ({},
      Sheet.maybeAddCol
        { sh with Rows := sh.Rows.set ri { r with Cells := r.Cells ++ [{}] } }
        ((r.Cells ++ [({} : Cell)]).length : Nat)) := by
  have hlt : ri < sh.Rows.length := by
    rcases Nat.lt_or_ge ri sh.Rows.length with hl | hl
    · exact hl
    · rw [List.getElem?_eq_none hl] at h
      cases h
  unfold Row.AddCell
  rw [sliceIndex_natCast, h]
  simp only [Option.some_bind]
  rw [sliceSet_natCast _ _ _ hlt]
  rfl

/-- The cell loop of `Sheet.Cell` on the row at position `ri`, given exactly
the iterations it needs: it returns, and only that row changes, by `n` default
cells appended; `MaxRow` is kept and `MaxCol` covers the new cells. -/
theorem cellColLoop_spec (ri : Nat) (col : Int) (n : Nat) :
    ∀ (sh : Sheet) (r : Xlsx.Row), sh.Rows[ri]? = some r →
    n = (col + 1 - r.Cells.length).toNat →
    ∃ sh1, cellColLoop (ri : Int) col n sh = some sh1 ∧
      sh1.Rows = sh.Rows.set ri { r with Cells := r.Cells ++ List.replicate n {} } ∧
      sh1.MaxRow = sh.MaxRow ∧
      sh.MaxCol ≤ sh1.MaxCol ∧
      (n ≠ 0 → col + 1 ≤ sh1.MaxCol) := by
  induction n with
  | zero =>
    intro sh r hr hn
    have hc : ¬ ((r.Cells.length : Int) ≤ col) := by omega
    refine ⟨sh, ?_, ?_, rfl, le_refl _, fun h => absurd rfl h⟩
    · rw [cellColLoop, sliceIndex_natCast, hr]
      simp only [Option.some_bind, hc, if_false]
    · simp only [List.replicate_zero, List.append_nil]
      exact (set_of_getElem? _ _ _ hr).symm
  | succ n ih =>
    intro sh r hr hn
    have hc : (r.Cells.length : Int) ≤ col := by omega
    have hlt : ri < sh.Rows.length := by
      rcases Nat.lt_or_ge ri sh.Rows.length with hl | hl
      · exact hl
      · rw [List.getElem?_eq_none hl] at hr
        cases hr
    have hrow : (Sheet.maybeAddCol
        { sh with Rows := sh.Rows.set ri { r with Cells := r.Cells ++ [{}] } }
        ((r.Cells ++ [({} : Cell)]).length : Nat)).Rows[ri]?
          = some { r with Cells := r.Cells ++ [{}] } := by
      rw [maybeAddCol_Rows]
      exact List.getElem?_set_self hlt
    obtain ⟨sh1, hrun, hrows, hmaxrow, hmono, hlast⟩ :=
      ih _ { r with Cells := r.Cells ++ [{}] } hrow (by simp; omega)
    refine ⟨sh1, ?_, ?_, ?_, ?_, ?_⟩
    · rw [cellColLoop, sliceIndex_natCast, hr]
      simp only [Option.some_bind, hc, if_true]
      rw [Row_AddCell_ok sh ri r hr]
      simp only [Option.some_bind]
      exact hrun
    · rw [hrows, maybeAddCol_Rows]
      simp only [List.set_set, List.append_assoc, List.singleton_append, List.replicate_succ]
    · rw [hmaxrow, maybeAddCol_MaxRow]
    · refine le_trans ?_ hmono
      rw [maybeAddCol_MaxCol]
      exact le_max_left _ _
    · intro _
      by_cases hn0 : n = 0
      · subst hn0
        refine le_trans ?_ hmono
        rw [maybeAddCol_MaxCol]
        refine le_trans ?_ (le_max_right _ _)
        simp only [List.length_append, List.length_singleton]
        push_cast
        omega
      · exact hlast hn0

/-- C7: for every sheet and all `row ≥ 0`, `col ≥ 0`, `Cell(row, col)` returns
(it does not panic) the cell at `Rows[row].Cells[col]`; afterwards
`len(Rows) = max(old len(Rows), row + 1)` and
`len(Rows[row].Cells) = max(old length, col + 1)`; the row list is the old one,
padded with empty rows up to `row`, with the row at `row` replaced by its old
value (an empty row when it is new) followed by default cells; so every other
old row is unchanged, the rows created in between hold no cells, the old cells
of the row keep their positions and every created cell is default-constructed.
On the empty sheet `Cell(5, 3)` gives 6 rows, `MaxRow == 6` and `MaxCol ≥ 4`. -/
theorem Cell_spec (s : Sheet) (row col : Int) (hr : 0 ≤ row) (hc : 0 ≤ col) :
    (∃ cell s1 r1, s.Cell row col = some (cell, s1) ∧
      s1.Rows[row.toNat]? = some r1 ∧ r1.Cells[col.toNat]? = some cell ∧
      s1.Rows.length = max s.Rows.length (row.toNat + 1) ∧
      r1.Cells.length = max ((s.Rows[row.toNat]?).getD ({} : Xlsx.Row)).Cells.length (col.toNat + 1) ∧
      s1.Rows = (s.Rows ++ List.replicate (row.toNat + 1 - s.Rows.length) ({} : Xlsx.Row)).set row.toNat r1 ∧
      r1 = { (s.Rows[row.toNat]?).getD ({} : Xlsx.Row) with
        Cells := ((s.Rows[row.toNat]?).getD ({} : Xlsx.Row)).Cells ++
          List.replicate (col.toNat + 1 - ((s.Rows[row.toNat]?).getD ({} : Xlsx.Row)).Cells.length) ({} : Cell) } ∧
      (∀ i : Nat, i < s.Rows.length → i ≠ row.toNat → s1.Rows[i]? = s.Rows[i]?) ∧
      (∀ i : Nat, s.Rows.length ≤ i → i < row.toNat → s1.Rows[i]? = some ({} : Xlsx.Row)) ∧
      (∀ j : Nat, j < ((s.Rows[row.toNat]?).getD ({} : Xlsx.Row)).Cells.length →
        r1.Cells[j]? = ((s.Rows[row.toNat]?).getD ({} : Xlsx.Row)).Cells[j]?) ∧
      (∀ j : Nat, ((s.Rows[row.toNat]?).getD ({} : Xlsx.Row)).Cells.length ≤ j → j ≤ col.toNat →
        r1.Cells[j]? = some ({} : Cell)) ∧
      s1.MaxRow = (if s.Rows.length ≤ row.toNat
        then max s.MaxRow ((row.toNat : Int) + 1) else s.MaxRow)) ∧
    (emptySheet.Cell 5 3).map
        (fun p => (p.2.Rows.length, p.2.Rows.map (·.Cells.length), p.2.MaxRow,
          decide (4 ≤ p.2.MaxCol), decide (p.1 = {})))
      = some (6, [0, 0, 0, 0, 0, 4], 6, true, true) := by
  refine ⟨?_, by decide⟩
  obtain ⟨ri, rfl⟩ := Int.eq_ofNat_of_zero_le hr
  obtain ⟨ci, rfl⟩ := Int.eq_ofNat_of_zero_le hc
  simp only [Int.toNat_ofNat]
  have hn1 : (((ri : Int) + 1 - s.Rows.length).toNat) = ri + 1 - s.Rows.length := by omega
  have h1 := cellRowLoop_spec (ri : Int) _ s rfl
  rw [hn1] at h1
  generalize hold : (s.Rows[ri]?).getD ({} : Xlsx.Row) = old
  have hrow1 : (s.Rows ++ List.replicate (ri + 1 - s.Rows.length) ({} : Xlsx.Row))[ri]?
      = some old := by
    rcases Nat.lt_or_ge ri s.Rows.length with hlt | hge
    · rw [List.getElem?_append_left hlt, ← hold, List.getElem?_eq_getElem hlt]
      rfl
    · rw [List.getElem?_append_right hge, List.getElem?_replicate_of_lt (by omega), ← hold,
        List.getElem?_eq_none hge]
      rfl
  have hlen1 : (s.Rows ++ List.replicate (ri + 1 - s.Rows.length) ({} : Xlsx.Row)).length
      = max s.Rows.length (ri + 1) := by
    simp only [List.length_append, List.length_replicate]
    omega
  have hn2 : (((ci : Int) + 1 - old.Cells.length).toNat) = ci + 1 - old.Cells.length := by omega
  obtain ⟨sh2, hrun2, hrows2, hmaxrow2, _, _⟩ :=
    cellColLoop_spec ri (ci : Int) _
      { s with
        Rows := s.Rows ++ List.replicate (ri + 1 - s.Rows.length) {},
        MaxRow := if ri + 1 - s.Rows.length = 0 then s.MaxRow
          else max s.MaxRow ((s.Rows.length : Int) + (ri + 1 - s.Rows.length : Nat)) }
      old hrow1 rfl
  rw [hn2] at hrun2 hrows2
  simp only at hrows2 hmaxrow2
  have hri : ri < (s.Rows ++ List.replicate (ri + 1 - s.Rows.length) ({} : Xlsx.Row)).length := by
    rw [hlen1]
    omega
  have hrow2 : sh2.Rows[ri]?
      = some { old with Cells := old.Cells ++ List.replicate (ci + 1 - old.Cells.length) {} } := by
    rw [hrows2]
    exact List.getElem?_set_self hri
  have hclen : (old.Cells ++ List.replicate (ci + 1 - old.Cells.length) ({} : Cell)).length
      = max old.Cells.length (ci + 1) := by
    simp only [List.length_append, List.length_replicate]
    omega
  have hci : ci < (old.Cells ++ List.replicate (ci + 1 - old.Cells.length) ({} : Cell)).length := by
    rw [hclen]
    omega
  refine ⟨(old.Cells ++ List.replicate (ci + 1 - old.Cells.length) ({} : Cell)).get ⟨ci, hci⟩,
    sh2, { old with Cells := old.Cells ++ List.replicate (ci + 1 - old.Cells.length) {} },
    ?_, hrow2, ?_, ?_, hclen, hrows2, rfl, ?_, ?_, ?_, ?_, ?_⟩
  · unfold Sheet.Cell
    rw [hn1, h1]
    simp only [Option.some_bind]
    rw [sliceIndex_natCast, hrow1]
    simp only [Option.some_bind]
    rw [hn2, hrun2]
    simp only [Option.some_bind]
    rw [sliceIndex_natCast, hrow2]
    simp only [Option.some_bind]
    rw [sliceIndex_natCast, List.getElem?_eq_getElem hci]
    rfl
  · rw [List.getElem?_eq_getElem hci]
    rfl
  · rw [hrows2, List.length_set, hlen1]
  · intro i hi hne
    rw [hrows2, List.getElem?_set_ne (fun h => hne h.symm), List.getElem?_append_left hi]
  · intro i hlo hhi
    rw [hrows2, List.getElem?_set_ne (by omega), List.getElem?_append_right hlo,
      List.getElem?_replicate_of_lt (by omega)]
  · intro j hj
    exact List.getElem?_append_left hj
  · intro j hlo hhi
    show (old.Cells ++ List.replicate (ci + 1 - old.Cells.length) ({} : Cell))[j]? = some {}
    rw [List.getElem?_append_right hlo, List.getElem?_replicate_of_lt (by omega)]
  · rw [hmaxrow2]
    by_cases hle : s.Rows.length ≤ ri
    · have hne : ¬ (ri + 1 - s.Rows.length = 0) := by omega
      rw [if_neg hne, if_pos hle]
      congr 1
      omega
    · have he : ri + 1 - s.Rows.length = 0 := by omega
      rw [if_pos he, if_neg hle]

/-- C7 at a concrete input: `Cell(5, 3)` on the empty sheet. -/
theorem Cell_spec_witness :
    ∃ cell s1, emptySheet.Cell 5 3 = some (cell, s1) ∧
      s1.Rows.length = 6 ∧ s1.MaxRow = 6 ∧ 4 ≤ s1.MaxCol := by
  obtain ⟨_, hconc⟩ := Cell_spec emptySheet 5 3 (by decide) (by decide)
  cases hcell : emptySheet.Cell 5 3 with
  | none =>
    rw [hcell] at hconc
    cases hconc
  | some p =>
    rw [hcell] at hconc
    simp only [Option.map_some', Option.some.injEq, Prod.mk.injEq, decide_eq_true_eq] at hconc
    exact ⟨p.1, p.2, rfl, hconc.1, hconc.2.2.1, hconc.2.2.2.1⟩

/-! ## The `MaxRow` bound and `Row` -/

theorem maybeAddRowLoop_eq (n : Nat) (rows : List Xlsx.Row) :
    maybeAddRowLoop n rows = rows ++ List.replicate n ({} : Xlsx.Row) := by
  induction n generalizing rows with
  | zero => simp [maybeAddRowLoop]
  | succ n ih =>
    rw [maybeAddRowLoop, ih]
    simp [List.replicate_succ]

/-- `AddRow` keeps `MaxRow == len(Rows)`. -/
theorem AddRow_sync (s : Sheet) (hsync : s.MaxRow = s.Rows.length) :
    s.AddRow.2.MaxRow = s.AddRow.2.Rows.length := by
  simp only [Sheet.AddRow, List.length_append, List.length_singleton]
  rw [if_pos (by omega)]

/-- `AddRowAtIndex` keeps `MaxRow == len(Rows)`, on success and on error. -/
theorem AddRowAtIndex_sync (s : Sheet) (index : Int) (hsync : s.MaxRow = s.Rows.length) :
    ∃ r s1, s.AddRowAtIndex index = some (r, s1) ∧ s1.MaxRow = s1.Rows.length := by
  by_cases hg : index < 0 ∨ index > s.Rows.length
  · refine ⟨Except.error "AddRowAtIndex: index out of bounds", s, ?_, hsync⟩
    unfold Sheet.AddRowAtIndex
    rw [if_pos hg]
  · have h0 : 0 ≤ index := by omega
    obtain ⟨n, rfl⟩ := Int.eq_ofNat_of_zero_le h0
    have hn : n ≤ s.Rows.length := by omega
    refine ⟨_, _, AddRowAtIndex_ok s n hn, ?_⟩
    simp only [List.length_append, List.length_take, List.length_singleton, List.length_drop]
    rw [if_pos (by omega)]
    push_cast
    omega

/-- On a sheet with `MaxRow == len(Rows)`, `Row(idx)` for `0 ≤ idx < MaxInt64`
returns the row at `idx`, after padding the rows with empty ones up to `idx`,
and keeps `MaxRow == len(Rows)`. -/
theorem Row_of_sync (s : Sheet) (idx : Int) (hsync : s.MaxRow = s.Rows.length) (h0 : 0 ≤ idx)
    (hmax : idx < MaxInt64) :
    ∃ row s1, s.Row idx = some (row, s1) ∧ s1.Rows[idx.toNat]? = some row ∧
      s1.Rows = s.Rows ++ List.replicate (idx.toNat + 1 - s.Rows.length) ({} : Xlsx.Row) ∧
      s1.MaxRow = s1.Rows.length := by
  obtain ⟨n, rfl⟩ := Int.eq_ofNat_of_zero_le h0
  have hw : wrapInt ((n : Int) + 1) = (n : Int) + 1 := wrapInt_succ _ h0 hmax
  simp only [Int.toNat_ofNat]
  have hm : s.maybeAddRow ((n : Int) + 1) = { s with
      Rows := s.Rows ++ List.replicate (n + 1 - s.Rows.length) ({} : Xlsx.Row),
      MaxRow := max s.MaxRow ((n : Int) + 1) } := by
    unfold Sheet.maybeAddRow
    by_cases hc : (n : Int) + 1 > s.MaxRow
    · have hk : ((n : Int) + 1 - s.MaxRow).toNat = n + 1 - s.Rows.length := by omega
      simp only [hc, if_true, maybeAddRowLoop_eq, hk]
      rw [max_eq_right (le_of_lt hc)]
    · have hk : n + 1 - s.Rows.length = 0 := by omega
      simp only [hc, if_false, hk, List.replicate_zero, List.append_nil]
      rw [max_eq_left (by omega)]
  have hlen : (s.Rows ++ List.replicate (n + 1 - s.Rows.length) ({} : Xlsx.Row)).length
      = max s.Rows.length (n + 1) := by
    simp only [List.length_append, List.length_replicate]
    omega
  have hn : n < (s.Rows ++ List.replicate (n + 1 - s.Rows.length) ({} : Xlsx.Row)).length := by
    rw [hlen]
    omega
  refine ⟨(s.Rows ++ List.replicate (n + 1 - s.Rows.length) ({} : Xlsx.Row)).get ⟨n, hn⟩,
    s.maybeAddRow ((n : Int) + 1), ?_, ?_, ?_, ?_⟩
  · unfold Sheet.Row
    rw [hw]
    simp only [hm, sliceIndex_natCast, List.getElem?_eq_getElem hn, Option.map_some']
    rfl
  · rw [hm]
    simp only [List.getElem?_eq_getElem hn]
    rfl
  · rw [hm]
  · rw [hm]
    simp only [hlen, hsync]
    push_cast
    rfl

/-- A successful `RemoveRowAtIndex` on a sheet with `MaxRow == len(Rows)`
leaves `MaxRow` one above the new number of rows. -/
theorem RemoveRowAtIndex_MaxRow (s : Sheet) (index : Int) (hsync : s.MaxRow = s.Rows.length)
    (h0 : 0 ≤ index) (h1 : index < s.Rows.length) :
    ∃ s1, s.RemoveRowAtIndex index = some (Except.ok (), s1) ∧
      s1.MaxRow = (s1.Rows.length : Int) + 1 := by
  obtain ⟨n, rfl⟩ := Int.eq_ofNat_of_zero_le h0
  have hn : n < s.Rows.length := by omega
  refine ⟨_, RemoveRowAtIndex_ok s n hn, ?_⟩
  simp only [List.length_append, List.length_take, List.length_drop]
  push_cast
  omega

/-- C5 at its failing input: the two-row sheet has `MaxRow == len(Rows) == 2`;
`RemoveRowAtIndex(0)` succeeds and leaves one row with `MaxRow` still 2, so
`MaxRow == len(Rows)` no longer holds. -/
theorem RemoveRowAtIndex_MaxRow_stale :
    twoRowSheet.MaxRow = twoRowSheet.Rows.length ∧
    ∃ s1, twoRowSheet.RemoveRowAtIndex 0 = some (Except.ok (), s1) ∧
      s1.Rows.length = 1 ∧ s1.MaxRow = 2 ∧ s1.MaxRow ≠ s1.Rows.length := by
  refine ⟨by decide, { twoRowSheet with Rows := [{ isCustom := true }] }, rfl, rfl, rfl, ?_⟩
  decide

/-- C6 at its failing input: from the empty sheet, `AddRow` and then
`RemoveRowAtIndex(0)` give a sheet with no rows and `MaxRow == 1`; on it
`Row(0)` adds no row (`1 > MaxRow` is false) and the index `s.Rows[0]` is out
of range, while `Cell(0, 0)`, which tests `len(Rows)`, still succeeds. -/
theorem Row_panics_after_RemoveRowAtIndex :
    ∃ s2, emptySheet.AddRow.2.RemoveRowAtIndex 0 = some (Except.ok (), s2) ∧
      s2.Rows = [] ∧ s2.MaxRow = 1 ∧ s2.Row 0 = none ∧ (s2.Cell 0 0).isSome = true := by
  refine ⟨{ emptySheet with MaxRow := 1 }, rfl, rfl, rfl, by decide, by decide⟩

/-! ## The coordinate codec round trip -/

theorem letterChar_toNat : ∀ k, k < 26 → (Char.ofNat (65 + k)).toNat = 65 + k := by decide

theorem digitChar_toNat : ∀ k, k < 10 → (Char.ofNat (48 + k)).toNat = 48 + k := by decide

theorem lettersValue_snoc (l : List Char) (c : Char) :
    lettersValue (l ++ [c]) = lettersValue l * 26 + (c.toNat - 64) := by
  simp [lettersValue, List.foldl_append]

theorem digitsValue_snoc (l : List Char) (c : Char) :
    digitsValue (l ++ [c]) = digitsValue l * 10 + (c.toNat - 48) := by
  simp [digitsValue, List.foldl_append]

/-- The letters of a column index: their value is the index plus one, they are
upper-case letters, and there is at least one. -/
theorem colLettersAux_spec (fuel : Nat) : ∀ n, n < fuel →
    lettersValue (colLettersAux fuel n) = n + 1 ∧
    (colLettersAux fuel n).all isUpperAZ = true ∧ colLettersAux fuel n ≠ [] := by
  induction fuel with
  | zero => intro n h; omega
  | succ fuel ih =>
    intro n hn
    rw [colLettersAux]
    by_cases h26 : n < 26
    · rw [if_pos h26]
      refine ⟨?_, ?_, by simp⟩
      · simp [lettersValue, letterChar_toNat n h26]
        omega
      · simp [isUpperAZ, letterChar_toNat n h26]; omega
    · rw [if_neg h26]
      obtain ⟨hv, hall, _⟩ := ih (n / 26 - 1) (by omega)
      have hm : n % 26 < 26 := Nat.mod_lt _ (by decide)
      refine ⟨?_, ?_, by simp⟩
      · rw [lettersValue_snoc, hv, letterChar_toNat _ hm]
        omega
      · rw [List.all_append, hall]
        simp [isUpperAZ, letterChar_toNat _ hm]; omega

/-- The decimal digits of a number: their value is the number, they are
digits, and there is at least one. -/
theorem decDigitsAux_spec (fuel : Nat) : ∀ n, n < fuel →
    digitsValue (decDigitsAux fuel n) = n ∧
    (decDigitsAux fuel n).all isDigit09 = true ∧ decDigitsAux fuel n ≠ [] := by
  induction fuel with
  | zero => intro n h; omega
  | succ fuel ih =>
    intro n hn
    rw [decDigitsAux]
    by_cases h10 : n < 10
    · rw [if_pos h10]
      refine ⟨?_, ?_, by simp⟩
      · simp [digitsValue, digitChar_toNat n h10]
      · simp [isDigit09, digitChar_toNat n h10]; omega
    · rw [if_neg h10]
      obtain ⟨hv, hall, _⟩ := ih (n / 10) (by omega)
      have hm : n % 10 < 10 := Nat.mod_lt _ (by decide)
      refine ⟨?_, ?_, by simp⟩
      · rw [digitsValue_snoc, hv, digitChar_toNat _ hm]
        omega
      · rw [List.all_append, hall]
        simp [isDigit09, digitChar_toNat _ hm]; omega

theorem digit_not_upper (c : Char) (h : isDigit09 c = true) : isUpperAZ c = false := by
  simp [isDigit09, isUpperAZ] at h ⊢
  omega

theorem takeWhile_letters_digits (l d : List Char) (hl : l.all isUpperAZ = true)
    (hd : d.all isDigit09 = true) :
    (l ++ d).takeWhile isUpperAZ = l ∧ (l ++ d).dropWhile isUpperAZ = d := by
  induction l with
  | nil =>
    cases d with
    | nil => simp
    | cons c d =>
      simp only [List.all_cons, Bool.and_eq_true] at hd
      simp [List.takeWhile, List.dropWhile, digit_not_upper c hd.1]
  | cons c l ih =>
    simp only [List.all_cons, Bool.and_eq_true] at hl
    obtain ⟨h1, h2⟩ := ih hl.2
    simp [List.takeWhile, List.dropWhile, hl.1, h1, h2]

/-- Round trip of the codec: a reference built from non-negative coordinates
parses back to them, with no error. -/
theorem coords_roundtrip (c r : Nat) :
    GetCoordsFromCellIDString (GetCellIDStringFromCoords (c : Int) (r : Int))
      = ((c : Int), (r : Int), none) := by
  obtain ⟨hlv, hlall, hlne⟩ := colLettersAux_spec (c + 1) c (by omega)
  obtain ⟨hdv, hdall, hdne⟩ := decDigitsAux_spec (r + 1 + 1) (r + 1) (by omega)
  have hdata : (GetCellIDStringFromCoords (c : Int) (r : Int)).data
      = colLettersAux (c + 1) c ++ decDigitsAux (r + 1 + 1) (r + 1) := by
    have hneg : ¬ ((r : Int) + 1 < 0) := by omega
    simp only [GetCellIDStringFromCoords, ColIndexToLetters, RowIndexToString, Itoa, hneg,
      if_false, String.data_append, Int.toNat_ofNat]
    have : ((r : Int) + 1).toNat = r + 1 := by omega
    rw [this]
  obtain ⟨ht, hdrop⟩ := takeWhile_letters_digits _ _ hlall hdall
  unfold GetCoordsFromCellIDString
  simp only [hdata, ht, hdrop]
  rw [if_pos ⟨hlne, hdne, hdall⟩, hlv, hdv]
  simp

/-- The reference string determines the non-negative coordinates. -/
theorem cellRef_injective (c r c1 r1 : Nat)
    (h : GetCellIDStringFromCoords (c : Int) (r : Int)
      = GetCellIDStringFromCoords (c1 : Int) (r1 : Int)) : c = c1 ∧ r = r1 := by
  have h1 := coords_roundtrip c r
  rw [h, coords_roundtrip c1 r1] at h1
  simp only [Prod.mk.injEq, Nat.cast_inj, and_true] at h1
  exact ⟨h1.1.symm, h1.2.symm⟩

/-! ## Grids extended by lazy cell access -/

theorem RowsExt_refl (l : List Xlsx.Row) : RowsExt l l := by
  induction l with
  | nil => exact RowsExt.nil
  | cons r t ih => exact RowsExt.cons r r t t 0 (by simp) ih

theorem RowsExt_trans {a b c : List Xlsx.Row} (h1 : RowsExt a b) (h2 : RowsExt b c) :
    RowsExt a c := by
  induction h1 generalizing c with
  | nil => exact h2
  | cons r r1 t t1 k hr _ ih =>
    cases h2 with
    | cons _ r2 _ t2 k2 hr2 h2t =>
      refine RowsExt.cons r r2 t t2 (k + k2) ?_ (ih h2t)
      rw [hr2, hr]
      simp only [List.replicate_add, List.append_assoc]
  | pad r1 t1 k hr _ ih =>
    cases h2 with
    | cons _ r2 _ t2 k2 hr2 h2t =>
      refine RowsExt.pad r2 t2 (k + k2) ?_ (ih h2t)
      rw [hr2, hr]
      simp only [List.replicate_add]

theorem RowsExt_replicate (m : Nat) : RowsExt [] (List.replicate m ({} : Xlsx.Row)) := by
  induction m with
  | zero => exact RowsExt.nil
  | succ m ih => exact RowsExt.pad _ _ 0 (by simp) ih

theorem RowsExt_append_replicate (l : List Xlsx.Row) (m : Nat) :
    RowsExt l (l ++ List.replicate m ({} : Xlsx.Row)) := by
  induction l with
  | nil => exact RowsExt_replicate m
  | cons r t ih => exact RowsExt.cons r r t _ 0 (by simp) ih

theorem RowsExt_set (l : List Xlsx.Row) (i : Nat) (old : Xlsx.Row) (k : Nat)
    (h : l[i]? = some old) :
    RowsExt l (l.set i { old with Cells := old.Cells ++ List.replicate k ({} : Cell) }) := by
  induction l generalizing i with
  | nil => simp at h
  | cons r t ih =>
    cases i with
    | zero =>
      simp only [List.getElem?_cons_zero, Option.some.injEq] at h
      subst h
      exact RowsExt.cons _ _ _ _ k rfl (RowsExt_refl t)
    | succ i =>
      simp only [List.getElem?_cons_succ] at h
      exact RowsExt.cons r r t _ 0 (by simp) (ih i h)

theorem RowsExt_length {a b : List Xlsx.Row} (h : RowsExt a b) : a.length ≤ b.length := by
  induction h with
  | nil => exact le_refl _
  | cons _ _ _ _ _ _ _ ih => simp only [List.length_cons]; omega
  | pad _ _ _ _ _ _ => simp

theorem getElem?_replicate_default (k j : Nat) (cell : Cell)
    (h : (List.replicate k ({} : Cell))[j]? = some cell) : cell = {} := by
  rw [List.getElem?_replicate] at h
  split at h
  · exact (Option.some.inj h).symm
  · cases h

/-- Cells that exist are kept, unchanged and in place, by an extension. -/
theorem RowsExt_cellAt {a b : List Xlsx.Row} (h : RowsExt a b) (i j : Nat) (cell : Cell)
    (hc : cellAt a i j = some cell) : cellAt b i j = some cell := by
  induction h generalizing i with
  | nil => simp [cellAt] at hc
  | cons r r1 t t1 k hr _ ih =>
    cases i with
    | zero =>
      simp only [cellAt, List.getElem?_cons_zero, Option.some_bind] at hc ⊢
      rw [hr]
      have hj : j < r.Cells.length := by
        rcases Nat.lt_or_ge j r.Cells.length with hl | hl
        · exact hl
        · rw [List.getElem?_eq_none hl] at hc
          cases hc
      show (r.Cells ++ List.replicate k ({} : Cell))[j]? = some cell
      rw [List.getElem?_append_left hj]
      exact hc
    | succ i =>
      simp only [cellAt, List.getElem?_cons_succ] at hc ⊢
      exact ih i hc
  | pad _ _ _ _ _ _ => simp [cellAt] at hc

/-- Cells that an extension adds are default-constructed. -/
theorem RowsExt_new_default {a b : List Xlsx.Row} (h : RowsExt a b) (i j : Nat) (cell : Cell)
    (hb : cellAt b i j = some cell) (ha : cellAt a i j = none) : cell = {} := by
  induction h generalizing i with
  | nil => simp [cellAt] at hb
  | cons r r1 t t1 k hr _ ih =>
    cases i with
    | zero =>
      simp only [cellAt, List.getElem?_cons_zero, Option.some_bind] at hb ha
      rw [hr] at hb
      have hj : r.Cells.length ≤ j := by
        rcases Nat.lt_or_ge j r.Cells.length with hl | hl
        · rw [List.getElem?_eq_getElem hl] at ha
          cases ha
        · exact hl
      have hb1 : (r.Cells ++ List.replicate k ({} : Cell))[j]? = some cell := hb
      rw [List.getElem?_append_right hj] at hb1
      exact getElem?_replicate_default _ _ _ hb1
    | succ i =>
      simp only [cellAt, List.getElem?_cons_succ] at hb ha
      exact ih i hb ha
  | pad r1 t1 k hr _ ih =>
    cases i with
    | zero =>
      simp only [cellAt, List.getElem?_cons_zero, Option.some_bind] at hb
      rw [hr] at hb
      exact getElem?_replicate_default _ _ _ hb
    | succ i =>
      simp only [cellAt, List.getElem?_cons_succ] at hb
      exact ih i hb (by simp [cellAt])

theorem originsCells_replicate (r c : Int) (k : Nat) :
    originsCells r c (List.replicate k ({} : Cell)) = [] := by
  induction k generalizing c with
  | zero => rfl
  | succ k ih =>
    rw [List.replicate_succ, originsCells, if_neg (by decide)]
    exact ih (c + 1)

theorem originsCells_append_replicate (r c : Int) (cells : List Cell) (k : Nat) :
    originsCells r c (cells ++ List.replicate k ({} : Cell)) = originsCells r c cells := by
  induction cells generalizing c with
  | nil => simpa [originsCells] using originsCells_replicate r c k
  | cons cell rest ih =>
    rw [List.cons_append, originsCells, originsCells, ih]

/-- An extension adds no merge origin and moves none. -/
theorem RowsExt_origins {a b : List Xlsx.Row} (h : RowsExt a b) (r : Int) :
    originsRows r b = originsRows r a := by
  induction h generalizing r with
  | nil => rfl
  | cons r0 r1 t t1 k hr _ ih =>
    rw [originsRows, originsRows, ih (r + 1), hr]
    simp only [originsCells_append_replicate]
  | pad r1 t1 k hr _ ih =>
    rw [show originsRows r (r1 :: t1) = originsCells r 0 r1.Cells ++ originsRows (r + 1) t1
      from rfl, ih (r + 1), hr]
    simp only [originsCells_replicate, originsRows, List.append_nil]

/-! ## Lazy cell access as a grid extension -/

/-- `Cell(ri, ci)` returns, extends the grid, and the cell it returns is the
cell at (`ri`, `ci`) afterwards. -/
theorem Cell_grows (s : Sheet) (ri ci : Nat) :
    ∃ cell s1, s.Cell (ri : Int) (ci : Int) = some (cell, s1) ∧
      RowsExt s.Rows s1.Rows ∧ cellAt s1.Rows ri ci = some cell := by
  have hn1 : (((ri : Int) + 1 - s.Rows.length).toNat) = ri + 1 - s.Rows.length := by omega
  have h1 := cellRowLoop_spec (ri : Int) _ s rfl
  rw [hn1] at h1
  generalize hold : (s.Rows[ri]?).getD ({} : Xlsx.Row) = old
  have hrow1 : (s.Rows ++ List.replicate (ri + 1 - s.Rows.length) ({} : Xlsx.Row))[ri]?
      = some old := by
    rcases Nat.lt_or_ge ri s.Rows.length with hlt | hge
    · rw [List.getElem?_append_left hlt, ← hold, List.getElem?_eq_getElem hlt]
      rfl
    · rw [List.getElem?_append_right hge, List.getElem?_replicate_of_lt (by omega), ← hold,
        List.getElem?_eq_none hge]
      rfl
  have hri : ri < (s.Rows ++ List.replicate (ri + 1 - s.Rows.length) ({} : Xlsx.Row)).length := by
    simp only [List.length_append, List.length_replicate]
    omega
  have hn2 : (((ci : Int) + 1 - old.Cells.length).toNat) = ci + 1 - old.Cells.length := by omega
  obtain ⟨sh2, hrun2, hrows2, _, _, _⟩ :=
    cellColLoop_spec ri (ci : Int) _
      { s with
        Rows := s.Rows ++ List.replicate (ri + 1 - s.Rows.length) {},
        MaxRow := if ri + 1 - s.Rows.length = 0 then s.MaxRow
          else max s.MaxRow ((s.Rows.length : Int) + (ri + 1 - s.Rows.length : Nat)) }
      old hrow1 rfl
  rw [hn2] at hrun2 hrows2
  simp only at hrows2
  have hrow2 : sh2.Rows[ri]?
      = some { old with Cells := old.Cells ++ List.replicate (ci + 1 - old.Cells.length) {} } := by
    rw [hrows2]
    exact List.getElem?_set_self hri
  have hci : ci < (old.Cells ++ List.replicate (ci + 1 - old.Cells.length) ({} : Cell)).length := by
    simp only [List.length_append, List.length_replicate]
    omega
  refine ⟨(old.Cells ++ List.replicate (ci + 1 - old.Cells.length) ({} : Cell)).get ⟨ci, hci⟩,
    sh2, ?_, ?_, ?_⟩
  · unfold Sheet.Cell
    rw [hn1, h1]
    simp only [Option.some_bind]
    rw [sliceIndex_natCast, hrow1]
    simp only [Option.some_bind]
    rw [hn2, hrun2]
    simp only [Option.some_bind]
    rw [sliceIndex_natCast, hrow2]
    simp only [Option.some_bind]
    rw [sliceIndex_natCast, List.getElem?_eq_getElem hci]
    rfl
  · rw [hrows2]
    exact RowsExt_trans (RowsExt_append_replicate s.Rows _) (RowsExt_set _ ri old _ hrow1)
  · unfold cellAt
    rw [hrow2]
    simp only [Option.some_bind]
    rw [List.getElem?_eq_getElem hci]
    rfl

/-- `Cell(ri, ci)` on a cell that exists returns it and leaves the sheet as it
is. -/
theorem Cell_existing (s : Sheet) (ri ci : Nat) (cell : Cell)
    (h : cellAt s.Rows ri ci = some cell) :
    s.Cell (ri : Int) (ci : Int) = some (cell, s) := by
  unfold cellAt at h
  have hri : ri < s.Rows.length := by
    rcases Nat.lt_or_ge ri s.Rows.length with hl | hl
    · exact hl
    · rw [List.getElem?_eq_none hl] at h
      cases h
  rw [List.getElem?_eq_getElem hri] at h
  simp only [Option.some_bind] at h
  have hci : ci < (s.Rows[ri]).Cells.length := by
    rcases Nat.lt_or_ge ci (s.Rows[ri]).Cells.length with hl | hl
    · exact hl
    · rw [List.getElem?_eq_none hl] at h
      cases h
  have hn1 : (((ri : Int) + 1 - s.Rows.length).toNat) = 0 := by omega
  have hn2 : (((ci : Int) + 1 - (s.Rows[ri]).Cells.length).toNat) = 0 := by omega
  have hc1 : ¬ ((s.Rows.length : Int) ≤ ri) := by omega
  have hc2 : ¬ (((s.Rows[ri]).Cells.length : Int) ≤ ci) := by omega
  unfold Sheet.Cell
  rw [hn1, cellRowLoop, if_neg hc1]
  simp only [Option.some_bind]
  rw [sliceIndex_natCast, List.getElem?_eq_getElem hri]
  simp only [Option.some_bind]
  rw [hn2, cellColLoop, sliceIndex_natCast, List.getElem?_eq_getElem hri]
  simp only [Option.some_bind, hc2, if_false]
  rw [sliceIndex_natCast, List.getElem?_eq_getElem hri]
  simp only [Option.some_bind]
  rw [sliceIndex_natCast, h]
  rfl

/-! ## The loops of `handleMerged` -/

theorem RowsExt_isSome {a b : List Xlsx.Row} (h : RowsExt a b) (i j : Nat)
    (hc : (cellAt a i j).isSome = true) : (cellAt b i j).isSome = true := by
  obtain ⟨cell, hcell⟩ := Option.isSome_iff_exists.mp hc
  rw [RowsExt_cellAt h i j cell hcell]
  rfl

/-- The column loop of `handleMerged` from `colnum`, given exactly the
iterations it needs: it returns, extends the grid, and every cell of the row
from `maincol + colnum` to `maincol + hmerge` exists afterwards. -/
theorem mergeColLoop_spec (row maincol : Nat) (hmerge : Int) (n : Nat) :
    ∀ (colnum : Nat) (s : Sheet), n = (hmerge + 1 - colnum).toNat →
    ∃ s1, mergeColLoop (row : Int) (maincol : Int) hmerge n (colnum : Int) s = some s1 ∧
      RowsExt s.Rows s1.Rows ∧
      ∀ j : Nat, colnum ≤ j → (j : Int) ≤ hmerge →
        (cellAt s1.Rows row (maincol + j)).isSome = true := by
  induction n with
  | zero =>
    intro colnum s hn
    have hc : ¬ ((colnum : Int) ≤ hmerge) := by omega
    refine ⟨s, by rw [mergeColLoop, if_neg hc], RowsExt_refl _, ?_⟩
    intro j h1 h2
    omega
  | succ n ih =>
    intro colnum s hn
    have hc : (colnum : Int) ≤ hmerge := by omega
    obtain ⟨cell, s1, hcell, hext1, hat1⟩ := Cell_grows s row (maincol + colnum)
    obtain ⟨s2, hrun, hext2, hall⟩ := ih (colnum + 1) s1 (by push_cast; omega)
    refine ⟨s2, ?_, RowsExt_trans hext1 hext2, ?_⟩
    · rw [mergeColLoop, if_pos hc]
      have hcast : (maincol : Int) + (colnum : Int) = ((maincol + colnum : Nat) : Int) := by
        push_cast; rfl
      rw [hcast, hcell]
      simp only [Option.some_bind]
      have hcast1 : (colnum : Int) + 1 = ((colnum + 1 : Nat) : Int) := by push_cast; rfl
      rw [hcast1]
      exact hrun
    · intro j h1 h2
      by_cases hj : j = colnum
      · subst hj
        exact RowsExt_isSome hext2 _ _ (by rw [hat1]; rfl)
      · exact hall j (by omega) h2

/-- The column loop of `handleMerged` over cells that all exist leaves the
sheet as it is. -/
theorem mergeColLoop_noop (row maincol : Nat) (hmerge : Int) (n : Nat) :
    ∀ (colnum : Nat) (s : Sheet), n = (hmerge + 1 - colnum).toNat →
    (∀ j : Nat, colnum ≤ j → (j : Int) ≤ hmerge →
        (cellAt s.Rows row (maincol + j)).isSome = true) →
    mergeColLoop (row : Int) (maincol : Int) hmerge n (colnum : Int) s = some s := by
  induction n with
  | zero =>
    intro colnum s hn _
    have hc : ¬ ((colnum : Int) ≤ hmerge) := by omega
    rw [mergeColLoop, if_neg hc]
  | succ n ih =>
    intro colnum s hn hall
    have hc : (colnum : Int) ≤ hmerge := by omega
    obtain ⟨cell, hcell⟩ := Option.isSome_iff_exists.mp (hall colnum (le_refl _) hc)
    rw [mergeColLoop, if_pos hc]
    have hcast : (maincol : Int) + (colnum : Int) = ((maincol + colnum : Nat) : Int) := by
      push_cast; rfl
    rw [hcast, Cell_existing s row (maincol + colnum) cell hcell]
    simp only [Option.some_bind]
    have hcast1 : (colnum : Int) + 1 = ((colnum + 1 : Nat) : Int) := by push_cast; rfl
    rw [hcast1]
    exact ih (colnum + 1) s (by push_cast; omega) (fun j h1 h2 => hall j (by omega) h2)

/-- The row loop of `handleMerged` for one origin, from `rownum`: it returns,
extends the grid, and the rectangle of the origin exists afterwards from row
`mainrow + rownum` on. -/
theorem mergeRowLoop_spec (mainrow maincol : Nat) (cell : Cell) (n : Nat) :
    ∀ (rownum : Nat) (s : Sheet), n = (cell.VMerge + 1 - rownum).toNat →
    ∃ s1, mergeRowLoop (mainrow : Int) (maincol : Int) cell n (rownum : Int) s = some s1 ∧
      RowsExt s.Rows s1.Rows ∧
      ∀ i j : Nat, rownum ≤ i → (i : Int) ≤ cell.VMerge → (j : Int) ≤ cell.HMerge →
        (cellAt s1.Rows (mainrow + i) (maincol + j)).isSome = true := by
  induction n with
  | zero =>
    intro rownum s hn
    have hc : ¬ ((rownum : Int) ≤ cell.VMerge) := by omega
    refine ⟨s, by rw [mergeRowLoop, if_neg hc], RowsExt_refl _, ?_⟩
    intro i j h1 h2 _
    omega
  | succ n ih =>
    intro rownum s hn
    have hc : (rownum : Int) ≤ cell.VMerge := by omega
    obtain ⟨s1, hcol, hext1, hrow⟩ :=
      mergeColLoop_spec (mainrow + rownum) maincol cell.HMerge _ 0 s rfl
    obtain ⟨s2, hrun, hext2, hall⟩ := ih (rownum + 1) s1 (by push_cast; omega)
    refine ⟨s2, ?_, RowsExt_trans hext1 hext2, ?_⟩
    · rw [mergeRowLoop, if_pos hc]
      have hcast : (mainrow : Int) + (rownum : Int) = ((mainrow + rownum : Nat) : Int) := by
        push_cast; rfl
      have h0 : (cell.HMerge + 1 - ((0 : Nat) : Int)).toNat = (cell.HMerge + 1).toNat := by
        simp
      rw [h0] at hcol
      rw [hcast]
      have hcol1 : mergeColLoop ((mainrow + rownum : Nat) : Int) (maincol : Int) cell.HMerge
          (cell.HMerge + 1).toNat 0 s = some s1 := hcol
      rw [hcol1]
      simp only [Option.some_bind]
      have hcast1 : (rownum : Int) + 1 = ((rownum + 1 : Nat) : Int) := by push_cast; rfl
      rw [hcast1]
      exact hrun
    · intro i j h1 h2 h3
      by_cases hi : i = rownum
      · subst hi
        exact RowsExt_isSome hext2 _ _ (hrow j (Nat.zero_le _) h3)
      · exact hall i j (by omega) h2 h3

/-- The row loop of `handleMerged` over a rectangle whose cells all exist
leaves the sheet as it is. -/
theorem mergeRowLoop_noop (mainrow maincol : Nat) (cell : Cell) (n : Nat) :
    ∀ (rownum : Nat) (s : Sheet), n = (cell.VMerge + 1 - rownum).toNat →
    (∀ i j : Nat, rownum ≤ i → (i : Int) ≤ cell.VMerge → (j : Int) ≤ cell.HMerge →
        (cellAt s.Rows (mainrow + i) (maincol + j)).isSome = true) →
    mergeRowLoop (mainrow : Int) (maincol : Int) cell n (rownum : Int) s = some s := by
  induction n with
  | zero =>
    intro rownum s hn _
    have hc : ¬ ((rownum : Int) ≤ cell.VMerge) := by omega
    rw [mergeRowLoop, if_neg hc]
  | succ n ih =>
    intro rownum s hn hall
    have hc : (rownum : Int) ≤ cell.VMerge := by omega
    have hcol := mergeColLoop_noop (mainrow + rownum) maincol cell.HMerge _ 0 s rfl
      (fun j _ h2 => hall rownum j (le_refl _) hc h2)
    have h0 : (cell.HMerge + 1 - ((0 : Nat) : Int)).toNat = (cell.HMerge + 1).toNat := by
      simp
    rw [h0] at hcol
    have hcol1 : mergeColLoop ((mainrow + rownum : Nat) : Int) (maincol : Int) cell.HMerge
        (cell.HMerge + 1).toNat 0 s = some s := hcol
    rw [mergeRowLoop, if_pos hc]
    have hcast : (mainrow : Int) + (rownum : Int) = ((mainrow + rownum : Nat) : Int) := by
      push_cast; rfl
    rw [hcast, hcol1]
    simp only [Option.some_bind]
    have hcast1 : (rownum : Int) + 1 = ((rownum + 1 : Nat) : Int) := by push_cast; rfl
    rw [hcast1]
    exact ih (rownum + 1) s (by push_cast; omega) (fun i j h1 h2 h3 => hall i j (by omega) h2 h3)

/-- The second loop of `handleMerged` over entries whose keys are references:
it returns, extends the grid, and the rectangle of every entry exists
afterwards. -/
theorem mergeEntries_spec (l : List (String × Cell)) :
    ∀ s : Sheet,
    (∀ e ∈ l, ∃ r c : Nat, e.1 = GetCellIDStringFromCoords (c : Int) (r : Int)) →
    ∃ s1, mergeEntries l s = some s1 ∧ RowsExt s.Rows s1.Rows ∧
      ∀ e ∈ l, ∀ r c : Nat, e.1 = GetCellIDStringFromCoords (c : Int) (r : Int) →
        rectExists s1.Rows r c e.2 := by
  induction l with
  | nil =>
    intro s _
    exact ⟨s, rfl, RowsExt_refl _, fun e he => absurd he (List.not_mem_nil e)⟩
  | cons e rest ih =>
    intro s hkeys
    obtain ⟨r, c, hkey⟩ := hkeys e (List.mem_cons_self _ _)
    obtain ⟨s1, hrun1, hext1, hrect1⟩ := mergeRowLoop_spec r c e.2 _ 0 s rfl
    obtain ⟨s2, hrun2, hext2, hrect2⟩ :=
      ih s1 (fun e1 he1 => hkeys e1 (List.mem_cons_of_mem _ he1))
    have h0 : (e.2.VMerge + 1 - ((0 : Nat) : Int)).toNat = (e.2.VMerge + 1).toNat := by simp
    rw [h0] at hrun1
    refine ⟨s2, ?_, RowsExt_trans hext1 hext2, ?_⟩
    · rw [mergeEntries]
      simp only [hkey, coords_roundtrip]
      have hrun1a : mergeRowLoop (r : Int) (c : Int) e.2 (e.2.VMerge + 1).toNat 0 s = some s1 :=
        hrun1
      rw [hrun1a]
      exact hrun2
    · intro e1 he1 r1 c1 hk1
      rcases List.mem_cons.mp he1 with heq | hmem
      · subst heq
        obtain ⟨hc, hr⟩ := cellRef_injective c r c1 r1 (hkey.symm.trans hk1)
        subst hc
        subst hr
        intro i j hi hj
        exact RowsExt_isSome hext2 _ _ (hrect1 i j (Nat.zero_le _) hi hj)
      · exact hrect2 e1 hmem r1 c1 hk1

/-- The second loop of `handleMerged` over entries whose rectangles all exist
leaves the sheet as it is. -/
theorem mergeEntries_noop (l : List (String × Cell)) (s : Sheet)
    (h : ∀ e ∈ l, ∃ r c : Nat, e.1 = GetCellIDStringFromCoords (c : Int) (r : Int) ∧
      rectExists s.Rows r c e.2) :
    mergeEntries l s = some s := by
  induction l with
  | nil => rfl
  | cons e rest ih =>
    obtain ⟨r, c, hkey, hrect⟩ := h e (List.mem_cons_self _ _)
    have hrun := mergeRowLoop_noop r c e.2 _ 0 s rfl (fun i j _ hi hj => hrect i j hi hj)
    have h0 : (e.2.VMerge + 1 - ((0 : Nat) : Int)).toNat = (e.2.VMerge + 1).toNat := by simp
    rw [h0] at hrun
    have hrun1 : mergeRowLoop (r : Int) (c : Int) e.2 (e.2.VMerge + 1).toNat 0 s = some s := hrun
    rw [mergeEntries]
    simp only [hkey, coords_roundtrip]
    rw [hrun1]
    exact ih (fun e1 he1 => h e1 (List.mem_cons_of_mem _ he1))

/-! ## The map collected by `handleMerged` -/

/-- Where an origin listed for a row comes from. -/
theorem originsCells_mem (r : Int) (cells : List Cell) :
    ∀ (c0 : Nat) (t : Int × Int × Cell), t ∈ originsCells r (c0 : Int) cells →
    t.1 = r ∧ ∃ j : Nat, t.2.1 = ((c0 + j : Nat) : Int) ∧ cells[j]? = some t.2.2 ∧
      (t.2.2.HMerge > 0 ∨ t.2.2.VMerge > 0) := by
  induction cells with
  | nil =>
    intro c0 t ht
    simp [originsCells] at ht
  | cons cell rest ih =>
    intro c0 t ht
    have hcast : (c0 : Int) + 1 = ((c0 + 1 : Nat) : Int) := by push_cast; rfl
    rw [originsCells, hcast] at ht
    have htail : t ∈ originsCells r ((c0 + 1 : Nat) : Int) rest →
        t.1 = r ∧ ∃ j : Nat, t.2.1 = ((c0 + j : Nat) : Int) ∧ (cell :: rest)[j]? = some t.2.2 ∧
          (t.2.2.HMerge > 0 ∨ t.2.2.VMerge > 0) := by
      intro hmem
      obtain ⟨h1, j, h2, h3, h4⟩ := ih (c0 + 1) t hmem
      refine ⟨h1, j + 1, ?_, ?_, h4⟩
      · rw [h2]
        congr 1
        omega
      · simpa using h3
    by_cases hm : cell.HMerge > 0 ∨ cell.VMerge > 0
    · rw [if_pos hm] at ht
      rcases List.mem_cons.mp ht with heq | hmem
      · subst heq
        exact ⟨rfl, 0, rfl, by simp, hm⟩
      · exact htail hmem
    · rw [if_neg hm] at ht
      exact htail ht

/-- Every marked cell of a row is listed among its origins. -/
theorem originsCells_of (r : Int) (cells : List Cell) :
    ∀ (c0 j : Nat) (cell : Cell), cells[j]? = some cell →
    (cell.HMerge > 0 ∨ cell.VMerge > 0) →
    (r, ((c0 + j : Nat) : Int), cell) ∈ originsCells r (c0 : Int) cells := by
  induction cells with
  | nil =>
    intro c0 j cell h _
    simp at h
  | cons cell0 rest ih =>
    intro c0 j cell h hm
    have hcast : (c0 : Int) + 1 = ((c0 + 1 : Nat) : Int) := by push_cast; rfl
    rw [originsCells, hcast]
    cases j with
    | zero =>
      simp only [List.getElem?_cons_zero, Option.some.injEq] at h
      subst h
      rw [if_pos hm]
      exact List.mem_cons_self _ _
    | succ j =>
      simp only [List.getElem?_cons_succ] at h
      have hrec := ih (c0 + 1) j cell h hm
      have hidx : c0 + 1 + j = c0 + (j + 1) := by omega
      rw [hidx] at hrec
      split
      · exact List.mem_cons_of_mem _ hrec
      · exact hrec

/-- Where an origin listed for a grid comes from. -/
theorem originsRows_mem (rows : List Xlsx.Row) :
    ∀ (r0 : Nat) (t : Int × Int × Cell), t ∈ originsRows (r0 : Int) rows →
    ∃ i j : Nat, t.1 = ((r0 + i : Nat) : Int) ∧ t.2.1 = (j : Int) ∧
      cellAt rows i j = some t.2.2 ∧ (t.2.2.HMerge > 0 ∨ t.2.2.VMerge > 0) := by
  induction rows with
  | nil =>
    intro r0 t ht
    simp [originsRows] at ht
  | cons row rest ih =>
    intro r0 t ht
    have hcast : (r0 : Int) + 1 = ((r0 + 1 : Nat) : Int) := by push_cast; rfl
    rw [originsRows, hcast] at ht
    rcases List.mem_append.mp ht with h | h
    · obtain ⟨h1, j, h2, h3, h4⟩ := originsCells_mem (r0 : Int) row.Cells 0 t h
      refine ⟨0, j, by simpa using h1, ?_, ?_, h4⟩
      · rw [h2]
        congr 1
        omega
      · simpa [cellAt] using h3
    · obtain ⟨i, j, h1, h2, h3, h4⟩ := ih (r0 + 1) t h
      refine ⟨i + 1, j, ?_, h2, ?_, h4⟩
      · rw [h1]
        congr 1
        omega
      · simpa [cellAt] using h3

/-- Every marked cell of a grid is listed among its origins. -/
theorem originsRows_of (rows : List Xlsx.Row) :
    ∀ (r0 i j : Nat) (cell : Cell), cellAt rows i j = some cell →
    (cell.HMerge > 0 ∨ cell.VMerge > 0) →
    (((r0 + i : Nat) : Int), (j : Int), cell) ∈ originsRows (r0 : Int) rows := by
  induction rows with
  | nil =>
    intro r0 i j cell h _
    simp [cellAt] at h
  | cons row rest ih =>
    intro r0 i j cell h hm
    have hcast : (r0 : Int) + 1 = ((r0 + 1 : Nat) : Int) := by push_cast; rfl
    rw [originsRows, hcast]
    cases i with
    | zero =>
      simp only [cellAt, List.getElem?_cons_zero, Option.some_bind] at h
      have hrec := originsCells_of (r0 : Int) row.Cells 0 j cell h hm
      simp only [Nat.zero_add, Nat.cast_zero] at hrec
      exact List.mem_append_left _ (by simpa using hrec)
    | succ i =>
      simp only [cellAt, List.getElem?_cons_succ] at h
      have hrec := ih (r0 + 1) i j cell h hm
      have hidx : r0 + 1 + i = r0 + (i + 1) := by omega
      rw [hidx] at hrec
      exact List.mem_append_right _ hrec

/-- The references of the origins of one row are pairwise distinct. -/
theorem originsCells_keys_nodup (r : Nat) (cells : List Cell) :
    ∀ c0 : Nat, ((originsCells (r : Int) (c0 : Int) cells).map fun t => (originEntry t).1).Nodup := by
  induction cells with
  | nil =>
    intro c0
    simp [originsCells]
  | cons cell rest ih =>
    intro c0
    have hcast : (c0 : Int) + 1 = ((c0 + 1 : Nat) : Int) := by push_cast; rfl
    rw [originsCells, hcast]
    split
    · rw [List.map_cons, List.nodup_cons]
      refine ⟨?_, ih (c0 + 1)⟩
      intro hmem
      obtain ⟨t, ht, hkey⟩ := List.mem_map.mp hmem
      obtain ⟨h1, j, h2, _, _⟩ := originsCells_mem (r : Int) rest (c0 + 1) t ht
      simp only [originEntry, h1, h2] at hkey
      have := (cellRef_injective _ _ _ _ hkey).1
      omega
    · exact ih (c0 + 1)

/-- The references of the origins of a grid are pairwise distinct. -/
theorem originsRows_keys_nodup (rows : List Xlsx.Row) :
    ∀ r0 : Nat, ((originsRows (r0 : Int) rows).map fun t => (originEntry t).1).Nodup := by
  induction rows with
  | nil =>
    intro r0
    simp [originsRows]
  | cons row rest ih =>
    intro r0
    have hcast : (r0 : Int) + 1 = ((r0 + 1 : Nat) : Int) := by push_cast; rfl
    rw [originsRows, hcast, List.map_append, List.nodup_append]
    refine ⟨originsCells_keys_nodup r0 row.Cells 0, ih (r0 + 1), ?_⟩
    intro k hk1 hk2
    obtain ⟨t1, ht1, hkey1⟩ := List.mem_map.mp hk1
    obtain ⟨t2, ht2, hkey2⟩ := List.mem_map.mp hk2
    obtain ⟨h1, j1, h2, _, _⟩ := originsCells_mem (r0 : Int) row.Cells 0 t1 ht1
    obtain ⟨i2, j2, h3, h4, _, _⟩ := originsRows_mem rest (r0 + 1) t2 ht2
    simp only [originEntry, h1, h2] at hkey1
    simp only [originEntry, h3, h4] at hkey2
    have := (cellRef_injective _ _ _ _ (hkey1.trans hkey2.symm)).2
    omega

theorem mapInsert_fresh (m : List (String × Cell)) (k : String) (v : Cell)
    (h : ∀ p ∈ m, p.1 ≠ k) : mapInsert m k v = m ++ [(k, v)] := by
  unfold mapInsert
  have hany : m.any (fun p => p.1 == k) = false := by
    rw [List.any_eq_false]
    intro p hp
    simpa using h p hp
  rw [hany]
  rfl

/-- Inserting entries with fresh, pairwise distinct keys appends them. -/
theorem foldl_mapInsert_fresh (l : List (Int × Int × Cell)) :
    ∀ m : List (String × Cell),
    (l.map fun t => (originEntry t).1).Nodup →
    (∀ t ∈ l, ∀ p ∈ m, p.1 ≠ (originEntry t).1) →
    l.foldl (fun m t => mapInsert m (originEntry t).1 (originEntry t).2) m
      = m ++ l.map originEntry := by
  induction l with
  | nil =>
    intro m _ _
    simp
  | cons t rest ih =>
    intro m hnd hfresh
    rw [List.map_cons, List.nodup_cons] at hnd
    rw [List.foldl_cons, mapInsert_fresh m _ _ (hfresh t (List.mem_cons_self _ _)),
      ih _ hnd.2]
    · simp
    · intro t1 ht1 p hp
      rcases List.mem_append.mp hp with hpm | hpt
      · exact hfresh t1 (List.mem_cons_of_mem _ ht1) p hpm
      · simp only [List.mem_singleton] at hpt
        subst hpt
        intro heq
        exact hnd.1 (List.mem_map.mpr ⟨t1, ht1, heq.symm⟩)

theorem collectMergedCells_eq (r : Int) (cells : List Cell) :
    ∀ (c : Int) (merged : List (String × Cell)),
    collectMergedCells r c cells merged =
      (originsCells r c cells).foldl
        (fun m t => mapInsert m (originEntry t).1 (originEntry t).2) merged := by
  induction cells with
  | nil =>
    intro c merged
    rfl
  | cons cell rest ih =>
    intro c merged
    rw [collectMergedCells, originsCells, ih]
    split
    · rfl
    · rfl

theorem collectMergedRows_eq (rows : List Xlsx.Row) :
    ∀ (r : Int) (merged : List (String × Cell)),
    collectMergedRows r rows merged =
      (originsRows r rows).foldl
        (fun m t => mapInsert m (originEntry t).1 (originEntry t).2) merged := by
  induction rows with
  | nil =>
    intro r merged
    rfl
  | cons row rest ih =>
    intro r merged
    rw [collectMergedRows, originsRows, List.foldl_append, ih, collectMergedCells_eq]

/-- The map collected by `handleMerged` has one entry for each merge origin of
the grid, in row-major order of the origins. -/
theorem collectMergedRows_origins (rows : List Xlsx.Row) :
    collectMergedRows 0 rows [] = (originsRows 0 rows).map originEntry := by
  have hnd := originsRows_keys_nodup rows 0
  simp only [Nat.cast_zero] at hnd
  rw [collectMergedRows_eq, foldl_mapInsert_fresh _ [] hnd
    (fun _ _ p hp => absurd hp (List.not_mem_nil p))]
  rfl

/-! ## `handleMerged` -/

/-- `handleMerged` returns, extends the grid, and the rectangle of every merge
origin of the sheet exists afterwards; the map may be visited in any order. -/
theorem handleMerged_core (env : Env) (hperm : ∀ l, (env.mapOrder l).Perm l) (s : Sheet) :
    ∃ s1, s.handleMerged env = some s1 ∧ RowsExt s.Rows s1.Rows ∧
      ∀ (r c : Nat) (cell : Cell), cellAt s.Rows r c = some cell →
        (cell.HMerge > 0 ∨ cell.VMerge > 0) → rectExists s1.Rows r c cell := by
  have hkeys : ∀ e ∈ env.mapOrder ((originsRows 0 s.Rows).map originEntry),
      ∃ r c : Nat, e.1 = GetCellIDStringFromCoords (c : Int) (r : Int) := by
    intro e he
    have he1 := (hperm _).mem_iff.mp he
    obtain ⟨t, ht, hte⟩ := List.mem_map.mp he1
    obtain ⟨i, j, h1, h2, _, _⟩ := originsRows_mem s.Rows 0 t (by simpa using ht)
    refine ⟨0 + i, j, ?_⟩
    rw [← hte]
    simp only [originEntry, h1, h2]
  obtain ⟨s1, hrun, hext, hrect⟩ := mergeEntries_spec _ s hkeys
  refine ⟨s1, ?_, hext, ?_⟩
  · unfold Sheet.handleMerged
    rw [collectMergedRows_origins]
    exact hrun
  · intro r c cell hcell hm
    have hmem := originsRows_of s.Rows 0 r c cell hcell hm
    simp only [Nat.cast_zero] at hmem
    have he : originEntry (((0 + r : Nat) : Int), (c : Int), cell)
        ∈ env.mapOrder ((originsRows 0 s.Rows).map originEntry) :=
      (hperm _).mem_iff.mpr (List.mem_map.mpr ⟨_, hmem, rfl⟩)
    have := hrect _ he (0 + r) c rfl
    simpa using this

/-- On a grid extended so that the rectangle of every merge origin exists,
`handleMerged` changes nothing. -/
theorem handleMerged_noop (env : Env) (hperm : ∀ l, (env.mapOrder l).Perm l) (s s1 : Sheet)
    (hext : RowsExt s.Rows s1.Rows)
    (hrect : ∀ (r c : Nat) (cell : Cell), cellAt s.Rows r c = some cell →
        (cell.HMerge > 0 ∨ cell.VMerge > 0) → rectExists s1.Rows r c cell) :
    s1.handleMerged env = some s1 := by
  unfold Sheet.handleMerged
  rw [collectMergedRows_origins, RowsExt_origins hext]
  apply mergeEntries_noop
  intro e he
  have he1 := (hperm _).mem_iff.mp he
  obtain ⟨t, ht, hte⟩ := List.mem_map.mp he1
  obtain ⟨i, j, h1, h2, h3, h4⟩ := originsRows_mem s.Rows 0 t (by simpa using ht)
  refine ⟨0 + i, j, ?_, ?_⟩
  · rw [← hte]
    simp only [originEntry, h1, h2]
  · have := hrect i j t.2.2 h3 h4
    rw [← hte]
    simpa [originEntry] using this

/-- C11: for every sheet, `handleMerged` returns and afterwards every merge
origin (a cell at row `r`, column `c` with `HMerge = h > 0` or `VMerge = v > 0`)
has its whole rectangle materialized: for all `0 ≤ i ≤ v`, `0 ≤ j ≤ h` there is
a cell at row `r + i`, column `c + j`.  The cells that existed before are kept
unchanged in place, and every cell that is new is default-constructed, so it
carries no merge markers.  The order in which the map of origins is visited
does not matter.  One origin with `h = v = 1` yields the four cells of its
rectangle. -/
theorem handleMerged_materializes (env : Env) (hperm : ∀ l, (env.mapOrder l).Perm l)
    (s : Sheet) :
    (∃ s1, s.handleMerged env = some s1 ∧
      (∀ (r c : Nat) (cell : Cell), cellAt s.Rows r c = some cell →
        (cell.HMerge > 0 ∨ cell.VMerge > 0) →
        ∀ i j : Nat, (i : Int) ≤ cell.VMerge → (j : Int) ≤ cell.HMerge →
          ∃ cell1, cellAt s1.Rows (r + i) (c + j) = some cell1) ∧
      (∀ (r c : Nat) (cell : Cell), cellAt s.Rows r c = some cell →
        cellAt s1.Rows r c = some cell) ∧
      (∀ (r c : Nat) (cell1 : Cell), cellAt s1.Rows r c = some cell1 →
        cellAt s.Rows r c = none → cell1 = {} ∧ cell1.HMerge = 0 ∧ cell1.VMerge = 0) ∧
      s.Rows.length ≤ s1.Rows.length) ∧
    (mergeOriginSheet.handleMerged exampleEnv).map
        (fun s1 => (s1.Rows.map (·.Cells.length),
          s1.Rows.map (fun row => row.Cells.map (fun cell => (cell.HMerge, cell.VMerge)))))
      = some ([2, 2], [[(1, 1), (0, 0)], [(0, 0), (0, 0)]]) := by
  refine ⟨?_, by decide⟩
  obtain ⟨s1, hrun, hext, hrect⟩ := handleMerged_core env hperm s
  refine ⟨s1, hrun, ?_, ?_, ?_, RowsExt_length hext⟩
  · intro r c cell hcell hm i j hi hj
    exact Option.isSome_iff_exists.mp (hrect r c cell hcell hm i j hi hj)
  · intro r c cell hcell
    exact RowsExt_cellAt hext r c cell hcell
  · intro r c cell1 h1 h0
    have hd := RowsExt_new_default hext r c cell1 h1 h0
    subst hd
    exact ⟨rfl, rfl, rfl⟩

/-- C11 at a concrete input: the sheet with one origin at (0,0), spans 1 and 1;
the cell at (1,1) exists after `handleMerged`. -/
theorem handleMerged_materializes_witness :
    ∃ s1, mergeOriginSheet.handleMerged exampleEnv = some s1 ∧
      ∃ cell1, cellAt s1.Rows 1 1 = some cell1 := by
  obtain ⟨⟨s1, hrun, hrect, _⟩, _⟩ :=
    handleMerged_materializes exampleEnv (fun l => List.Perm.refl l) mergeOriginSheet
  exact ⟨s1, hrun, hrect 0 0 { HMerge := 1, VMerge := 1 } rfl (by decide) 1 1
    (by decide) (by decide)⟩

/-- C12: `handleMerged` is idempotent: for every sheet, a second run, whatever
the order in which either run visits the collected origins, returns the sheet
the first run produced, unchanged (same rows, same cells and markers, same
`MaxRow`, `MaxCol` and columns). -/
theorem handleMerged_idempotent (env1 env2 : Env) (hperm1 : ∀ l, (env1.mapOrder l).Perm l)
    (hperm2 : ∀ l, (env2.mapOrder l).Perm l) (s : Sheet) :
    ∃ s1, s.handleMerged env1 = some s1 ∧ s1.handleMerged env2 = some s1 := by
  obtain ⟨s1, hrun, hext, hrect⟩ := handleMerged_core env1 hperm1 s
  exact ⟨s1, hrun, handleMerged_noop env2 hperm2 s s1 hext hrect⟩

/-- C12 at a concrete input: two runs on the scenario sheet, the second one
visiting the map in reverse order. -/
theorem handleMerged_idempotent_witness :
    ∃ s1, scenarioSheet.handleMerged exampleEnv = some s1 ∧
      s1.handleMerged { exampleEnv with mapOrder := List.reverse } = some s1 :=
  handleMerged_idempotent exampleEnv { exampleEnv with mapOrder := List.reverse }
    (fun l => List.Perm.refl l) (fun l => List.reverse_perm l) scenarioSheet

/-! ## The cell walk of `makeXLSXSheet` -/

theorem cellStep_ok {cols : List Col} {r c : Int} {cell : Cell} {xRow : xlsxRow}
    {st : CompileState} {p : Cell × xlsxRow × CompileState}
    (h : cellStep cols r c cell xRow st = Except.ok p) :
    ∃ x, cellXC cols r c cell st = Except.ok x ∧
      p.2.1 = { xRow with C := xRow.C ++ [x.1] } ∧
      p.2.2.maxCell = (if c > st.maxCell then c else st.maxCell) ∧
      p.2.2.worksheet.MergeCells =
        (if cell.HMerge > 0 ∨ cell.VMerge > 0 then
          mergeAppend st.worksheet.MergeCells [mergeRef r c cell]
        else st.worksheet.MergeCells) ∧
      p.2.2.colsXfIdList = st.colsXfIdList ∧ p.2.2.maxRow = st.maxRow ∧
      p.2.2.maxLevelRow = st.maxLevelRow ∧ p.2.2.maxLevelCol = st.maxLevelCol ∧
      p.2.2.xSheet = st.xSheet ∧ p.2.2.styles = x.2.1 ∧ p.2.2.refTable = x.2.2 ∧
      { p.2.2.worksheet with DataValidations := st.worksheet.DataValidations,
                             MergeCells := st.worksheet.MergeCells } = st.worksheet := by
  unfold cellStep at h
  cases hx : cellXC cols r c cell st with
  | error e1 =>
    rw [hx] at h
    cases h
  | ok x =>
    rw [hx] at h
    simp only [Except.ok.injEq] at h
    subst h
    refine ⟨x, rfl, rfl, rfl, ?_, rfl, rfl, rfl, rfl, rfl, rfl, rfl, rfl⟩
    simp only [mergeAppend]
    split
    · cases st.worksheet.MergeCells <;> rfl
    · rfl

theorem cellStep_error {cols : List Col} {r c : Int} {cell : Cell} {xRow : xlsxRow}
    {st : CompileState} {e : Panic}
    (h : cellStep cols r c cell xRow st = Except.error e) :
    cellXC cols r c cell st = Except.error e := by
  unfold cellStep at h
  cases hx : cellXC cols r c cell st with
  | error e1 =>
    rw [hx] at h
    simp only [Except.error.injEq] at h
    rw [h]
  | ok x =>
    rw [hx] at h
    cases h

theorem cellTyped_ok_known {cell : Cell} {xC : xlsxC} {rt : RefTable} {q : xlsxC × RefTable}
    (h : cellTyped cell xC rt = Except.ok q) : knownCellType cell.cellType := by
  unfold cellTyped at h
  unfold knownCellType
  by_cases h1 : cell.cellType = CellTypeInline ∨ cell.cellType = CellTypeString
  · rcases h1 with h1 | h1
    · exact Or.inl h1
    · exact Or.inr (Or.inl h1)
  · rw [if_neg h1] at h
    by_cases h2 : cell.cellType = CellTypeNumeric
    · exact Or.inr (Or.inr (Or.inl h2))
    · rw [if_neg h2] at h
      by_cases h3 : cell.cellType = CellTypeBool
      · exact Or.inr (Or.inr (Or.inr (Or.inl h3)))
      · rw [if_neg h3] at h
        by_cases h4 : cell.cellType = CellTypeError
        · exact Or.inr (Or.inr (Or.inr (Or.inr (Or.inl h4))))
        · rw [if_neg h4] at h
          by_cases h5 : cell.cellType = CellTypeDate
          · exact Or.inr (Or.inr (Or.inr (Or.inr (Or.inr (Or.inl h5)))))
          · rw [if_neg h5] at h
            by_cases h6 : cell.cellType = CellTypeStringFormula
            · exact Or.inr (Or.inr (Or.inr (Or.inr (Or.inr (Or.inr h6)))))
            · rw [if_neg h6] at h
              cases h

theorem cellTyped_error {cell : Cell} {xC : xlsxC} {rt : RefTable} {e : Panic}
    (h : cellTyped cell xC rt = Except.error e) :
    e = Panic.error unknownCellTypeMsg ∧ ¬ knownCellType cell.cellType := by
  unfold cellTyped at h
  unfold knownCellType
  by_cases h1 : cell.cellType = CellTypeInline ∨ cell.cellType = CellTypeString
  · rw [if_pos h1] at h
    split at h <;> cases h
  · rw [if_neg h1] at h
    by_cases h2 : cell.cellType = CellTypeNumeric
    · rw [if_pos h2] at h
      cases h
    · rw [if_neg h2] at h
      by_cases h3 : cell.cellType = CellTypeBool
      · rw [if_pos h3] at h
        cases h
      · rw [if_neg h3] at h
        by_cases h4 : cell.cellType = CellTypeError
        · rw [if_pos h4] at h
          cases h
        · rw [if_neg h4] at h
          by_cases h5 : cell.cellType = CellTypeDate
          · rw [if_pos h5] at h
            cases h
          · rw [if_neg h5] at h
            by_cases h6 : cell.cellType = CellTypeStringFormula
            · rw [if_pos h6] at h
              cases h
            · rw [if_neg h6] at h
              simp only [Except.error.injEq] at h
              refine ⟨h.symm, ?_⟩
              tauto

theorem cellFormatId_error {cols : List Col} {xfList : List Int} {c : Int} {cell : Cell}
    {styles : xlsxStyleSheet} {e : Panic}
    (h : cellFormatId cols xfList c cell styles = Except.error e) :
    e = Panic.indexOutOfRange := by
  unfold cellFormatId at h
  split at h
  · simp only [Except.error.injEq] at h
    exact h.symm
  · split at h
    · cases h
    · split at h
      · split at h
        · simp only [Except.error.injEq] at h
          exact h.symm
        · split at h <;> cases h
      · cases h

/-- A cell record is built only for a cell of a known type. -/
theorem cellXC_ok_known {cols : List Col} {r c : Int} {cell : Cell} {st : CompileState}
    {x : xlsxC × xlsxStyleSheet × RefTable} (h : cellXC cols r c cell st = Except.ok x) :
    knownCellType cell.cellType := by
  unfold cellXC at h
  cases hf : cellFormatId cols st.colsXfIdList c cell st.styles with
  | error e1 =>
    rw [hf] at h
    cases h
  | ok fmt =>
    rw [hf] at h
    cases ht : cellTyped cell (cellBase r c cell fmt.1) st.refTable with
    | error e1 =>
      simp only [ht] at h
      cases h
    | ok typed => exact cellTyped_ok_known ht

/-- Building a cell record fails on an index out of range, or with the
unknown-cell-type panic on a cell whose type is not one of the seven. -/
theorem cellXC_error {cols : List Col} {r c : Int} {cell : Cell} {st : CompileState}
    {e : Panic} (h : cellXC cols r c cell st = Except.error e) :
    e = Panic.indexOutOfRange ∨
      (e = Panic.error unknownCellTypeMsg ∧ ¬ knownCellType cell.cellType) := by
  unfold cellXC at h
  cases hf : cellFormatId cols st.colsXfIdList c cell st.styles with
  | error e1 =>
    rw [hf] at h
    simp only [Except.error.injEq] at h
    subst h
    exact Or.inl (cellFormatId_error hf)
  | ok fmt =>
    rw [hf] at h
    cases ht : cellTyped cell (cellBase r c cell fmt.1) st.refTable with
    | error e1 =>
      simp only [ht, Except.error.injEq] at h
      subst h
      exact Or.inr (cellTyped_error ht)
    | ok typed =>
      simp only [ht] at h
      cases h

theorem cellsLoop_cons_ok {cols : List Col} {r c : Int} {cell : Cell} {rest : List Cell}
    {xRow : xlsxRow} {st : CompileState} {q : List Cell × xlsxRow × CompileState}
    (h : cellsLoop cols r c (cell :: rest) xRow st = Except.ok q) :
    ∃ p q1, cellStep cols r c cell xRow st = Except.ok p ∧
      cellsLoop cols r (c + 1) rest p.2.1 p.2.2 = Except.ok q1 ∧
      q = (p.1 :: q1.1, q1.2.1, q1.2.2) := by
  rw [cellsLoop] at h
  cases hp : cellStep cols r c cell xRow st with
  | error e1 =>
    rw [hp] at h
    cases h
  | ok p =>
    rw [hp] at h
    cases hq1 : cellsLoop cols r (c + 1) rest p.2.1 p.2.2 with
    | error e1 =>
      simp only [hq1] at h
      cases h
    | ok q1 =>
      simp only [hq1, Except.ok.injEq] at h
      exact ⟨p, q1, rfl, hq1, h.symm⟩

theorem cellsLoop_cons_error {cols : List Col} {r c : Int} {cell : Cell} {rest : List Cell}
    {xRow : xlsxRow} {st : CompileState} {e : Panic}
    (h : cellsLoop cols r c (cell :: rest) xRow st = Except.error e) :
    cellStep cols r c cell xRow st = Except.error e ∨
      ∃ p, cellStep cols r c cell xRow st = Except.ok p ∧
        cellsLoop cols r (c + 1) rest p.2.1 p.2.2 = Except.error e := by
  rw [cellsLoop] at h
  cases hp : cellStep cols r c cell xRow st with
  | error e1 =>
    rw [hp] at h
    simp only [Except.error.injEq] at h
    subst h
    exact Or.inl rfl
  | ok p =>
    rw [hp] at h
    cases hq1 : cellsLoop cols r (c + 1) rest p.2.1 p.2.2 with
    | error e1 =>
      simp only [hq1, Except.error.injEq] at h
      subst h
      exact Or.inr ⟨p, rfl, hq1⟩
    | ok q1 =>
      simp only [hq1] at h
      cases h

theorem mergeAppend_append (old : Option xlsxMergeCells) (l1 l2 : List xlsxMergeCell) :
    mergeAppend (mergeAppend old l1) l2 = mergeAppend old (l1 ++ l2) := by
  cases l1 with
  | nil => rfl
  | cons a l1 =>
    cases l2 with
    | nil => simp [mergeAppend]
    | cons b l2 =>
      cases old with
      | none => simp [mergeAppend]
      | some m => simp [mergeAppend]

theorem cellStep_wsFrame {cols : List Col} {r c : Int} {cell : Cell} {xRow : xlsxRow}
    {st : CompileState} {p : Cell × xlsxRow × CompileState}
    (h : cellStep cols r c cell xRow st = Except.ok p) :
    wsFrame p.2.2.worksheet = wsFrame st.worksheet := by
  unfold cellStep at h
  cases hx : cellXC cols r c cell st with
  | error e1 =>
    rw [hx] at h
    cases h
  | ok x =>
    rw [hx] at h
    simp only [Except.ok.injEq] at h
    subst h
    rfl

/-- The cell walk of one row, when it returns: the row record gains one cell
record per cell, each built by `cellXC` in a state with the same column format
ids; `maxCell` is raised to the last column index; the merge references of the
origins of the row are appended in order; every cell has a known type; the
other variables are untouched. -/
theorem cellsLoop_spec (cols : List Col) (r : Int) (cells : List Cell) :
    ∀ (c0 : Nat) (xRow : xlsxRow) (st : CompileState) (q : List Cell × xlsxRow × CompileState),
    cellsLoop cols r (c0 : Int) cells xRow st = Except.ok q →
    (∃ recs, q.2.1 = { xRow with C := xRow.C ++ recs } ∧ recs.length = cells.length ∧
      ∀ (j : Nat) (cell : Cell), cells[j]? = some cell →
        ∃ stj x, stj.colsXfIdList = st.colsXfIdList ∧
          wsFrame stj.worksheet = wsFrame st.worksheet ∧
          cellXC cols r ((c0 + j : Nat) : Int) cell stj = Except.ok x ∧
          recs[j]? = some x.1) ∧
    q.2.2.maxCell = (if cells = [] then st.maxCell
      else max st.maxCell (((c0 + cells.length : Nat) : Int) - 1)) ∧
    q.2.2.worksheet.MergeCells =
      mergeAppend st.worksheet.MergeCells ((originsCells r (c0 : Int) cells).map originRef) ∧
    q.2.2.colsXfIdList = st.colsXfIdList ∧ q.2.2.maxRow = st.maxRow ∧
    q.2.2.maxLevelRow = st.maxLevelRow ∧ q.2.2.maxLevelCol = st.maxLevelCol ∧
    q.2.2.xSheet = st.xSheet ∧ wsFrame q.2.2.worksheet = wsFrame st.worksheet ∧
    (∀ cell ∈ cells, knownCellType cell.cellType) := by
  induction cells with
  | nil =>
    intro c0 xRow st q h
    rw [cellsLoop] at h
    simp only [Except.ok.injEq] at h
    subst h
    refine ⟨⟨[], by simp, rfl, ?_⟩, by simp, rfl, rfl, rfl, rfl, rfl, rfl, rfl, ?_⟩
    · intro j cell hj
      simp at hj
    · intro cell hcell
      simp at hcell
  | cons cell rest ih =>
    intro c0 xRow st q h
    obtain ⟨p, q1, hp, hq1, hq⟩ := cellsLoop_cons_ok h
    subst hq
    obtain ⟨x, hx, hxrow, hmax, hmerge, hxf, hmr, hmlr, hmlc, hxs, _, _, _⟩ := cellStep_ok hp
    have hfr := cellStep_wsFrame hp
    have hcast : (c0 : Int) + 1 = ((c0 + 1 : Nat) : Int) := by push_cast; rfl
    rw [hcast] at hq1
    obtain ⟨⟨recs1, hrow1, hlen1, htrace1⟩, hmax1, hmerge1, hxf1, hmr1, hmlr1, hmlc1, hxs1,
      hfr1, hknown1⟩ := ih (c0 + 1) p.2.1 p.2.2 q1 hq1
    refine ⟨⟨x.1 :: recs1, ?_, by simp [hlen1], ?_⟩, ?_, ?_, hxf1.trans hxf, hmr1.trans hmr,
      hmlr1.trans hmlr, hmlc1.trans hmlc, hxs1.trans hxs, hfr1.trans hfr, ?_⟩
    · show q1.2.1 = _
      rw [hrow1, hxrow]
      simp only [List.append_assoc, List.singleton_append]
    · intro j cellj hj
      cases j with
      | zero =>
        simp only [List.getElem?_cons_zero, Option.some.injEq] at hj
        subst hj
        exact ⟨st, x, rfl, rfl, by simpa using hx, by simp⟩
      | succ j =>
        simp only [List.getElem?_cons_succ] at hj
        obtain ⟨stj, xj, h1, h2, h3, h4⟩ := htrace1 j cellj hj
        refine ⟨stj, xj, h1.trans hxf, h2.trans hfr, ?_, by simpa using h4⟩
        have hidx : c0 + 1 + j = c0 + (j + 1) := by omega
        rw [hidx] at h3
        exact h3
    · show q1.2.2.maxCell = _
      rw [hmax1, hmax]
      simp only [List.cons_ne_nil, if_false, List.length_cons]
      split
      · rename_i hnil
        subst hnil
        simp only [List.length_nil]
        split
        · rename_i hgt
          rw [max_eq_right (by push_cast; omega)]
          push_cast
          omega
        · rename_i hgt
          rw [max_eq_left (by push_cast; omega)]
      · split
        · rename_i hgt
          have h3 : ((c0 + 1 + rest.length : Nat) : Int) = ((c0 + (rest.length + 1) : Nat) : Int) := by
            congr 1
            omega
          rw [h3]
          have hlen : 0 < rest.length := List.length_pos.mpr (by assumption)
          rw [max_eq_right (by push_cast; omega), max_eq_right (by push_cast; omega)]
        · rename_i hgt
          have h3 : ((c0 + 1 + rest.length : Nat) : Int) = ((c0 + (rest.length + 1) : Nat) : Int) := by
            congr 1
            omega
          rw [h3]
    · show q1.2.2.worksheet.MergeCells = _
      rw [hmerge1, hmerge, originsCells, hcast]
      split
      · rw [mergeAppend_append]
        rfl
      · rfl
    · intro cellj hmem
      rcases List.mem_cons.mp hmem with heq | hmem1
      · subst heq
        exact cellXC_ok_known hx
      · exact hknown1 cellj hmem1

/-- The cell walk of one row, when it aborts: on an index out of range, or
with the unknown-cell-type panic on a cell of the row whose type is not one of
the seven. -/
theorem cellsLoop_error (cols : List Col) (r : Int) (cells : List Cell) :
    ∀ (c0 : Int) (xRow : xlsxRow) (st : CompileState) (e : Panic),
    cellsLoop cols r c0 cells xRow st = Except.error e →
    e = Panic.indexOutOfRange ∨
      (e = Panic.error unknownCellTypeMsg ∧ ∃ cell ∈ cells, ¬ knownCellType cell.cellType) := by
  induction cells with
  | nil =>
    intro c0 xRow st e h
    rw [cellsLoop] at h
    cases h
  | cons cell rest ih =>
    intro c0 xRow st e h
    rcases cellsLoop_cons_error h with hstep | ⟨p, _, hrest⟩
    · rcases cellXC_error (cellStep_error hstep) with h1 | ⟨h1, h2⟩
      · exact Or.inl h1
      · exact Or.inr ⟨h1, cell, List.mem_cons_self _ _, h2⟩
    · rcases ih _ _ _ _ hrest with h1 | ⟨h1, c1, hc1, h2⟩
      · exact Or.inl h1
      · exact Or.inr ⟨h1, c1, List.mem_cons_of_mem _ hc1, h2⟩

/-! ## The row walk of `makeXLSXSheet` -/

theorem rowStep_ok {env : Env} {cols : List Col} {r : Int} {row : Xlsx.Row}
    {st : CompileState} {p : Xlsx.Row × CompileState}
    (h : rowStep env cols r row st = Except.ok p) :
    ∃ q, cellsLoop cols r 0 row.Cells (rowRecord env r row) (rowEnter r row st) = Except.ok q ∧
      p = ({ row with Cells := q.1 },
        { q.2.2 with xSheet := { Row := q.2.2.xSheet.Row ++ [q.2.1] } }) := by
  unfold rowStep at h
  cases hq : cellsLoop cols r 0 row.Cells (rowRecord env r row) (rowEnter r row st) with
  | error e1 =>
    rw [hq] at h
    cases h
  | ok q =>
    rw [hq] at h
    simp only [Except.ok.injEq] at h
    exact ⟨q, rfl, h.symm⟩

theorem rowStep_error {env : Env} {cols : List Col} {r : Int} {row : Xlsx.Row}
    {st : CompileState} {e : Panic}
    (h : rowStep env cols r row st = Except.error e) :
    e = Panic.indexOutOfRange ∨
      (e = Panic.error unknownCellTypeMsg ∧
        ∃ cell ∈ row.Cells, ¬ knownCellType cell.cellType) := by
  unfold rowStep at h
  cases hq : cellsLoop cols r 0 row.Cells (rowRecord env r row) (rowEnter r row st) with
  | error e1 =>
    rw [hq] at h
    simp only [Except.error.injEq] at h
    subst h
    exact cellsLoop_error _ _ _ _ _ _ _ hq
  | ok q =>
    rw [hq] at h
    cases h

theorem rowsLoop_cons_ok {env : Env} {cols : List Col} {r : Int} {row : Xlsx.Row}
    {rest : List Xlsx.Row} {st : CompileState} {q : List Xlsx.Row × CompileState}
    (h : rowsLoop env cols r (row :: rest) st = Except.ok q) :
    ∃ p q1, rowStep env cols r row st = Except.ok p ∧
      rowsLoop env cols (r + 1) rest p.2 = Except.ok q1 ∧ q = (p.1 :: q1.1, q1.2) := by
  rw [rowsLoop] at h
  cases hp : rowStep env cols r row st with
  | error e1 =>
    rw [hp] at h
    cases h
  | ok p =>
    rw [hp] at h
    cases hq1 : rowsLoop env cols (r + 1) rest p.2 with
    | error e1 =>
      simp only [hq1] at h
      cases h
    | ok q1 =>
      simp only [hq1, Except.ok.injEq] at h
      exact ⟨p, q1, rfl, hq1, h.symm⟩

theorem rowsLoop_cons_error {env : Env} {cols : List Col} {r : Int} {row : Xlsx.Row}
    {rest : List Xlsx.Row} {st : CompileState} {e : Panic}
    (h : rowsLoop env cols r (row :: rest) st = Except.error e) :
    rowStep env cols r row st = Except.error e ∨
      ∃ p, rowStep env cols r row st = Except.ok p ∧
        rowsLoop env cols (r + 1) rest p.2 = Except.error e := by
  rw [rowsLoop] at h
  cases hp : rowStep env cols r row st with
  | error e1 =>
    rw [hp] at h
    simp only [Except.error.injEq] at h
    subst h
    exact Or.inl rfl
  | ok p =>
    rw [hp] at h
    cases hq1 : rowsLoop env cols (r + 1) rest p.2 with
    | error e1 =>
      simp only [hq1, Except.error.injEq] at h
      subst h
      exact Or.inr ⟨p, rfl, hq1⟩
    | ok q1 =>
      simp only [hq1] at h
      cases h

/-- The row walk, when it aborts: on an index out of range, or with the
unknown-cell-type panic on a cell of the grid whose type is not one of the
seven. -/
theorem rowsLoop_error (env : Env) (cols : List Col) (rows : List Xlsx.Row) :
    ∀ (r0 : Int) (st : CompileState) (e : Panic),
    rowsLoop env cols r0 rows st = Except.error e →
    e = Panic.indexOutOfRange ∨
      (e = Panic.error unknownCellTypeMsg ∧
        ∃ row ∈ rows, ∃ cell ∈ row.Cells, ¬ knownCellType cell.cellType) := by
  induction rows with
  | nil =>
    intro r0 st e h
    rw [rowsLoop] at h
    cases h
  | cons row rest ih =>
    intro r0 st e h
    rcases rowsLoop_cons_error h with hstep | ⟨p, _, hrest⟩
    · rcases rowStep_error hstep with h1 | ⟨h1, cell, hc, h2⟩
      · exact Or.inl h1
      · exact Or.inr ⟨h1, row, List.mem_cons_self _ _, cell, hc, h2⟩
    · rcases ih _ _ _ hrest with h1 | ⟨h1, row1, hr1, cell, hc, h2⟩
      · exact Or.inl h1
      · exact Or.inr ⟨h1, row1, List.mem_cons_of_mem _ hr1, cell, hc, h2⟩

theorem rowRecord_fields (env : Env) (r : Int) (row : Xlsx.Row) :
    (rowRecord env r row).R = r + 1 ∧ (rowRecord env r row).C = [] ∧
    (rowRecord env r row).OutlineLevel = row.OutlineLevel ∧
    (rowRecord env r row).CustomHeight = row.isCustom ∧
    (rowRecord env r row).Ht = (if row.isCustom = true then env.fmtG row.Height else "") := by
  unfold rowRecord
  cases row.isCustom <;> simp

/-- The body of the row walk, when it returns: one row record is appended,
with the 1-based row number and one cell record per cell, each built by
`cellXC`; the running maxima cover the row; the merge references of its
origins are appended. -/
theorem rowStep_spec {env : Env} {cols : List Col} {r : Nat} {row : Xlsx.Row}
    {st : CompileState} {p : Xlsx.Row × CompileState} (hmc : 0 ≤ st.maxCell)
    (h : rowStep env cols (r : Int) row st = Except.ok p) :
    (∃ xr, p.2.xSheet.Row = st.xSheet.Row ++ [xr] ∧ xr.R = (r : Int) + 1 ∧
      xr.C.length = row.Cells.length ∧ xr.OutlineLevel = row.OutlineLevel ∧
      xr.CustomHeight = row.isCustom ∧
      xr.Ht = (if row.isCustom = true then env.fmtG row.Height else "") ∧
      ∀ (j : Nat) (cell : Cell), row.Cells[j]? = some cell →
        ∃ stj x, stj.colsXfIdList = st.colsXfIdList ∧
          wsFrame stj.worksheet = wsFrame st.worksheet ∧
          cellXC cols (r : Int) (j : Int) cell stj = Except.ok x ∧ xr.C[j]? = some x.1) ∧
    p.2.maxRow = max st.maxRow (r : Int) ∧
    p.2.maxCell = max st.maxCell ((row.Cells.length : Int) - 1) ∧
    p.2.worksheet.MergeCells =
      mergeAppend st.worksheet.MergeCells ((originsCells (r : Int) 0 row.Cells).map originRef) ∧
    p.2.colsXfIdList = st.colsXfIdList ∧ p.2.maxLevelCol = st.maxLevelCol ∧
    wsFrame p.2.worksheet = wsFrame st.worksheet ∧
    (∀ cell ∈ row.Cells, knownCellType cell.cellType) := by
  obtain ⟨q, hq, hp⟩ := rowStep_ok h
  subst hp
  have hq0 : cellsLoop cols (r : Int) ((0 : Nat) : Int) row.Cells (rowRecord env r row)
      (rowEnter r row st) = Except.ok q := hq
  obtain ⟨⟨recs, hrow, hlen, htrace⟩, hmax, hmerge, hxf, hmr, _, hmlc, hxs, hfr, hknown⟩ :=
    cellsLoop_spec cols (r : Int) row.Cells 0 _ _ q hq0
  obtain ⟨hR, hC, hO, hCH, hHt⟩ := rowRecord_fields env r row
  refine ⟨⟨q.2.1, ?_, ?_, ?_, ?_, ?_, ?_, ?_⟩, ?_, ?_, ?_, hxf, hmlc, hfr, hknown⟩
  · show q.2.2.xSheet.Row ++ [q.2.1] = _
    rw [hxs]
    rfl
  · rw [hrow]
    exact hR
  · rw [hrow]
    show ((rowRecord env r row).C ++ recs).length = _
    rw [hC]
    simpa using hlen
  · rw [hrow]
    exact hO
  · rw [hrow]
    exact hCH
  · rw [hrow]
    exact hHt
  · intro j cell hj
    obtain ⟨stj, x, h1, h2, h3, h4⟩ := htrace j cell hj
    refine ⟨stj, x, h1, h2, by simpa using h3, ?_⟩
    rw [hrow]
    show ((rowRecord env r row).C ++ recs)[j]? = _
    rw [hC]
    simpa using h4
  · show q.2.2.maxRow = _
    rw [hmr]
    show (if (r : Int) > st.maxRow then (r : Int) else st.maxRow) = _
    split
    · rename_i hgt
      rw [max_eq_right (le_of_lt hgt)]
    · rename_i hgt
      rw [max_eq_left (by omega)]
  · show q.2.2.maxCell = _
    rw [hmax]
    show (if row.Cells = [] then st.maxCell
      else max st.maxCell (((0 + row.Cells.length : Nat) : Int) - 1)) = _
    split
    · rename_i hnil
      rw [hnil]
      simp only [List.length_nil, Nat.cast_zero]
      rw [max_eq_left (by omega)]
    · simp only [Nat.zero_add]
  · show q.2.2.worksheet.MergeCells = _
    rw [hmerge]
    rfl

/-- The row walk, when it returns: one row record per row, numbered from 1,
each with one cell record per cell built by `cellXC`; `maxRow` is the index of
the last row, `maxCell` the greatest column index; the merge references of all
origins are appended in row-major order; every cell has a known type. -/
theorem rowsLoop_spec (env : Env) (cols : List Col) (rows : List Xlsx.Row) :
    ∀ (r0 : Nat) (st : CompileState) (q : List Xlsx.Row × CompileState), 0 ≤ st.maxCell →
    rowsLoop env cols (r0 : Int) rows st = Except.ok q →
    (∃ xrows, q.2.xSheet.Row = st.xSheet.Row ++ xrows ∧ xrows.length = rows.length ∧
      ∀ (i : Nat) (row : Xlsx.Row), rows[i]? = some row →
        ∃ xr, xrows[i]? = some xr ∧ xr.R = ((r0 + i : Nat) : Int) + 1 ∧
          xr.C.length = row.Cells.length ∧ xr.OutlineLevel = row.OutlineLevel ∧
          xr.CustomHeight = row.isCustom ∧
          xr.Ht = (if row.isCustom = true then env.fmtG row.Height else "") ∧
          ∀ (j : Nat) (cell : Cell), row.Cells[j]? = some cell →
            ∃ stj x, stj.colsXfIdList = st.colsXfIdList ∧
              wsFrame stj.worksheet = wsFrame st.worksheet ∧
              cellXC cols ((r0 + i : Nat) : Int) (j : Int) cell stj = Except.ok x ∧
              xr.C[j]? = some x.1) ∧
    q.2.maxRow = (if rows = [] then st.maxRow
      else max st.maxRow (((r0 + rows.length : Nat) : Int) - 1)) ∧
    q.2.maxCell = rows.foldl (fun m row => max m ((row.Cells.length : Int) - 1)) st.maxCell ∧
    q.2.worksheet.MergeCells =
      mergeAppend st.worksheet.MergeCells ((originsRows (r0 : Int) rows).map originRef) ∧
    q.2.colsXfIdList = st.colsXfIdList ∧ q.2.maxLevelCol = st.maxLevelCol ∧
    wsFrame q.2.worksheet = wsFrame st.worksheet ∧
    (∀ row ∈ rows, ∀ cell ∈ row.Cells, knownCellType cell.cellType) := by
  induction rows with
  | nil =>
    intro r0 st q _ h
    rw [rowsLoop] at h
    simp only [Except.ok.injEq] at h
    subst h
    refine ⟨⟨[], by simp, rfl, ?_⟩, by simp, rfl, rfl, rfl, rfl, rfl, ?_⟩
    · intro i row hi
      simp at hi
    · intro row hrow
      simp at hrow
  | cons row rest ih =>
    intro r0 st q hmc h
    obtain ⟨p, q1, hp, hq1, hq⟩ := rowsLoop_cons_ok h
    subst hq
    obtain ⟨⟨xr, hxs, hR, hClen, hO, hCH, hHt, htrace⟩, hmr, hmaxc, hmerge, hxf, hmlc, hfr,
      hknown⟩ := rowStep_spec hmc hp
    have hcast : (r0 : Int) + 1 = ((r0 + 1 : Nat) : Int) := by push_cast; rfl
    rw [hcast] at hq1
    have hmc1 : 0 ≤ p.2.maxCell := by
      rw [hmaxc]
      exact le_trans hmc (le_max_left _ _)
    obtain ⟨⟨xrows1, hxs1, hlen1, htrace1⟩, hmr1, hmaxc1, hmerge1, hxf1, hmlc1, hfr1, hknown1⟩ :=
      ih (r0 + 1) p.2 q1 hmc1 hq1
    refine ⟨⟨xr :: xrows1, ?_, by simp [hlen1], ?_⟩, ?_, ?_, ?_, hxf1.trans hxf,
      hmlc1.trans hmlc, hfr1.trans hfr, ?_⟩
    · show q1.2.xSheet.Row = _
      rw [hxs1, hxs]
      simp only [List.append_assoc, List.singleton_append]
    · intro i rowi hi
      cases i with
      | zero =>
        simp only [List.getElem?_cons_zero, Option.some.injEq] at hi
        subst hi
        exact ⟨xr, by simp, by simpa using hR, hClen, hO, hCH, hHt, by simpa using htrace⟩
      | succ i =>
        simp only [List.getElem?_cons_succ] at hi
        obtain ⟨xri, h1, h2, h3, h4, h5, h6, h7⟩ := htrace1 i rowi hi
        have hidx : r0 + 1 + i = r0 + (i + 1) := by omega
        rw [hidx] at h2 h7
        refine ⟨xri, by simpa using h1, h2, h3, h4, h5, h6, ?_⟩
        intro j cell hj
        obtain ⟨stj, x, g1, g2, g3, g4⟩ := h7 j cell hj
        exact ⟨stj, x, g1.trans hxf, g2.trans hfr, g3, g4⟩
    · show q1.2.maxRow = _
      rw [hmr1, hmr]
      simp only [List.cons_ne_nil, if_false, List.length_cons]
      have h3 : ((r0 + 1 + rest.length : Nat) : Int) = ((r0 + (rest.length + 1) : Nat) : Int) := by
        congr 1
        omega
      split
      · rename_i hnil
        subst hnil
        simp only [List.length_nil]
        congr 1
        push_cast
        omega
      · rw [h3, max_assoc]
        congr 1
        rw [max_eq_right (by push_cast; omega)]
    · show q1.2.maxCell = _
      rw [hmaxc1, hmaxc]
      rfl
    · show q1.2.worksheet.MergeCells = _
      rw [hmerge1, hmerge, mergeAppend_append, originsRows, hcast, List.map_append]
    · intro rowi hmem
      rcases List.mem_cons.mp hmem with heq | hmem1
      · subst heq
        exact hknown
      · exact hknown1 rowi hmem1

/-! ## The column walk of `makeXLSXSheet` -/

theorem sliceSet_some {α : Type} {xs ys : List α} {n : Nat} {v : α}
    (h : sliceSet xs (n : Int) v = some ys) : n < xs.length ∧ ys = xs.set n v := by
  unfold sliceSet at h
  split at h
  · rename_i hlt
    simp only [Option.some.injEq, Int.toNat_ofNat] at h
    exact ⟨by omega, h.symm⟩
  · cases h

theorem colMinMax_numFmt (col : Col) : (colMinMax col).numFmt = col.numFmt := by
  unfold colMinMax
  by_cases h1 : col.Min = 0 <;> by_cases h2 : col.Max = 0 <;> simp [h1, h2]

theorem colWidthFix_numFmt (col : Col) : (colWidthFix col).numFmt = col.numFmt := by
  unfold colWidthFix
  split <;> rfl

/-- The body of the column walk, when it returns: the format id of the column
is stored at its index and is the `Style` of the column record appended; the
number-format code of the column is kept; the variables of the row walk are
untouched. -/
theorem colStep_ok {c : Nat} {col : Col} {st : CompileState} {p : Col × CompileState}
    (h : colStep (c : Int) col st = some p) :
    c < st.colsXfIdList.length ∧
    p.2.colsXfIdList = st.colsXfIdList.set c (colResolve (colMinMax col) st.styles).1 ∧
    colRecords p.2.worksheet = colRecords st.worksheet ++
      [colRecord (colMinMax col) (colResolve (colMinMax col) st.styles).1] ∧
    p.1.numFmt = col.numFmt ∧
    p.2.worksheet.MergeCells = st.worksheet.MergeCells ∧ p.2.maxRow = st.maxRow ∧
    p.2.maxCell = st.maxCell ∧ p.2.xSheet = st.xSheet ∧ p.2.refTable = st.refTable ∧
    p.2.maxLevelRow = st.maxLevelRow := by
  unfold colStep at h
  cases hset : sliceSet st.colsXfIdList (c : Int) (colResolve (colMinMax col) st.styles).1 with
  | none =>
    simp only [hset, Option.map_none'] at h
    cases h
  | some xfList =>
    simp only [hset, Option.map_some', Option.some.injEq] at h
    obtain ⟨hlt, hxf⟩ := sliceSet_some hset
    subst h
    refine ⟨hlt, hxf, rfl, ?_, rfl, rfl, rfl, rfl, rfl, rfl⟩
    show (colWidthFix (colMinMax col)).numFmt = col.numFmt
    rw [colWidthFix_numFmt, colMinMax_numFmt]

/-- The column walk, when it returns: one column record per column, whose
`Style` is the format id stored for the column in `colsXfIdList`; the columns
keep their number-format codes; the variables of the row walk are untouched. -/
theorem colsLoop_spec (cols : List Col) :
    ∀ (c0 : Nat) (st : CompileState) (q : List Col × CompileState),
    colsLoop (c0 : Int) cols st = some q →
    q.1.length = cols.length ∧
    (∀ (j : Nat) (col : Col), cols[j]? = some col →
      ∃ col1, q.1[j]? = some col1 ∧ col1.numFmt = col.numFmt) ∧
    q.2.colsXfIdList.length = st.colsXfIdList.length ∧
    (∃ xcols, colRecords q.2.worksheet = colRecords st.worksheet ++ xcols ∧
      xcols.length = cols.length ∧
      ∀ (j : Nat) (xc : xlsxCol), xcols[j]? = some xc →
        q.2.colsXfIdList[c0 + j]? = some xc.Style) ∧
    (∀ k : Nat, k < c0 → q.2.colsXfIdList[k]? = st.colsXfIdList[k]?) ∧
    q.2.worksheet.MergeCells = st.worksheet.MergeCells ∧ q.2.maxRow = st.maxRow ∧
    q.2.maxCell = st.maxCell ∧ q.2.xSheet = st.xSheet ∧ q.2.refTable = st.refTable ∧
    q.2.maxLevelRow = st.maxLevelRow := by
  induction cols with
  | nil =>
    intro c0 st q h
    rw [colsLoop] at h
    simp only [Option.some.injEq] at h
    subst h
    refine ⟨rfl, ?_, rfl, ⟨[], by simp, rfl, ?_⟩, fun _ _ => rfl, rfl, rfl, rfl, rfl, rfl, rfl⟩
    · intro j col hj
      simp at hj
    · intro j xc hj
      simp at hj
  | cons col rest ih =>
    intro c0 st q h
    rw [colsLoop] at h
    cases hp : colStep (c0 : Int) col st with
    | none =>
      simp only [hp, Option.none_bind] at h
      cases h
    | some p =>
      simp only [hp, Option.some_bind] at h
      have hcast : (c0 : Int) + 1 = ((c0 + 1 : Nat) : Int) := by push_cast; rfl
      rw [hcast] at h
      cases hq1 : colsLoop ((c0 + 1 : Nat) : Int) rest p.2 with
      | none =>
        simp only [hq1, Option.map_none'] at h
        cases h
      | some q1 =>
        simp only [hq1, Option.map_some', Option.some.injEq] at h
        subst h
        obtain ⟨hlt, hxf, hrec, hnf, hmc, hmr, hmaxc, hxs, hrt, hmlr⟩ := colStep_ok hp
        obtain ⟨hlen1, hnf1, hxflen1, ⟨xcols1, hrec1, hxlen1, hstyle1⟩, hkeep1, hmc1, hmr1,
          hmaxc1, hxs1, hrt1, hmlr1⟩ := ih (c0 + 1) p.2 q1 hq1
        refine ⟨by simp [hlen1], ?_, ?_,
          ⟨colRecord (colMinMax col) (colResolve (colMinMax col) st.styles).1 :: xcols1, ?_,
            by simp [hxlen1], ?_⟩, ?_,
          hmc1.trans hmc, hmr1.trans hmr, hmaxc1.trans hmaxc, hxs1.trans hxs, hrt1.trans hrt,
          hmlr1.trans hmlr⟩
        · intro j colj hj
          cases j with
          | zero =>
            simp only [List.getElem?_cons_zero, Option.some.injEq] at hj
            subst hj
            exact ⟨p.1, by simp, hnf⟩
          | succ j =>
            simp only [List.getElem?_cons_succ] at hj
            obtain ⟨col1, h1, h2⟩ := hnf1 j colj hj
            exact ⟨col1, by simpa using h1, h2⟩
        · show q1.2.colsXfIdList.length = _
          rw [hxflen1, hxf, List.length_set]
        · show colRecords q1.2.worksheet = _
          rw [hrec1, hrec]
          simp only [List.append_assoc, List.singleton_append]
        · intro j xc hj
          cases j with
          | zero =>
            simp only [List.getElem?_cons_zero, Option.some.injEq] at hj
            subst hj
            show q1.2.colsXfIdList[c0 + 0]? = _
            rw [Nat.add_zero, hkeep1 c0 (by omega), hxf, List.getElem?_set_self hlt]
            rfl
          | succ j =>
            simp only [List.getElem?_cons_succ] at hj
            have := hstyle1 j xc hj
            have hidx : c0 + 1 + j = c0 + (j + 1) := by omega
            rw [hidx] at this
            exact this
        · intro k hk
          show q1.2.colsXfIdList[k]? = _
          rw [hkeep1 k (by omega), hxf, List.getElem?_set_ne (by omega)]

/-! ## `makeXLSXSheet` as a whole -/

theorem sheetViewsLoop_frame (views : List SheetView) :
    ∀ (index : Int) (ws ws1 : xlsxWorksheet), sheetViewsLoop index views ws = some ws1 →
    ws1.MergeCells = ws.MergeCells ∧ ws1.Cols = ws.Cols ∧
      ws1.DataValidations = ws.DataValidations := by
  induction views with
  | nil =>
    intro index ws ws1 h
    rw [sheetViewsLoop] at h
    simp only [Option.some.injEq] at h
    subst h
    exact ⟨rfl, rfl, rfl⟩
  | cons v rest ih =>
    intro index ws ws1 h
    rw [sheetViewsLoop] at h
    cases hp : v.Pane with
    | none =>
      simp only [hp] at h
      exact ih _ _ _ h
    | some pane =>
      simp only [hp] at h
      cases hv : sliceIndex ws.SheetViews.SheetView index with
      | none =>
        simp only [hv, Option.none_bind] at h
        cases h
      | some v0 =>
        simp only [hv, Option.some_bind] at h
        cases hs : sliceSet ws.SheetViews.SheetView index
            { v0 with Pane := some { XSplit := pane.XSplit, YSplit := pane.YSplit,
                                     TopLeftCell := pane.TopLeftCell,
                                     ActivePane := pane.ActivePane, State := pane.State } } with
        | none =>
          simp only [hs, Option.none_bind] at h
          cases h
        | some vs =>
          simp only [hs, Option.some_bind] at h
          have hrec := ih _ _ _ h
          exact hrec

theorem setTabSelected_frame {s : Sheet} {ws ws1 : xlsxWorksheet}
    (h : setTabSelected s ws = some ws1) :
    ws1.MergeCells = ws.MergeCells ∧ ws1.Cols = ws.Cols ∧
      ws1.DataValidations = ws.DataValidations := by
  unfold setTabSelected at h
  by_cases hsel : s.Selected = true
  · rw [if_pos hsel] at h
    cases hv : sliceIndex ws.SheetViews.SheetView 0 with
    | none =>
      simp only [hv, Option.none_bind] at h
      cases h
    | some v0 =>
      simp only [hv, Option.some_bind] at h
      cases hs : sliceSet ws.SheetViews.SheetView 0 { v0 with TabSelected := true } with
      | none =>
        simp only [hs, Option.map_none'] at h
        cases h
      | some vs =>
        simp only [hs, Option.map_some', Option.some.injEq] at h
        subst h
        exact ⟨rfl, rfl, rfl⟩
  · rw [if_neg hsel] at h
    simp only [Option.some.injEq] at h
    subst h
    exact ⟨rfl, rfl, rfl⟩

theorem setSheetFormat_frame (s : Sheet) (ws : xlsxWorksheet) :
    (setSheetFormat s ws).MergeCells = ws.MergeCells ∧ (setSheetFormat s ws).Cols = ws.Cols ∧
      (setSheetFormat s ws).DataValidations = ws.DataValidations := by
  unfold setSheetFormat
  by_cases hh : s.SheetFormat.DefaultRowHeight ≠ 0
  · rw [if_pos hh]
    exact ⟨rfl, rfl, rfl⟩
  · rw [if_neg hh]
    exact ⟨rfl, rfl, rfl⟩

/-- The worksheet handed to the column walk has no columns, no validation
rules and no merge list yet. -/
theorem startSheet_frame {s : Sheet} {ws : xlsxWorksheet} (h : startSheet s = some ws) :
    ws.MergeCells = none ∧ ws.Cols = none ∧ ws.DataValidations = none := by
  unfold startSheet at h
  cases h1 : sheetViewsLoop 0 s.SheetViews newXlsxWorksheet with
  | none =>
    simp only [h1, Option.none_bind] at h
    cases h
  | some ws1 =>
    simp only [h1, Option.some_bind] at h
    obtain ⟨f1, f2, f3⟩ := sheetViewsLoop_frame _ _ _ _ h1
    cases h2 : setTabSelected s ws1 with
    | none =>
      simp only [h2, Option.map_none'] at h
      cases h
    | some ws2 =>
      simp only [h2, Option.map_some', Option.some.injEq] at h
      subst h
      obtain ⟨g1, g2, g3⟩ := setTabSelected_frame h2
      obtain ⟨k1, k2, k3⟩ := setSheetFormat_frame s ws2
      exact ⟨k1.trans (g1.trans f1), k2.trans (g2.trans f2), k3.trans (g3.trans f3)⟩

/-- The stages of a compile that returns. -/
theorem makeXLSXSheet_ok {env : Env} {s : Sheet} {refTable : RefTable}
    {styles : xlsxStyleSheet} {res : xlsxWorksheet × Sheet × RefTable × xlsxStyleSheet}
    (h : s.makeXLSXSheet env refTable styles = Except.ok res) :
    ∃ s1 ws0 colsDone rowsDone, s.handleMerged env = some s1 ∧ startSheet s1 = some ws0 ∧
      colsLoop 0 s1.Cols
        { worksheet := ws0, styles := styles, refTable := refTable,
          colsXfIdList := List.replicate s1.Cols.length 0 } = some colsDone ∧
      rowsLoop env colsDone.1 0 s1.Rows colsDone.2 = Except.ok rowsDone ∧
      res = finishSheet s1 colsDone.1 rowsDone.1 rowsDone.2 := by
  unfold Sheet.makeXLSXSheet at h
  cases h1 : s.handleMerged env with
  | none =>
    simp only [h1] at h
    cases h
  | some s1 =>
    simp only [h1] at h
    cases h2 : startSheet s1 with
    | none =>
      simp only [h2] at h
      cases h
    | some ws0 =>
      simp only [h2] at h
      cases h3 : colsLoop 0 s1.Cols
          { worksheet := ws0, styles := styles, refTable := refTable,
            colsXfIdList := List.replicate s1.Cols.length 0 } with
      | none =>
        simp only [h3] at h
        cases h
      | some colsDone =>
        simp only [h3] at h
        cases h4 : rowsLoop env colsDone.1 0 s1.Rows colsDone.2 with
        | error e =>
          simp only [h4] at h
          cases h
        | ok rowsDone =>
          simp only [h4, Except.ok.injEq] at h
          exact ⟨s1, ws0, colsDone, rowsDone, rfl, h2, h3, h4, h.symm⟩

/-- The stages of a compile that aborts: an index panic in one of the stages,
or an abort of the row walk. -/
theorem makeXLSXSheet_error {env : Env} {s : Sheet} {refTable : RefTable}
    {styles : xlsxStyleSheet} {e : Panic}
    (h : s.makeXLSXSheet env refTable styles = Except.error e) :
    e = Panic.indexOutOfRange ∨
      ∃ s1 ws0 colsDone, s.handleMerged env = some s1 ∧ startSheet s1 = some ws0 ∧
        colsLoop 0 s1.Cols
          { worksheet := ws0, styles := styles, refTable := refTable,
            colsXfIdList := List.replicate s1.Cols.length 0 } = some colsDone ∧
        rowsLoop env colsDone.1 0 s1.Rows colsDone.2 = Except.error e := by
  unfold Sheet.makeXLSXSheet at h
  cases h1 : s.handleMerged env with
  | none =>
    simp only [h1, Except.error.injEq] at h
    exact Or.inl h.symm
  | some s1 =>
    simp only [h1] at h
    cases h2 : startSheet s1 with
    | none =>
      simp only [h2, Except.error.injEq] at h
      exact Or.inl h.symm
    | some ws0 =>
      simp only [h2] at h
      cases h3 : colsLoop 0 s1.Cols
          { worksheet := ws0, styles := styles, refTable := refTable,
            colsXfIdList := List.replicate s1.Cols.length 0 } with
      | none =>
        simp only [h3, Except.error.injEq] at h
        exact Or.inl h.symm
      | some colsDone =>
        simp only [h3] at h
        cases h4 : rowsLoop env colsDone.1 0 s1.Rows colsDone.2 with
        | error e1 =>
          simp only [h4, Except.error.injEq] at h
          subst h
          exact Or.inr ⟨s1, ws0, colsDone, rfl, h2, h3, h4⟩
        | ok rowsDone =>
          simp only [h4] at h
          cases h

theorem finishSheet_fields (s : Sheet) (cols : List Col) (rows : List Xlsx.Row)
    (st : CompileState) :
    (finishSheet s cols rows st).1.Dimension.Ref = dimensionRef st.maxCell st.maxRow ∧
    (finishSheet s cols rows st).1.SheetData = st.xSheet ∧
    (finishSheet s cols rows st).1.MergeCells =
      st.worksheet.MergeCells.map (fun m => { m with Count := (m.Cells.length : Nat) }) ∧
    (finishSheet s cols rows st).1.Cols = st.worksheet.Cols ∧
    (finishSheet s cols rows st).1.DataValidations = st.worksheet.DataValidations := by
  unfold finishSheet
  cases hm : st.worksheet.MergeCells <;> cases ha : s.AutoFilter <;> simp [hm, ha]

theorem wsFrame_Cols {w1 w2 : xlsxWorksheet} (h : wsFrame w1 = wsFrame w2) :
    w1.Cols = w2.Cols := by
  have := congrArg xlsxWorksheet.Cols h
  exact this

/-- What a compile that returns has computed, stage by stage: the sheet `s1`
densified by `handleMerged`; the dimension from the last row index and the
greatest column index of `s1`; the merge list from the origins of `s1`; one
column record per column, whose `Style` is the format id kept for the cells of
the column; one row record per row of `s1`, numbered from 1, with one cell
record per cell, built by `cellXC` in a state holding those format ids. -/
theorem compile_spec {env : Env} {s : Sheet} {refTable : RefTable}
    {styles : xlsxStyleSheet} {res : xlsxWorksheet × Sheet × RefTable × xlsxStyleSheet}
    (h : s.makeXLSXSheet env refTable styles = Except.ok res) :
    ∃ s1 cols1 xfList, s.handleMerged env = some s1 ∧
      res.1.Dimension.Ref = dimensionRef (maxCellIdx s1.Rows) (maxRowIdx s1.Rows) ∧
      res.1.MergeCells =
        (mergeAppend none ((originsRows 0 s1.Rows).map originRef)).map
          (fun m => { m with Count := (m.Cells.length : Nat) }) ∧
      (∀ row ∈ s1.Rows, ∀ cell ∈ row.Cells, knownCellType cell.cellType) ∧
      cols1.length = s1.Cols.length ∧
      (∀ (j : Nat) (col : Col), s1.Cols[j]? = some col →
        ∃ col1, cols1[j]? = some col1 ∧ col1.numFmt = col.numFmt) ∧
      xfList.length = s1.Cols.length ∧
      (colRecords res.1).length = s1.Cols.length ∧
      (∀ (j : Nat) (xc : xlsxCol), (colRecords res.1)[j]? = some xc →
        xfList[j]? = some xc.Style) ∧
      res.1.SheetData.Row.length = s1.Rows.length ∧
      ∀ (i : Nat) (row : Xlsx.Row), s1.Rows[i]? = some row →
        ∃ xr, res.1.SheetData.Row[i]? = some xr ∧ xr.R = (i : Int) + 1 ∧
          xr.C.length = row.Cells.length ∧ xr.OutlineLevel = row.OutlineLevel ∧
          xr.CustomHeight = row.isCustom ∧
          xr.Ht = (if row.isCustom = true then env.fmtG row.Height else "") ∧
          ∀ (j : Nat) (cell : Cell), row.Cells[j]? = some cell →
            ∃ stj x, stj.colsXfIdList = xfList ∧
              cellXC cols1 (i : Int) (j : Int) cell stj = Except.ok x ∧
              xr.C[j]? = some x.1 := by
  obtain ⟨s1, ws0, colsDone, rowsDone, h1, h2, h3, h4, hres⟩ := makeXLSXSheet_ok h
  obtain ⟨f1, f2, _⟩ := startSheet_frame h2
  have h3' : colsLoop ((0 : Nat) : Int) s1.Cols
      { worksheet := ws0, styles := styles, refTable := refTable,
        colsXfIdList := List.replicate s1.Cols.length 0 } = some colsDone := h3
  obtain ⟨hclen, hcnf, hxflen, ⟨xcols, hrec, hxlen, hstyle⟩, _, hcmc, hcmr, hcmaxc, hcxs, _, _⟩ :=
    colsLoop_spec s1.Cols 0 _ colsDone h3'
  have hmc0 : 0 ≤ colsDone.2.maxCell := le_of_eq hcmaxc.symm
  have h4' : rowsLoop env colsDone.1 ((0 : Nat) : Int) s1.Rows colsDone.2
      = Except.ok rowsDone := h4
  obtain ⟨⟨xrows, hxs, hxrlen, htrace⟩, hmr, hmaxc, hmerge, hxf, _, hfr, hknown⟩ :=
    rowsLoop_spec env colsDone.1 s1.Rows 0 colsDone.2 rowsDone hmc0 h4'
  obtain ⟨g1, g2, g3, g4, _⟩ := finishSheet_fields s1 colsDone.1 rowsDone.1 rowsDone.2
  have hrecs : colRecords res.1 = xcols := by
    rw [hres]
    unfold colRecords
    rw [g4, wsFrame_Cols hfr]
    have hr := hrec
    unfold colRecords at hr
    simp only [f2, List.nil_append] at hr
    exact hr
  have hrows : res.1.SheetData.Row = xrows := by
    rw [hres, g2, hxs, hcxs]
    rfl
  refine ⟨s1, colsDone.1, colsDone.2.colsXfIdList, h1, ?_, ?_, hknown, hclen, hcnf, ?_, ?_, ?_,
    ?_, ?_⟩
  · rw [hres, g1, hmaxc, hmr, hcmaxc, hcmr]
    congr 1
    unfold maxRowIdx
    split
    · rename_i hnil
      rw [hnil]
      rfl
    · simp only [Nat.zero_add]
  · rw [hres, g3, hmerge, hcmc, f1]
    rfl
  · rw [hxflen]
    simp
  · rw [hrecs, hxlen]
  · intro j xc hj
    rw [hrecs] at hj
    have := hstyle j xc hj
    simpa using this
  · rw [hrows, hxrlen]
  · intro i row hi
    obtain ⟨xr, k1, k2, k3, k4, k5, k6, k7⟩ := htrace i row hi
    refine ⟨xr, by rw [hrows]; exact k1, by simpa using k2, k3, k4, k5, k6, ?_⟩
    intro j cell hj
    obtain ⟨stj, x, m1, _, m3, m4⟩ := k7 j cell hj
    exact ⟨stj, x, m1, by simpa using m3, m4⟩

/-! ## The dimension reference -/

theorem dimensionRef_eq (m n : Nat) :
    dimensionRef (m : Int) (n : Int) =
      if m = 0 ∧ n = 0 then "A1" else "A1:" ++ GetCellIDStringFromCoords (m : Int) (n : Int) := by
  unfold dimensionRef
  by_cases h : m = 0 ∧ n = 0
  · obtain ⟨hm, hn⟩ := h
    subst hm
    subst hn
    rfl
  · rw [if_neg h, if_neg]
    intro heq
    apply h
    have hd := congrArg String.data heq
    simp only [String.data_append] at hd
    have hd1 : (GetCellIDStringFromCoords (m : Int) (n : Int)).data = "A1".data :=
      List.append_cancel_left hd
    have hs : GetCellIDStringFromCoords (m : Int) (n : Int)
        = GetCellIDStringFromCoords ((0 : Nat) : Int) ((0 : Nat) : Int) := String.ext hd1
    exact cellRef_injective m n 0 0 hs

theorem foldl_max_ge (rows : List Xlsx.Row) :
    ∀ init : Int,
    init ≤ rows.foldl (fun m row => max m ((row.Cells.length : Int) - 1)) init ∧
    ∀ row ∈ rows, (row.Cells.length : Int) - 1
      ≤ rows.foldl (fun m row => max m ((row.Cells.length : Int) - 1)) init := by
  induction rows with
  | nil =>
    intro init
    exact ⟨le_refl _, fun row h => absurd h (List.not_mem_nil row)⟩
  | cons r rest ih =>
    intro init
    obtain ⟨h1, h2⟩ := ih (max init ((r.Cells.length : Int) - 1))
    refine ⟨le_trans (le_max_left _ _) h1, ?_⟩
    intro row hmem
    rcases List.mem_cons.mp hmem with heq | hmem1
    · subst heq
      exact le_trans (le_max_right _ _) h1
    · exact h2 row hmem1

theorem foldl_max_attained (rows : List Xlsx.Row) :
    ∀ init : Int,
    rows.foldl (fun m row => max m ((row.Cells.length : Int) - 1)) init = init ∨
    ∃ row ∈ rows, rows.foldl (fun m row => max m ((row.Cells.length : Int) - 1)) init
      = (row.Cells.length : Int) - 1 := by
  induction rows with
  | nil =>
    intro init
    exact Or.inl rfl
  | cons r rest ih =>
    intro init
    rcases ih (max init ((r.Cells.length : Int) - 1)) with h | ⟨row, hmem, h⟩
    · rcases le_total init ((r.Cells.length : Int) - 1) with hle | hle
      · right
        refine ⟨r, List.mem_cons_self _ _, ?_⟩
        rw [List.foldl_cons, h, max_eq_right hle]
      · left
        rw [List.foldl_cons, h, max_eq_left hle]
    · right
      exact ⟨row, List.mem_cons_of_mem _ hmem, by rw [List.foldl_cons, h]⟩

/-- The greatest column index of a grid: it is not negative, no cell has a
greater column index, and it is 0 or the last column index of some row. -/
theorem maxCellIdx_spec (rows : List Xlsx.Row) :
    0 ≤ maxCellIdx rows ∧
    (∀ row ∈ rows, (row.Cells.length : Int) - 1 ≤ maxCellIdx rows) ∧
    (maxCellIdx rows = 0 ∨ ∃ row ∈ rows, maxCellIdx rows = (row.Cells.length : Int) - 1) := by
  unfold maxCellIdx
  exact ⟨(foldl_max_ge rows 0).1, (foldl_max_ge rows 0).2, foldl_max_attained rows 0⟩

theorem maxRowIdx_spec (rows : List Xlsx.Row) :
    0 ≤ maxRowIdx rows ∧
    maxRowIdx rows = (if rows = [] then 0 else (rows.length : Int) - 1) := by
  unfold maxRowIdx
  refine ⟨le_max_left _ _, ?_⟩
  split
  · rename_i h
    rw [h]
    rfl
  · rename_i h
    have : 0 < rows.length := List.length_pos.mpr h
    rw [max_eq_right (by omega)]

/-- The dimension reference as a function of the grid: `A1` when the grid has
no cell beyond (0,0), else `A1:` and the reference of the last row and the
greatest column. -/
theorem dimensionRef_grid (rows : List Xlsx.Row) :
    dimensionRef (maxCellIdx rows) (maxRowIdx rows) =
      if maxCellIdx rows = 0 ∧ maxRowIdx rows = 0 then "A1"
      else "A1:" ++ GetCellIDStringFromCoords (maxCellIdx rows) (maxRowIdx rows) := by
  obtain ⟨m, hm⟩ := Int.eq_ofNat_of_zero_le (maxCellIdx_spec rows).1
  obtain ⟨n, hn⟩ := Int.eq_ofNat_of_zero_le (maxRowIdx_spec rows).1
  rw [hm, hn, dimensionRef_eq]
  simp only [Nat.cast_eq_zero]

/-! ## Cell records -/

/-- The type switch: it keeps the reference, the format id and the formula of
the record, and sets the tag and the value by the type of the cell. -/
theorem cellTyped_fields {cell : Cell} {xC : xlsxC} {rt : RefTable} {q : xlsxC × RefTable}
    (h : cellTyped cell xC rt = Except.ok q) :
    q.1.R = xC.R ∧ q.1.S = xC.S ∧ q.1.F = xC.F ∧
    (cell.cellType = CellTypeNumeric → q.1.T = xC.T ∧ q.1.V = cell.Value ∧ q.2 = rt) ∧
    (cell.cellType = CellTypeString ∨ cell.cellType = CellTypeInline →
      q.1.T = "s" ∧
      (cell.Value ≠ "" → q.1.V = Itoa (rt.AddString cell.Value).1 ∧
        q.2 = (rt.AddString cell.Value).2) ∧
      (cell.Value = "" → q.1.V = xC.V ∧ q.2 = rt)) ∧
    (cell.cellType = CellTypeBool → q.1.T = "b" ∧ q.1.V = cell.Value ∧ q.2 = rt) ∧
    (cell.cellType = CellTypeError → q.1.T = "e" ∧ q.1.V = cell.Value ∧ q.2 = rt) ∧
    (cell.cellType = CellTypeDate → q.1.T = "d" ∧ q.1.V = cell.Value ∧ q.2 = rt) ∧
    (cell.cellType = CellTypeStringFormula →
      q.1.T = "str" ∧ q.1.V = cell.Value ∧ q.2 = rt) := by
  unfold cellTyped at h
  by_cases h1 : cell.cellType = CellTypeInline ∨ cell.cellType = CellTypeString
  · rw [if_pos h1] at h
    have hne : cell.cellType ≠ CellTypeNumeric ∧ cell.cellType ≠ CellTypeBool ∧
        cell.cellType ≠ CellTypeError ∧ cell.cellType ≠ CellTypeDate ∧
        cell.cellType ≠ CellTypeStringFormula := by
      rcases h1 with h1 | h1 <;> rw [h1] <;> decide
    by_cases hv : cell.Value ≠ ""
    · rw [if_pos hv] at h
      simp only [Except.ok.injEq] at h
      subst h
      exact ⟨rfl, rfl, rfl, fun h => absurd h hne.1,
        fun _ => ⟨rfl, fun _ => ⟨rfl, rfl⟩, fun h => absurd h hv⟩,
        fun h => absurd h hne.2.1, fun h => absurd h hne.2.2.1, fun h => absurd h hne.2.2.2.1,
        fun h => absurd h hne.2.2.2.2⟩
    · rw [if_neg hv] at h
      simp only [Except.ok.injEq] at h
      subst h
      exact ⟨rfl, rfl, rfl, fun h => absurd h hne.1,
        fun _ => ⟨rfl, fun h => absurd h hv, fun _ => ⟨rfl, rfl⟩⟩,
        fun h => absurd h hne.2.1, fun h => absurd h hne.2.2.1, fun h => absurd h hne.2.2.2.1,
        fun h => absurd h hne.2.2.2.2⟩
  · rw [if_neg h1] at h
    have hns : ¬ (cell.cellType = CellTypeString ∨ cell.cellType = CellTypeInline) :=
      fun h => h1 h.symm
    by_cases h2 : cell.cellType = CellTypeNumeric
    · rw [if_pos h2] at h
      simp only [Except.ok.injEq] at h
      subst h
      refine ⟨rfl, rfl, rfl, fun _ => ⟨rfl, rfl, rfl⟩, fun h => absurd h hns, ?_, ?_, ?_, ?_⟩ <;>
        intro h3 <;> rw [h2] at h3 <;> exact absurd h3 (by decide)
    · rw [if_neg h2] at h
      by_cases h3 : cell.cellType = CellTypeBool
      · rw [if_pos h3] at h
        simp only [Except.ok.injEq] at h
        subst h
        refine ⟨rfl, rfl, rfl, fun h => absurd h h2, fun h => absurd h hns,
          fun _ => ⟨rfl, rfl, rfl⟩, ?_, ?_, ?_⟩ <;>
          intro h4 <;> rw [h3] at h4 <;> exact absurd h4 (by decide)
      · rw [if_neg h3] at h
        by_cases h4 : cell.cellType = CellTypeError
        · rw [if_pos h4] at h
          simp only [Except.ok.injEq] at h
          subst h
          refine ⟨rfl, rfl, rfl, fun h => absurd h h2, fun h => absurd h hns,
            fun h => absurd h h3, fun _ => ⟨rfl, rfl, rfl⟩, ?_, ?_⟩ <;>
            intro h5 <;> rw [h4] at h5 <;> exact absurd h5 (by decide)
        · rw [if_neg h4] at h
          by_cases h5 : cell.cellType = CellTypeDate
          · rw [if_pos h5] at h
            simp only [Except.ok.injEq] at h
            subst h
            refine ⟨rfl, rfl, rfl, fun h => absurd h h2, fun h => absurd h hns,
              fun h => absurd h h3, fun h => absurd h h4, fun _ => ⟨rfl, rfl, rfl⟩, ?_⟩
            intro h6
            rw [h5] at h6
            exact absurd h6 (by decide)
          · rw [if_neg h5] at h
            by_cases h6 : cell.cellType = CellTypeStringFormula
            · rw [if_pos h6] at h
              simp only [Except.ok.injEq] at h
              subst h
              exact ⟨rfl, rfl, rfl, fun h => absurd h h2, fun h => absurd h hns,
                fun h => absurd h h3, fun h => absurd h h4, fun h => absurd h h5,
                fun _ => ⟨rfl, rfl, rfl⟩⟩
            · rw [if_neg h6] at h
              cases h

theorem cellBase_fields (r c : Int) (cell : Cell) (XfId : Int) :
    (cellBase r c cell XfId).R = GetCellIDStringFromCoords c r ∧
    (cellBase r c cell XfId).S = XfId ∧ (cellBase r c cell XfId).T = "" ∧
    (cellBase r c cell XfId).V = "" ∧
    (cellBase r c cell XfId).F =
      (if cell.formula ≠ "" then some { Content := cell.formula } else none) := by
  unfold cellBase
  by_cases h : cell.formula ≠ ""
  · rw [if_pos h, if_pos h]
    exact ⟨rfl, rfl, rfl, rfl, rfl⟩
  · rw [if_neg h, if_neg h]
    exact ⟨rfl, rfl, rfl, rfl, rfl⟩

/-- The parts of a cell record that is built: the format id computed by
`cellFormatId`, and the record typed by `cellTyped` from the base record. -/
theorem cellXC_ok {cols : List Col} {r c : Int} {cell : Cell} {st : CompileState}
    {x : xlsxC × xlsxStyleSheet × RefTable} (h : cellXC cols r c cell st = Except.ok x) :
    ∃ fmt typed, cellFormatId cols st.colsXfIdList c cell st.styles = Except.ok fmt ∧
      cellTyped cell (cellBase r c cell fmt.1) st.refTable = Except.ok typed ∧
      x = (typed.1, fmt.2, typed.2) := by
  unfold cellXC at h
  cases hf : cellFormatId cols st.colsXfIdList c cell st.styles with
  | error e1 =>
    rw [hf] at h
    cases h
  | ok fmt =>
    rw [hf] at h
    cases ht : cellTyped cell (cellBase r c cell fmt.1) st.refTable with
    | error e1 =>
      simp only [ht] at h
      cases h
    | ok typed =>
      simp only [ht, Except.ok.injEq] at h
      exact ⟨fmt, typed, rfl, ht, h.symm⟩

/-- C13: when the compile of a sheet returns, the `Dimension.Ref` of the
worksheet is `A1:` followed by the cell reference of (maxCol, maxRow), and
exactly `A1` when both are zero, where maxRow is the index of the last row of
the densified sheet (0 when it has no rows) and maxCol is the greatest column
index of a cell of any of its rows (0 when it has no cells).  The sheet with no
rows and the sheet holding only the cell at (0,0) both compile to `A1`. -/
theorem makeXLSXSheet_dimension (env : Env) (s : Sheet) (refTable : RefTable)
    (styles : xlsxStyleSheet) (res : xlsxWorksheet × Sheet × RefTable × xlsxStyleSheet)
    (h : s.makeXLSXSheet env refTable styles = Except.ok res) :
    (∃ (s1 : Sheet) (maxCol maxRow : Int), s.handleMerged env = some s1 ∧
      maxRow = (if s1.Rows = [] then 0 else (s1.Rows.length : Int) - 1) ∧
      0 ≤ maxCol ∧ (∀ row ∈ s1.Rows, (row.Cells.length : Int) - 1 ≤ maxCol) ∧
      (maxCol = 0 ∨ ∃ row ∈ s1.Rows, maxCol = (row.Cells.length : Int) - 1) ∧
      res.1.Dimension.Ref =
        (if maxCol = 0 ∧ maxRow = 0 then "A1"
         else "A1:" ++ GetCellIDStringFromCoords maxCol maxRow)) ∧
    (emptySheet.makeXLSXSheet exampleEnv { indexedStrings := [] } {}).toOption.map
        (fun r => r.1.Dimension.Ref) = some "A1" ∧
    (oneCellSheet.makeXLSXSheet exampleEnv { indexedStrings := [] } {}).toOption.map
        (fun r => r.1.Dimension.Ref) = some "A1" := by
  refine ⟨?_, by rfl, by rfl⟩
  obtain ⟨s1, _, _, hrun, hdim, _⟩ := compile_spec h
  refine ⟨s1, maxCellIdx s1.Rows, maxRowIdx s1.Rows, hrun, (maxRowIdx_spec s1.Rows).2,
    (maxCellIdx_spec s1.Rows).1, (maxCellIdx_spec s1.Rows).2.1, (maxCellIdx_spec s1.Rows).2.2, ?_⟩
  rw [hdim, dimensionRef_grid]

/-- C13 at a concrete input: the scenario sheet compiles, and its dimension is
`A1:D3` (the merge rectangle reaches column 3 and row 2). -/
theorem makeXLSXSheet_dimension_witness :
    ∃ res, scenarioSheet.makeXLSXSheet exampleEnv { indexedStrings := [] } {} = Except.ok res ∧
      res.1.Dimension.Ref = "A1:D3" ∧
      ∃ (s1 : Sheet) (maxCol maxRow : Int), scenarioSheet.handleMerged exampleEnv = some s1 ∧
        maxRow = (if s1.Rows = [] then 0 else (s1.Rows.length : Int) - 1) ∧
        res.1.Dimension.Ref =
          (if maxCol = 0 ∧ maxRow = 0 then "A1"
           else "A1:" ++ GetCellIDStringFromCoords maxCol maxRow) := by
  have hval : (scenarioSheet.makeXLSXSheet exampleEnv { indexedStrings := [] } {}).toOption.map
      (fun r => r.1.Dimension.Ref) = some "A1:D3" := by rfl
  cases hres : scenarioSheet.makeXLSXSheet exampleEnv { indexedStrings := [] } {} with
  | error e =>
    rw [hres] at hval
    cases hval
  | ok res =>
    rw [hres] at hval
    obtain ⟨⟨s1, maxCol, maxRow, hrun, hrow, _, _, _, hdim⟩, _⟩ :=
      makeXLSXSheet_dimension exampleEnv scenarioSheet { indexedStrings := [] } {} res hres
    refine ⟨res, rfl, ?_, s1, maxCol, maxRow, hrun, hrow, hdim⟩
    simpa [Except.toOption] using hval

theorem cellAt_bounds {rows : List Xlsx.Row} {i j : Nat} {cell : Cell}
    (h : cellAt rows i j = some cell) :
    i < rows.length ∧ (i : Int) ≤ maxRowIdx rows ∧ (j : Int) ≤ maxCellIdx rows := by
  unfold cellAt at h
  cases hrow : rows[i]? with
  | none =>
    rw [hrow] at h
    cases h
  | some row =>
    rw [hrow] at h
    simp only [Option.some_bind] at h
    obtain ⟨hi, hget⟩ := List.getElem?_eq_some.mp hrow
    obtain ⟨hj, _⟩ := List.getElem?_eq_some.mp h
    have hmem : row ∈ rows := hget ▸ List.getElem_mem hi
    have h1 := (maxCellIdx_spec rows).2.1 row hmem
    have h2 : (rows.length : Int) - 1 ≤ maxRowIdx rows := le_max_right _ _
    refine ⟨hi, ?_, ?_⟩ <;> omega

/-- C14: when the compile of a sheet returns, the maxRow and maxCol from which
it builds `Dimension.Ref` are those of the densified sheet, so for every merge
origin of the sheet at row `r`, column `c` with spans `HMerge = h ≥ 0` and
`VMerge = v ≥ 0` they satisfy `maxRow ≥ r + v` and `maxCol ≥ c + h`; and the
sheet data holds a row record, numbered `i + 1`, for every row `i` up to
`r + v`. -/
theorem makeXLSXSheet_dimension_covers_merges (env : Env)
    (hperm : ∀ l, (env.mapOrder l).Perm l) (s : Sheet) (refTable : RefTable)
    (styles : xlsxStyleSheet) (res : xlsxWorksheet × Sheet × RefTable × xlsxStyleSheet)
    (h : s.makeXLSXSheet env refTable styles = Except.ok res) :
    ∃ (s1 : Sheet) (maxCol maxRow : Int), s.handleMerged env = some s1 ∧
      maxCol = maxCellIdx s1.Rows ∧ maxRow = maxRowIdx s1.Rows ∧
      res.1.Dimension.Ref = dimensionRef maxCol maxRow ∧
      ∀ (r c : Nat) (cell : Cell), cellAt s.Rows r c = some cell →
        (cell.HMerge > 0 ∨ cell.VMerge > 0) → 0 ≤ cell.HMerge → 0 ≤ cell.VMerge →
        (r : Int) + cell.VMerge ≤ maxRow ∧ (c : Int) + cell.HMerge ≤ maxCol ∧
        ∀ i : Nat, (i : Int) ≤ (r : Int) + cell.VMerge →
          ∃ xr, res.1.SheetData.Row[i]? = some xr ∧ xr.R = (i : Int) + 1 := by
  obtain ⟨s1, _, _, hrun, hdim, _, _, _, _, _, _, _, hlen, hrows⟩ := compile_spec h
  obtain ⟨s2, hrun2, _, hrect⟩ := handleMerged_core env hperm s
  rw [hrun] at hrun2
  cases hrun2
  refine ⟨s1, _, _, hrun, rfl, rfl, hdim, ?_⟩
  intro r c cell hcell hm hh hv
  have hlast := hrect r c cell hcell hm cell.VMerge.toNat cell.HMerge.toNat
    (le_of_eq (Int.toNat_of_nonneg hv)) (le_of_eq (Int.toNat_of_nonneg hh))
  obtain ⟨cell1, hcell1⟩ := Option.isSome_iff_exists.mp hlast
  obtain ⟨hlt, hrow, hcol⟩ := cellAt_bounds hcell1
  have ev := Int.toNat_of_nonneg hv
  have eh := Int.toNat_of_nonneg hh
  refine ⟨by push_cast at hrow; omega, by push_cast at hcol; omega, ?_⟩
  intro i hi
  have hi1 : i < s1.Rows.length := by omega
  obtain ⟨xr, hxr, hR, _⟩ := hrows i (s1.Rows[i]) (List.getElem?_eq_getElem hi1)
  exact ⟨xr, hxr, hR⟩

/-- C14 at a concrete input: the scenario sheet, whose origin at row 1,
column 2 has spans 1 and 1; the dimension is built from maxRow ≥ 2 and
maxCol ≥ 3 and the sheet data has a record for row 2. -/
theorem makeXLSXSheet_dimension_covers_merges_witness :
    ∃ res, scenarioSheet.makeXLSXSheet exampleEnv { indexedStrings := [] } {} = Except.ok res ∧
      ∃ maxCol maxRow : Int, res.1.Dimension.Ref = dimensionRef maxCol maxRow ∧
        2 ≤ maxRow ∧ 3 ≤ maxCol ∧
        ∃ xr, res.1.SheetData.Row[2]? = some xr ∧ xr.R = 3 := by
  have hval : (scenarioSheet.makeXLSXSheet exampleEnv { indexedStrings := [] } {}).toOption.isSome
      = true := by rfl
  cases hres : scenarioSheet.makeXLSXSheet exampleEnv { indexedStrings := [] } {} with
  | error e =>
    rw [hres] at hval
    cases hval
  | ok res =>
    obtain ⟨s1, maxCol, maxRow, _, _, _, hdim, hall⟩ :=
      makeXLSXSheet_dimension_covers_merges exampleEnv (fun l => List.Perm.refl l)
        scenarioSheet { indexedStrings := [] } {} res hres
    obtain ⟨h1, h2, h3⟩ := hall 1 2 { HMerge := 1, VMerge := 1 } rfl (by decide)
      (by decide) (by decide)
    obtain ⟨xr, hxr, hR⟩ := h3 2 (by decide)
    exact ⟨res, rfl, maxCol, maxRow, hdim, h1, h2, xr, hxr, hR⟩

/-! ## The merge list -/

/-- Row-major order on coordinates (row, column). -/
theorem originsCells_sorted (r : Int) (cells : List Cell) :
    ∀ c0 : Nat, (originsCells r (c0 : Int) cells).Pairwise
      (fun a b => a.1 = b.1 ∧ a.2.1 < b.2.1) := by
  induction cells with
  | nil =>
    intro c0
    simp [originsCells]
  | cons cell rest ih =>
    intro c0
    have hrest := ih (c0 + 1)
    rw [Nat.cast_add, Nat.cast_one] at hrest
    unfold originsCells
    split
    · refine List.Pairwise.cons ?_ hrest
      intro b hb
      have hb1 : b ∈ originsCells r ((c0 + 1 : Nat) : Int) rest := by
        rw [Nat.cast_add, Nat.cast_one]
        exact hb
      obtain ⟨h1, j, h2, _⟩ := originsCells_mem r rest (c0 + 1) b hb1
      refine ⟨h1.symm, ?_⟩
      rw [h2]
      push_cast
      omega
    · exact hrest

theorem originsRows_sorted (rows : List Xlsx.Row) :
    ∀ r0 : Nat, (originsRows (r0 : Int) rows).Pairwise
      (fun a b => a.1 < b.1 ∨ (a.1 = b.1 ∧ a.2.1 < b.2.1)) := by
  induction rows with
  | nil =>
    intro r0
    simp [originsRows]
  | cons row rest ih =>
    intro r0
    have hrest := ih (r0 + 1)
    rw [Nat.cast_add, Nat.cast_one] at hrest
    unfold originsRows
    rw [List.pairwise_append]
    refine ⟨?_, hrest, ?_⟩
    · have h0 := originsCells_sorted (r0 : Int) row.Cells 0
      rw [Nat.cast_zero] at h0
      exact h0.imp (fun h => Or.inr h)
    · intro a ha b hb
      have ha1 : a ∈ originsCells (r0 : Int) ((0 : Nat) : Int) row.Cells := by
        rw [Nat.cast_zero]
        exact ha
      have hb1 : b ∈ originsRows ((r0 + 1 : Nat) : Int) rest := by
        rw [Nat.cast_add, Nat.cast_one]
        exact hb
      obtain ⟨h1, _⟩ := originsCells_mem (r0 : Int) row.Cells 0 a ha1
      obtain ⟨i, j, h2, _⟩ := originsRows_mem rest (r0 + 1) b hb1
      left
      rw [h1, h2]
      push_cast
      omega

theorem originsRows_iff (rows : List Xlsx.Row) (r c : Nat) (cell : Cell) :
    ((r : Int), (c : Int), cell) ∈ originsRows 0 rows ↔
      cellAt rows r c = some cell ∧ (cell.HMerge > 0 ∨ cell.VMerge > 0) := by
  constructor
  · intro hmem
    have hmem1 : ((r : Int), (c : Int), cell) ∈ originsRows ((0 : Nat) : Int) rows := by
      rw [Nat.cast_zero]
      exact hmem
    obtain ⟨i, j, h1, h2, h3, h4⟩ := originsRows_mem rows 0 _ hmem1
    simp only [zero_add, Nat.cast_inj] at h1 h2
    subst h1
    subst h2
    exact ⟨h3, h4⟩
  · intro ⟨h1, h2⟩
    have := originsRows_of rows 0 r c cell h1 h2
    simpa using this

theorem mergeAppend_none_nil : mergeAppend none [] = none := rfl

theorem mergeAppend_none_ne {l : List xlsxMergeCell} (h : l ≠ []) :
    mergeAppend none l = some { Cells := l } := by
  cases l with
  | nil => exact absurd rfl h
  | cons a l => rfl

/-- C15: when the compile of a sheet returns, the merge list of the worksheet
holds exactly one entry for each cell of the input sheet with `HMerge > 0` or
`VMerge > 0`, in row-major order of these origins (`originsRows` lists them so),
and none for the cells created by densification: the entry of the origin at
row `r`, column `c` is `cellRef(c, r) + ":" + cellRef(c + HMerge, r + VMerge)`.
`Count` is the number of entries, and `MergeCells` is absent when no cell
carries merge markers. -/
theorem makeXLSXSheet_mergeCells (env : Env) (hperm : ∀ l, (env.mapOrder l).Perm l)
    (s : Sheet) (refTable : RefTable) (styles : xlsxStyleSheet)
    (res : xlsxWorksheet × Sheet × RefTable × xlsxStyleSheet)
    (h : s.makeXLSXSheet env refTable styles = Except.ok res) :
    (∀ (r c : Nat) (cell : Cell), ((r : Int), (c : Int), cell) ∈ originsRows 0 s.Rows ↔
      cellAt s.Rows r c = some cell ∧ (cell.HMerge > 0 ∨ cell.VMerge > 0)) ∧
    (originsRows 0 s.Rows).Pairwise
      (fun a b => a.1 < b.1 ∨ (a.1 = b.1 ∧ a.2.1 < b.2.1)) ∧
    ((∀ (r c : Nat) (cell : Cell), cellAt s.Rows r c = some cell →
        ¬ (cell.HMerge > 0 ∨ cell.VMerge > 0)) → res.1.MergeCells = none) ∧
    (originsRows 0 s.Rows ≠ [] →
      ∃ m, res.1.MergeCells = some m ∧
        m.Cells = (originsRows 0 s.Rows).map (fun t =>
          { Ref := GetCellIDStringFromCoords t.2.1 t.1 ++ ":" ++
              GetCellIDStringFromCoords (t.2.1 + t.2.2.HMerge) (t.1 + t.2.2.VMerge) }) ∧
        m.Count = (m.Cells.length : Int) ∧
        m.Cells.length = (originsRows 0 s.Rows).length) := by
  obtain ⟨s1, _, _, hrun, _, hmc, _⟩ := compile_spec h
  obtain ⟨s2, hrun2, hext, _⟩ := handleMerged_core env hperm s
  rw [hrun] at hrun2
  cases hrun2
  rw [RowsExt_origins hext 0] at hmc
  have hsorted := originsRows_sorted s.Rows 0
  rw [Nat.cast_zero] at hsorted
  refine ⟨originsRows_iff s.Rows, hsorted, ?_, ?_⟩
  · intro hnone
    have hnil : originsRows 0 s.Rows = [] := by
      apply List.eq_nil_iff_forall_not_mem.mpr
      intro t ht
      have ht1 : t ∈ originsRows ((0 : Nat) : Int) s.Rows := by
        rw [Nat.cast_zero]
        exact ht
      obtain ⟨i, j, _, _, h3, h4⟩ := originsRows_mem s.Rows 0 t ht1
      exact hnone i j t.2.2 h3 h4
    rw [hmc, hnil]
    rfl
  · intro hne
    have hne1 : (originsRows 0 s.Rows).map originRef ≠ [] := by
      intro h0
      exact hne (List.map_eq_nil_iff.mp h0)
    rw [mergeAppend_none_ne hne1] at hmc
    refine ⟨_, hmc, ?_, ?_, ?_⟩
    · rfl
    · rfl
    · simp

/-- C15 at a concrete input: the scenario sheet compiles to the merge list
with the single entry `C2:D3` and `Count = 1`. -/
theorem makeXLSXSheet_mergeCells_witness :
    ∃ res m, scenarioSheet.makeXLSXSheet exampleEnv { indexedStrings := [] } {} = Except.ok res ∧
      res.1.MergeCells = some m ∧ m.Cells = [{ Ref := "C2:D3" }] ∧ m.Count = 1 := by
  have hval : (scenarioSheet.makeXLSXSheet exampleEnv { indexedStrings := [] } {}).toOption.isSome
      = true := by rfl
  have ho : originsRows 0 scenarioSheet.Rows = [(1, 2, { HMerge := 1, VMerge := 1 })] := rfl
  cases hres : scenarioSheet.makeXLSXSheet exampleEnv { indexedStrings := [] } {} with
  | error e =>
    rw [hres] at hval
    cases hval
  | ok res =>
    obtain ⟨_, _, _, hsome⟩ :=
      makeXLSXSheet_mergeCells exampleEnv (fun l => List.Perm.refl l)
        scenarioSheet { indexedStrings := [] } {} res hres
    obtain ⟨m, hm, hcells, hcount, _⟩ := hsome (by rw [ho]; exact List.cons_ne_nil _ _)
    rw [ho] at hcells
    have hcells1 : m.Cells = [{ Ref := "C2:D3" }] := by
      rw [hcells]
      decide
    refine ⟨res, m, rfl, hm, hcells1, ?_⟩
    rw [hcount, hcells1]
    rfl

/-- The cell record that `cellXC` builds, field by field: the format id of
`cellFormatId`, the reference, the formula element, and the tag, the value and
the string table by the type of the cell. -/
theorem cellXC_record {cols : List Col} {r c : Int} {cell : Cell} {st : CompileState}
    {x : xlsxC × xlsxStyleSheet × RefTable} (h : cellXC cols r c cell st = Except.ok x) :
    (∃ fmt, cellFormatId cols st.colsXfIdList c cell st.styles = Except.ok fmt ∧
      x.1.S = fmt.1 ∧ x.2.1 = fmt.2) ∧
    x.1.R = GetCellIDStringFromCoords c r ∧
    x.1.F = (if cell.formula ≠ "" then some { Content := cell.formula } else none) ∧
    (cell.cellType = CellTypeNumeric → x.1.T = "" ∧ x.1.V = cell.Value ∧ x.2.2 = st.refTable) ∧
    (cell.cellType = CellTypeString ∨ cell.cellType = CellTypeInline →
      x.1.T = "s" ∧
      (cell.Value ≠ "" → x.1.V = Itoa (st.refTable.AddString cell.Value).1 ∧
        x.2.2 = (st.refTable.AddString cell.Value).2) ∧
      (cell.Value = "" → x.1.V = "" ∧ x.2.2 = st.refTable)) ∧
    (cell.cellType = CellTypeBool → x.1.T = "b" ∧ x.1.V = cell.Value ∧ x.2.2 = st.refTable) ∧
    (cell.cellType = CellTypeError → x.1.T = "e" ∧ x.1.V = cell.Value ∧ x.2.2 = st.refTable) ∧
    (cell.cellType = CellTypeDate → x.1.T = "d" ∧ x.1.V = cell.Value ∧ x.2.2 = st.refTable) ∧
    (cell.cellType = CellTypeStringFormula →
      x.1.T = "str" ∧ x.1.V = cell.Value ∧ x.2.2 = st.refTable) := by
  obtain ⟨fmt, typed, hf, ht, hx⟩ := cellXC_ok h
  obtain ⟨hR, hS, hF, hnum, hstr, hbool, herr, hdate, hsf⟩ := cellTyped_fields ht
  obtain ⟨bR, bS, bT, bV, bF⟩ := cellBase_fields r c cell fmt.1
  subst hx
  refine ⟨⟨fmt, hf, ?_, rfl⟩, ?_, ?_, ?_, ?_, hbool, herr, hdate, hsf⟩
  · exact hS.trans bS
  · exact hR.trans bR
  · exact hF.trans bF
  · intro hty
    obtain ⟨h1, h2, h3⟩ := hnum hty
    exact ⟨h1.trans bT, h2, h3⟩
  · intro hty
    obtain ⟨h1, h2, h3⟩ := hstr hty
    refine ⟨h1, h2, ?_⟩
    intro hv
    obtain ⟨h4, h5⟩ := h3 hv
    exact ⟨h4.trans bV, h5⟩

/-- C16: when the compile of a sheet returns, every cell at row `r`, column `c`
of the densified sheet has one of the seven types and its record, the one at
position `c` of row record `r`, has `R = cellRef(c, r)` and the tag `T` of its
type: Numeric `""`, String and InlineString `"s"`, Bool `"b"`, Error `"e"`,
Date `"d"`, StringFormula `"str"`; for Numeric, Bool, Error, Date and
StringFormula `V` is the raw `Value`; the formula element is present exactly
when the formula of the cell is non-empty and carries that text. -/
theorem makeXLSXSheet_cell_record (env : Env) (s : Sheet) (refTable : RefTable)
    (styles : xlsxStyleSheet) (res : xlsxWorksheet × Sheet × RefTable × xlsxStyleSheet)
    (h : s.makeXLSXSheet env refTable styles = Except.ok res) :
    ∃ s1, s.handleMerged env = some s1 ∧
      ∀ (r c : Nat) (cell : Cell), cellAt s1.Rows r c = some cell →
        knownCellType cell.cellType ∧
        ∃ xr xc, res.1.SheetData.Row[r]? = some xr ∧ xr.C[c]? = some xc ∧
          xc.R = GetCellIDStringFromCoords (c : Int) (r : Int) ∧
          (cell.cellType = CellTypeNumeric → xc.T = "" ∧ xc.V = cell.Value) ∧
          (cell.cellType = CellTypeString → xc.T = "s") ∧
          (cell.cellType = CellTypeInline → xc.T = "s") ∧
          (cell.cellType = CellTypeBool → xc.T = "b" ∧ xc.V = cell.Value) ∧
          (cell.cellType = CellTypeError → xc.T = "e" ∧ xc.V = cell.Value) ∧
          (cell.cellType = CellTypeDate → xc.T = "d" ∧ xc.V = cell.Value) ∧
          (cell.cellType = CellTypeStringFormula → xc.T = "str" ∧ xc.V = cell.Value) ∧
          (cell.formula ≠ "" → xc.F = some { Content := cell.formula }) ∧
          (cell.formula = "" → xc.F = none) := by
  obtain ⟨s1, cols1, xfList, hrun, _, _, _, _, _, _, _, _, _, hrows⟩ := compile_spec h
  refine ⟨s1, hrun, ?_⟩
  intro r c cell hcell
  unfold cellAt at hcell
  cases hrow : s1.Rows[r]? with
  | none =>
    rw [hrow] at hcell
    cases hcell
  | some row =>
    rw [hrow] at hcell
    simp only [Option.some_bind] at hcell
    obtain ⟨xr, hxr, _, _, _, _, _, hcells⟩ := hrows r row hrow
    obtain ⟨stj, x, _, hx, hxc⟩ := hcells c cell hcell
    obtain ⟨_, hR, hF, hnum, hstr, hbool, herr, hdate, hsf⟩ := cellXC_record hx
    refine ⟨cellXC_ok_known hx, xr, x.1, hxr, hxc, hR, ?_, ?_, ?_, ?_, ?_, ?_, ?_, ?_, ?_⟩
    · exact fun hty => ⟨(hnum hty).1, (hnum hty).2.1⟩
    · exact fun hty => (hstr (Or.inl hty)).1
    · exact fun hty => (hstr (Or.inr hty)).1
    · exact fun hty => ⟨(hbool hty).1, (hbool hty).2.1⟩
    · exact fun hty => ⟨(herr hty).1, (herr hty).2.1⟩
    · exact fun hty => ⟨(hdate hty).1, (hdate hty).2.1⟩
    · exact fun hty => ⟨(hsf hty).1, (hsf hty).2.1⟩
    · intro hne
      rw [hF, if_pos hne]
    · intro heq
      rw [hF, if_neg (not_not.mpr heq)]

/-- C16 at a concrete input: the sheet with a cell of each type compiles to the
records listed, and the record of its Bool cell at column 3 is tagged `b`. -/
theorem makeXLSXSheet_cell_record_witness :
    (typedSheet.makeXLSXSheet exampleEnv { indexedStrings := [] } {}).toOption.map
        (fun res => res.1.SheetData.Row.map
          (fun xr => xr.C.map (fun xc => (xc.R, xc.T, xc.V, xc.F.map (·.Content)))))
      = some [[("A1", "", "42", some "B1+1"), ("B1", "s", "0", none), ("C1", "s", "0", none),
               ("D1", "b", "1", none), ("E1", "e", "#N/A", none),
               ("F1", "d", "2020-01-01", none), ("G1", "str", "x", none)]] ∧
    ∃ res xr xc, typedSheet.makeXLSXSheet exampleEnv { indexedStrings := [] } {} = Except.ok res ∧
      res.1.SheetData.Row[0]? = some xr ∧ xr.C[3]? = some xc ∧
      xc.R = GetCellIDStringFromCoords 3 0 ∧ xc.T = "b" ∧ xc.V = "1" ∧ xc.F = none := by
  refine ⟨by rfl, ?_⟩
  have hval : (typedSheet.makeXLSXSheet exampleEnv { indexedStrings := [] } {}).toOption.isSome
      = true := by rfl
  have hm : (typedSheet.handleMerged exampleEnv).map (fun s1 => cellAt s1.Rows 0 3)
      = some (some { Value := "1", cellType := CellTypeBool }) := by rfl
  cases hres : typedSheet.makeXLSXSheet exampleEnv { indexedStrings := [] } {} with
  | error e =>
    rw [hres] at hval
    cases hval
  | ok res =>
    obtain ⟨s1, hrun, hall⟩ :=
      makeXLSXSheet_cell_record exampleEnv typedSheet { indexedStrings := [] } {} res hres
    rw [hrun] at hm
    simp only [Option.map_some', Option.some.injEq] at hm
    obtain ⟨_, xr, xc, hxr, hxc, hR, _, _, _, hbool, _, _, _, _, hF⟩ := hall 0 3 _ hm
    exact ⟨res, xr, xc, rfl, hxr, hxc, hR, (hbool rfl).1, (hbool rfl).2, hF rfl⟩

/-! ## String cells -/

/-- The step of an InlineString cell is the step of the String cell with the
same fields: same record, same style table, same string table. -/
theorem cellXC_inline_eq_string (cols : List Col) (r c : Int) (cell : Cell)
    (st : CompileState) :
    cellXC cols r c { cell with cellType := CellTypeInline } st =
      cellXC cols r c { cell with cellType := CellTypeString } st := by
  have hb : ∀ XfId, cellBase r c { cell with cellType := CellTypeInline } XfId =
      cellBase r c { cell with cellType := CellTypeString } XfId := fun _ => rfl
  have hf : cellFormatId cols st.colsXfIdList c { cell with cellType := CellTypeInline } st.styles
      = cellFormatId cols st.colsXfIdList c { cell with cellType := CellTypeString } st.styles :=
    rfl
  have ht : ∀ xC rt, cellTyped { cell with cellType := CellTypeInline } xC rt =
      cellTyped { cell with cellType := CellTypeString } xC rt := by
    intro xC rt
    unfold cellTyped
    rw [if_pos (Or.inl rfl), if_pos (Or.inr rfl)]
  unfold cellXC
  rw [hf]
  cases cellFormatId cols st.colsXfIdList c { cell with cellType := CellTypeString } st.styles with
  | error e => rfl
  | ok fmt =>
    simp only [hb, ht]

theorem cellXC_string_or_inline {cols : List Col} {r c : Int} {cell : Cell}
    {st : CompileState} (hty : cell.cellType = CellTypeString ∨ cell.cellType = CellTypeInline) :
    cellXC cols r c { cell with cellType := CellTypeInline } st = cellXC cols r c cell st ∧
    cellXC cols r c { cell with cellType := CellTypeString } st = cellXC cols r c cell st := by
  rcases hty with hty | hty
  · have hc : ({ cell with cellType := CellTypeString } : Cell) = cell := by
      rw [← hty]
    rw [cellXC_inline_eq_string, hc]
    exact ⟨rfl, rfl⟩
  · have hc : ({ cell with cellType := CellTypeInline } : Cell) = cell := by
      rw [← hty]
    rw [← cellXC_inline_eq_string, hc]
    exact ⟨rfl, rfl⟩

/-- C17 as stated fails on a String cell with the empty `Value`: the compile
leaves `V` empty and the string table untouched, whereas `AddString` on the
empty string returns the index 0, rendered `0`, and appends the string. -/
theorem string_cell_empty_value_counterexample :
    (emptyStringSheet.makeXLSXSheet exampleEnv { indexedStrings := [] } {}).toOption.map
        (fun res => (res.1.SheetData.Row.map (fun xr => xr.C.map (fun xc => (xc.T, xc.V))),
          res.2.2.1))
      = some ([[("s", "")]], { indexedStrings := [] }) ∧
    Itoa (RefTable.AddString { indexedStrings := [] } "").1 = "0" ∧
    (RefTable.AddString { indexedStrings := [] } "").2 = { indexedStrings := [""] } := by
  refine ⟨by rfl, by decide, by decide⟩

/-! ## The format id of a cell -/

/-- The three cases of `cellFormatId`. -/
theorem cellFormatId_cases {cols : List Col} {xfList : List Int} {c : Int} {cell : Cell}
    {styles : xlsxStyleSheet} {fmt : Int × xlsxStyleSheet}
    (h : cellFormatId cols xfList c cell styles = Except.ok fmt) :
    (∃ XfId, sliceIndex xfList c = some XfId ∧
      (cell.style = none →
        (cell.NumFmt = "" ∨
          ∃ col, sliceIndex cols c = some col ∧ compareFormatString col.numFmt cell.NumFmt = true) →
        fmt = (XfId, (styles.newNumFmt cell.NumFmt).2))) ∧
    (∀ style, cell.style = some style →
      fmt = handleStyleForXLSX style (styles.newNumFmt cell.NumFmt).1.NumFmtId
        (styles.newNumFmt cell.NumFmt).2) ∧
    (cell.style = none → cell.NumFmt ≠ "" →
      ∃ col, sliceIndex cols c = some col ∧
        (compareFormatString col.numFmt cell.NumFmt = false →
          fmt = handleNumFmtIdForXLSX (styles.newNumFmt cell.NumFmt).1.NumFmtId
            (styles.newNumFmt cell.NumFmt).2)) := by
  unfold cellFormatId at h
  cases hx : sliceIndex xfList c with
  | none =>
    rw [hx] at h
    cases h
  | some XfId =>
    rw [hx] at h
    simp only at h
    cases hs : cell.style with
    | some style =>
      rw [hs] at h
      simp only [Except.ok.injEq] at h
      refine ⟨⟨XfId, rfl, fun h0 => (by cases h0)⟩, ?_, fun h0 => (by cases h0)⟩
      intro style1 h1
      cases h1
      exact h.symm
    | none =>
      rw [hs] at h
      simp only at h
      by_cases hn : cell.NumFmt ≠ ""
      · rw [if_pos hn] at h
        cases hc : sliceIndex cols c with
        | none =>
          rw [hc] at h
          cases h
        | some col =>
          rw [hc] at h
          simp only at h
          by_cases hcmp : compareFormatString col.numFmt cell.NumFmt = false
          · rw [if_pos hcmp] at h
            simp only [Except.ok.injEq] at h
            refine ⟨⟨XfId, rfl, ?_⟩, fun _ h0 => (by cases h0), fun _ _ => ⟨col, rfl, fun _ => h.symm⟩⟩
            intro _ hor
            rcases hor with h0 | ⟨col1, h1, h2⟩
            · exact absurd h0 hn
            · cases h1
              rw [hcmp] at h2
              cases h2
          · rw [if_neg hcmp] at h
            simp only [Except.ok.injEq] at h
            exact ⟨⟨XfId, rfl, fun _ _ => h.symm⟩, fun _ h0 => (by cases h0),
              fun _ _ => ⟨col, rfl, fun h0 => absurd h0 hcmp⟩⟩
      · rw [if_neg hn] at h
        simp only [Except.ok.injEq] at h
        exact ⟨⟨XfId, rfl, fun _ _ => h.symm⟩, fun _ h0 => (by cases h0),
          fun _ h0 => absurd h0 hn⟩

/-! ## The cell-format record of a styled cell -/

theorem internIndex_get {α : Type} [DecidableEq α] (xs : List α) (x : α) :
    (internIndex xs x).2[(internIndex xs x).1.toNat]? = some x := by
  unfold internIndex
  split
  · rename_i h
    simp only [Int.toNat_ofNat]
    exact List.getElem?_indexOf (List.indexOf_lt_length.mp h)
  · simp

theorem addCellXf_get (styles : xlsxStyleSheet) (xCellXf : xlsxXf) :
    (styles.addCellXf xCellXf).2.CellXfs[(styles.addCellXf xCellXf).1.toNat]? = some xCellXf :=
  internIndex_get styles.CellXfs xCellXf

/-- The record that `handleStyleForXLSX` interns sits at the returned id; it
carries the number-format id it was given, the apply flag when that id is
positive, and the alignment of the style. -/
theorem handleStyleForXLSX_record (style : Style) (NumFmtId : Int) (styles : xlsxStyleSheet) :
    ∃ xf, (handleStyleForXLSX style NumFmtId styles).2.CellXfs[
        (handleStyleForXLSX style NumFmtId styles).1.toNat]? = some xf ∧
      xf.NumFmtId = NumFmtId ∧ (NumFmtId > 0 → xf.ApplyNumberFormat = true) ∧
      xf.Alignment.Horizontal = style.Alignment.Horizontal ∧
      xf.Alignment.Indent = style.Alignment.Indent ∧
      xf.Alignment.ShrinkToFit = style.Alignment.ShrinkToFit ∧
      xf.Alignment.TextRotation = style.Alignment.TextRotation ∧
      xf.Alignment.Vertical = style.Alignment.Vertical ∧
      xf.Alignment.WrapText = style.Alignment.WrapText := by
  unfold handleStyleForXLSX
  refine ⟨_, addCellXf_get _ _, ?_, ?_, rfl, rfl, rfl, rfl, rfl, rfl⟩
  · by_cases hn : NumFmtId > 0
    · simp only [if_pos hn]
    · simp only [if_neg hn]
  · intro hn
    simp only [if_pos hn]

/-- C20 as stated fails: the sheet with one styled cell of number format `0.00`
compiles the cell to the format id 1, the record with `NumFmtId = 1` and the
apply flag, whereas the same sheet without the number-format code compiles it
to the format id 0, the record with `NumFmtId = 0`. -/
theorem styled_cell_numFmt_counterexample :
    (styledFormatSheet.makeXLSXSheet exampleEnv { indexedStrings := [] } {}).toOption.map
        (fun res => (res.1.SheetData.Row.map (fun xr => xr.C.map (fun xc => xc.S)),
          res.2.2.2.CellXfs.map (fun xf => (xf.NumFmtId, xf.ApplyNumberFormat))))
      = some ([[1]], [(0, false), (1, true)]) ∧
    (styledPlainSheet.makeXLSXSheet exampleEnv { indexedStrings := [] } {}).toOption.map
        (fun res => (res.1.SheetData.Row.map (fun xr => xr.C.map (fun xc => xc.S)),
          res.2.2.2.CellXfs.map (fun xf => (xf.NumFmtId, xf.ApplyNumberFormat))))
      = some ([[0]], [(0, false)]) ∧
    handleStyleForXLSX NewStyle 1 {} ≠ handleStyleForXLSX NewStyle 0 {} := by
  refine ⟨by rfl, by rfl, by decide⟩

/-! ## Where the compile can go out of range -/

theorem cellFormatId_index_bound {cols : List Col} {xfList : List Int} {c : Nat} {cell : Cell}
    {styles : xlsxStyleSheet} {e : Panic}
    (h : cellFormatId cols xfList (c : Int) cell styles = Except.error e) :
    xfList.length ≤ c ∨ cols.length ≤ c := by
  unfold cellFormatId at h
  rw [sliceIndex_natCast, sliceIndex_natCast] at h
  cases hx : xfList[c]? with
  | none => exact Or.inl (List.getElem?_eq_none_iff.mp hx)
  | some XfId =>
    rw [hx] at h
    simp only at h
    cases hs : cell.style with
    | some style =>
      rw [hs] at h
      cases h
    | none =>
      rw [hs] at h
      simp only at h
      by_cases hn : cell.NumFmt ≠ ""
      · rw [if_pos hn] at h
        cases hc : cols[c]? with
        | none => exact Or.inr (List.getElem?_eq_none_iff.mp hc)
        | some col =>
          rw [hc] at h
          simp only at h
          by_cases hcmp : compareFormatString col.numFmt cell.NumFmt = false
          · rw [if_pos hcmp] at h
            cases h
          · rw [if_neg hcmp] at h
            cases h
      · rw [if_neg hn] at h
        cases h

theorem cellXC_index_bound {cols : List Col} {r : Int} {c : Nat} {cell : Cell}
    {st : CompileState}
    (h : cellXC cols r (c : Int) cell st = Except.error Panic.indexOutOfRange) :
    st.colsXfIdList.length ≤ c ∨ cols.length ≤ c := by
  unfold cellXC at h
  cases hf : cellFormatId cols st.colsXfIdList (c : Int) cell st.styles with
  | error e1 => exact cellFormatId_index_bound hf
  | ok fmt =>
    rw [hf] at h
    cases ht : cellTyped cell (cellBase r (c : Int) cell fmt.1) st.refTable with
    | error e1 =>
      simp only [ht, Except.error.injEq] at h
      obtain ⟨he, _⟩ := cellTyped_error ht
      rw [h] at he
      cases he
    | ok typed =>
      simp only [ht] at h
      cases h

theorem cellsLoop_index_bound (cols : List Col) (r : Int) (cells : List Cell) :
    ∀ (c0 : Nat) (xRow : xlsxRow) (st : CompileState),
    cellsLoop cols r (c0 : Int) cells xRow st = Except.error Panic.indexOutOfRange →
    st.colsXfIdList.length < c0 + cells.length ∨ cols.length < c0 + cells.length := by
  induction cells with
  | nil =>
    intro c0 xRow st h
    simp [cellsLoop] at h
  | cons cell rest ih =>
    intro c0 xRow st h
    rcases cellsLoop_cons_error h with h1 | ⟨p, h1, h2⟩
    · rcases cellXC_index_bound (cellStep_error h1) with hb | hb
      · left
        simp only [List.length_cons]
        omega
      · right
        simp only [List.length_cons]
        omega
    · obtain ⟨x, _, _, _, _, hxf, _⟩ := cellStep_ok h1
      have h3 : cellsLoop cols r ((c0 + 1 : Nat) : Int) rest p.2.1 p.2.2
          = Except.error Panic.indexOutOfRange := by
        rw [Nat.cast_add, Nat.cast_one]
        exact h2
      rcases ih (c0 + 1) _ _ h3 with hb | hb
      · left
        rw [hxf] at hb
        simp only [List.length_cons]
        omega
      · right
        simp only [List.length_cons]
        omega

theorem rowStep_colsXfIdList {env : Env} {cols : List Col} {r : Int} {row : Xlsx.Row}
    {st : CompileState} {p : Xlsx.Row × CompileState}
    (h : rowStep env cols r row st = Except.ok p) :
    p.2.colsXfIdList = st.colsXfIdList := by
  obtain ⟨q, hq, hp⟩ := rowStep_ok h
  subst hp
  have hq0 : cellsLoop cols r ((0 : Nat) : Int) row.Cells (rowRecord env r row)
      (rowEnter r row st) = Except.ok q := hq
  obtain ⟨_, _, _, hxf, _⟩ := cellsLoop_spec cols r row.Cells 0 _ _ q hq0
  exact hxf

theorem rowsLoop_index_bound (env : Env) (cols : List Col) (rows : List Xlsx.Row) :
    ∀ (r0 : Int) (st : CompileState),
    rowsLoop env cols r0 rows st = Except.error Panic.indexOutOfRange →
    ∃ row ∈ rows, st.colsXfIdList.length < row.Cells.length ∨ cols.length < row.Cells.length := by
  induction rows with
  | nil =>
    intro r0 st h
    simp [rowsLoop] at h
  | cons row rest ih =>
    intro r0 st h
    rcases rowsLoop_cons_error h with h1 | ⟨p, h1, h2⟩
    · refine ⟨row, List.mem_cons_self _ _, ?_⟩
      unfold rowStep at h1
      cases hq : cellsLoop cols r0 0 row.Cells (rowRecord env r0 row) (rowEnter r0 row st) with
      | error e1 =>
        rw [hq] at h1
        simp only [Except.error.injEq] at h1
        subst h1
        have hq0 : cellsLoop cols r0 ((0 : Nat) : Int) row.Cells (rowRecord env r0 row)
            (rowEnter r0 row st) = Except.error Panic.indexOutOfRange := hq
        have hb := cellsLoop_index_bound cols r0 row.Cells 0 _ _ hq0
        simpa [rowEnter] using hb
      | ok q =>
        rw [hq] at h1
        cases h1
    · obtain ⟨row1, hmem, hb⟩ := ih (r0 + 1) p.2 h2
      rw [rowStep_colsXfIdList h1] at hb
      exact ⟨row1, List.mem_cons_of_mem _ hmem, hb⟩

/-- The column walk does not go out of range when the list of format ids has
an entry for each column. -/
theorem colsLoop_total (cols : List Col) :
    ∀ (c0 : Nat) (st : CompileState), c0 + cols.length ≤ st.colsXfIdList.length →
    ∃ q, colsLoop (c0 : Int) cols st = some q := by
  induction cols with
  | nil =>
    intro c0 st _
    exact ⟨([], st), rfl⟩
  | cons col rest ih =>
    intro c0 st hlen
    simp only [List.length_cons] at hlen
    have hlt : c0 < st.colsXfIdList.length := by omega
    have hset : ∃ l, sliceSet st.colsXfIdList (c0 : Int)
        (colResolve (colMinMax col) st.styles).1 = some l := by
      unfold sliceSet
      rw [if_pos ⟨Int.natCast_nonneg c0, by exact_mod_cast hlt⟩]
      exact ⟨_, rfl⟩
    obtain ⟨l, hl⟩ := hset
    have hstep : ∃ p, colStep (c0 : Int) col st = some p := by
      unfold colStep
      simp only [hl, Option.map_some']
      exact ⟨_, rfl⟩
    obtain ⟨p, hp⟩ := hstep
    obtain ⟨_, hxf, _⟩ := colStep_ok hp
    have hlen1 : c0 + 1 + rest.length ≤ p.2.colsXfIdList.length := by
      rw [hxf, List.length_set]
      omega
    obtain ⟨q, hq⟩ := ih (c0 + 1) p.2 hlen1
    rw [Nat.cast_add, Nat.cast_one] at hq
    refine ⟨(p.1 :: q.1, q.2), ?_⟩
    rw [colsLoop, hp]
    simp only [Option.some_bind, hq, Option.map_some']

theorem sliceIndex_zero_singleton {α : Type} (v : α) : sliceIndex [v] 0 = some v := by
  simp [sliceIndex]

theorem sliceSet_zero_singleton {α : Type} (v w : α) : sliceSet [v] 0 w = some [w] := by
  simp [sliceSet]

theorem sheetViewsLoop_noPane (views : List SheetView) :
    ∀ (index : Int) (ws : xlsxWorksheet), (∀ v ∈ views, v.Pane = none) →
    sheetViewsLoop index views ws = some ws := by
  induction views with
  | nil =>
    intro index ws _
    rfl
  | cons v rest ih =>
    intro index ws hall
    rw [sheetViewsLoop, hall v (List.mem_cons_self _ _)]
    exact ih _ _ (fun v1 hv1 => hall v1 (List.mem_cons_of_mem _ hv1))

/-- The set-up of the worksheet does not go out of range when no sheet view
after the first has a pane: the worksheet has one sheet view. -/
theorem startSheet_total (s : Sheet) (hviews : ∀ v ∈ s.SheetViews.tail, v.Pane = none) :
    ∃ ws, startSheet s = some ws := by
  have hone : ∃ v0, newXlsxWorksheet.SheetViews.SheetView = [v0] := ⟨_, rfl⟩
  obtain ⟨v0, hv0⟩ := hone
  have hloop : ∃ ws1 v1, sheetViewsLoop 0 s.SheetViews newXlsxWorksheet = some ws1 ∧
      ws1.SheetViews.SheetView = [v1] := by
    cases hsv : s.SheetViews with
    | nil => exact ⟨newXlsxWorksheet, v0, rfl, hv0⟩
    | cons v rest =>
      rw [hsv] at hviews
      cases hp : v.Pane with
      | none =>
        rw [sheetViewsLoop, hp]
        exact ⟨newXlsxWorksheet, v0, sheetViewsLoop_noPane rest _ _ hviews, hv0⟩
      | some pane =>
        rw [sheetViewsLoop, hp]
        simp only [hv0, sliceIndex_zero_singleton, sliceSet_zero_singleton, Option.some_bind]
        exact ⟨_, _, sheetViewsLoop_noPane rest _ _ hviews, rfl⟩
  obtain ⟨ws1, v1, hws1, hv1⟩ := hloop
  unfold startSheet
  rw [hws1]
  simp only [Option.some_bind]
  unfold setTabSelected
  by_cases hsel : s.Selected = true
  · rw [if_pos hsel, hv1]
    simp only [sliceIndex_zero_singleton, sliceSet_zero_singleton, Option.some_bind,
      Option.map_some']
    exact ⟨_, rfl⟩
  · rw [if_neg hsel]
    exact ⟨_, rfl⟩

/-- The compile does not go out of range when, in the densified sheet, no
sheet view after the first has a pane and no row has more cells than the sheet
has columns. -/
theorem makeXLSXSheet_in_range {env : Env} {s s1 : Sheet} {refTable : RefTable}
    {styles : xlsxStyleSheet} (hrun : s.handleMerged env = some s1)
    (hviews : ∀ v ∈ s1.SheetViews.tail, v.Pane = none)
    (hwide : ∀ row ∈ s1.Rows, row.Cells.length ≤ s1.Cols.length) :
    s.makeXLSXSheet env refTable styles ≠ Except.error Panic.indexOutOfRange := by
  intro h
  obtain ⟨ws0, hws0⟩ := startSheet_total s1 hviews
  have hcols := colsLoop_total s1.Cols 0
    { worksheet := ws0, styles := styles, refTable := refTable,
      colsXfIdList := List.replicate s1.Cols.length 0 } (by simp)
  obtain ⟨colsDone, hcd⟩ := hcols
  rw [Nat.cast_zero] at hcd
  unfold Sheet.makeXLSXSheet at h
  simp only [hrun, hws0, hcd] at h
  cases hrows : rowsLoop env colsDone.1 0 s1.Rows colsDone.2 with
  | error e1 =>
    simp only [hrows, Except.error.injEq] at h
    subst h
    obtain ⟨row, hmem, hb⟩ := rowsLoop_index_bound env colsDone.1 s1.Rows 0 _ hrows
    have hcd0 : colsLoop ((0 : Nat) : Int) s1.Cols
        { worksheet := ws0, styles := styles, refTable := refTable,
          colsXfIdList := List.replicate s1.Cols.length 0 } = some colsDone := by
      rw [Nat.cast_zero]
      exact hcd
    obtain ⟨hl1, _, hl2, _⟩ := colsLoop_spec s1.Cols 0 _ colsDone hcd0
    have hw := hwide row hmem
    simp only [List.length_replicate] at hl2
    omega
  | ok rowsDone =>
    simp only [hrows] at h
    cases h

/-- The compile returns when, in the densified sheet, every cell has one of
the seven types, no sheet view after the first has a pane and no row has more
cells than the sheet has columns. -/
theorem makeXLSXSheet_total {env : Env} {s s1 : Sheet} {refTable : RefTable}
    {styles : xlsxStyleSheet} (hrun : s.handleMerged env = some s1)
    (hviews : ∀ v ∈ s1.SheetViews.tail, v.Pane = none)
    (hwide : ∀ row ∈ s1.Rows, row.Cells.length ≤ s1.Cols.length)
    (hknown : ∀ row ∈ s1.Rows, ∀ cell ∈ row.Cells, knownCellType cell.cellType) :
    ∃ res, s.makeXLSXSheet env refTable styles = Except.ok res := by
  cases hres : s.makeXLSXSheet env refTable styles with
  | ok res => exact ⟨res, rfl⟩
  | error e =>
    exfalso
    have hidx : e ≠ Panic.indexOutOfRange := by
      intro he
      rw [he] at hres
      exact makeXLSXSheet_in_range hrun hviews hwide hres
    rcases makeXLSXSheet_error hres with he | ⟨s2, ws0, colsDone, hrun2, _, _, hrows⟩
    · exact hidx he
    · rw [hrun] at hrun2
      cases hrun2
      rcases rowsLoop_error env _ _ _ _ _ hrows with he | ⟨_, row, hrow, cell, hcell, hbad⟩
      · exact hidx he
      · exact hbad (hknown row hrow cell hcell)

/-- C18 as stated fails: the only cell of this sheet has the type 7, outside
the enum, and the compile does not abort with the unknown-cell-type failure: it
goes out of range before, at the pane of the second sheet view (the worksheet
has one sheet view); so does the same sheet with one view and no column, at
`colsXfIdList[0]`.  With one view and its column the failure is the
unknown-cell-type one. -/
theorem unknown_cell_type_counterexample :
    (unknownTypeTwoViewsSheet.handleMerged exampleEnv).map
        (fun s1 => s1.Rows.map (fun row => row.Cells.map (fun cell => cell.cellType)))
      = some [[7]] ∧
    ¬ knownCellType 7 ∧
    unknownTypeTwoViewsSheet.makeXLSXSheet exampleEnv { indexedStrings := [] } {}
      = Except.error Panic.indexOutOfRange ∧
    unknownTypeNoColsSheet.makeXLSXSheet exampleEnv { indexedStrings := [] } {}
      = Except.error Panic.indexOutOfRange ∧
    unknownTypeSheet.makeXLSXSheet exampleEnv { indexedStrings := [] } {}
      = Except.error (Panic.error unknownCellTypeMsg) ∧
    Panic.indexOutOfRange ≠ Panic.error unknownCellTypeMsg := by
  refine ⟨by rfl, by decide, by rfl, by rfl, by rfl, ?_⟩
  intro h
  cases h

/-- C18, amended: `makeXLSXSheet` aborts with the unknown-cell-type failure
only if, after merge densification, some cell of the sheet has a type outside
the seven; when some cell has such a type the compile does not return: it
aborts with that failure or, before it reaches the cell, with an index out of
range.  When no sheet view after the first has a pane and no row of the
densified sheet has more cells than the sheet has columns, nothing goes out of
range: the compile aborts with the unknown-cell-type failure if and only if
some cell has a type outside the seven, and returns otherwise.  For every sheet
all of whose cells, the cells created for merges included, have one of the
seven types, the unknown-cell-type failure is unreachable. -/
theorem makeXLSXSheet_unknown_cell_type (env : Env) (hperm : ∀ l, (env.mapOrder l).Perm l)
    (s : Sheet) (refTable : RefTable) (styles : xlsxStyleSheet) :
    ∃ s1, s.handleMerged env = some s1 ∧
      (s.makeXLSXSheet env refTable styles = Except.error (Panic.error unknownCellTypeMsg) →
        ∃ row ∈ s1.Rows, ∃ cell ∈ row.Cells, ¬ knownCellType cell.cellType) ∧
      ((∃ row ∈ s1.Rows, ∃ cell ∈ row.Cells, ¬ knownCellType cell.cellType) →
        s.makeXLSXSheet env refTable styles = Except.error (Panic.error unknownCellTypeMsg) ∨
        s.makeXLSXSheet env refTable styles = Except.error Panic.indexOutOfRange) ∧
      ((∀ v ∈ s1.SheetViews.tail, v.Pane = none) →
        (∀ row ∈ s1.Rows, row.Cells.length ≤ s1.Cols.length) →
        (s.makeXLSXSheet env refTable styles = Except.error (Panic.error unknownCellTypeMsg) ↔
          ∃ row ∈ s1.Rows, ∃ cell ∈ row.Cells, ¬ knownCellType cell.cellType) ∧
        ((∀ row ∈ s1.Rows, ∀ cell ∈ row.Cells, knownCellType cell.cellType) →
          ∃ res, s.makeXLSXSheet env refTable styles = Except.ok res)) ∧
      ((∀ row ∈ s1.Rows, ∀ cell ∈ row.Cells, knownCellType cell.cellType) →
        s.makeXLSXSheet env refTable styles ≠ Except.error (Panic.error unknownCellTypeMsg)) := by
  obtain ⟨s1, hrun, _, _⟩ := handleMerged_core env hperm s
  have honly : s.makeXLSXSheet env refTable styles = Except.error (Panic.error unknownCellTypeMsg) →
      ∃ row ∈ s1.Rows, ∃ cell ∈ row.Cells, ¬ knownCellType cell.cellType := by
    intro h
    rcases makeXLSXSheet_error h with he | ⟨s2, ws0, colsDone, hrun2, _, _, hrows⟩
    · cases he
    · rw [hrun] at hrun2
      cases hrun2
      rcases rowsLoop_error env _ _ _ _ _ hrows with he | ⟨_, hbad⟩
      · cases he
      · exact hbad
  have haborts : (∃ row ∈ s1.Rows, ∃ cell ∈ row.Cells, ¬ knownCellType cell.cellType) →
      s.makeXLSXSheet env refTable styles = Except.error (Panic.error unknownCellTypeMsg) ∨
      s.makeXLSXSheet env refTable styles = Except.error Panic.indexOutOfRange := by
    intro ⟨row, hrow, cell, hcell, hbad⟩
    cases hres : s.makeXLSXSheet env refTable styles with
    | ok res =>
      exfalso
      obtain ⟨s2, _, _, hrun2, _, _, hknown, _⟩ := compile_spec hres
      rw [hrun] at hrun2
      cases hrun2
      exact hbad (hknown row hrow cell hcell)
    | error e =>
      rcases makeXLSXSheet_error hres with he | ⟨s2, ws0, colsDone, hrun2, _, _, hrows⟩
      · right
        rw [he]
      · rcases rowsLoop_error env _ _ _ _ _ hrows with he | ⟨he, _⟩
        · right
          rw [he]
        · left
          rw [he]
  refine ⟨s1, hrun, honly, haborts, ?_, ?_⟩
  · intro hviews hwide
    refine ⟨⟨honly, ?_⟩, makeXLSXSheet_total hrun hviews hwide⟩
    intro hbad
    rcases haborts hbad with h | h
    · exact h
    · exact absurd h (makeXLSXSheet_in_range hrun hviews hwide)
  · intro hknown h
    obtain ⟨row, hrow, cell, hcell, hbad⟩ := honly h
    exact hbad (hknown row hrow cell hcell)

/-- C18 (amended) at a concrete input: the sheet with one cell of type 7, one
sheet view and its column aborts with the unknown-cell-type failure. -/
theorem makeXLSXSheet_unknown_cell_type_witness :
    unknownTypeSheet.makeXLSXSheet exampleEnv { indexedStrings := [] } {}
      = Except.error (Panic.error unknownCellTypeMsg) := by
  obtain ⟨s1, hrun, _, _, hiff, _⟩ :=
    makeXLSXSheet_unknown_cell_type exampleEnv (fun l => List.Perm.refl l) unknownTypeSheet
      { indexedStrings := [] } {}
  have hs1 : unknownTypeSheet.handleMerged exampleEnv = some unknownTypeSheet := by rfl
  rw [hs1] at hrun
  cases hrun
  have hv : ∀ v ∈ unknownTypeSheet.SheetViews.tail, v.Pane = none := by
    intro v hv
    cases hv
  have hw : ∀ row ∈ unknownTypeSheet.Rows, row.Cells.length ≤ unknownTypeSheet.Cols.length := by
    intro row hrow
    simp only [unknownTypeSheet, List.mem_singleton] at hrow
    subst hrow
    exact le_refl _
  exact (hiff hv hw).1.mpr ⟨{ Cells := [{ cellType := 7 }] }, List.mem_singleton.mpr rfl,
    { cellType := 7 }, List.mem_singleton.mpr rfl, by decide⟩

/-! ## The state with which the walk reaches a cell -/

theorem cellsLoop_cons_of {cols : List Col} {r c : Int} {cell : Cell} {rest : List Cell}
    {xRow : xlsxRow} {st : CompileState} {p : Cell × xlsxRow × CompileState}
    {q : List Cell × xlsxRow × CompileState}
    (hp : cellStep cols r c cell xRow st = Except.ok p)
    (hq : cellsLoop cols r (c + 1) rest p.2.1 p.2.2 = Except.ok q) :
    cellsLoop cols r c (cell :: rest) xRow st = Except.ok (p.1 :: q.1, q.2.1, q.2.2) := by
  rw [cellsLoop, hp]
  simp only [hq]

theorem rowsLoop_cons_of {env : Env} {cols : List Col} {r : Int} {row : Xlsx.Row}
    {rest : List Xlsx.Row} {st : CompileState} {p : Xlsx.Row × CompileState}
    {q : List Xlsx.Row × CompileState}
    (hp : rowStep env cols r row st = Except.ok p)
    (hq : rowsLoop env cols (r + 1) rest p.2 = Except.ok q) :
    rowsLoop env cols r (row :: rest) st = Except.ok (p.1 :: q.1, q.2) := by
  rw [rowsLoop, hp]
  simp only [hq]

/-- A cell walk that returns on `l1 ++ l2` is the walk of `l1` followed by the
walk of `l2`. -/
theorem cellsLoop_append (cols : List Col) (r : Int) (l1 l2 : List Cell) :
    ∀ (c0 : Nat) (xRow : xlsxRow) (st : CompileState) (q : List Cell × xlsxRow × CompileState),
    cellsLoop cols r (c0 : Int) (l1 ++ l2) xRow st = Except.ok q →
    ∃ q1 q2, cellsLoop cols r (c0 : Int) l1 xRow st = Except.ok q1 ∧
      cellsLoop cols r ((c0 + l1.length : Nat) : Int) l2 q1.2.1 q1.2.2 = Except.ok q2 ∧
      q.2 = q2.2 := by
  induction l1 with
  | nil =>
    intro c0 xRow st q h
    exact ⟨([], xRow, st), q, rfl, h, rfl⟩
  | cons cell rest ih =>
    intro c0 xRow st q h
    rw [List.cons_append] at h
    obtain ⟨p, q0, hp, hq0, hq⟩ := cellsLoop_cons_ok h
    have hq0' : cellsLoop cols r ((c0 + 1 : Nat) : Int) (rest ++ l2) p.2.1 p.2.2
        = Except.ok q0 := by
      rw [Nat.cast_add, Nat.cast_one]
      exact hq0
    obtain ⟨q1, q2, h1, h2, h3⟩ := ih (c0 + 1) _ _ _ hq0'
    rw [Nat.cast_add, Nat.cast_one] at h1
    refine ⟨(p.1 :: q1.1, q1.2.1, q1.2.2), q2, cellsLoop_cons_of hp h1, ?_, ?_⟩
    · have he : c0 + (cell :: rest).length = c0 + 1 + rest.length := by
        simp only [List.length_cons]
        omega
      rw [he]
      exact h2
    · rw [hq]
      exact h3

/-- A row walk that returns on `l1 ++ l2` is the walk of `l1` followed by the
walk of `l2`. -/
theorem rowsLoop_append (env : Env) (cols : List Col) (l1 l2 : List Xlsx.Row) :
    ∀ (r0 : Nat) (st : CompileState) (q : List Xlsx.Row × CompileState),
    rowsLoop env cols (r0 : Int) (l1 ++ l2) st = Except.ok q →
    ∃ q1 q2, rowsLoop env cols (r0 : Int) l1 st = Except.ok q1 ∧
      rowsLoop env cols ((r0 + l1.length : Nat) : Int) l2 q1.2 = Except.ok q2 ∧
      q.2 = q2.2 := by
  induction l1 with
  | nil =>
    intro r0 st q h
    exact ⟨([], st), q, rfl, h, rfl⟩
  | cons row rest ih =>
    intro r0 st q h
    rw [List.cons_append] at h
    obtain ⟨p, q0, hp, hq0, hq⟩ := rowsLoop_cons_ok h
    have hq0' : rowsLoop env cols ((r0 + 1 : Nat) : Int) (rest ++ l2) p.2 = Except.ok q0 := by
      rw [Nat.cast_add, Nat.cast_one]
      exact hq0
    obtain ⟨q1, q2, h1, h2, h3⟩ := ih (r0 + 1) _ _ hq0'
    rw [Nat.cast_add, Nat.cast_one] at h1
    refine ⟨(p.1 :: q1.1, q1.2), q2, rowsLoop_cons_of hp h1, ?_, ?_⟩
    · have he : r0 + (row :: rest).length = r0 + 1 + rest.length := by
        simp only [List.length_cons]
        omega
      rw [he]
      exact h2
    · rw [hq]
      exact h3

theorem list_split_at {α : Type} {l : List α} {n : Nat} {a : α} (h : l[n]? = some a) :
    l.take n ++ a :: l.drop (n + 1) = l ∧ (l.take n).length = n := by
  obtain ⟨hlt, hget⟩ := List.getElem?_eq_some.mp h
  refine ⟨?_, ?_⟩
  · rw [← hget, ← List.drop_eq_getElem_cons hlt, List.take_append_drop]
  · rw [List.length_take]
    omega

/-- The body of the row walk, cell by cell: the record at position `c` of the
row record is the one `cellXC` builds for the cell at column `c` in the state
with which the cell walk reaches it. -/
theorem rowStep_trace {env : Env} {cols : List Col} {r : Nat} {row : Xlsx.Row}
    {st : CompileState} {p : Xlsx.Row × CompileState}
    (h : rowStep env cols (r : Int) row st = Except.ok p) (c : Nat) (cell : Cell)
    (hc : row.Cells[c]? = some cell) :
    ∃ stc x xr, cellWalkState env cols r row c st = some stc ∧
      stc.colsXfIdList = st.colsXfIdList ∧
      cellXC cols (r : Int) (c : Int) cell stc = Except.ok x ∧
      p.2.xSheet.Row = st.xSheet.Row ++ [xr] ∧ xr.C[c]? = some x.1 := by
  obtain ⟨q, hq, hp⟩ := rowStep_ok h
  subst hp
  obtain ⟨hsplit, hlen⟩ := list_split_at hc
  have hq0 : cellsLoop cols (r : Int) ((0 : Nat) : Int) row.Cells (rowRecord env r row)
      (rowEnter r row st) = Except.ok q := hq
  have hq' : cellsLoop cols (r : Int) ((0 : Nat) : Int)
      (row.Cells.take c ++ cell :: row.Cells.drop (c + 1)) (rowRecord env r row)
      (rowEnter r row st) = Except.ok q := by
    rw [hsplit]
    exact hq0
  obtain ⟨q1, q2, h1, h2, h3⟩ := cellsLoop_append cols (r : Int) _ _ 0 _ _ _ hq'
  rw [hlen, Nat.zero_add] at h2
  obtain ⟨p2, q3, hp2, hq3, hq2⟩ := cellsLoop_cons_ok h2
  obtain ⟨x, hx, hrec, _⟩ := cellStep_ok hp2
  obtain ⟨⟨recs1, hrow1, hlen1, _⟩, _, _, hxf1, _⟩ := cellsLoop_spec cols (r : Int) _ 0 _ _ q1 h1
  have hq3' : cellsLoop cols (r : Int) ((c + 1 : Nat) : Int) (row.Cells.drop (c + 1))
      p2.2.1 p2.2.2 = Except.ok q3 := by
    rw [Nat.cast_add, Nat.cast_one]
    exact hq3
  obtain ⟨⟨recs3, hrow3, _, _⟩, _⟩ := cellsLoop_spec cols (r : Int) _ (c + 1) _ _ q3 hq3'
  obtain ⟨_, _, _, _, _, _, _, hxs, _⟩ := cellsLoop_spec cols (r : Int) _ 0 _ _ q hq0
  obtain ⟨_, hC, _⟩ := rowRecord_fields env (r : Int) row
  refine ⟨q1.2.2, x, q.2.1, ?_, hxf1, hx, ?_, ?_⟩
  · unfold cellWalkState
    rw [Nat.cast_zero] at h1
    rw [h1]
    rfl
  · show q.2.2.xSheet.Row ++ [q.2.1] = st.xSheet.Row ++ [q.2.1]
    rw [hxs]
    rfl
  · have hq21 : q.2.1 = q3.2.1 := by
      have := congrArg (fun t => t.1) h3
      simp only at this
      rw [this, hq2]
    rw [hq21, hrow3, hrec, hrow1, hC]
    simp only [List.nil_append]
    rw [hlen] at hlen1
    rw [List.append_assoc, List.getElem?_append_right (by omega)]
    simp [hlen1]

/-! ## The shared strings along the walk -/

theorem cellTyped_refTable {cell : Cell} {xC : xlsxC} {rt : RefTable} {q : xlsxC × RefTable}
    (h : cellTyped cell xC rt = Except.ok q) : q.2 = addCellString rt cell := by
  unfold addCellString
  obtain ⟨_, _, _, hnum, hstr, hbool, herr, hdate, hsf⟩ := cellTyped_fields h
  by_cases h1 : cell.cellType = CellTypeInline ∨ cell.cellType = CellTypeString
  · obtain ⟨_, hv, hv0⟩ := hstr h1.symm
    by_cases hval : cell.Value ≠ ""
    · rw [if_pos ⟨h1, hval⟩]
      exact (hv hval).2
    · rw [if_neg (fun hc => hval hc.2)]
      exact (hv0 (not_not.mp hval)).2
  · rw [if_neg (fun hc => h1 hc.1)]
    have hk := cellTyped_ok_known h
    unfold knownCellType at hk
    rcases hk with hk | hk | hk | hk | hk | hk | hk
    · exact absurd (Or.inl hk) h1
    · exact absurd (Or.inr hk) h1
    · exact (hnum hk).2.2
    · exact (hbool hk).2.2
    · exact (herr hk).2.2
    · exact (hdate hk).2.2
    · exact (hsf hk).2.2

theorem cellXC_refTable {cols : List Col} {r c : Int} {cell : Cell} {st : CompileState}
    {x : xlsxC × xlsxStyleSheet × RefTable} (h : cellXC cols r c cell st = Except.ok x) :
    x.2.2 = addCellString st.refTable cell := by
  obtain ⟨fmt, typed, _, ht, hx⟩ := cellXC_ok h
  rw [hx]
  exact cellTyped_refTable ht

theorem cellsLoop_refTable (cols : List Col) (r : Int) (cells : List Cell) :
    ∀ (c0 : Int) (xRow : xlsxRow) (st : CompileState) (q : List Cell × xlsxRow × CompileState),
    cellsLoop cols r c0 cells xRow st = Except.ok q →
    q.2.2.refTable = cells.foldl addCellString st.refTable := by
  induction cells with
  | nil =>
    intro c0 xRow st q h
    simp only [cellsLoop, Except.ok.injEq] at h
    rw [← h]
    rfl
  | cons cell rest ih =>
    intro c0 xRow st q h
    obtain ⟨p, q1, hp, hq1, hq⟩ := cellsLoop_cons_ok h
    obtain ⟨x, hx, _, _, _, _, _, _, _, _, _, hrt, _⟩ := cellStep_ok hp
    have hrec := ih _ _ _ _ hq1
    rw [hq, List.foldl_cons, ← cellXC_refTable hx, ← hrt]
    exact hrec

theorem rowStep_refTable {env : Env} {cols : List Col} {r : Int} {row : Xlsx.Row}
    {st : CompileState} {p : Xlsx.Row × CompileState}
    (h : rowStep env cols r row st = Except.ok p) :
    p.2.refTable = row.Cells.foldl addCellString st.refTable := by
  obtain ⟨q, hq, hp⟩ := rowStep_ok h
  subst hp
  have hrec := cellsLoop_refTable cols r row.Cells _ _ _ _ hq
  exact hrec

theorem rowsLoop_refTable (env : Env) (cols : List Col) (rows : List Xlsx.Row) :
    ∀ (r0 : Int) (st : CompileState) (q : List Xlsx.Row × CompileState),
    rowsLoop env cols r0 rows st = Except.ok q →
    q.2.refTable = rows.foldl (fun t row => row.Cells.foldl addCellString t) st.refTable := by
  induction rows with
  | nil =>
    intro r0 st q h
    simp only [rowsLoop, Except.ok.injEq] at h
    rw [← h]
    rfl
  | cons row rest ih =>
    intro r0 st q h
    obtain ⟨p, q1, hp, hq1, hq⟩ := rowsLoop_cons_ok h
    have hrec := ih _ _ _ hq1
    rw [hq, List.foldl_cons, ← rowStep_refTable hp]
    exact hrec

/-- The shared strings of the state with which the compile reaches a cell. -/
theorem reachState_refTable {env : Env} {s1 : Sheet} {refTable : RefTable}
    {styles : xlsxStyleSheet} {r c : Nat} {cols1 : List Col} {st : CompileState}
    (h : reachState env s1 refTable styles r c = some (cols1, st)) :
    st.refTable = stringsBefore refTable s1.Rows r c := by
  unfold reachState at h
  cases hcd : colWalkDone s1 refTable styles with
  | none =>
    rw [hcd] at h
    cases h
  | some cd =>
    rw [hcd] at h
    simp only [Option.some_bind] at h
    cases hrow : s1.Rows[r]? with
    | none =>
      rw [hrow] at h
      cases h
    | some row =>
      rw [hrow] at h
      simp only [Option.some_bind] at h
      cases hstr : rowWalkState env cd.1 s1.Rows r cd.2 with
      | none =>
        rw [hstr] at h
        cases h
      | some str =>
        rw [hstr] at h
        simp only [Option.some_bind] at h
        cases hstc : cellWalkState env cd.1 r row c str with
        | none =>
          rw [hstc] at h
          cases h
        | some stc =>
          rw [hstc] at h
          simp only [Option.map_some', Option.some.injEq, Prod.mk.injEq] at h
          obtain ⟨_, hst⟩ := h
          subst hst
          have hcdrt : cd.2.refTable = refTable := by
            unfold colWalkDone at hcd
            cases hws : startSheet s1 with
            | none =>
              rw [hws] at hcd
              cases hcd
            | some ws =>
              rw [hws] at hcd
              simp only [Option.some_bind] at hcd
              have hcd' : colsLoop ((0 : Nat) : Int) s1.Cols
                  { worksheet := ws, styles := styles, refTable := refTable,
                    colsXfIdList := List.replicate s1.Cols.length 0 } = some cd := hcd
              obtain ⟨_, _, _, _, _, _, _, _, _, hrt, _⟩ := colsLoop_spec s1.Cols 0 _ cd hcd'
              exact hrt
          have hstrrt : str.refTable =
              (s1.Rows.take r).foldl (fun t row => row.Cells.foldl addCellString t) refTable := by
            unfold rowWalkState at hstr
            cases hq : rowsLoop env cd.1 0 (s1.Rows.take r) cd.2 with
            | error e =>
              rw [hq] at hstr
              cases hstr
            | ok q =>
              rw [hq] at hstr
              simp only [Except.toOption, Option.map_some', Option.some.injEq] at hstr
              rw [← hstr, rowsLoop_refTable env cd.1 _ _ _ _ hq, hcdrt]
          unfold cellWalkState at hstc
          cases hq : cellsLoop cd.1 (r : Int) 0 (row.Cells.take c) (rowRecord env (r : Int) row)
              (rowEnter (r : Int) row str) with
          | error e =>
            rw [hq] at hstc
            cases hstc
          | ok q =>
            rw [hq] at hstc
            simp only [Except.toOption, Option.map_some', Option.some.injEq] at hstc
            rw [← hstc, cellsLoop_refTable cd.1 _ _ _ _ _ _ hq]
            unfold stringsBefore
            rw [hrow, ← hstrrt]
            rfl

/-- The row walk, cell by cell: the record at position `c` of the row record
of row `r` is the one `cellXC` builds for the cell at row `r`, column `c` in the
state with which the walk reaches it. -/
theorem rowsLoop_trace {env : Env} {cols : List Col} {rows : List Xlsx.Row}
    {st : CompileState} {q : List Xlsx.Row × CompileState} (hmc : 0 ≤ st.maxCell)
    (h : rowsLoop env cols 0 rows st = Except.ok q) (r c : Nat) (cell : Cell)
    (hcell : cellAt rows r c = some cell) :
    ∃ row str stc x xr, rows[r]? = some row ∧ rowWalkState env cols rows r st = some str ∧
      cellWalkState env cols r row c str = some stc ∧
      stc.colsXfIdList = st.colsXfIdList ∧
      cellXC cols (r : Int) (c : Int) cell stc = Except.ok x ∧
      q.2.xSheet.Row[st.xSheet.Row.length + r]? = some xr ∧ xr.C[c]? = some x.1 := by
  unfold cellAt at hcell
  cases hrow : rows[r]? with
  | none =>
    rw [hrow] at hcell
    cases hcell
  | some row =>
    rw [hrow] at hcell
    simp only [Option.some_bind] at hcell
    obtain ⟨hsplit, hlen⟩ := list_split_at hrow
    have h' : rowsLoop env cols ((0 : Nat) : Int) (rows.take r ++ row :: rows.drop (r + 1)) st
        = Except.ok q := by
      rw [hsplit, Nat.cast_zero]
      exact h
    obtain ⟨q1, q2, h1, h2, h3⟩ := rowsLoop_append env cols _ _ 0 _ _ h'
    rw [hlen, Nat.zero_add] at h2
    obtain ⟨p, q3, hp, hq3, hq2⟩ := rowsLoop_cons_ok h2
    obtain ⟨⟨xrows1, hxs1, hlen1, _⟩, _, hmax1, _, hxf1, _⟩ :=
      rowsLoop_spec env cols _ 0 st q1 hmc h1
    have hmc1 : 0 ≤ q1.2.maxCell := by
      rw [hmax1]
      exact le_trans hmc (foldl_max_ge _ _).1
    obtain ⟨_, _, hmaxp, _⟩ := rowStep_spec hmc1 hp
    have hmcp : 0 ≤ p.2.maxCell := by
      rw [hmaxp]
      exact le_trans hmc1 (le_max_left _ _)
    have hq3' : rowsLoop env cols ((r + 1 : Nat) : Int) (rows.drop (r + 1)) p.2
        = Except.ok q3 := by
      rw [Nat.cast_add, Nat.cast_one]
      exact hq3
    obtain ⟨⟨xrows3, hxs3, _, _⟩, _⟩ := rowsLoop_spec env cols _ (r + 1) p.2 q3 hmcp hq3'
    obtain ⟨stc, x, xr, hstc, hxfc, hx, hxr, hxc⟩ := rowStep_trace hp c cell hcell
    refine ⟨row, q1.2, stc, x, xr, rfl, ?_, hstc, hxfc.trans hxf1, hx, ?_, hxc⟩
    · unfold rowWalkState
      rw [Nat.cast_zero] at h1
      rw [h1]
      rfl
    · have hq2' : q.2 = q3.2 := by
        rw [h3, hq2]
      rw [hq2', hxs3, hxr, hxs1]
      rw [hlen] at hlen1
      rw [List.append_assoc, List.append_assoc, List.getElem?_append_right (by omega)]
      simp only [Nat.add_sub_cancel_left]
      rw [List.getElem?_append_right (by omega)]
      simp [hlen1]

/-- The compile, cell by cell: when it returns, the columns as rewritten by
the column walk keep their number formats, the `Style` of column record `j` is
the format id kept for column `j`, and the record at position `c` of row record
`r` is the one `cellXC` builds for the cell at row `r`, column `c` of the
densified sheet in the state with which the compile reaches that cell. -/
theorem compile_trace {env : Env} {s : Sheet} {refTable : RefTable} {styles : xlsxStyleSheet}
    {res : xlsxWorksheet × Sheet × RefTable × xlsxStyleSheet}
    (h : s.makeXLSXSheet env refTable styles = Except.ok res) :
    ∃ s1 cd, s.handleMerged env = some s1 ∧ colWalkDone s1 refTable styles = some cd ∧
      res.2.2.1 = s1.Rows.foldl (fun t row => row.Cells.foldl addCellString t) refTable ∧
      cd.1.length = s1.Cols.length ∧
      (∀ (j : Nat) (col : Col), s1.Cols[j]? = some col →
        ∃ col1, cd.1[j]? = some col1 ∧ col1.numFmt = col.numFmt) ∧
      cd.2.colsXfIdList.length = s1.Cols.length ∧
      (colRecords res.1).length = s1.Cols.length ∧
      (∀ (j : Nat) (xc : xlsxCol), (colRecords res.1)[j]? = some xc →
        cd.2.colsXfIdList[j]? = some xc.Style) ∧
      ∀ (r c : Nat) (cell : Cell), cellAt s1.Rows r c = some cell →
        ∃ st x xr, reachState env s1 refTable styles r c = some (cd.1, st) ∧
          st.colsXfIdList = cd.2.colsXfIdList ∧
          cellXC cd.1 (r : Int) (c : Int) cell st = Except.ok x ∧
          res.1.SheetData.Row[r]? = some xr ∧ xr.C[c]? = some x.1 := by
  obtain ⟨s1, ws0, colsDone, rowsDone, h1, h2, h3, h4, hres⟩ := makeXLSXSheet_ok h
  have hcd : colWalkDone s1 refTable styles = some colsDone := by
    unfold colWalkDone
    rw [h2]
    exact h3
  obtain ⟨_, f2, _⟩ := startSheet_frame h2
  have h3' : colsLoop ((0 : Nat) : Int) s1.Cols
      { worksheet := ws0, styles := styles, refTable := refTable,
        colsXfIdList := List.replicate s1.Cols.length 0 } = some colsDone := h3
  obtain ⟨hclen, hcnf, hxflen, ⟨xcols, hrec, hxlen, hstyle⟩, _, _, _, hcmaxc, hcxs, hcrt, _⟩ :=
    colsLoop_spec s1.Cols 0 _ colsDone h3'
  have hmc0 : 0 ≤ colsDone.2.maxCell := le_of_eq hcmaxc.symm
  have h4' : rowsLoop env colsDone.1 ((0 : Nat) : Int) s1.Rows colsDone.2
      = Except.ok rowsDone := h4
  obtain ⟨_, _, _, _, _, _, hfr, _⟩ :=
    rowsLoop_spec env colsDone.1 s1.Rows 0 colsDone.2 rowsDone hmc0 h4'
  obtain ⟨_, g2, _, g4, _⟩ := finishSheet_fields s1 colsDone.1 rowsDone.1 rowsDone.2
  have hrecs : colRecords res.1 = xcols := by
    rw [hres]
    unfold colRecords
    rw [g4, wsFrame_Cols hfr]
    have hr := hrec
    unfold colRecords at hr
    simp only [f2, List.nil_append] at hr
    exact hr
  refine ⟨s1, colsDone, h1, hcd, ?_, hclen, hcnf, ?_, ?_, ?_, ?_⟩
  · rw [hres]
    show rowsDone.2.refTable = _
    rw [rowsLoop_refTable env colsDone.1 _ _ _ _ h4, hcrt]
  · rw [hxflen]
    simp
  · rw [hrecs, hxlen]
  · intro j xc hj
    rw [hrecs] at hj
    have := hstyle j xc hj
    simpa using this
  · intro r c cell hcell
    obtain ⟨row, str, stc, x, xr, hrow, hstr, hstc, hxf, hx, hxr, hxc⟩ :=
      rowsLoop_trace hmc0 h4 r c cell hcell
    refine ⟨stc, x, xr, ?_, hxf, hx, ?_, hxc⟩
    · unfold reachState
      simp only [hcd, hrow, hstr, hstc, Option.some_bind, Option.map_some']
    · rw [hres, g2]
      rw [hcxs] at hxr
      simpa using hxr

/-! ## String cells, format ids and styled cells in the compiled worksheet -/

/-- C17, amended: when the compile of a sheet returns, every String cell and
every InlineString cell of the densified sheet is tagged `s`; when its `Value`
is not empty, `V` is the decimal rendering of the index that `AddString`
returns for the `Value` on the shared strings with which the compile reaches
the cell (the given table after the cells before it, in row-major order), and
the table is updated by that call; when its `Value` is empty, `V` is empty and
the table is left as it is.  The step gives the same record and the same table
whether the type of the cell is InlineString or String.  The table returned is
the given one after all the cells. -/
theorem makeXLSXSheet_string_cells (env : Env) (s : Sheet) (refTable : RefTable)
    (styles : xlsxStyleSheet) (res : xlsxWorksheet × Sheet × RefTable × xlsxStyleSheet)
    (h : s.makeXLSXSheet env refTable styles = Except.ok res) :
    ∃ s1, s.handleMerged env = some s1 ∧
      res.2.2.1 = s1.Rows.foldl (fun t row => row.Cells.foldl addCellString t) refTable ∧
      ∀ (r c : Nat) (cell : Cell), cellAt s1.Rows r c = some cell →
        (cell.cellType = CellTypeString ∨ cell.cellType = CellTypeInline) →
        ∃ cols1 st x xr, reachState env s1 refTable styles r c = some (cols1, st) ∧
          st.refTable = stringsBefore refTable s1.Rows r c ∧
          cellXC cols1 (r : Int) (c : Int) cell st = Except.ok x ∧
          res.1.SheetData.Row[r]? = some xr ∧ xr.C[c]? = some x.1 ∧
          x.1.T = "s" ∧
          (cell.Value ≠ "" →
            x.1.V = Itoa ((stringsBefore refTable s1.Rows r c).AddString cell.Value).1 ∧
            x.2.2 = ((stringsBefore refTable s1.Rows r c).AddString cell.Value).2) ∧
          (cell.Value = "" → x.1.V = "" ∧ x.2.2 = stringsBefore refTable s1.Rows r c) ∧
          cellXC cols1 (r : Int) (c : Int) { cell with cellType := CellTypeInline } st
            = Except.ok x ∧
          cellXC cols1 (r : Int) (c : Int) { cell with cellType := CellTypeString } st
            = Except.ok x := by
  obtain ⟨s1, cd, hrun, _, htable, _, _, _, _, _, hcells⟩ := compile_trace h
  refine ⟨s1, hrun, htable, ?_⟩
  intro r c cell hcell hty
  obtain ⟨st, x, xr, hreach, _, hx, hxr, hxc⟩ := hcells r c cell hcell
  obtain ⟨_, _, _, _, hstr, _⟩ := cellXC_record hx
  obtain ⟨hT, hV, hV0⟩ := hstr hty
  have hrt := reachState_refTable hreach
  have hsame : cellXC cd.1 (r : Int) (c : Int) { cell with cellType := CellTypeInline } st
        = cellXC cd.1 (r : Int) (c : Int) cell st ∧
      cellXC cd.1 (r : Int) (c : Int) { cell with cellType := CellTypeString } st
        = cellXC cd.1 (r : Int) (c : Int) cell st := cellXC_string_or_inline hty
  rw [hrt] at hV hV0
  exact ⟨cd.1, st, x, xr, hreach, hrt, hx, hxr, hxc, hT, hV, hV0, hsame.1.trans hx,
    hsame.2.trans hx⟩

/-- C17 (amended) at a concrete input: the sheet with a cell of each type; its
String cell at column 1 and its InlineString cell at column 2, both `Hi`, get
the tag `s` and the same index 0, and the table returned holds `Hi` once. -/
theorem makeXLSXSheet_string_cells_witness :
    (typedSheet.makeXLSXSheet exampleEnv { indexedStrings := [] } {}).toOption.map
        (fun res => (res.1.SheetData.Row.map
          (fun xr => (xr.C.map (fun xc => (xc.T, xc.V))).take 3), res.2.2.1))
      = some ([[("", "42"), ("s", "0"), ("s", "0")]], { indexedStrings := ["Hi"] }) ∧
    ∃ (res : xlsxWorksheet × Sheet × RefTable × xlsxStyleSheet)
        (x : xlsxC × xlsxStyleSheet × RefTable) (xr : xlsxRow),
      typedSheet.makeXLSXSheet exampleEnv { indexedStrings := [] } {} = Except.ok res ∧
      res.1.SheetData.Row[0]? = some xr ∧ xr.C[2]? = some x.1 ∧ x.1.T = "s" ∧
      x.1.V = Itoa (RefTable.AddString { indexedStrings := ["Hi"] } "Hi").1 ∧
      x.2.2 = { indexedStrings := ["Hi"] } := by
  refine ⟨by rfl, ?_⟩
  have hval : (typedSheet.makeXLSXSheet exampleEnv { indexedStrings := [] } {}).toOption.isSome
      = true := by rfl
  have hm : (typedSheet.handleMerged exampleEnv).map
      (fun s1 => (cellAt s1.Rows 0 2, stringsBefore { indexedStrings := [] } s1.Rows 0 2))
      = some (some { Value := "Hi", cellType := CellTypeInline }, { indexedStrings := ["Hi"] }) := by
    rfl
  cases hres : typedSheet.makeXLSXSheet exampleEnv { indexedStrings := [] } {} with
  | error e =>
    rw [hres] at hval
    cases hval
  | ok res =>
    obtain ⟨s1, hrun, _, hall⟩ :=
      makeXLSXSheet_string_cells exampleEnv typedSheet { indexedStrings := [] } {} res hres
    rw [hrun] at hm
    simp only [Option.map_some', Option.some.injEq, Prod.mk.injEq] at hm
    obtain ⟨_, st, x, xr, _, _, _, hxr, hxc, hT, hV, _⟩ := hall 0 2 _ hm.1 (Or.inr rfl)
    obtain ⟨hV1, hV2⟩ := hV (by decide)
    rw [hm.2] at hV1 hV2
    exact ⟨res, x, xr, rfl, hxr, hxc, hT, hV1, hV2⟩

/-- C19: when the compile of a sheet returns, the format id `S` of the record
of every cell in column `c` of the densified sheet is decided by this
precedence, on the style table with which the compile reaches the cell: (1)
when the cell has its own style, `S` is the id that `handleStyleForXLSX` returns
for that style; (2) otherwise, when the number-format code of the cell is
non-empty and `compareFormatString` tells it from the code of column `c`, `S` is
the id that `handleNumFmtIdForXLSX` returns for the number-format id of the
cell; (3) otherwise `S` is the format id resolved for column `c` in the column
walk, the one in the record of column `c`. -/
theorem makeXLSXSheet_format_precedence (env : Env) (s : Sheet) (refTable : RefTable)
    (styles : xlsxStyleSheet) (res : xlsxWorksheet × Sheet × RefTable × xlsxStyleSheet)
    (h : s.makeXLSXSheet env refTable styles = Except.ok res) :
    ∃ s1, s.handleMerged env = some s1 ∧
      (colRecords res.1).length = s1.Cols.length ∧
      ∀ (r c : Nat) (cell : Cell), cellAt s1.Rows r c = some cell →
        ∃ cols1 st x xr, reachState env s1 refTable styles r c = some (cols1, st) ∧
          cellXC cols1 (r : Int) (c : Int) cell st = Except.ok x ∧
          res.1.SheetData.Row[r]? = some xr ∧ xr.C[c]? = some x.1 ∧
          (∀ style, cell.style = some style →
            x.1.S = (handleStyleForXLSX style (st.styles.newNumFmt cell.NumFmt).1.NumFmtId
              (st.styles.newNumFmt cell.NumFmt).2).1) ∧
          (cell.style = none → cell.NumFmt ≠ "" →
            ∃ col, s1.Cols[c]? = some col ∧
              (compareFormatString col.numFmt cell.NumFmt = false →
                x.1.S = (handleNumFmtIdForXLSX (st.styles.newNumFmt cell.NumFmt).1.NumFmtId
                  (st.styles.newNumFmt cell.NumFmt).2).1)) ∧
          (cell.style = none →
            (cell.NumFmt = "" ∨ ∃ col, s1.Cols[c]? = some col ∧
              compareFormatString col.numFmt cell.NumFmt = true) →
            ∃ xcol, (colRecords res.1)[c]? = some xcol ∧ x.1.S = xcol.Style) := by
  obtain ⟨s1, cd, hrun, _, _, hclen, hcols, hxlen, hrlen, hrecs, hcells⟩ := compile_trace h
  refine ⟨s1, hrun, hrlen, ?_⟩
  intro r c cell hcell
  obtain ⟨st, x, xr, hreach, hxf, hx, hxr, hxc⟩ := hcells r c cell hcell
  obtain ⟨⟨fmt, hfmt, hS, _⟩, _⟩ := cellXC_record hx
  obtain ⟨⟨XfId, hXf, hcase3⟩, hcase1, hcase2⟩ := cellFormatId_cases hfmt
  rw [hxf, sliceIndex_natCast] at hXf
  have hcol : ∀ col1, sliceIndex cd.1 (c : Int) = some col1 →
      ∃ col, s1.Cols[c]? = some col ∧ col.numFmt = col1.numFmt := by
    intro col1 hcol1
    rw [sliceIndex_natCast] at hcol1
    obtain ⟨hlt, _⟩ := List.getElem?_eq_some.mp hcol1
    rw [hclen] at hlt
    obtain ⟨col2, h2, h3⟩ := hcols c (s1.Cols[c]) (List.getElem?_eq_getElem hlt)
    rw [hcol1] at h2
    cases h2
    exact ⟨s1.Cols[c], List.getElem?_eq_getElem hlt, h3.symm⟩
  refine ⟨cd.1, st, x, xr, hreach, hx, hxr, hxc, ?_, ?_, ?_⟩
  · intro style hstyle
    rw [hS, hcase1 style hstyle]
  · intro hnone hne
    obtain ⟨col1, hcol1, himp⟩ := hcase2 hnone hne
    obtain ⟨col, hc, hnf⟩ := hcol col1 hcol1
    refine ⟨col, hc, ?_⟩
    intro hcmp
    rw [hnf] at hcmp
    rw [hS, himp hcmp]
  · intro hnone hor
    obtain ⟨hlt, _⟩ := List.getElem?_eq_some.mp hXf
    rw [hxlen, ← hrlen] at hlt
    have hrec := hrecs c _ (List.getElem?_eq_getElem hlt)
    rw [hXf] at hrec
    refine ⟨_, List.getElem?_eq_getElem hlt, ?_⟩
    have hfmt3 : fmt = (XfId, (st.styles.newNumFmt cell.NumFmt).2) := by
      apply hcase3 hnone
      rcases hor with h0 | ⟨col, hc, hcmp⟩
      · exact Or.inl h0
      · right
        obtain ⟨col2, h2, h3⟩ := hcols c col hc
        refine ⟨col2, ?_, ?_⟩
        · rw [sliceIndex_natCast]
          exact h2
        · rw [h3]
          exact hcmp
    rw [hS, hfmt3]
    exact (Option.some.inj hrec)

/-- C19 at a concrete input: the sheet of four cells compiles to the format
ids 1, 0, 1, 0 over columns of format id 0; the id of its unstyled cell with
the number format `0.00`, at column 2, is the one `handleNumFmtIdForXLSX`
returns. -/
theorem makeXLSXSheet_format_precedence_witness :
    (formatSheet.makeXLSXSheet exampleEnv { indexedStrings := [] } {}).toOption.map
        (fun res => (res.1.SheetData.Row.map (fun xr => xr.C.map (fun xc => xc.S)),
          (colRecords res.1).map (fun xcol => xcol.Style)))
      = some ([[1, 0, 1, 0]], [0, 0, 0, 0]) ∧
    ∃ (res : xlsxWorksheet × Sheet × RefTable × xlsxStyleSheet) (st : CompileState)
        (x : xlsxC × xlsxStyleSheet × RefTable) (xr : xlsxRow),
      formatSheet.makeXLSXSheet exampleEnv { indexedStrings := [] } {} = Except.ok res ∧
      res.1.SheetData.Row[0]? = some xr ∧ xr.C[2]? = some x.1 ∧
      x.1.S = (handleNumFmtIdForXLSX (st.styles.newNumFmt "0.00").1.NumFmtId
        (st.styles.newNumFmt "0.00").2).1 := by
  refine ⟨by rfl, ?_⟩
  have hval : (formatSheet.makeXLSXSheet exampleEnv { indexedStrings := [] } {}).toOption.isSome
      = true := by rfl
  have hm : (formatSheet.handleMerged exampleEnv).map
      (fun s1 => (cellAt s1.Rows 0 2, (s1.Cols[2]?).map (fun col => col.numFmt)))
      = some (some { NumFmt := "0.00" }, some "") := by rfl
  cases hres : formatSheet.makeXLSXSheet exampleEnv { indexedStrings := [] } {} with
  | error e =>
    rw [hres] at hval
    cases hval
  | ok res =>
    obtain ⟨s1, hrun, _, hall⟩ :=
      makeXLSXSheet_format_precedence exampleEnv formatSheet { indexedStrings := [] } {} res hres
    rw [hrun] at hm
    simp only [Option.map_some', Option.some.injEq, Prod.mk.injEq] at hm
    obtain ⟨_, st, x, xr, _, _, hxr, hxc, _, h2, _⟩ := hall 0 2 _ hm.1
    obtain ⟨col, hcol, himp⟩ := h2 rfl (by decide)
    rw [hcol] at hm
    simp only [Option.map_some', Option.some.injEq] at hm
    refine ⟨res, st, x, xr, rfl, hxr, hxc, himp ?_⟩
    rw [hm.2]
    decide

/-- C20, amended: when the compile of a sheet returns, the format id of every
cell with its own style is the id `handleStyleForXLSX` returns for that style
and the number-format id of the cell, on the style table with which the
compile reaches the cell, whatever the column; the record interned at that id
carries the number-format id of the cell, the apply flag when that id is
positive, and the alignment of the style. -/
theorem makeXLSXSheet_styled_cell (env : Env) (s : Sheet) (refTable : RefTable)
    (styles : xlsxStyleSheet) (res : xlsxWorksheet × Sheet × RefTable × xlsxStyleSheet)
    (h : s.makeXLSXSheet env refTable styles = Except.ok res) :
    ∃ s1, s.handleMerged env = some s1 ∧
      ∀ (r c : Nat) (cell : Cell) (style : Style), cellAt s1.Rows r c = some cell →
        cell.style = some style →
        ∃ cols1 st x xr xf, reachState env s1 refTable styles r c = some (cols1, st) ∧
          cellXC cols1 (r : Int) (c : Int) cell st = Except.ok x ∧
          res.1.SheetData.Row[r]? = some xr ∧ xr.C[c]? = some x.1 ∧
          (x.1.S, x.2.1) = handleStyleForXLSX style (st.styles.newNumFmt cell.NumFmt).1.NumFmtId
              (st.styles.newNumFmt cell.NumFmt).2 ∧
          x.2.1.CellXfs[x.1.S.toNat]? = some xf ∧
          xf.NumFmtId = (st.styles.newNumFmt cell.NumFmt).1.NumFmtId ∧
          (xf.NumFmtId > 0 → xf.ApplyNumberFormat = true) ∧
          xf.Alignment.Horizontal = style.Alignment.Horizontal ∧
          xf.Alignment.Indent = style.Alignment.Indent ∧
          xf.Alignment.ShrinkToFit = style.Alignment.ShrinkToFit ∧
          xf.Alignment.TextRotation = style.Alignment.TextRotation ∧
          xf.Alignment.Vertical = style.Alignment.Vertical ∧
          xf.Alignment.WrapText = style.Alignment.WrapText := by
  obtain ⟨s1, cd, hrun, _, _, _, _, _, _, _, hcells⟩ := compile_trace h
  refine ⟨s1, hrun, ?_⟩
  intro r c cell style hcell hstyle
  obtain ⟨st, x, xr, hreach, _, hx, hxr, hxc⟩ := hcells r c cell hcell
  obtain ⟨⟨fmt, hfmt, hS, hst⟩, _⟩ := cellXC_record hx
  obtain ⟨_, hcase1, _⟩ := cellFormatId_cases hfmt
  have hfmt1 := hcase1 style hstyle
  obtain ⟨xf, hget, hrest⟩ := handleStyleForXLSX_record style
    (st.styles.newNumFmt cell.NumFmt).1.NumFmtId (st.styles.newNumFmt cell.NumFmt).2
  rw [← hfmt1, ← hS, ← hst] at hget
  have hpair : (x.1.S, x.2.1) = fmt := by
    rw [hS, hst]
  obtain ⟨hn, hap, hrest1⟩ := hrest
  refine ⟨cd.1, st, x, xr, xf, hreach, hx, hxr, hxc, hpair.trans hfmt1, hget, hn, ?_, hrest1⟩
  intro hpos
  rw [hn] at hpos
  exact hap hpos

/-- C20 (amended) at a concrete input: the styled cell with the number format
`0.00` of the sheet of four cells; the record interned for it carries the id
of that number format. -/
theorem makeXLSXSheet_styled_cell_witness :
    ∃ (res : xlsxWorksheet × Sheet × RefTable × xlsxStyleSheet) (st : CompileState)
        (x : xlsxC × xlsxStyleSheet × RefTable) (xr : xlsxRow) (xf : xlsxXf),
      formatSheet.makeXLSXSheet exampleEnv { indexedStrings := [] } {} = Except.ok res ∧
      res.1.SheetData.Row[0]? = some xr ∧ xr.C[0]? = some x.1 ∧
      x.2.1.CellXfs[x.1.S.toNat]? = some xf ∧
      xf.NumFmtId = (st.styles.newNumFmt "0.00").1.NumFmtId := by
  have hval : (formatSheet.makeXLSXSheet exampleEnv { indexedStrings := [] } {}).toOption.isSome
      = true := by rfl
  have hm : (formatSheet.handleMerged exampleEnv).map (fun s1 => cellAt s1.Rows 0 0)
      = some (some { style := some NewStyle, NumFmt := "0.00" }) := by rfl
  cases hres : formatSheet.makeXLSXSheet exampleEnv { indexedStrings := [] } {} with
  | error e =>
    rw [hres] at hval
    cases hval
  | ok res =>
    obtain ⟨s1, hrun, hall⟩ :=
      makeXLSXSheet_styled_cell exampleEnv formatSheet { indexedStrings := [] } {} res hres
    rw [hrun] at hm
    simp only [Option.map_some', Option.some.injEq] at hm
    obtain ⟨_, st, x, xr, xf, _, _, hxr, hxc, _, hget, hn, _⟩ := hall 0 0 _ NewStyle hm rfl
    exact ⟨res, st, x, xr, xf, rfl, hxr, hxc, hget, hn⟩

/-! ## The fills table along the compile -/

theorem internIndex_mem {α : Type} [DecidableEq α] (xs : List α) (x : α) :
    x ∈ (internIndex xs x).2 := by
  unfold internIndex
  split
  · rename_i h
    exact List.indexOf_lt_length.mp h
  · simp

theorem internIndex_subset {α : Type} [DecidableEq α] (xs : List α) (x y : α) (h : y ∈ xs) :
    y ∈ (internIndex xs x).2 := by
  unfold internIndex
  split
  · exact h
  · exact List.mem_append_left _ h

theorem newNumFmt_Fills (styles : xlsxStyleSheet) (formatCode : String) :
    (styles.newNumFmt formatCode).2.Fills = styles.Fills := by
  unfold xlsxStyleSheet.newNumFmt
  split
  · rfl
  · split <;> rfl

theorem handleNumFmtIdForXLSX_Fills (NumFmtId : Int) (styles : xlsxStyleSheet) :
    (handleNumFmtIdForXLSX NumFmtId styles).2.Fills = styles.Fills := rfl

theorem handleStyleForXLSX_Fills_eq (style : Style) (NumFmtId : Int) (styles : xlsxStyleSheet) :
    (handleStyleForXLSX style NumFmtId styles).2.Fills =
      (internIndex (internIndex styles.Fills style.makeXLSXStyleElements.2.1).2
        lightGrayFill).2 := rfl

/-- Every call of `handleStyleForXLSX` leaves the light-gray fill in the fills
table and keeps the fills that were there. -/
theorem handleStyleForXLSX_Fills (style : Style) (NumFmtId : Int) (styles : xlsxStyleSheet) :
    lightGrayFill ∈ (handleStyleForXLSX style NumFmtId styles).2.Fills ∧
    ∀ f ∈ styles.Fills, f ∈ (handleStyleForXLSX style NumFmtId styles).2.Fills := by
  rw [handleStyleForXLSX_Fills_eq]
  refine ⟨internIndex_mem _ _, ?_⟩
  intro f hf
  exact internIndex_subset _ _ _ (internIndex_subset _ _ _ hf)

theorem colMinMax_style (col : Col) : (colMinMax col).style = col.style := by
  unfold colMinMax
  by_cases h1 : col.Min = 0 <;> by_cases h2 : col.Max = 0 <;> simp [h1, h2]

/-- The fills after the format of a column is resolved: the old ones are kept,
the light-gray one is there when the column has a style, and nothing changes
when it has none. -/
theorem colResolve_Fills (col : Col) (styles : xlsxStyleSheet) :
    (∀ f ∈ styles.Fills, f ∈ (colResolve col styles).2.Fills) ∧
    (col.style ≠ none → lightGrayFill ∈ (colResolve col styles).2.Fills) ∧
    (col.style = none → (colResolve col styles).2.Fills = styles.Fills) := by
  unfold colResolve Col.GetStyle
  cases hs : col.style with
  | none =>
    exact ⟨fun f hf => hf, fun h => absurd rfl h, fun _ => rfl⟩
  | some style =>
    simp only
    obtain ⟨h1, h2⟩ := handleStyleForXLSX_Fills style
      (styles.newNumFmt col.numFmt).1.NumFmtId (styles.newNumFmt col.numFmt).2
    rw [newNumFmt_Fills] at h2
    exact ⟨h2, fun _ => h1, fun h => by cases h⟩

theorem colStep_styles {c : Int} {col : Col} {st : CompileState} {p : Col × CompileState}
    (h : colStep c col st = some p) :
    p.2.styles = (colResolve (colMinMax col) st.styles).2 := by
  unfold colStep at h
  cases hset : sliceSet st.colsXfIdList c (colResolve (colMinMax col) st.styles).1 with
  | none =>
    simp only [hset, Option.map_none'] at h
    cases h
  | some xfList =>
    simp only [hset, Option.map_some', Option.some.injEq] at h
    subst h
    rfl

theorem colsLoop_cons_ok {c : Int} {col : Col} {rest : List Col} {st : CompileState}
    {q : List Col × CompileState} (h : colsLoop c (col :: rest) st = some q) :
    ∃ p q1, colStep c col st = some p ∧ colsLoop (c + 1) rest p.2 = some q1 ∧
      q = (p.1 :: q1.1, q1.2) := by
  rw [colsLoop] at h
  cases hp : colStep c col st with
  | none =>
    simp only [hp, Option.none_bind] at h
    cases h
  | some p =>
    simp only [hp, Option.some_bind] at h
    cases hq1 : colsLoop (c + 1) rest p.2 with
    | none =>
      simp only [hq1, Option.map_none'] at h
      cases h
    | some q1 =>
      simp only [hq1, Option.map_some', Option.some.injEq] at h
      exact ⟨p, q1, rfl, hq1, h.symm⟩

theorem colsLoop_Fills (cols : List Col) :
    ∀ (c : Int) (st : CompileState) (q : List Col × CompileState),
    colsLoop c cols st = some q →
    (∀ f ∈ st.styles.Fills, f ∈ q.2.styles.Fills) ∧
    ((∃ col ∈ cols, col.style ≠ none) → lightGrayFill ∈ q.2.styles.Fills) ∧
    ((∀ col ∈ cols, col.style = none) → q.2.styles.Fills = st.styles.Fills) := by
  induction cols with
  | nil =>
    intro c st q h
    rw [colsLoop] at h
    simp only [Option.some.injEq] at h
    subst h
    refine ⟨fun f hf => hf, ?_, fun _ => rfl⟩
    intro ⟨col, hcol, _⟩
    cases hcol
  | cons col rest ih =>
    intro c st q h
    obtain ⟨p, q1, hp, hq1, hq⟩ := colsLoop_cons_ok h
    obtain ⟨m1, g1, e1⟩ := ih _ _ _ hq1
    obtain ⟨m0, g0, e0⟩ := colResolve_Fills (colMinMax col) st.styles
    rw [← colStep_styles hp] at m0 g0 e0
    rw [colMinMax_style] at g0 e0
    subst hq
    refine ⟨fun f hf => m1 f (m0 f hf), ?_, ?_⟩
    · intro ⟨colj, hmem, hstyle⟩
      rcases List.mem_cons.mp hmem with heq | hmem1
      · subst heq
        exact m1 _ (g0 hstyle)
      · exact g1 ⟨colj, hmem1, hstyle⟩
    · intro hall
      show q1.2.styles.Fills = _
      rw [e1 (fun colj hj => hall colj (List.mem_cons_of_mem _ hj)),
        e0 (hall col (List.mem_cons_self _ _))]

/-- The fills after the format id of a cell is computed: the old ones are
kept, the light-gray one is there when the cell has a style, and nothing
changes when it has none. -/
theorem cellFormatId_Fills {cols : List Col} {xfList : List Int} {c : Int} {cell : Cell}
    {styles : xlsxStyleSheet} {fmt : Int × xlsxStyleSheet}
    (h : cellFormatId cols xfList c cell styles = Except.ok fmt) :
    (∀ f ∈ styles.Fills, f ∈ fmt.2.Fills) ∧
    (cell.style ≠ none → lightGrayFill ∈ fmt.2.Fills) ∧
    (cell.style = none → fmt.2.Fills = styles.Fills) := by
  unfold cellFormatId at h
  cases hx : sliceIndex xfList c with
  | none =>
    rw [hx] at h
    cases h
  | some XfId =>
    rw [hx] at h
    simp only at h
    cases hs : cell.style with
    | some style =>
      rw [hs] at h
      simp only [Except.ok.injEq] at h
      subst h
      obtain ⟨h1, h2⟩ := handleStyleForXLSX_Fills style
        (styles.newNumFmt cell.NumFmt).1.NumFmtId (styles.newNumFmt cell.NumFmt).2
      rw [newNumFmt_Fills] at h2
      exact ⟨h2, fun _ => h1, fun h0 => (by cases h0)⟩
    | none =>
      rw [hs] at h
      simp only at h
      have hkeep : fmt.2.Fills = styles.Fills := by
        by_cases hn : cell.NumFmt ≠ ""
        · rw [if_pos hn] at h
          cases hc : sliceIndex cols c with
          | none =>
            rw [hc] at h
            cases h
          | some col =>
            rw [hc] at h
            simp only at h
            by_cases hcmp : compareFormatString col.numFmt cell.NumFmt = false
            · rw [if_pos hcmp] at h
              simp only [Except.ok.injEq] at h
              rw [← h, handleNumFmtIdForXLSX_Fills, newNumFmt_Fills]
            · rw [if_neg hcmp] at h
              simp only [Except.ok.injEq] at h
              rw [← h]
              exact newNumFmt_Fills _ _
        · rw [if_neg hn] at h
          simp only [Except.ok.injEq] at h
          rw [← h]
          exact newNumFmt_Fills _ _
      refine ⟨?_, fun h0 => absurd rfl h0, fun _ => hkeep⟩
      intro f hf
      rw [hkeep]
      exact hf

theorem cellStep_Fills {cols : List Col} {r c : Int} {cell : Cell} {xRow : xlsxRow}
    {st : CompileState} {p : Cell × xlsxRow × CompileState}
    (h : cellStep cols r c cell xRow st = Except.ok p) :
    (∀ f ∈ st.styles.Fills, f ∈ p.2.2.styles.Fills) ∧
    (cell.style ≠ none → lightGrayFill ∈ p.2.2.styles.Fills) ∧
    (cell.style = none → p.2.2.styles.Fills = st.styles.Fills) := by
  obtain ⟨x, hx, _, _, _, _, _, _, _, _, hst, _⟩ := cellStep_ok h
  obtain ⟨⟨fmt, hfmt, _, hx2⟩, _⟩ := cellXC_record hx
  rw [hst, hx2]
  exact cellFormatId_Fills hfmt

theorem cellsLoop_Fills (cols : List Col) (r : Int) (cells : List Cell) :
    ∀ (c : Int) (xRow : xlsxRow) (st : CompileState) (q : List Cell × xlsxRow × CompileState),
    cellsLoop cols r c cells xRow st = Except.ok q →
    (∀ f ∈ st.styles.Fills, f ∈ q.2.2.styles.Fills) ∧
    ((∃ cell ∈ cells, cell.style ≠ none) → lightGrayFill ∈ q.2.2.styles.Fills) ∧
    ((∀ cell ∈ cells, cell.style = none) → q.2.2.styles.Fills = st.styles.Fills) := by
  induction cells with
  | nil =>
    intro c xRow st q h
    simp only [cellsLoop, Except.ok.injEq] at h
    subst h
    refine ⟨fun f hf => hf, ?_, fun _ => rfl⟩
    intro ⟨cell, hcell, _⟩
    cases hcell
  | cons cell rest ih =>
    intro c xRow st q h
    obtain ⟨p, q1, hp, hq1, hq⟩ := cellsLoop_cons_ok h
    obtain ⟨m1, g1, e1⟩ := ih _ _ _ _ hq1
    obtain ⟨m0, g0, e0⟩ := cellStep_Fills hp
    subst hq
    refine ⟨fun f hf => m1 f (m0 f hf), ?_, ?_⟩
    · intro ⟨cellj, hmem, hstyle⟩
      rcases List.mem_cons.mp hmem with heq | hmem1
      · subst heq
        exact m1 _ (g0 hstyle)
      · exact g1 ⟨cellj, hmem1, hstyle⟩
    · intro hall
      show q1.2.2.styles.Fills = _
      rw [e1 (fun cellj hj => hall cellj (List.mem_cons_of_mem _ hj)),
        e0 (hall cell (List.mem_cons_self _ _))]

theorem rowStep_Fills {env : Env} {cols : List Col} {r : Int} {row : Xlsx.Row}
    {st : CompileState} {p : Xlsx.Row × CompileState}
    (h : rowStep env cols r row st = Except.ok p) :
    (∀ f ∈ st.styles.Fills, f ∈ p.2.styles.Fills) ∧
    ((∃ cell ∈ row.Cells, cell.style ≠ none) → lightGrayFill ∈ p.2.styles.Fills) ∧
    ((∀ cell ∈ row.Cells, cell.style = none) → p.2.styles.Fills = st.styles.Fills) := by
  obtain ⟨q, hq, hp⟩ := rowStep_ok h
  subst hp
  have hrec := cellsLoop_Fills cols r row.Cells _ _ _ _ hq
  exact hrec

theorem rowsLoop_Fills (env : Env) (cols : List Col) (rows : List Xlsx.Row) :
    ∀ (r : Int) (st : CompileState) (q : List Xlsx.Row × CompileState),
    rowsLoop env cols r rows st = Except.ok q →
    (∀ f ∈ st.styles.Fills, f ∈ q.2.styles.Fills) ∧
    ((∃ row ∈ rows, ∃ cell ∈ row.Cells, cell.style ≠ none) →
      lightGrayFill ∈ q.2.styles.Fills) ∧
    ((∀ row ∈ rows, ∀ cell ∈ row.Cells, cell.style = none) →
      q.2.styles.Fills = st.styles.Fills) := by
  induction rows with
  | nil =>
    intro r st q h
    simp only [rowsLoop, Except.ok.injEq] at h
    subst h
    refine ⟨fun f hf => hf, ?_, fun _ => rfl⟩
    intro ⟨row, hrow, _⟩
    cases hrow
  | cons row rest ih =>
    intro r st q h
    obtain ⟨p, q1, hp, hq1, hq⟩ := rowsLoop_cons_ok h
    obtain ⟨m1, g1, e1⟩ := ih _ _ _ hq1
    obtain ⟨m0, g0, e0⟩ := rowStep_Fills hp
    subst hq
    refine ⟨fun f hf => m1 f (m0 f hf), ?_, ?_⟩
    · intro ⟨rowj, hmem, hstyled⟩
      rcases List.mem_cons.mp hmem with heq | hmem1
      · subst heq
        exact m1 _ (g0 hstyled)
      · exact g1 ⟨rowj, hmem1, hstyled⟩
    · intro hall
      show q1.2.styles.Fills = _
      rw [e1 (fun rowj hj => hall rowj (List.mem_cons_of_mem _ hj)),
        e0 (hall row (List.mem_cons_self _ _))]

/-- The fills table a compile returns: the fills it was given are kept, the
light-gray fill is there when a column or a cell of the densified sheet has a
style, and the table is the one given when none has. -/
theorem compile_Fills {env : Env} {s : Sheet} {refTable : RefTable} {styles : xlsxStyleSheet}
    {res : xlsxWorksheet × Sheet × RefTable × xlsxStyleSheet}
    (h : s.makeXLSXSheet env refTable styles = Except.ok res) :
    ∃ s1, s.handleMerged env = some s1 ∧
      (∀ f ∈ styles.Fills, f ∈ res.2.2.2.Fills) ∧
      ((∃ col ∈ s1.Cols, col.style ≠ none) ∨
        (∃ row ∈ s1.Rows, ∃ cell ∈ row.Cells, cell.style ≠ none) →
        lightGrayFill ∈ res.2.2.2.Fills) ∧
      ((∀ col ∈ s1.Cols, col.style = none) →
        (∀ row ∈ s1.Rows, ∀ cell ∈ row.Cells, cell.style = none) →
        res.2.2.2.Fills = styles.Fills) := by
  obtain ⟨s1, ws0, colsDone, rowsDone, h1, h2, h3, h4, hres⟩ := makeXLSXSheet_ok h
  obtain ⟨mc, gc, ec⟩ := colsLoop_Fills s1.Cols _ _ _ h3
  obtain ⟨mr, gr, er⟩ := rowsLoop_Fills env colsDone.1 s1.Rows _ _ _ h4
  have hfin : res.2.2.2 = rowsDone.2.styles := by
    rw [hres]
    rfl
  rw [hfin]
  refine ⟨s1, h1, fun f hf => mr f (mc f hf), ?_, ?_⟩
  · intro hor
    rcases hor with hcol | hcell
    · exact mr _ (gc hcol)
    · exact gr hcell
  · intro hcols hcells
    rw [er hcells, ec hcols]

/-- C21 as stated fails on the sheet with no columns and no cells: its compile
resolves no style, `handleStyleForXLSX` is never called, and the fills table,
passed empty, is returned empty. -/
theorem lightGray_counterexample :
    (emptySheet.makeXLSXSheet exampleEnv { indexedStrings := [] } {}).toOption.map
        (fun res => (res.2.2.2.Fills, decide (lightGrayFill ∈ res.2.2.2.Fills)))
      = some ([], false) := by
  rfl

/-- C21, amended: once the compile of a sheet has returned, the fills table of
the style sheet passed to it keeps the fills it had and contains the constant
light-gray pattern fill (`PatternType` `lightGray`) whenever some column or some
cell of the densified sheet has a style, whether or not any of them uses a gray
fill; when no column and no cell has a style, no style is resolved and the
fills table is left as it was passed. -/
theorem makeXLSXSheet_lightGray (env : Env) (s : Sheet) (refTable : RefTable)
    (styles : xlsxStyleSheet) (res : xlsxWorksheet × Sheet × RefTable × xlsxStyleSheet)
    (h : s.makeXLSXSheet env refTable styles = Except.ok res) :
    ∃ s1, s.handleMerged env = some s1 ∧
      (∀ f ∈ styles.Fills, f ∈ res.2.2.2.Fills) ∧
      ((∃ col ∈ s1.Cols, col.GetStyle ≠ none) ∨
        (∃ row ∈ s1.Rows, ∃ cell ∈ row.Cells, cell.style ≠ none) →
        ∃ f ∈ res.2.2.2.Fills, f = lightGrayFill ∧ f.PatternFill.PatternType = "lightGray") ∧
      ((∀ col ∈ s1.Cols, col.GetStyle = none) →
        (∀ row ∈ s1.Rows, ∀ cell ∈ row.Cells, cell.style = none) →
        res.2.2.2.Fills = styles.Fills) := by
  obtain ⟨s1, hrun, hmono, hgray, hkeep⟩ := compile_Fills h
  refine ⟨s1, hrun, hmono, ?_, hkeep⟩
  intro hor
  exact ⟨lightGrayFill, hgray hor, rfl, rfl⟩

/-- C21 (amended) at a concrete input: the sheet with one unstyled cell and
its column, whose style is the fresh one; the compile returns the fills table
with the light-gray fill after the fill of the column. -/
theorem makeXLSXSheet_lightGray_witness :
    (oneCellSheet.makeXLSXSheet exampleEnv { indexedStrings := [] } {}).toOption.map
        (fun res => res.2.2.2.Fills.map (fun f => f.PatternFill.PatternType))
      = some ["", "lightGray"] ∧
    ∃ (res : xlsxWorksheet × Sheet × RefTable × xlsxStyleSheet) (f : xlsxFill),
      oneCellSheet.makeXLSXSheet exampleEnv { indexedStrings := [] } {} = Except.ok res ∧
      f ∈ res.2.2.2.Fills ∧ f.PatternFill.PatternType = "lightGray" := by
  refine ⟨by rfl, ?_⟩
  have hval : (oneCellSheet.makeXLSXSheet exampleEnv { indexedStrings := [] } {}).toOption.isSome
      = true := by rfl
  have hm : (oneCellSheet.handleMerged exampleEnv).map
      (fun s1 => (s1.Cols[0]?).map (fun col => col.GetStyle))
      = some (some (some NewStyle)) := by rfl
  cases hres : oneCellSheet.makeXLSXSheet exampleEnv { indexedStrings := [] } {} with
  | error e =>
    rw [hres] at hval
    cases hval
  | ok res =>
    obtain ⟨s1, hrun, _, hgray, _⟩ :=
      makeXLSXSheet_lightGray exampleEnv oneCellSheet { indexedStrings := [] } {} res hres
    rw [hrun] at hm
    simp only [Option.map_some', Option.some.injEq] at hm
    cases hcol : s1.Cols[0]? with
    | none =>
      rw [hcol] at hm
      cases hm
    | some col =>
      rw [hcol] at hm
      simp only [Option.map_some', Option.some.injEq] at hm
      obtain ⟨hlt, hget⟩ := List.getElem?_eq_some.mp hcol
      have hmem : col ∈ s1.Cols := hget ▸ List.getElem_mem hlt
      obtain ⟨f, hf, _, hpat⟩ := hgray (Or.inl ⟨col, hmem, by rw [hm]; exact fun h0 => (by cases h0)⟩)
      exact ⟨res, f, rfl, hf, hpat⟩

/-! ## What `handleMerged` adds to the columns and to the rules -/

theorem ColsExt_refl (a : List Col) : ColsExt a a := ⟨[], by simp⟩

theorem ColsExt_trans {a b c : List Col} (h1 : ColsExt a b) (h2 : ColsExt b c) : ColsExt a c := by
  obtain ⟨l1, rfl⟩ := h1
  obtain ⟨l2, rfl⟩ := h2
  exact ⟨l1 ++ l2, by simp⟩

theorem maybeAddCol_ColsExt (s : Sheet) (k : Int) : ColsExt s.Cols (s.maybeAddCol k).Cols := by
  unfold Sheet.maybeAddCol
  split
  · refine ⟨(List.range (k - s.MaxCol).toNat).map fun (j : Nat) => s.MaxCol + 1 + (j : Int), ?_⟩
    simp only [maybeAddColLoop_eq, List.map_map]
    rfl
  · exact ColsExt_refl _

theorem AddCell_ColsExt {sh : Sheet} {ri : Int} {p : Cell × Sheet}
    (h : Row.AddCell sh ri = some p) : ColsExt sh.Cols p.2.Cols := by
  unfold Row.AddCell at h
  cases hr : sliceIndex sh.Rows ri with
  | none =>
    rw [hr] at h
    cases h
  | some r =>
    rw [hr] at h
    simp only [Option.some_bind] at h
    cases hs : sliceSet sh.Rows ri { r with Cells := r.Cells ++ [({} : Cell)] } with
    | none =>
      rw [hs] at h
      cases h
    | some rows =>
      rw [hs] at h
      simp only [Option.map_some', Option.some.injEq] at h
      subst h
      exact maybeAddCol_ColsExt _ _

theorem cellRowLoop_Cols (row : Int) (n : Nat) :
    ∀ (sh sh1 : Sheet), cellRowLoop row n sh = some sh1 → sh1.Cols = sh.Cols := by
  induction n with
  | zero =>
    intro sh sh1 h
    rw [cellRowLoop] at h
    split at h
    · cases h
    · simp only [Option.some.injEq] at h
      rw [h]
  | succ n ih =>
    intro sh sh1 h
    rw [cellRowLoop] at h
    split at h
    · have hrec := ih _ _ h
      rw [hrec]
      rfl
    · simp only [Option.some.injEq] at h
      rw [h]

theorem cellColLoop_ColsExt (row col : Int) (n : Nat) :
    ∀ (sh sh1 : Sheet), cellColLoop row col n sh = some sh1 → ColsExt sh.Cols sh1.Cols := by
  induction n with
  | zero =>
    intro sh sh1 h
    rw [cellColLoop] at h
    cases hr : sliceIndex sh.Rows row with
    | none =>
      rw [hr] at h
      cases h
    | some r =>
      rw [hr] at h
      simp only [Option.some_bind] at h
      split at h
      · cases h
      · simp only [Option.some.injEq] at h
        rw [h]
        exact ColsExt_refl _
  | succ n ih =>
    intro sh sh1 h
    rw [cellColLoop] at h
    cases hr : sliceIndex sh.Rows row with
    | none =>
      rw [hr] at h
      cases h
    | some r =>
      rw [hr] at h
      simp only [Option.some_bind] at h
      split at h
      · cases ha : Row.AddCell sh row with
        | none =>
          rw [ha] at h
          cases h
        | some p =>
          rw [ha] at h
          simp only [Option.some_bind] at h
          exact ColsExt_trans (AddCell_ColsExt ha) (ih _ _ h)
      · simp only [Option.some.injEq] at h
        rw [h]
        exact ColsExt_refl _

theorem Cell_ColsExt {s : Sheet} {row col : Int} {p : Cell × Sheet}
    (h : s.Cell row col = some p) : ColsExt s.Cols p.2.Cols := by
  unfold Sheet.Cell at h
  cases h1 : cellRowLoop row (row + 1 - s.Rows.length).toNat s with
  | none =>
    rw [h1] at h
    cases h
  | some sh1 =>
    rw [h1] at h
    simp only [Option.some_bind] at h
    cases h2 : sliceIndex sh1.Rows row with
    | none =>
      rw [h2] at h
      cases h
    | some r =>
      rw [h2] at h
      simp only [Option.some_bind] at h
      cases h3 : cellColLoop row col (col + 1 - r.Cells.length).toNat sh1 with
      | none =>
        rw [h3] at h
        cases h
      | some sh2 =>
        rw [h3] at h
        simp only [Option.some_bind] at h
        cases h4 : sliceIndex sh2.Rows row with
        | none =>
          rw [h4] at h
          cases h
        | some r2 =>
          rw [h4] at h
          simp only [Option.some_bind] at h
          cases h5 : sliceIndex r2.Cells col with
          | none =>
            rw [h5] at h
            cases h
          | some cell =>
            rw [h5] at h
            simp only [Option.map_some', Option.some.injEq] at h
            subst h
            have hc := cellColLoop_ColsExt row col _ _ _ h3
            rw [cellRowLoop_Cols row _ _ _ h1] at hc
            exact hc

theorem mergeColLoop_ColsExt (row maincol hmerge : Int) (n : Nat) :
    ∀ (colnum : Int) (s s1 : Sheet), mergeColLoop row maincol hmerge n colnum s = some s1 →
      ColsExt s.Cols s1.Cols := by
  induction n with
  | zero =>
    intro colnum s s1 h
    rw [mergeColLoop] at h
    split at h
    · cases h
    · simp only [Option.some.injEq] at h
      rw [h]
      exact ColsExt_refl _
  | succ n ih =>
    intro colnum s s1 h
    rw [mergeColLoop] at h
    split at h
    · cases hc : s.Cell row (maincol + colnum) with
      | none =>
        rw [hc] at h
        cases h
      | some p =>
        rw [hc] at h
        simp only [Option.some_bind] at h
        exact ColsExt_trans (Cell_ColsExt hc) (ih _ _ _ h)
    · simp only [Option.some.injEq] at h
      rw [h]
      exact ColsExt_refl _

theorem mergeRowLoop_ColsExt (mainrow maincol : Int) (cell : Cell) (n : Nat) :
    ∀ (rownum : Int) (s s1 : Sheet), mergeRowLoop mainrow maincol cell n rownum s = some s1 →
      ColsExt s.Cols s1.Cols := by
  induction n with
  | zero =>
    intro rownum s s1 h
    rw [mergeRowLoop] at h
    split at h
    · cases h
    · simp only [Option.some.injEq] at h
      rw [h]
      exact ColsExt_refl _
  | succ n ih =>
    intro rownum s s1 h
    rw [mergeRowLoop] at h
    split at h
    · cases hc : mergeColLoop (mainrow + rownum) maincol cell.HMerge (cell.HMerge + 1).toNat 0 s with
      | none =>
        rw [hc] at h
        cases h
      | some s2 =>
        rw [hc] at h
        simp only [Option.some_bind] at h
        exact ColsExt_trans (mergeColLoop_ColsExt _ _ _ _ _ _ _ hc) (ih _ _ _ h)
    · simp only [Option.some.injEq] at h
      rw [h]
      exact ColsExt_refl _

theorem mergeEntries_ColsExt (l : List (String × Cell)) :
    ∀ (s s1 : Sheet), mergeEntries l s = some s1 → ColsExt s.Cols s1.Cols := by
  induction l with
  | nil =>
    intro s s1 h
    rw [mergeEntries] at h
    simp only [Option.some.injEq] at h
    rw [h]
    exact ColsExt_refl _
  | cons entry rest ih =>
    intro s s1 h
    rw [mergeEntries] at h
    cases hc : mergeRowLoop (GetCoordsFromCellIDString entry.1).2.1
        (GetCoordsFromCellIDString entry.1).1 entry.2 (entry.2.VMerge + 1).toNat 0 s with
    | none =>
      rw [hc] at h
      cases h
    | some s2 =>
      rw [hc] at h
      simp only [Option.some_bind] at h
      exact ColsExt_trans (mergeRowLoop_ColsExt _ _ _ _ _ _ _ hc) (ih _ _ h)

/-- The columns after `handleMerged`: the columns of the sheet, in place,
followed by the unit columns that the materialized cells have added. -/
theorem handleMerged_ColsExt {env : Env} {s s1 : Sheet} (h : s.handleMerged env = some s1) :
    ColsExt s.Cols s1.Cols :=
  mergeEntries_ColsExt _ _ _ h

theorem colsRules_append (a b : List Col) :
    ∀ c : Int, colsRules c (a ++ b) = colsRules c a ++ colsRules (c + (a.length : Int)) b := by
  induction a with
  | nil =>
    intro c
    simp [colsRules]
  | cons col rest ih =>
    intro c
    have hc : c + 1 + (rest.length : Int) = c + ((rest.length + 1 : Nat) : Int) := by
      push_cast
      ring
    rw [List.cons_append, colsRules, colsRules, ih, List.append_assoc, List.length_cons, hc]

theorem colsRules_units (l : List Int) : ∀ c : Int, colsRules c (l.map unitCol) = [] := by
  induction l with
  | nil =>
    intro c
    rfl
  | cons i rest ih =>
    intro c
    simp only [List.map_cons, colsRules, ih, List.append_nil]
    rfl

theorem cellsRules_append (r : Int) (a b : List Cell) :
    ∀ c : Int, cellsRules r c (a ++ b) = cellsRules r c a ++ cellsRules r (c + (a.length : Int)) b := by
  induction a with
  | nil =>
    intro c
    simp [cellsRules]
  | cons cell rest ih =>
    intro c
    have hc : c + 1 + (rest.length : Int) = c + ((rest.length + 1 : Nat) : Int) := by
      push_cast
      ring
    rw [List.cons_append, cellsRules, cellsRules, ih, List.append_assoc, List.length_cons, hc]

theorem cellsRules_replicate (r : Int) (k : Nat) :
    ∀ c : Int, cellsRules r c (List.replicate k ({} : Cell)) = [] := by
  induction k with
  | zero =>
    intro c
    rfl
  | succ k ih =>
    intro c
    simp only [List.replicate_succ, cellsRules, ih, List.append_nil]
    rfl

/-- Lazy cell access adds no validation rule: the own rules of the cells of the
extended grid are those of the grid, with the same ranges. -/
theorem RowsExt_rowsRules {a b : List Xlsx.Row} (h : RowsExt a b) :
    ∀ r : Int, rowsRules r b = rowsRules r a := by
  induction h with
  | nil =>
    intro r
    rfl
  | cons r0 r1 t t1 k hr _ ih =>
    intro r
    subst hr
    simp only [rowsRules, ih, cellsRules_append, cellsRules_replicate, List.append_nil]
  | pad r1 t1 k hr _ ih =>
    intro r
    subst hr
    simp only [rowsRules, ih, cellsRules_replicate, List.nil_append]

theorem RowsExt_no_rules {a b : List Xlsx.Row} (h : RowsExt a b) :
    (∀ row ∈ b, ∀ cell ∈ row.Cells, cell.DataValidation = none) ↔
      ∀ row ∈ a, ∀ cell ∈ row.Cells, cell.DataValidation = none := by
  induction h with
  | nil => exact Iff.rfl
  | cons r0 r1 t t1 k hr _ ih =>
    subst hr
    simp only [List.mem_cons, forall_eq_or_imp, ih, List.mem_append, List.mem_replicate]
    constructor
    · rintro ⟨h1, h2⟩
      exact ⟨fun cell hc => h1 cell (Or.inl hc), h2⟩
    · rintro ⟨h1, h2⟩
      refine ⟨?_, h2⟩
      rintro cell (hc | ⟨_, hc⟩)
      · exact h1 cell hc
      · rw [hc]
  | pad r1 t1 k hr _ ih =>
    subst hr
    simp only [List.mem_cons, forall_eq_or_imp, ih, List.mem_replicate]
    constructor
    · intro _
      intro row hrow
      cases hrow
    · intro _
      refine ⟨?_, ?_⟩
      · rintro cell ⟨_, hc⟩
        rw [hc]
      · intro row hrow
        cases hrow

theorem ColsExt_colsRules {a b : List Col} (h : ColsExt a b) (c : Int) :
    colsRules c b = colsRules c a := by
  obtain ⟨l, rfl⟩ := h
  rw [colsRules_append, colsRules_units, List.append_nil]

theorem ColsExt_no_rules {a b : List Col} (h : ColsExt a b) :
    (∀ col ∈ b, col.DataValidation = none) ↔ ∀ col ∈ a, col.DataValidation = none := by
  obtain ⟨l, rfl⟩ := h
  constructor
  · intro hb col hc
    exact hb col (List.mem_append_left _ hc)
  · intro ha col hc
    rcases List.mem_append.mp hc with h1 | h1
    · exact ha col h1
    · obtain ⟨i, _, hi⟩ := List.mem_map.mp h1
      rw [← hi]
      rfl

/-! ## The validation list along the compile -/

theorem addRules_getD (o rules : Option (List xlsxCellDataValidation)) :
    (addRules o rules).getD [] = o.getD [] ++ rules.getD [] := by
  cases rules with
  | none => simp [addRules]
  | some l => simp [addRules]

theorem addRules_eq_none (o rules : Option (List xlsxCellDataValidation)) :
    addRules o rules = none ↔ o = none ∧ rules = none := by
  cases rules with
  | none => simp [addRules]
  | some l => simp [addRules]

theorem validationRecords_block (w : xlsxWorksheet) (o : Option (List xlsxCellDataValidation))
    (h : w.DataValidations = validationBlock o) : validationRecords w = o.getD [] := by
  unfold validationRecords
  rw [h]
  cases o <;> rfl

theorem writeSqref_length (a : Nat) (ref : String) (l : List xlsxCellDataValidation) :
    (writeSqref a ref l).length = l.length := by
  simp [writeSqref]

theorem aliasAppend_cons (acc : List xlsxCellDataValidation) (e : xlsxCellDataValidation)
    (l : List xlsxCellDataValidation) :
    aliasAppend acc (e :: l) = aliasAppend (writeSqref e.addr e.Sqref acc ++ [e]) l := rfl

theorem aliasAppend_append (acc l1 l2 : List xlsxCellDataValidation) :
    aliasAppend acc (l1 ++ l2) = aliasAppend (aliasAppend acc l1) l2 := by
  simp [aliasAppend, List.foldl_append]

theorem validationRecords_alias (w : xlsxWorksheet) (o : Option (List xlsxCellDataValidation))
    (h : w.DataValidations = aliasBlock o) : validationRecords w = aliasAppend [] (o.getD []) := by
  unfold validationRecords
  rw [h]
  cases o <;> rfl

theorem lastSqref_cons (a : Nat) (x : xlsxCellDataValidation) (l : List xlsxCellDataValidation)
    (ref : String) :
    lastSqref a (x :: l) ref = lastSqref a l (if x.addr = a then x.Sqref else ref) := rfl

/-- A rule that is not among the rules of `l` keeps its range. -/
theorem lastSqref_not_mem (a : Nat) (l : List xlsxCellDataValidation) :
    ∀ ref, a ∉ l.map (fun e => e.addr) → lastSqref a l ref = ref := by
  induction l with
  | nil =>
    intro ref _
    rfl
  | cons x rest ih =>
    intro ref hmem
    simp only [List.map_cons, List.mem_cons, not_or] at hmem
    rw [lastSqref_cons, if_neg (fun h => hmem.1 h.symm)]
    exact ih ref hmem.2

/-- The list built by the stores and appends of the walks, in closed form: the
entries that were there show the last range stored at their address, and the
new entries are the rules of `l` with the last range stored at theirs. -/
theorem aliasAppend_eq (l : List xlsxCellDataValidation) :
    ∀ acc, aliasAppend acc l =
      acc.map (fun e => { e with Sqref := lastSqref e.addr l e.Sqref }) ++ aliasList l := by
  induction l with
  | nil =>
    intro acc
    simp [aliasAppend, aliasList, lastSqref]
  | cons x rest ih =>
    intro acc
    rw [aliasAppend_cons, ih]
    simp only [List.map_append, List.map_cons, List.map_nil, aliasList, List.append_assoc,
      List.singleton_append, writeSqref, List.map_map]
    congr 1
    apply List.map_congr_left
    intro e _
    simp only [Function.comp, lastSqref_cons]
    by_cases hx : e.addr = x.addr
    · rw [if_pos hx, if_pos hx.symm]
    · rw [if_neg hx, if_neg (fun h => hx h.symm)]

theorem aliasAppend_nil_eq (l : List xlsxCellDataValidation) : aliasAppend [] l = aliasList l := by
  rw [aliasAppend_eq]
  rfl

theorem aliasList_length (l : List xlsxCellDataValidation) : (aliasList l).length = l.length := by
  induction l with
  | nil => rfl
  | cons x rest ih => simp [aliasList, ih]

/-- The entry at position `i` of the list is the rule at position `i` with the
range of the last later rule at its address, its own when there is none. -/
theorem aliasList_getElem? (l : List xlsxCellDataValidation) :
    ∀ i : Nat, (aliasList l)[i]? = (l[i]?).map fun e =>
      { e with Sqref := lastSqref e.addr (l.drop (i + 1)) e.Sqref } := by
  induction l with
  | nil =>
    intro i
    simp [aliasList]
  | cons x rest ih =>
    intro i
    cases i with
    | zero => simp [aliasList]
    | succ i =>
      simp only [aliasList, List.getElem?_cons_succ, List.drop_succ_cons]
      exact ih i

/-- When the rules of the list are pairwise different objects, each keeps the
range stored through its own pointer. -/
theorem aliasList_nodup (l : List xlsxCellDataValidation)
    (h : (l.map fun e => e.addr).Nodup) : aliasList l = l := by
  induction l with
  | nil => rfl
  | cons x rest ih =>
    simp only [List.map_cons, List.nodup_cons] at h
    rw [aliasList, ih h.2, lastSqref_not_mem _ _ _ h.1]

theorem colSqref_addr (colName : String) (dd : xlsxCellDataValidation) :
    (colSqref colName dd).addr = dd.addr := by
  unfold colSqref
  split <;> rfl

theorem colValidationsLoop_eq (colName : String) (dds : List xlsxCellDataValidation) :
    ∀ acc, colValidationsLoop colName dds acc =
      (dds.map (colSqref colName), aliasAppend acc (dds.map (colSqref colName))) := by
  induction dds with
  | nil =>
    intro acc
    simp [colValidationsLoop, aliasAppend]
  | cons dd rest ih =>
    intro acc
    rw [colValidationsLoop, ih]
    simp only [List.map_cons, aliasAppend_cons, colSqref_addr]

theorem colMinMax_DataValidation (col : Col) :
    (colMinMax col).DataValidation = col.DataValidation := by
  unfold colMinMax
  by_cases h1 : col.Min = 0 <;> by_cases h2 : col.Max = 0 <;> simp [h1, h2]

theorem colWidthFix_DataValidation (col : Col) :
    (colWidthFix col).DataValidation = col.DataValidation := by
  unfold colWidthFix
  split <;> rfl

/-- The validation block after the body of the column walk: the rules of the
column, with their ranges, are appended. -/
theorem colStep_validations {c : Int} {col : Col} {st : CompileState} {p : Col × CompileState}
    {o : Option (List xlsxCellDataValidation)}
    (h : colStep c col st = some p) (hb : st.worksheet.DataValidations = aliasBlock o) :
    p.2.worksheet.DataValidations = aliasBlock (addRules o (colRules c col)) := by
  unfold colStep at h
  cases hset : sliceSet st.colsXfIdList c (colResolve (colMinMax col) st.styles).1 with
  | none =>
    simp only [hset, Option.map_none'] at h
    cases h
  | some xfList =>
    simp only [hset, Option.map_some', Option.some.injEq] at h
    subst h
    simp only [colWidthFix_DataValidation, colMinMax_DataValidation, colValidationsLoop_eq,
      validationRecords_alias _ o hb]
    unfold colRules
    cases hdv : col.DataValidation with
    | none => exact hb
    | some dds =>
      simp only [Option.getD_some, Option.map_some', addRules, aliasBlock, validationBlock,
        aliasAppend_append]

theorem colsLoop_validations (cols : List Col) :
    ∀ (c : Int) (st : CompileState) (q : List Col × CompileState)
      (o : Option (List xlsxCellDataValidation)),
    colsLoop c cols st = some q → st.worksheet.DataValidations = aliasBlock o →
    ∃ o1, q.2.worksheet.DataValidations = aliasBlock o1 ∧
      o1.getD [] = o.getD [] ++ colsRules c cols ∧
      (o1 = none ↔ o = none ∧ ∀ col ∈ cols, col.DataValidation = none) := by
  induction cols with
  | nil =>
    intro c st q o h hb
    rw [colsLoop] at h
    simp only [Option.some.injEq] at h
    subst h
    exact ⟨o, hb, by simp [colsRules], by simp⟩
  | cons col rest ih =>
    intro c st q o h hb
    obtain ⟨p, q1, hp, hq1, hq⟩ := colsLoop_cons_ok h
    obtain ⟨o1, hb1, hl1, hn1⟩ := ih _ _ _ _ hq1 (colStep_validations hp hb)
    subst hq
    refine ⟨o1, hb1, ?_, ?_⟩
    · rw [hl1, addRules_getD, colsRules, List.append_assoc]
    · rw [hn1, addRules_eq_none]
      unfold colRules
      simp only [Option.map_eq_none', List.mem_cons, forall_eq_or_imp]
      tauto

/-- The validation block after the body of the cell walk: the own rule of the
cell, with the reference of the cell as its range, is appended. -/
theorem cellStep_validations {cols : List Col} {r c : Int} {cell : Cell} {xRow : xlsxRow}
    {st : CompileState} {p : Cell × xlsxRow × CompileState}
    {o : Option (List xlsxCellDataValidation)}
    (h : cellStep cols r c cell xRow st = Except.ok p)
    (hb : st.worksheet.DataValidations = aliasBlock o) :
    p.2.2.worksheet.DataValidations = aliasBlock (addRules o (cellRule r c cell)) := by
  unfold cellStep at h
  cases hx : cellXC cols r c cell st with
  | error e1 =>
    rw [hx] at h
    cases h
  | ok x =>
    rw [hx] at h
    simp only [Except.ok.injEq] at h
    subst h
    have hR : x.1.R = GetCellIDStringFromCoords c r := (cellXC_record hx).2.1
    unfold cellRule
    cases hdv : cell.DataValidation with
    | none => exact hb
    | some dv =>
      simp only [hb, hR]
      cases o with
      | none => rfl
      | some l =>
        simp only [Option.getD_some, Option.map_some', addRules, aliasBlock, validationBlock,
          aliasAppend_append]
        rfl

theorem cellsLoop_validations (cols : List Col) (r : Int) (cells : List Cell) :
    ∀ (c : Int) (xRow : xlsxRow) (st : CompileState) (q : List Cell × xlsxRow × CompileState)
      (o : Option (List xlsxCellDataValidation)),
    cellsLoop cols r c cells xRow st = Except.ok q →
    st.worksheet.DataValidations = aliasBlock o →
    ∃ o1, q.2.2.worksheet.DataValidations = aliasBlock o1 ∧
      o1.getD [] = o.getD [] ++ cellsRules r c cells ∧
      (o1 = none ↔ o = none ∧ ∀ cell ∈ cells, cell.DataValidation = none) := by
  induction cells with
  | nil =>
    intro c xRow st q o h hb
    simp only [cellsLoop, Except.ok.injEq] at h
    subst h
    exact ⟨o, hb, by simp [cellsRules], by simp⟩
  | cons cell rest ih =>
    intro c xRow st q o h hb
    obtain ⟨p, q1, hp, hq1, hq⟩ := cellsLoop_cons_ok h
    obtain ⟨o1, hb1, hl1, hn1⟩ := ih _ _ _ _ _ hq1 (cellStep_validations hp hb)
    subst hq
    refine ⟨o1, hb1, ?_, ?_⟩
    · rw [hl1, addRules_getD, cellsRules, List.append_assoc]
    · rw [hn1, addRules_eq_none]
      unfold cellRule
      simp only [Option.map_eq_none', List.mem_cons, forall_eq_or_imp]
      tauto

theorem rowStep_validations {env : Env} {cols : List Col} {r : Int} {row : Xlsx.Row}
    {st : CompileState} {p : Xlsx.Row × CompileState}
    {o : Option (List xlsxCellDataValidation)}
    (h : rowStep env cols r row st = Except.ok p)
    (hb : st.worksheet.DataValidations = aliasBlock o) :
    ∃ o1, p.2.worksheet.DataValidations = aliasBlock o1 ∧
      o1.getD [] = o.getD [] ++ cellsRules r 0 row.Cells ∧
      (o1 = none ↔ o = none ∧ ∀ cell ∈ row.Cells, cell.DataValidation = none) := by
  obtain ⟨q, hq, hp⟩ := rowStep_ok h
  subst hp
  have hrec := cellsLoop_validations cols r row.Cells _ _ _ _ o hq hb
  exact hrec

theorem rowsLoop_validations (env : Env) (cols : List Col) (rows : List Xlsx.Row) :
    ∀ (r : Int) (st : CompileState) (q : List Xlsx.Row × CompileState)
      (o : Option (List xlsxCellDataValidation)),
    rowsLoop env cols r rows st = Except.ok q →
    st.worksheet.DataValidations = aliasBlock o →
    ∃ o1, q.2.worksheet.DataValidations = aliasBlock o1 ∧
      o1.getD [] = o.getD [] ++ rowsRules r rows ∧
      (o1 = none ↔ o = none ∧ ∀ row ∈ rows, ∀ cell ∈ row.Cells, cell.DataValidation = none) := by
  induction rows with
  | nil =>
    intro r st q o h hb
    simp only [rowsLoop, Except.ok.injEq] at h
    subst h
    exact ⟨o, hb, by simp [rowsRules], by simp⟩
  | cons row rest ih =>
    intro r st q o h hb
    obtain ⟨p, q1, hp, hq1, hq⟩ := rowsLoop_cons_ok h
    obtain ⟨o0, hb0, hl0, hn0⟩ := rowStep_validations hp hb
    obtain ⟨o1, hb1, hl1, hn1⟩ := ih _ _ _ _ hq1 hb0
    subst hq
    refine ⟨o1, hb1, ?_, ?_⟩
    · rw [hl1, hl0, rowsRules, List.append_assoc]
    · rw [hn1, hn0]
      simp only [List.mem_cons, forall_eq_or_imp]
      tauto

/-- The validation block a compile returns: the list of the rules of the
columns of the densified sheet followed by the own rules of its cells, after
the stores of their ranges, with its count; no block when no column has a list
of rules and no cell has a rule. -/
theorem compile_validations {env : Env} {s : Sheet} {refTable : RefTable}
    {styles : xlsxStyleSheet} {res : xlsxWorksheet × Sheet × RefTable × xlsxStyleSheet}
    (h : s.makeXLSXSheet env refTable styles = Except.ok res) :
    ∃ s1 o, s.handleMerged env = some s1 ∧ res.1.DataValidations = aliasBlock o ∧
      o.getD [] = colsRules 0 s1.Cols ++ rowsRules 0 s1.Rows ∧
      (o = none ↔ (∀ col ∈ s1.Cols, col.DataValidation = none) ∧
        ∀ row ∈ s1.Rows, ∀ cell ∈ row.Cells, cell.DataValidation = none) := by
  obtain ⟨s1, ws0, colsDone, rowsDone, h1, h2, h3, h4, hres⟩ := makeXLSXSheet_ok h
  obtain ⟨_, _, f3⟩ := startSheet_frame h2
  have hb0 : ws0.DataValidations = aliasBlock none := f3
  obtain ⟨oc, hbc, hlc, hnc⟩ := colsLoop_validations s1.Cols 0 _ colsDone none h3 hb0
  obtain ⟨or, hbr, hlr, hnr⟩ := rowsLoop_validations env colsDone.1 s1.Rows 0 _ rowsDone oc h4 hbc
  obtain ⟨_, _, _, _, g5⟩ := finishSheet_fields s1 colsDone.1 rowsDone.1 rowsDone.2
  refine ⟨s1, or, h1, ?_, ?_, ?_⟩
  · rw [hres, g5]
    exact hbr
  · rw [hlr, hlc]
    simp
  · rw [hnr, hnc]
    simp

/-- C22, as stated, fails when a rule is shared: in the sheet whose cells `A1`
and `B1` hold one and the same rule object, the own rule of the cell `A1` does
not get the reference `A1` as its range.  The compile stores `A1` and then `B1`
through the one pointer and appends the pointer twice, so both entries of the
list carry `B1`; the sheet is returned with that range in the rule of both
cells. -/
theorem shared_rule_counterexample :
    sharedRuleSheet.Rows.map (fun row => row.Cells.map fun cell =>
        cell.DataValidation.map fun dd => dd.addr) = [[some 1, some 1]] ∧
    GetCellIDStringFromCoords 0 0 = "A1" ∧ GetCellIDStringFromCoords 1 0 = "B1" ∧
    ∃ res : xlsxWorksheet × Sheet × RefTable × xlsxStyleSheet,
      sharedRuleSheet.makeXLSXSheet exampleEnv { indexedStrings := [] } {} = Except.ok res ∧
      (validationRecords res.1).map (fun dd => (dd.addr, dd.Sqref)) = [(1, "B1"), (1, "B1")] ∧
      res.2.1.Rows.map (fun row => row.Cells.map fun cell =>
        cell.DataValidation.map fun dd => dd.Sqref) = [[some "B1", some "B1"]] := by
  refine ⟨rfl, by decide, by decide, ?_⟩
  have hval : (sharedRuleSheet.makeXLSXSheet exampleEnv { indexedStrings := [] } {}).toOption.map
      (fun res => ((validationRecords res.1).map (fun dd => (dd.addr, dd.Sqref)),
        res.2.1.Rows.map (fun row => row.Cells.map fun cell =>
          cell.DataValidation.map fun dd => dd.Sqref)))
      = some ([(1, "B1"), (1, "B1")], [[some "B1", some "B1"]]) := by rfl
  cases hres : sharedRuleSheet.makeXLSXSheet exampleEnv { indexedStrings := [] } {} with
  | error e =>
    rw [hres] at hval
    cases hval
  | ok res =>
    rw [hres] at hval
    simp only [Except.toOption, Option.map_some', Option.some.injEq, Prod.mk.injEq] at hval
    exact ⟨res, rfl, hval.1, hval.2⟩

/-- C22, amended: when the compile of a sheet returns, the validation list of
the worksheet has one entry for every validation rule of every column of the
sheet, in column order, followed by one entry for the own validation rule of
every cell, in row-major order (the cells and columns that `handleMerged` adds
have no rule).  Through the pointer of a rule of the column at index `c` with
the row bounds `minRow`, `maxRow` the compile stores the range
`colLetters(c) + rowString(minRow)` when `minRow = maxRow` and
`colLetters(c) + rowString(minRow) + ":" + colLetters(c) + rowString(maxRow)`
otherwise, and through the pointer of the own rule of a cell the reference of
the cell; the other fields of a rule are kept.  An entry of the list carries
the range stored last in its rule object: when no rule object is held by more
than one column entry or cell, every entry carries the range of its own column
or cell; an object that is held at several places carries, in each of its
entries, the range of the last of these places.  Whenever the block is present
its `Count` is the length of the list, and the block is absent exactly when no
column has a list of rules and no cell has a rule. -/
theorem makeXLSXSheet_validations (env : Env) (hperm : ∀ l, (env.mapOrder l).Perm l)
    (s : Sheet) (refTable : RefTable)
    (styles : xlsxStyleSheet) (res : xlsxWorksheet × Sheet × RefTable × xlsxStyleSheet)
    (h : s.makeXLSXSheet env refTable styles = Except.ok res) :
    validationRecords res.1 = aliasList (colsRules 0 s.Cols ++ rowsRules 0 s.Rows) ∧
    (validationRecords res.1).length = (colsRules 0 s.Cols ++ rowsRules 0 s.Rows).length ∧
    (∀ i : Nat, (validationRecords res.1)[i]? =
      ((colsRules 0 s.Cols ++ rowsRules 0 s.Rows)[i]?).map fun e =>
        { e with Sqref := (lastSqref e.addr
            ((colsRules 0 s.Cols ++ rowsRules 0 s.Rows).drop (i + 1)) e.Sqref) }) ∧
    (((colsRules 0 s.Cols ++ rowsRules 0 s.Rows).map fun e => e.addr).Nodup →
      validationRecords res.1 = colsRules 0 s.Cols ++ rowsRules 0 s.Rows) ∧
    (∀ d, res.1.DataValidations = some d →
      d.DataValidattion = validationRecords res.1 ∧
      d.Count = (d.DataValidattion.length : Int)) ∧
    (res.1.DataValidations = none ↔
      (∀ col ∈ s.Cols, col.DataValidation = none) ∧
      ∀ row ∈ s.Rows, ∀ cell ∈ row.Cells, cell.DataValidation = none) ∧
    (∀ (c : Int) (col : Col) (dds : List xlsxCellDataValidation),
      col.DataValidation = some dds →
      colRules c col = some (dds.map fun dd =>
        { dd with Sqref :=
            if dd.minRow = dd.maxRow then ColIndexToLetters c ++ RowIndexToString dd.minRow
            else ColIndexToLetters c ++ RowIndexToString dd.minRow ++ ":" ++
              ColIndexToLetters c ++ RowIndexToString dd.maxRow })) ∧
    (∀ (r c : Int) (cell : Cell) (dv : xlsxCellDataValidation),
      cell.DataValidation = some dv →
      cellRule r c cell = some [{ dv with Sqref := GetCellIDStringFromCoords c r }]) := by
  obtain ⟨s1, o, hrun, hb, hl, hn⟩ := compile_validations h
  obtain ⟨s2, hrun2, hext, _⟩ := handleMerged_core env hperm s
  rw [hrun] at hrun2
  obtain rfl := Option.some.inj hrun2
  have hcext := handleMerged_ColsExt hrun
  rw [ColsExt_colsRules hcext, RowsExt_rowsRules hext] at hl
  rw [ColsExt_no_rules hcext, RowsExt_no_rules hext] at hn
  have hrec : validationRecords res.1 =
      aliasList (colsRules 0 s.Cols ++ rowsRules 0 s.Rows) := by
    rw [validationRecords_alias _ o hb, hl, aliasAppend_nil_eq]
  refine ⟨hrec, ?_, ?_, ?_, ?_, ?_, ?_, ?_⟩
  · rw [hrec, aliasList_length]
  · intro i
    rw [hrec]
    exact aliasList_getElem? _ i
  · intro hnd
    rw [hrec]
    exact aliasList_nodup _ hnd
  · intro d hd
    have hv : validationRecords res.1 = d.DataValidattion := by
      unfold validationRecords
      rw [hd]
    rw [hb] at hd
    cases o with
    | none => cases hd
    | some l =>
      simp only [aliasBlock, validationBlock, Option.map_some', Option.some.injEq] at hd
      subst hd
      exact ⟨hv.symm, rfl⟩
  · rw [hb, ← hn]
    cases o <;> simp [aliasBlock, validationBlock]
  · intro c col dds hdv
    unfold colRules
    rw [hdv]
    simp only [Option.map_some', Option.some.injEq]
    apply List.map_congr_left
    intro dd _
    unfold colSqref
    split <;> rfl
  · intro r c cell dv hdv
    unfold cellRule
    rw [hdv]
    rfl

/-- C22 (amended) at a concrete input: the sheet with two rules on its first
column and a rule on the cell at column 1, three rule objects, compiles to the
ranges `A1`, `A2:A6`, `B1`, in this order, with `Count = 3`. -/
theorem makeXLSXSheet_validations_witness :
    ∃ (res : xlsxWorksheet × Sheet × RefTable × xlsxStyleSheet) (d : xlsxCellDataValidations),
      validationSheet.makeXLSXSheet exampleEnv { indexedStrings := [] } {} = Except.ok res ∧
      res.1.DataValidations = some d ∧
      d.DataValidattion.map (fun dd => (dd.Typ, dd.Sqref))
        = [("list", "A1"), ("list", "A2:A6"), ("whole", "B1")] ∧
      d.Count = 3 := by
  have hval : (validationSheet.makeXLSXSheet exampleEnv { indexedStrings := [] } {}).toOption.map
      (fun res => res.1.DataValidations.map
        (fun d => d.DataValidattion.map (fun dd => (dd.Typ, dd.Sqref))))
      = some (some [("list", "A1"), ("list", "A2:A6"), ("whole", "B1")]) := by rfl
  cases hres : validationSheet.makeXLSXSheet exampleEnv { indexedStrings := [] } {} with
  | error e =>
    rw [hres] at hval
    cases hval
  | ok res =>
    rw [hres] at hval
    simp only [Except.toOption, Option.map_some', Option.some.injEq] at hval
    obtain ⟨_, _, _, _, hcount, _⟩ :=
      makeXLSXSheet_validations exampleEnv (fun l => List.Perm.refl l) validationSheet
        { indexedStrings := [] } {} res hres
    cases hd : res.1.DataValidations with
    | none =>
      rw [hd] at hval
      cases hval
    | some d =>
      rw [hd] at hval
      simp only [Option.map_some', Option.some.injEq] at hval
      obtain ⟨_, hc⟩ := hcount d hd
      refine ⟨res, d, rfl, hd, hval, ?_⟩
      have hlen := congrArg List.length hval
      simp only [List.length_map, List.length_cons, List.length_nil] at hlen
      rw [hc, hlen]
      rfl

/-! ## The column records -/

theorem colStep_Cols {c : Int} {col : Col} {st : CompileState} {p : Col × CompileState}
    (h : colStep c col st = some p) :
    p.2.worksheet.Cols = some { Col := colRecords st.worksheet ++
      [colRecord (colMinMax col) (colResolve (colMinMax col) st.styles).1] } ∧
    p.1.Min = (colMinMax col).Min ∧ p.1.Max = (colMinMax col).Max ∧
    p.1.Width = (colWidthFix (colMinMax col)).Width ∧ p.1.Hidden = col.Hidden ∧
    p.1.Collapsed = col.Collapsed ∧ p.1.OutlineLevel = col.OutlineLevel ∧
    p.1.style = col.style ∧ p.1.numFmt = col.numFmt := by
  unfold colStep at h
  cases hset : sliceSet st.colsXfIdList c (colResolve (colMinMax col) st.styles).1 with
  | none =>
    simp only [hset, Option.map_none'] at h
    cases h
  | some xfList =>
    simp only [hset, Option.map_some', Option.some.injEq] at h
    subst h
    refine ⟨rfl, ?_, ?_, rfl, ?_, ?_, ?_, ?_, ?_⟩ <;>
      unfold colWidthFix colMinMax <;>
      by_cases h0 : col.Width = 0 <;> by_cases h1 : col.Min = 0 <;>
      by_cases h2 : col.Max = 0 <;> simp [h0, h1, h2]

/-- The fields of the column record of a column. -/
theorem colRecord_fields (col : Col) (XfId : Int) :
    (colRecord (colMinMax col) XfId).Hidden = col.Hidden ∧
    (colRecord (colMinMax col) XfId).Collapsed = col.Collapsed ∧
    (colRecord (colMinMax col) XfId).OutlineLevel = col.OutlineLevel ∧
    (colRecord (colMinMax col) XfId).Style = XfId ∧
    (colRecord (colMinMax col) XfId).Min = (if col.Min = 0 then 1 else col.Min) ∧
    (colRecord (colMinMax col) XfId).Max = (if col.Max = 0 then 1 else col.Max) ∧
    (col.Width = 0 → (colRecord (colMinMax col) XfId).Width = ColWidth ∧
      (colRecord (colMinMax col) XfId).CustomWidth = false) ∧
    (col.Width ≠ 0 → (colRecord (colMinMax col) XfId).Width = col.Width ∧
      (colRecord (colMinMax col) XfId).CustomWidth = true) := by
  unfold colRecord colWidthFix colMinMax
  by_cases h0 : col.Width = 0 <;> by_cases h1 : col.Min = 0 <;>
    by_cases h2 : col.Max = 0 <;> simp [h0, h1, h2]

/-- The column walk, record by record. -/
theorem colsLoop_records (cols : List Col) :
    ∀ (c : Int) (st : CompileState) (q : List Col × CompileState),
    colsLoop c cols st = some q →
    (∃ xcols, colRecords q.2.worksheet = colRecords st.worksheet ++ xcols ∧
      xcols.length = cols.length ∧
      ∀ (j : Nat) (col : Col), cols[j]? = some col →
        ∃ XfId, xcols[j]? = some (colRecord (colMinMax col) XfId)) ∧
    (q.2.worksheet.Cols = none ↔ st.worksheet.Cols = none ∧ cols = []) := by
  induction cols with
  | nil =>
    intro c st q h
    rw [colsLoop] at h
    simp only [Option.some.injEq] at h
    subst h
    refine ⟨⟨[], by simp, rfl, ?_⟩, by simp⟩
    intro j col hj
    simp at hj
  | cons col rest ih =>
    intro c st q h
    obtain ⟨p, q1, hp, hq1, hq⟩ := colsLoop_cons_ok h
    obtain ⟨⟨xcols1, hrec1, hlen1, hall1⟩, hnone1⟩ := ih _ _ _ hq1
    obtain ⟨hcols, _⟩ := colStep_Cols hp
    have hrec : colRecords p.2.worksheet = colRecords st.worksheet ++
        [colRecord (colMinMax col) (colResolve (colMinMax col) st.styles).1] := by
      unfold colRecords
      rw [hcols]
      rfl
    subst hq
    refine ⟨⟨colRecord (colMinMax col) (colResolve (colMinMax col) st.styles).1 :: xcols1,
      ?_, by simp [hlen1], ?_⟩, ?_⟩
    · show colRecords q1.2.worksheet = _
      rw [hrec1, hrec]
      simp only [List.append_assoc, List.singleton_append]
    · intro j colj hj
      cases j with
      | zero =>
        simp only [List.getElem?_cons_zero, Option.some.injEq] at hj
        subst hj
        exact ⟨_, List.getElem?_cons_zero⟩
      | succ j =>
        simp only [List.getElem?_cons_succ] at hj
        obtain ⟨XfId, hx⟩ := hall1 j colj hj
        exact ⟨XfId, by rw [List.getElem?_cons_succ]; exact hx⟩
    · show q1.2.worksheet.Cols = none ↔ _
      rw [hnone1, hcols]
      simp

/-- A sheet without merge origins is left as it is by `handleMerged`. -/
theorem handleMerged_no_origins (env : Env) (hperm : ∀ l, (env.mapOrder l).Perm l) (s : Sheet)
    (hno : ∀ (r c : Nat) (cell : Cell), cellAt s.Rows r c = some cell →
      ¬ (cell.HMerge > 0 ∨ cell.VMerge > 0)) :
    s.handleMerged env = some s :=
  handleMerged_noop env hperm s s (RowsExt_refl s.Rows)
    (fun r c cell hcell hm => absurd hm (hno r c cell hcell))

/-- The column block a compile returns: one record per column of the densified
sheet, in order, each the record `colRecord` of its column; no block exactly
when there is no column. -/
theorem compile_columns {env : Env} {s : Sheet} {refTable : RefTable}
    {styles : xlsxStyleSheet} {res : xlsxWorksheet × Sheet × RefTable × xlsxStyleSheet}
    (h : s.makeXLSXSheet env refTable styles = Except.ok res) :
    ∃ s1, s.handleMerged env = some s1 ∧
      (colRecords res.1).length = s1.Cols.length ∧
      (∀ (j : Nat) (col : Col), s1.Cols[j]? = some col →
        ∃ XfId, (colRecords res.1)[j]? = some (colRecord (colMinMax col) XfId)) ∧
      (res.1.Cols = none ↔ s1.Cols = []) := by
  obtain ⟨s1, ws0, colsDone, rowsDone, h1, h2, h3, h4, hres⟩ := makeXLSXSheet_ok h
  obtain ⟨_, f2, _⟩ := startSheet_frame h2
  obtain ⟨⟨xcols, hrec, hlen, hall⟩, hnone⟩ := colsLoop_records s1.Cols _ _ _ h3
  have h3' : colsLoop ((0 : Nat) : Int) s1.Cols
      { worksheet := ws0, styles := styles, refTable := refTable,
        colsXfIdList := List.replicate s1.Cols.length 0 } = some colsDone := h3
  obtain ⟨_, _, _, _, _, _, _, hcmaxc, _⟩ := colsLoop_spec s1.Cols 0 _ colsDone h3'
  have hmc0 : 0 ≤ colsDone.2.maxCell := le_of_eq hcmaxc.symm
  have h4' : rowsLoop env colsDone.1 ((0 : Nat) : Int) s1.Rows colsDone.2
      = Except.ok rowsDone := h4
  obtain ⟨_, _, _, _, _, _, hfr, _⟩ :=
    rowsLoop_spec env colsDone.1 s1.Rows 0 colsDone.2 rowsDone hmc0 h4'
  obtain ⟨_, _, _, g4, _⟩ := finishSheet_fields s1 colsDone.1 rowsDone.1 rowsDone.2
  have hcols : res.1.Cols = colsDone.2.worksheet.Cols := by
    rw [hres, g4, wsFrame_Cols hfr]
  have hrecs : colRecords res.1 = xcols := by
    unfold colRecords
    rw [hcols]
    have hr := hrec
    unfold colRecords at hr
    simp only [f2, List.nil_append] at hr
    exact hr
  refine ⟨s1, h1, ?_, ?_, ?_⟩
  · rw [hrecs, hlen]
  · intro j col hj
    rw [hrecs]
    exact hall j col hj
  · rw [hcols, hnone]
    simp [f2]

/-- C23, as stated, fails on a sheet with a merge origin: `handleMerged` runs
first and the cells it materializes add columns.  The sheet with one column
whose only cell has `HMerge = VMerge = 1` compiles to two column records, and
the sheet with no column whose only cell has `HMerge = 1` compiles to a column
block (with two records) although it has zero columns. -/
theorem columns_densified_counterexample :
    mergeOriginSheet.Cols.length = 1 ∧ mergeNoColsSheet.Cols = [] ∧
    (∃ res : xlsxWorksheet × Sheet × RefTable × xlsxStyleSheet,
      mergeOriginSheet.makeXLSXSheet exampleEnv { indexedStrings := [] } {} = Except.ok res ∧
      (colRecords res.1).length = 2) ∧
    (∃ res : xlsxWorksheet × Sheet × RefTable × xlsxStyleSheet,
      mergeNoColsSheet.makeXLSXSheet exampleEnv { indexedStrings := [] } {} = Except.ok res ∧
      res.1.Cols ≠ none ∧ (colRecords res.1).length = 2) := by
  refine ⟨rfl, rfl, ?_, ?_⟩
  · have hval : (mergeOriginSheet.makeXLSXSheet exampleEnv { indexedStrings := [] } {}).toOption.map
        (fun res => (colRecords res.1).length) = some 2 := by rfl
    cases hres : mergeOriginSheet.makeXLSXSheet exampleEnv { indexedStrings := [] } {} with
    | error e =>
      rw [hres] at hval
      cases hval
    | ok res =>
      rw [hres] at hval
      simp only [Except.toOption, Option.map_some', Option.some.injEq] at hval
      exact ⟨res, rfl, hval⟩
  · have hval : (mergeNoColsSheet.makeXLSXSheet exampleEnv { indexedStrings := [] } {}).toOption.map
        (fun res => (res.1.Cols.isSome, (colRecords res.1).length)) = some (true, 2) := by rfl
    cases hres : mergeNoColsSheet.makeXLSXSheet exampleEnv { indexedStrings := [] } {} with
    | error e =>
      rw [hres] at hval
      cases hval
    | ok res =>
      rw [hres] at hval
      simp only [Except.toOption, Option.map_some', Option.some.injEq, Prod.mk.injEq] at hval
      refine ⟨res, rfl, ?_, hval.2⟩
      intro hnone
      rw [hnone] at hval
      cases hval.1

/-- C23, amended: when the compile of a sheet returns, the worksheet has
exactly one column record per column of the sheet as `handleMerged` leaves it,
in order: the entries of `Cols`, followed by the unit columns that the
materialized merge rectangles have appended (none when the sheet has no merge
origin).  A record copies `Hidden`, `Collapsed` and `OutlineLevel`; a column
whose `Width` is 0 is emitted with the width `ColWidth` and
`CustomWidth = false`, any other column with its own `Width` and
`CustomWidth = true`; a `Min` or a `Max` of 0 is emitted as 1; and the column
block is absent exactly when that list of columns is empty. -/
theorem makeXLSXSheet_columns (env : Env) (hperm : ∀ l, (env.mapOrder l).Perm l)
    (s : Sheet) (refTable : RefTable) (styles : xlsxStyleSheet)
    (res : xlsxWorksheet × Sheet × RefTable × xlsxStyleSheet)
    (h : s.makeXLSXSheet env refTable styles = Except.ok res) :
    ∃ s1, s.handleMerged env = some s1 ∧
      (∃ added : List Int, s1.Cols = s.Cols ++ added.map unitCol) ∧
      ((∀ (r c : Nat) (cell : Cell), cellAt s.Rows r c = some cell →
        ¬ (cell.HMerge > 0 ∨ cell.VMerge > 0)) → s1 = s) ∧
      (colRecords res.1).length = s1.Cols.length ∧
      (∀ (j : Nat) (col : Col), s1.Cols[j]? = some col →
        ∃ xc, (colRecords res.1)[j]? = some xc ∧
          xc.Hidden = col.Hidden ∧ xc.Collapsed = col.Collapsed ∧
          xc.OutlineLevel = col.OutlineLevel ∧
          (col.Width = 0 → xc.Width = ColWidth ∧ xc.CustomWidth = false) ∧
          (col.Width ≠ 0 → xc.Width = col.Width ∧ xc.CustomWidth = true) ∧
          xc.Min = (if col.Min = 0 then 1 else col.Min) ∧
          xc.Max = (if col.Max = 0 then 1 else col.Max)) ∧
      (res.1.Cols = none ↔ s1.Cols = []) := by
  obtain ⟨s1, hrun, hlen, hall, hnone⟩ := compile_columns h
  refine ⟨s1, hrun, handleMerged_ColsExt hrun, ?_, hlen, ?_, hnone⟩
  · intro hno
    have hs := handleMerged_no_origins env hperm s hno
    rw [hrun] at hs
    exact Option.some.inj hs
  · intro j col hj
    obtain ⟨XfId, hx⟩ := hall j col hj
    obtain ⟨k1, k2, k3, _, k5, k6, k7, k8⟩ := colRecord_fields col XfId
    exact ⟨_, hx, k1, k2, k3, k7, k8, k5, k6⟩

/-- C23 (amended) at a concrete input: the sheet with two columns compiles to two column
records, the first with `Min = Max = 1`, the width `ColWidth` and no custom
width, the second with its range 2 to 3, its width 15 and the custom-width
flag. -/
theorem makeXLSXSheet_columns_witness :
    (columnsSheet.makeXLSXSheet exampleEnv { indexedStrings := [] } {}).toOption.map
        (fun res => (colRecords res.1).map (fun xc =>
          (xc.Min, xc.Max, xc.Hidden, xc.Collapsed, xc.OutlineLevel, xc.CustomWidth,
            decide (xc.Width = ColWidth), decide (xc.Width = 15))))
      = some [(1, 1, true, false, 0, false, true, false),
              (2, 3, false, true, 2, true, false, true)] ∧
    ∃ (res : xlsxWorksheet × Sheet × RefTable × xlsxStyleSheet) (xc : xlsxCol),
      columnsSheet.makeXLSXSheet exampleEnv { indexedStrings := [] } {} = Except.ok res ∧
      (colRecords res.1).length = 2 ∧ (colRecords res.1)[0]? = some xc ∧
      xc.Width = ColWidth ∧ xc.CustomWidth = false ∧ xc.Min = 1 ∧ xc.Max = 1 ∧
      xc.Hidden = true := by
  refine ⟨by rfl, ?_⟩
  have hval : (columnsSheet.makeXLSXSheet exampleEnv { indexedStrings := [] } {}).toOption.isSome
      = true := by rfl
  cases hres : columnsSheet.makeXLSXSheet exampleEnv { indexedStrings := [] } {} with
  | error e =>
    rw [hres] at hval
    cases hval
  | ok res =>
    obtain ⟨s1, _, _, hsame, hlen, hall, _⟩ :=
      makeXLSXSheet_columns exampleEnv (fun l => List.Perm.refl l) columnsSheet
        { indexedStrings := [] } {} res hres
    have hs1 : s1 = columnsSheet := by
      apply hsame
      intro r c cell hcell
      simp [cellAt, columnsSheet] at hcell
    subst hs1
    obtain ⟨xc, hxc, k1, _, _, k4, _, k6, k7⟩ :=
      hall 0 { Hidden := true, style := some NewStyle } rfl
    obtain ⟨w1, w2⟩ := k4 rfl
    exact ⟨res, xc, rfl, hlen, hxc, w1, w2, k6, k7, k1⟩

/-! ## Merge extents -/

theorem colon_not_ref_char (ch : Char) (h : isUpperAZ ch = true ∨ isDigit09 ch = true) :
    ch ≠ ':' := by
  intro he
  subst he
  rcases h with h | h
  · revert h
    decide
  · revert h
    decide

/-- The reference of a cell holds no range separator. -/
theorem cellRef_no_colon (c r : Nat) :
    ':' ∉ (GetCellIDStringFromCoords (c : Int) (r : Int)).data := by
  obtain ⟨_, hlall, _⟩ := colLettersAux_spec (c + 1) c (by omega)
  obtain ⟨_, hdall, _⟩ := decDigitsAux_spec (r + 1 + 1) (r + 1) (by omega)
  have hdata : (GetCellIDStringFromCoords (c : Int) (r : Int)).data
      = colLettersAux (c + 1) c ++ decDigitsAux (r + 1 + 1) (r + 1) := by
    have hneg : ¬ ((r : Int) + 1 < 0) := by omega
    simp only [GetCellIDStringFromCoords, ColIndexToLetters, RowIndexToString, Itoa, hneg,
      if_false, String.data_append, Int.toNat_ofNat]
    have : ((r : Int) + 1).toNat = r + 1 := by omega
    rw [this]
  rw [hdata]
  intro hmem
  rcases List.mem_append.mp hmem with h | h
  · exact colon_not_ref_char ':' (Or.inl (List.all_eq_true.mp hlall _ h)) rfl
  · exact colon_not_ref_char ':' (Or.inr (List.all_eq_true.mp hdall _ h)) rfl

/-- Two runs without separator that are followed by the separator at the same
place are equal. -/
theorem prefix_colon_eq (a : List Char) :
    ∀ (b rb : List Char), ':' ∉ a → ':' ∉ b → (a ++ [':']) <+: (b ++ ':' :: rb) → a = b := by
  induction a with
  | nil =>
    intro b rb _ hb h
    cases b with
    | nil => rfl
    | cons y b1 =>
      exfalso
      simp only [List.nil_append, List.cons_append, List.cons_prefix_cons] at h
      exact hb (by rw [← h.1]; exact List.mem_cons_self _ _)
  | cons x a1 ih =>
    intro b rb ha hb h
    cases b with
    | nil =>
      exfalso
      simp only [List.cons_append, List.nil_append, List.cons_prefix_cons] at h
      exact ha (by rw [h.1]; exact List.mem_cons_self _ _)
    | cons y b1 =>
      simp only [List.cons_append, List.cons_prefix_cons] at h
      have ha1 : ':' ∉ a1 := fun hm => ha (List.mem_cons_of_mem _ hm)
      have hb1 : ':' ∉ b1 := fun hm => hb (List.mem_cons_of_mem _ hm)
      rw [h.1, ih b1 rb ha1 hb1 h.2]

theorem splitAux_no_colon (b : List Char) :
    ∀ (fuel : Nat) (acc : List Char), ':' ∉ b → b.length < fuel →
    splitAux [':'] fuel acc b = [String.mk (acc.reverse ++ b)] := by
  induction b with
  | nil =>
    intro fuel acc _ hf
    cases fuel with
    | zero => omega
    | succ fuel => simp [splitAux]
  | cons x b1 ih =>
    intro fuel acc hb hf
    cases fuel with
    | zero => omega
    | succ fuel =>
      have hx : x ≠ ':' := fun he => hb (by rw [he]; exact List.mem_cons_self _ _)
      have hb1 : ':' ∉ b1 := fun hm => hb (List.mem_cons_of_mem _ hm)
      simp only [List.length_cons] at hf
      have hpre : List.isPrefixOf [':'] (x :: b1) = false := by
        simp [List.isPrefixOf, Ne.symm hx]
      rw [splitAux, hpre]
      simp only [Bool.false_eq_true, if_false]
      rw [ih fuel (x :: acc) hb1 (by omega)]
      simp

theorem splitAux_colon (a : List Char) :
    ∀ (fuel : Nat) (acc b : List Char), ':' ∉ a → ':' ∉ b → a.length + b.length + 1 < fuel →
    splitAux [':'] fuel acc (a ++ ':' :: b) = [String.mk (acc.reverse ++ a), String.mk b] := by
  induction a with
  | nil =>
    intro fuel acc b _ hb hf
    cases fuel with
    | zero => omega
    | succ fuel =>
      simp only [List.length_nil, Nat.zero_add] at hf
      have hpre : List.isPrefixOf [':'] (':' :: b) = true := by
        simp [List.isPrefixOf]
      rw [List.nil_append, splitAux, hpre]
      simp only [if_true, List.length_singleton, List.drop_succ_cons, List.drop_zero,
        List.append_nil]
      rw [splitAux_no_colon b fuel [] hb (by omega)]
      simp
  | cons x a1 ih =>
    intro fuel acc b ha hb hf
    cases fuel with
    | zero => omega
    | succ fuel =>
      have hx : x ≠ ':' := fun he => ha (by rw [he]; exact List.mem_cons_self _ _)
      have ha1 : ':' ∉ a1 := fun hm => ha (List.mem_cons_of_mem _ hm)
      simp only [List.length_cons] at hf
      have hpre : List.isPrefixOf [':'] (x :: (a1 ++ ':' :: b)) = false := by
        simp [List.isPrefixOf, Ne.symm hx]
      rw [List.cons_append, splitAux, hpre]
      simp only [Bool.false_eq_true, if_false]
      rw [ih fuel (x :: acc) b ha1 hb (by omega)]
      simp

/-- `strings.Split` of `start:end` at the range separator, when neither part
holds a separator. -/
theorem stringsSplit_range (a b : String) (ha : ':' ∉ a.data) (hb : ':' ∉ b.data) :
    stringsSplit (a ++ cellRangeChar ++ b) cellRangeChar = [a, b] := by
  unfold stringsSplit
  have hsep : cellRangeChar.data = [':'] := rfl
  rw [if_neg (by rw [hsep]; exact List.cons_ne_nil _ _), hsep]
  have hdata : (a ++ cellRangeChar ++ b).data = a.data ++ ':' :: b.data := by
    simp only [String.data_append, hsep, List.append_assoc, List.singleton_append]
  rw [hdata, splitAux_colon a.data _ [] b.data ha hb (by simp)]
  simp

theorem mergeRef_data (r c : Int) (cell : Cell) :
    (mergeRef r c cell).Ref.data = (GetCellIDStringFromCoords c r).data ++
      ':' :: (GetCellIDStringFromCoords (c + cell.HMerge) (r + cell.VMerge)).data := by
  unfold mergeRef
  have hsep : cellRangeChar.data = [':'] := rfl
  simp only [String.data_append, hsep, List.append_assoc, List.singleton_append]

/-- An entry of the merge list that starts at another cell does not match. -/
theorem getExtent_skip (r c r1 c1 : Nat) (cell1 : Cell) (hne : ¬ (r1 = r ∧ c1 = c)) :
    stringsHasPrefix (mergeRef (r1 : Int) (c1 : Int) cell1).Ref
      (GetCellIDStringFromCoords (c : Int) (r : Int) ++ cellRangeChar) = false := by
  cases hp : stringsHasPrefix (mergeRef (r1 : Int) (c1 : Int) cell1).Ref
      (GetCellIDStringFromCoords (c : Int) (r : Int) ++ cellRangeChar) with
  | false => rfl
  | true =>
    exfalso
    unfold stringsHasPrefix at hp
    rw [List.isPrefixOf_iff_prefix, mergeRef_data] at hp
    have hsep : cellRangeChar.data = [':'] := rfl
    rw [String.data_append, hsep] at hp
    have heq := prefix_colon_eq _ _ _ (cellRef_no_colon c r) (cellRef_no_colon c1 r1) hp
    obtain ⟨h1, h2⟩ := cellRef_injective c r c1 r1 (String.ext heq)
    exact hne ⟨h2.symm, h1.symm⟩

/-- The entry of the merge list written for an origin with non-negative spans
matches the reference of the origin and gives the spans back. -/
theorem getExtent_match (r c : Nat) (cell : Cell) (rest : List xlsxMergeCell)
    (hh : 0 ≤ cell.HMerge) (hv : 0 ≤ cell.VMerge) :
    getExtentLoop (GetCellIDStringFromCoords (c : Int) (r : Int))
        (mergeRef (r : Int) (c : Int) cell :: rest)
      = some (cell.HMerge, cell.VMerge, none) := by
  obtain ⟨h1, hh1⟩ := Int.eq_ofNat_of_zero_le hh
  obtain ⟨v1, hv1⟩ := Int.eq_ofNat_of_zero_le hv
  have hend : GetCellIDStringFromCoords ((c : Int) + cell.HMerge) ((r : Int) + cell.VMerge)
      = GetCellIDStringFromCoords ((c + h1 : Nat) : Int) ((r + v1 : Nat) : Int) := by
    rw [hh1, hv1]
    push_cast
    rfl
  have hpre : stringsHasPrefix (mergeRef (r : Int) (c : Int) cell).Ref
      (GetCellIDStringFromCoords (c : Int) (r : Int) ++ cellRangeChar) = true := by
    unfold stringsHasPrefix
    rw [List.isPrefixOf_iff_prefix, mergeRef_data]
    have hsep : cellRangeChar.data = [':'] := rfl
    rw [String.data_append, hsep]
    exact ⟨(GetCellIDStringFromCoords ((c : Int) + cell.HMerge) ((r : Int) + cell.VMerge)).data,
      by simp⟩
  have hsplit : stringsSplit (mergeRef (r : Int) (c : Int) cell).Ref cellRangeChar
      = [GetCellIDStringFromCoords (c : Int) (r : Int),
         GetCellIDStringFromCoords ((c + h1 : Nat) : Int) ((r + v1 : Nat) : Int)] := by
    unfold mergeRef
    rw [hend]
    exact stringsSplit_range _ _ (cellRef_no_colon c r) (cellRef_no_colon (c + h1) (r + v1))
  rw [getExtentLoop, if_pos hpre, hsplit]
  have h0 : sliceIndex [GetCellIDStringFromCoords (c : Int) (r : Int),
      GetCellIDStringFromCoords ((c + h1 : Nat) : Int) ((r + v1 : Nat) : Int)] 0
      = some (GetCellIDStringFromCoords (c : Int) (r : Int)) := by
    simp [sliceIndex]
  have h1' : sliceIndex [GetCellIDStringFromCoords (c : Int) (r : Int),
      GetCellIDStringFromCoords ((c + h1 : Nat) : Int) ((r + v1 : Nat) : Int)] 1
      = some (GetCellIDStringFromCoords ((c + h1 : Nat) : Int) ((r + v1 : Nat) : Int)) := by
    simp [sliceIndex]
  rw [h0, h1']
  simp only [Option.some_bind, coords_roundtrip]
  rw [hh1, hv1]
  push_cast
  simp

theorem getExtentLoop_origin (l : List (Int × Int × Cell)) :
    (∀ t ∈ l, ∃ i j : Nat, t.1 = (i : Int) ∧ t.2.1 = (j : Int)) →
    l.Pairwise (fun a b => a.1 < b.1 ∨ (a.1 = b.1 ∧ a.2.1 < b.2.1)) →
    ∀ t ∈ l, 0 ≤ t.2.2.HMerge → 0 ≤ t.2.2.VMerge →
      getExtentLoop (GetCellIDStringFromCoords t.2.1 t.1) (l.map originRef)
        = some (t.2.2.HMerge, t.2.2.VMerge, none) := by
  induction l with
  | nil =>
    intro _ _ t ht
    cases ht
  | cons t0 rest ih =>
    intro hnat hpw t ht hh hv
    obtain ⟨i, j, hi, hj⟩ := hnat t ht
    obtain ⟨i0, j0, hi0, hj0⟩ := hnat t0 (List.mem_cons_self _ _)
    rw [List.map_cons]
    rcases List.mem_cons.mp ht with heq | hmem
    · subst heq
      unfold originRef
      rw [hi, hj]
      exact getExtent_match i j t.2.2 _ hh hv
    · have hlt := (List.pairwise_cons.mp hpw).1 t hmem
      have hne : ¬ (i0 = i ∧ j0 = j) := by
        intro ⟨e1, e2⟩
        rw [hi, hj, hi0, hj0] at hlt
        rcases hlt with h1 | ⟨_, h2⟩
        · omega
        · omega
      have hskip := getExtent_skip i j i0 j0 t0.2.2 hne
      have href : originRef t0 = mergeRef (i0 : Int) (j0 : Int) t0.2.2 := by
        unfold originRef
        rw [hi0, hj0]
      rw [getExtentLoop, href, hi, hj, hskip]
      simp only [Bool.false_eq_true, if_false]
      have hrec := ih (fun t1 h1 => hnat t1 (List.mem_cons_of_mem _ h1))
        (List.pairwise_cons.mp hpw).2 t hmem hh hv
      rw [hi, hj] at hrec
      exact hrec

theorem getExtentLoop_other (l : List (Int × Int × Cell)) (r c : Nat) :
    (∀ t ∈ l, ∃ i j : Nat, t.1 = (i : Int) ∧ t.2.1 = (j : Int)) →
    (∀ t ∈ l, ¬ (t.1 = (r : Int) ∧ t.2.1 = (c : Int))) →
    getExtentLoop (GetCellIDStringFromCoords (c : Int) (r : Int)) (l.map originRef)
      = some (0, 0, none) := by
  induction l with
  | nil =>
    intro _ _
    rfl
  | cons t0 rest ih =>
    intro hnat hno
    obtain ⟨i0, j0, hi0, hj0⟩ := hnat t0 (List.mem_cons_self _ _)
    have hne : ¬ (i0 = r ∧ j0 = c) := by
      intro ⟨e1, e2⟩
      apply hno t0 (List.mem_cons_self _ _)
      rw [hi0, hj0, e1, e2]
      exact ⟨rfl, rfl⟩
    have hskip := getExtent_skip r c i0 j0 t0.2.2 hne
    have href : originRef t0 = mergeRef (i0 : Int) (j0 : Int) t0.2.2 := by
      unfold originRef
      rw [hi0, hj0]
    rw [List.map_cons, getExtentLoop, href, hskip]
    simp only [Bool.false_eq_true, if_false]
    exact ih (fun t1 h1 => hnat t1 (List.mem_cons_of_mem _ h1))
      (fun t1 h1 => hno t1 (List.mem_cons_of_mem _ h1))

theorem getExtentLoop_no_match (ref : String) (cells : List xlsxMergeCell)
    (h : ∀ cell ∈ cells, stringsHasPrefix cell.Ref (ref ++ cellRangeChar) = false) :
    getExtentLoop ref cells = some (0, 0, none) := by
  induction cells with
  | nil => rfl
  | cons cell rest ih =>
    rw [getExtentLoop, h cell (List.mem_cons_self _ _)]
    simp only [Bool.false_eq_true, if_false]
    exact ih (fun c1 h1 => h c1 (List.mem_cons_of_mem _ h1))

/-- C24: `getExtent` recovers the merge spans from the merge list of a compile
that returns: for every merge origin of the sheet at row `r`, column `c` with
spans `HMerge = h ≥ 0` and `VMerge = v ≥ 0`, not both zero, `getExtent` with the
argument `cellRef(c, r)` returns `(h, v, no error)`; for the reference of a
position that is not a merge origin it returns `(0, 0, no error)`, as it does
for a nil merge list and for any reference that no entry starts with.  The
entry `AA1:AB2` does not match the reference `A1`. -/
theorem getExtent_recovers_spans (env : Env) (hperm : ∀ l, (env.mapOrder l).Perm l)
    (s : Sheet) (refTable : RefTable) (styles : xlsxStyleSheet)
    (res : xlsxWorksheet × Sheet × RefTable × xlsxStyleSheet)
    (h : s.makeXLSXSheet env refTable styles = Except.ok res) :
    (∀ (r c : Nat) (cell : Cell), cellAt s.Rows r c = some cell →
      (cell.HMerge > 0 ∨ cell.VMerge > 0) → 0 ≤ cell.HMerge → 0 ≤ cell.VMerge →
      xlsxMergeCells.getExtent res.1.MergeCells (GetCellIDStringFromCoords (c : Int) (r : Int))
        = some (cell.HMerge, cell.VMerge, none)) ∧
    (∀ (r c : Nat),
      (∀ cell, cellAt s.Rows r c = some cell → ¬ (cell.HMerge > 0 ∨ cell.VMerge > 0)) →
      xlsxMergeCells.getExtent res.1.MergeCells (GetCellIDStringFromCoords (c : Int) (r : Int))
        = some (0, 0, none)) ∧
    (∀ ref : String, xlsxMergeCells.getExtent none ref = some (0, 0, none)) ∧
    (∀ (m : xlsxMergeCells) (ref : String),
      (∀ cell ∈ m.Cells, stringsHasPrefix cell.Ref (ref ++ cellRangeChar) = false) →
      xlsxMergeCells.getExtent (some m) ref = some (0, 0, none)) ∧
    xlsxMergeCells.getExtent (some { Cells := [{ Ref := "AA1:AB2" }] }) "A1"
      = some (0, 0, none) := by
  obtain ⟨s1, _, _, hrun, _, hmc, _⟩ := compile_spec h
  obtain ⟨s2, hrun2, hext, _⟩ := handleMerged_core env hperm s
  rw [hrun] at hrun2
  cases hrun2
  rw [RowsExt_origins hext 0] at hmc
  have hsorted := originsRows_sorted s.Rows 0
  rw [Nat.cast_zero] at hsorted
  have hnat : ∀ t ∈ originsRows 0 s.Rows, ∃ i j : Nat, t.1 = (i : Int) ∧ t.2.1 = (j : Int) := by
    intro t ht
    have ht1 : t ∈ originsRows ((0 : Nat) : Int) s.Rows := by
      rw [Nat.cast_zero]
      exact ht
    obtain ⟨i, j, h1, h2, _⟩ := originsRows_mem s.Rows 0 t ht1
    exact ⟨0 + i, j, h1, h2⟩
  have hget : ∀ ref, xlsxMergeCells.getExtent res.1.MergeCells ref
      = getExtentLoop ref ((originsRows 0 s.Rows).map originRef) := by
    intro ref
    rw [hmc]
    cases hl : (originsRows 0 s.Rows).map originRef with
    | nil => rfl
    | cons a l => rfl
  refine ⟨?_, ?_, fun _ => rfl, ?_, by rfl⟩
  · intro r c cell hcell hm hh hv
    have hmem := (originsRows_iff s.Rows r c cell).mpr ⟨hcell, hm⟩
    rw [hget]
    exact getExtentLoop_origin _ hnat hsorted _ hmem hh hv
  · intro r c hno
    rw [hget]
    apply getExtentLoop_other _ r c hnat
    intro t ht ⟨e1, e2⟩
    have ht1 : t ∈ originsRows ((0 : Nat) : Int) s.Rows := by
      rw [Nat.cast_zero]
      exact ht
    obtain ⟨i, j, h1, h2, h3, h4⟩ := originsRows_mem s.Rows 0 t ht1
    rw [h1] at e1
    rw [h2] at e2
    have hi : i = r := by omega
    have hj : j = c := by omega
    subst hi
    subst hj
    exact hno t.2.2 h3 h4
  · intro m ref hall
    exact getExtentLoop_no_match ref m.Cells hall

/-- C24 at a concrete input: on the merge list of the scenario sheet, whose
origin at row 1, column 2 has spans 1 and 1, `getExtent` returns (1, 1) for
`C2` and (0, 0) for `A1`. -/
theorem getExtent_recovers_spans_witness :
    ∃ res, scenarioSheet.makeXLSXSheet exampleEnv { indexedStrings := [] } {} = Except.ok res ∧
      xlsxMergeCells.getExtent res.1.MergeCells "C2" = some (1, 1, none) ∧
      xlsxMergeCells.getExtent res.1.MergeCells "A1" = some (0, 0, none) := by
  have hval : (scenarioSheet.makeXLSXSheet exampleEnv { indexedStrings := [] } {}).toOption.isSome
      = true := by rfl
  cases hres : scenarioSheet.makeXLSXSheet exampleEnv { indexedStrings := [] } {} with
  | error e =>
    rw [hres] at hval
    cases hval
  | ok res =>
    obtain ⟨horigin, hother, _⟩ :=
      getExtent_recovers_spans exampleEnv (fun l => List.Perm.refl l) scenarioSheet
        { indexedStrings := [] } {} res hres
    have h1 := horigin 1 2 { HMerge := 1, VMerge := 1 } rfl (by decide) (by decide) (by decide)
    have h2 := hother 0 0 (by
      intro cell hcell
      have hc : cell = { Value := "Hi", cellType := CellTypeString } := by
        have : cellAt scenarioSheet.Rows 0 0
            = some { Value := "Hi", cellType := CellTypeString } := rfl
        rw [this] at hcell
        exact (Option.some.inj hcell).symm
      rw [hc]
      decide)
    exact ⟨res, rfl, h1, h2⟩

/-! ## Compiling twice -/

/-- C25 fails on the sheet with one cell and its column, whose width was never
set: the first compile emits the column with the width `ColWidth` and
`CustomWidth = false` and stores `ColWidth` in the column of the sheet; the
second compile, of the sheet and the tables that the first one returns, finds a
width that is not 0 and emits the same column with `CustomWidth = true` (so
does a second compile of the returned sheet with fresh tables).  The dimension,
the rows and the merge list of the two compiles agree. -/
theorem makeXLSXSheet_twice_customWidth :
    ((oneCellSheet.makeXLSXSheet exampleEnv { indexedStrings := [] } {}).toOption.bind
      fun res1 =>
        (res1.2.1.makeXLSXSheet exampleEnv res1.2.2.1 res1.2.2.2).toOption.map fun res2 =>
          ((colRecords res1.1).map (fun xc => (decide (xc.Width = ColWidth), xc.CustomWidth)),
           (colRecords res2.1).map (fun xc => (decide (xc.Width = ColWidth), xc.CustomWidth)),
           res1.2.1.Cols.map (fun col => decide (col.Width = ColWidth)),
           decide (res1.1.Dimension = res2.1.Dimension),
           decide (res1.1.SheetData = res2.1.SheetData),
           decide (res1.1.MergeCells = res2.1.MergeCells)))
      = some ([(true, false)], [(true, true)], [true], true, true, true) ∧
    ((oneCellSheet.makeXLSXSheet exampleEnv { indexedStrings := [] } {}).toOption.bind
      fun res1 =>
        (res1.2.1.makeXLSXSheet exampleEnv { indexedStrings := [] } {}).toOption.map fun res2 =>
          (colRecords res2.1).map (fun xc => (decide (xc.Width = ColWidth), xc.CustomWidth)))
      = some [(true, true)] ∧
    oneCellSheet.Cols.map (fun col => decide (col.Width = 0)) = [true] := by
  refine ⟨by rfl, by rfl, by rfl⟩

/-! ## Sheet views -/

theorem sheetViewsLoop_out_of_range (views : List SheetView) :
    ∀ (index : Int) (ws : xlsxWorksheet), (ws.SheetViews.SheetView.length : Int) ≤ index →
    (∃ v ∈ views, v.Pane ≠ none) → sheetViewsLoop index views ws = none := by
  induction views with
  | nil =>
    intro index ws _ ⟨v, hv, _⟩
    cases hv
  | cons v rest ih =>
    intro index ws hlen hex
    rw [sheetViewsLoop]
    cases hp : v.Pane with
    | some pane =>
      simp only
      have hidx : sliceIndex ws.SheetViews.SheetView index = none := by
        unfold sliceIndex
        rw [if_neg]
        omega
      rw [hidx]
      rfl
    | none =>
      simp only
      apply ih (index + 1) ws (by omega)
      obtain ⟨v1, hmem, hne⟩ := hex
      rcases List.mem_cons.mp hmem with heq | hmem1
      · subst heq
        exact absurd hp hne
      · exact ⟨v1, hmem1, hne⟩

/-- A pane on a sheet view after the first makes the set-up of the worksheet
go out of range: the worksheet has exactly one sheet view. -/
theorem startSheet_out_of_range (s : Sheet) (hex : ∃ v ∈ s.SheetViews.tail, v.Pane ≠ none) :
    startSheet s = none := by
  have hloop : sheetViewsLoop 0 s.SheetViews newXlsxWorksheet = none := by
    cases hsv : s.SheetViews with
    | nil =>
      rw [hsv] at hex
      obtain ⟨v, hv, _⟩ := hex
      cases hv
    | cons v0 rest =>
      rw [hsv] at hex
      simp only [List.tail_cons] at hex
      have hone : ∃ w0, newXlsxWorksheet.SheetViews.SheetView = [w0] := ⟨_, rfl⟩
      obtain ⟨w0, hw0⟩ := hone
      rw [sheetViewsLoop]
      cases hp : v0.Pane with
      | none =>
        simp only
        exact sheetViewsLoop_out_of_range rest _ _ (by rw [hw0]; simp) hex
      | some pane =>
        simp only [hw0, sliceIndex_zero_singleton, sliceSet_zero_singleton, Option.some_bind]
        exact sheetViewsLoop_out_of_range rest _ _ (by simp) hex
  unfold startSheet
  rw [hloop]
  rfl

/-- The compile of a sheet whose densified form has a pane on a sheet view
after the first aborts with an index out of range. -/
theorem makeXLSXSheet_pane_out_of_range {env : Env} {s s1 : Sheet} (refTable : RefTable)
    (styles : xlsxStyleSheet) (hrun : s.handleMerged env = some s1)
    (hex : ∃ v ∈ s1.SheetViews.tail, v.Pane ≠ none) :
    s.makeXLSXSheet env refTable styles = Except.error Panic.indexOutOfRange := by
  unfold Sheet.makeXLSXSheet
  simp only [hrun, startSheet_out_of_range s1 hex]

/-- C26 fails on the sheet with two sheet views of which the second has a
pane: the compile aborts with an index out of range at
`worksheet.SheetViews.SheetView[1]`, the worksheet having one sheet view.  With
the pane on the only sheet view the compile returns and the sheet view of the
worksheet carries the pane; with two sheet views without pane it returns a
worksheet with one sheet view, without pane. -/
theorem makeXLSXSheet_second_view_pane :
    twoViewsSheet.makeXLSXSheet exampleEnv { indexedStrings := [] } {}
      = Except.error Panic.indexOutOfRange ∧
    (paneSheet.makeXLSXSheet exampleEnv { indexedStrings := [] } {}).toOption.map
        (fun res => res.1.SheetViews.SheetView.map (fun v => v.Pane.map
          (fun p => (p.XSplit, p.YSplit, p.TopLeftCell, p.ActivePane, p.State))))
      = some [some (0, 1, "A2", "bottomLeft", "frozen")] ∧
    (twoPlainViewsSheet.makeXLSXSheet exampleEnv { indexedStrings := [] } {}).toOption.map
        (fun res => res.1.SheetViews.SheetView.map (fun v => v.Pane))
      = some [none] := by
  refine ⟨by rfl, by rfl, by rfl⟩

end Xlsx
